import Mathlib

/-!
# rAce audio engine: a shallow embedding of `AudioEngine.cpp` / `AudioEngine.h`

The embedding follows the production build of the engine (`NDEBUG` defined, `_DEBUG` not
defined), so the diagnostic branches (`__debugbreak`, `InvalidArgumentException`,
`OutputDebugStringW`) are absent.

Modelling conventions.

* Every member function becomes a function on the engine state; those that call through a
  `ComPtr` / `xaudio2_voice_ptr` return `Except Fault`, where `Fault.nullHandle` stands for
  a call through a null handle of a backend and `Fault.nullVoice` for a read through a null
  `unique_ptr<SourceVoice>`.  After a fault no state is defined.
* Native calls are recorded, in program order, in two ghost fields: `log` for the mixing
  backend (XAudio2) and `musicLog` for Media Foundation and the media engine.  A native call
  made through a handle that exists is taken to succeed, except for the two initialisation
  sequences, whose outcome is an explicit argument.
* `uint32` values are natural numbers reduced modulo `2 ^ 32` where the source converts or
  decrements; `double` values are rationals; `HRESULT` values are integers.
* A voice that sits in a pool has been through `CreateSourceVoice`, so its native
  `IXAudio2SourceVoice` handle is taken as present.
* Native callbacks (`OnStreamEnd`, `OnVoiceError`, `EventNotify`, ...) are separate
  transitions that an execution interleaves with the engine calls.
-/

namespace WindowsStoreDirectXGame

/-! ## Scalars and native constants -/

abbrev HRESULT := Int

def S_OK : HRESULT := 0

/-- Value `0x88960001` of the XAudio2 header, as a signed 32 bit integer. -/
def XAUDIO2_E_INVALID_CALL : HRESULT := -2003435519

/-- Value `0x88960004` of the XAudio2 header, as a signed 32 bit integer. -/
def XAUDIO2_E_DEVICE_INVALIDATED : HRESULT := -2003435516

/-- Value of `HRESULT_FROM_WIN32(ERROR_NOT_FOUND)`, that is `0x80070490`. -/
def HRESULT_ERROR_NOT_FOUND : HRESULT := -2147023728

def FAILED (hr : HRESULT) : Bool := decide (hr < 0)

/-- Number of values of a `uint32`. -/
def UINT32_RANGE : Nat := 2 ^ 32

/-- Value of the XAudio2 header constant of the same name. -/
def XAUDIO2_LOOP_INFINITE : Nat := 255

/-- Value of the XAudio2 header flag of the same name. -/
def XAUDIO2_PLAY_TAILS : Nat := 32

/-- Conversion of a C++ `int` to `uint32` (used when a loop count is stored). -/
def toUInt32 (i : Int) : Nat := (i % (2 ^ 32 : Int)).toNat

inductive Fault where
  | nullHandle
  | nullVoice
deriving DecidableEq, Repr

/-- The `MF_MEDIA_ENGINE_ERR` enumeration. -/
inductive MF_MEDIA_ENGINE_ERR where
  | NOERROR
  | ABORTED
  | NETWORK
  | DECODE
  | SRC_NOT_SUPPORTED
  | ENCRYPTED
deriving DecidableEq, Repr

/-- The `MF_MEDIA_ENGINE_EVENT` values that `EventNotify` distinguishes. -/
inductive MediaEngineEvent where
  | ERROR (param1 : MF_MEDIA_ENGINE_ERR) (param2 : HRESULT)
  | ENDED
  | PLAYING
  | OTHER
deriving DecidableEq, Repr

/-- Native calls to XAudio2, as they are recorded in the ghost log of the mixing backend.  A
source voice is named by the key of its sound effect and its position in the pool at the time
of the call. -/
inductive Cmd where
  | XAudio2Create
  | RegisterForCallbacks
  | UnregisterForCallbacks
  | CreateMasteringVoice
  | DestroyMasteringVoice
  | StartEngine
  | StopEngine
  | MasteringSetVolume (volume : ℚ)
  | CreateSourceVoice (key : String) (slot : Nat)
  | DestroySourceVoice (key : String) (slot : Nat)
  | SubmitSourceBuffer (key : String) (slot : Nat) (loopCount : Nat)
  | VoiceStart (key : String) (slot : Nat)
  | VoiceStop (key : String) (slot : Nat) (flags : Nat)
deriving DecidableEq, Repr

/-- Native calls to Media Foundation and to the media engine, as they are recorded in the
ghost log of the music backend.  `IsPaused` and `GetCurrentTime` are queries. -/
inductive MusicCmd where
  | MFStartup
  | MFShutdown
  | Create
  | Shutdown
  | SetAutoPlay (enabled : Bool)
  | SetLoop (enabled : Bool)
  | SetVolume (volume : ℚ)
  | SetSource (filename : String)
  | Play
  | Pause
  | IsPaused
  | GetCurrentTime
  | SetCurrentTime (seconds : ℚ)
deriving DecidableEq, Repr

/-! ## Data model -/

structure MediaEngineNotify where
  m_errorOccurred : Bool
  m_errorType : MF_MEDIA_ENGINE_ERR
  m_hresult : HRESULT
  m_musicIsPlaying : Bool
  m_readyToSeek : Bool
  m_previousMusicFinished : Bool
deriving DecidableEq, Repr

structure MediaFoundationStartupShutdown where
  m_wasStarted : Bool
deriving DecidableEq, Repr

structure SourceVoice where
  m_soundEffectStarted : Bool
  m_soundEffectLoopCount : Nat
  m_criticalError : Bool
  m_hresult : HRESULT
deriving DecidableEq, Repr

/-- The loaded sample data is kept abstract: only its length, its sample rate and the
`LoopCount` field of the `XAUDIO2_BUFFER` are represented. -/
structure SoundEffect where
  m_audioBuffer_LoopCount : Nat
  m_sourceVoices : List SourceVoice
  m_soundEffectBufferLength : Nat
  m_soundEffectSampleRate : Nat
deriving DecidableEq, Repr

structure MusicQueueEntry where
  Filename : String
  LoopCount : Nat
  AutoPlayAfterPreviousMusic : Bool
deriving DecidableEq, Repr

structure AudioEngine where
  m_soundEffectsEngineCallbacks_m_error : HRESULT
  m_musicEngine : Bool
  m_soundEffectsEngine : Bool
  m_mediaEngineNotify : Option MediaEngineNotify
  m_masteringVoice : Bool
  m_soundEffectsMap : List (String × SoundEffect)
  m_musicQueue : List MusicQueueEntry
  m_mediaFoundationStartupShutdown : MediaFoundationStartupShutdown
  m_musicDisabledNoMediaFoundation : Bool
  m_musicOff : Bool
  m_soundEffectsOff : Bool
  m_musicVolume : ℚ
  m_soundEffectsVolume : ℚ
  m_musicIsPlaying : Bool
  m_musicIsPaused : Bool
  m_musicPosition : ℚ
  log : List Cmd
  musicLog : List MusicCmd
deriving DecidableEq, Repr

/-- Value-initialised `SourceVoice`, as produced by `new SourceVoice()`. -/
def SourceVoice.new : SourceVoice :=
  { m_soundEffectStarted := false, m_soundEffectLoopCount := 0,
    m_criticalError := false, m_hresult := S_OK }

/-- The engine right after `AudioEngine::AudioEngine()`. -/
def AudioEngine.new : AudioEngine :=
  { m_soundEffectsEngineCallbacks_m_error := S_OK
    m_musicEngine := false
    m_soundEffectsEngine := false
    m_mediaEngineNotify := none
    m_masteringVoice := false
    m_soundEffectsMap := []
    m_musicQueue := []
    m_mediaFoundationStartupShutdown := { m_wasStarted := false }
    m_musicDisabledNoMediaFoundation := false
    m_musicOff := false
    m_soundEffectsOff := false
    m_musicVolume := 100
    m_soundEffectsVolume := 100
    m_musicIsPlaying := false
    m_musicIsPaused := false
    m_musicPosition := -1
    log := []
    musicLog := [] }

/-! ## The sound effects map (`std::map` keyed by file name) -/

/-- Lookup, `m_soundEffectsMap.find(filename)`. -/
def mapFind {α : Type} : List (String × α) → String → Option α
  | [], _ => none
  | (k, v) :: rest, key => if k = key then some v else mapFind rest key

/-- Write through the reference obtained from `m_soundEffectsMap[filename]` for a key that is
present. -/
def mapAssign {α : Type} : List (String × α) → String → α → List (String × α)
  | [], _, _ => []
  | (k, v) :: rest, key, v' =>
    if k = key then (k, v') :: rest else (k, v) :: mapAssign rest key v'

/-- The pool of a sound effect, empty when the file is not loaded. -/
def poolOf (s : AudioEngine) (filename : String) : List SourceVoice :=
  match mapFind s.m_soundEffectsMap filename with
  | some soundEffect => soundEffect.m_sourceVoices
  | none => []

/-- Number of voices with `m_soundEffectStarted == true`, the `std::count_if` of
`PlaySoundEffect`. -/
def startedCount (voices : List SourceVoice) : Nat :=
  voices.countP (fun voice => voice.m_soundEffectStarted == true)

/-- Position of the first voice with `m_soundEffectStarted == false`, the `std::find_if` of
`PlaySoundEffect`; `none` stands for `end()`. -/
def findIdle : List SourceVoice → Option Nat
  | [] => none
  | voice :: rest =>
    if voice.m_soundEffectStarted == false then some 0
    else (findIdle rest).map (fun i => i + 1)

/-! ## Voice callbacks (`IXAudio2VoiceCallback`) -/

def SourceVoice.OnStreamEnd (sv : SourceVoice) : SourceVoice :=
  { sv with m_soundEffectStarted := false }

def SourceVoice.OnLoopEnd (sv : SourceVoice) : SourceVoice :=
  if sv.m_soundEffectLoopCount ≠ XAUDIO2_LOOP_INFINITE then
    { sv with m_soundEffectLoopCount := (sv.m_soundEffectLoopCount + UINT32_RANGE - 1) % UINT32_RANGE }
  else sv

def SourceVoice.OnVoiceError (sv : SourceVoice) (Error : HRESULT) : SourceVoice :=
  { sv with m_criticalError := true, m_hresult := Error }

/-- Apply a callback to the voice in position `slot` of a pool. -/
def modifyVoice (f : SourceVoice → SourceVoice) : List SourceVoice → Nat → List SourceVoice
  | [], _ => []
  | voice :: rest, 0 => f voice :: rest
  | voice :: rest, slot + 1 => voice :: modifyVoice f rest slot

/-- A callback of the mixing backend on the voice `slot` of the effect `filename`. -/
def voiceCallback (f : SourceVoice → SourceVoice) (filename : String) (slot : Nat)
    (s : AudioEngine) : AudioEngine :=
  match mapFind s.m_soundEffectsMap filename with
  | none => s
  | some soundEffect =>
    let soundEffect := { soundEffect with
      m_sourceVoices := modifyVoice f soundEffect.m_sourceVoices slot }
    { s with m_soundEffectsMap := mapAssign s.m_soundEffectsMap filename soundEffect }

/-! ## Creating and starting voices -/

/-- Source function `AudioEngine::CreateSourceVoice`, on the voice `slot` of the effect `key`;
`engine` is `m_soundEffectsEngine != nullptr`. -/
def CreateSourceVoice (engine : Bool) (key : String) (slot : Nat) (sv : SourceVoice)
    (log : List Cmd) : Except Fault (SourceVoice × List Cmd) :=
  let sv := { sv with m_criticalError := false, m_hresult := S_OK }
  let sv := { sv with m_soundEffectStarted := false }
  if engine then .ok (sv, log ++ [Cmd.CreateSourceVoice key slot])
  else .error Fault.nullHandle

/-- Source function `AudioEngine::StartSourceVoice`; the second component of the result is the new
value of `soundEffect->m_audioBuffer.LoopCount`. -/
def StartSourceVoice (key : String) (slot : Nat) (sv : SourceVoice) (loopCount : Nat)
    (log : List Cmd) : SourceVoice × Nat × List Cmd :=
  let sv := { sv with m_criticalError := false, m_hresult := S_OK }
  let sv := { sv with m_soundEffectLoopCount := loopCount }
  let bufferLoopCount := sv.m_soundEffectLoopCount
  let log := log ++ [Cmd.SubmitSourceBuffer key slot bufferLoopCount]
  let log := log ++ [Cmd.VoiceStart key slot]
  ({ sv with m_soundEffectStarted := true }, bufferLoopCount, log)

/-- The part of `PlaySoundEffect` that follows the cap test: reuse the first idle voice of the
pool, or append a new voice, and start it. -/
def startInPool (engine : Bool) (filename : String) (loopCount : Nat)
    (soundEffect : SoundEffect) (log : List Cmd) : Except Fault (SoundEffect × List Cmd) :=
  match findIdle soundEffect.m_sourceVoices with
  | none =>
    let slot := soundEffect.m_sourceVoices.length
    let soundEffect := { soundEffect with
      m_sourceVoices := soundEffect.m_sourceVoices ++ [SourceVoice.new] }
    let soundEffect := { soundEffect with m_audioBuffer_LoopCount := loopCount }
    match CreateSourceVoice engine filename slot SourceVoice.new log with
    | .error e => .error e
    | .ok (sv, log) =>
      let (sv, bufferLoopCount, log) := StartSourceVoice filename slot sv loopCount log
      .ok ({ soundEffect with
              m_audioBuffer_LoopCount := bufferLoopCount
              m_sourceVoices := soundEffect.m_sourceVoices.set slot sv }, log)
  | some slot =>
    match soundEffect.m_sourceVoices.get? slot with
    | none => .ok (soundEffect, log)
    | some sv =>
      let (sv, bufferLoopCount, log) := StartSourceVoice filename slot sv loopCount log
      .ok ({ soundEffect with
              m_audioBuffer_LoopCount := bufferLoopCount
              m_sourceVoices := soundEffect.m_sourceVoices.set slot sv }, log)

/-- Source function `AudioEngine::PlaySoundEffect(filename, loopCount, maxInstances)`. -/
def PlaySoundEffect (filename : String) (loopCount maxInstances : Nat) (s : AudioEngine) :
    Except Fault AudioEngine :=
  if s.m_soundEffectsOff then .ok s
  else
    match mapFind s.m_soundEffectsMap filename with
    | none => .ok s
    | some soundEffect =>
      if maxInstances > 0 ∧
          startedCount soundEffect.m_sourceVoices % UINT32_RANGE ≥ maxInstances then
        .ok s
      else
        match startInPool s.m_soundEffectsEngine filename loopCount soundEffect s.log with
        | .error e => .error e
        | .ok (soundEffect, log) =>
          .ok { s with m_soundEffectsMap := mapAssign s.m_soundEffectsMap filename soundEffect
                       log := log }

/-! ## The mixing backend: volume, shutdown, initialisation -/

/-- The value handed to the backends, `std::max(0.0, std::min(1.0, volume / 100.0))`. -/
def normalizedVolume (volume : ℚ) : ℚ := max 0 (min 1 (volume / 100))

/-- Source function `AudioEngine::SetSoundEffectsVolume`. -/
def SetSoundEffectsVolume (volume : ℚ) (s : AudioEngine) : Except Fault AudioEngine :=
  let s := { s with m_soundEffectsVolume := volume }
  if s.m_soundEffectsOff then .ok s
  else if s.m_masteringVoice then
    .ok { s with log := s.log ++ [Cmd.MasteringSetVolume (normalizedVolume volume)] }
  else .error Fault.nullHandle

/-- The native voices destroyed by `m_sourceVoices.clear()` on the pool of `key`. -/
def destroyCmds (key : String) (voices : List SourceVoice) : List Cmd :=
  (List.range voices.length).map (fun slot => Cmd.DestroySourceVoice key slot)

/-- The first loop of `ShutdownSoundEffectsEngine`: every pool is cleared. -/
def clearAllPools : List (String × SoundEffect) → List (String × SoundEffect) × List Cmd
  | [] => ([], [])
  | (key, soundEffect) :: rest =>
    let (rest', cmds) := clearAllPools rest
    ((key, { soundEffect with m_sourceVoices := [] }) :: rest',
      destroyCmds key soundEffect.m_sourceVoices ++ cmds)

/-- Source function `AudioEngine::ShutdownSoundEffectsEngine`. -/
def ShutdownSoundEffectsEngine (s : AudioEngine) : AudioEngine :=
  let (map, cmds) := clearAllPools s.m_soundEffectsMap
  let s := { s with m_soundEffectsMap := map, log := s.log ++ cmds }
  let s := if s.m_masteringVoice then
      { s with m_masteringVoice := false, log := s.log ++ [Cmd.DestroyMasteringVoice] }
    else s
  let s := if s.m_soundEffectsEngine then
      { s with log := s.log ++ [Cmd.UnregisterForCallbacks, Cmd.StopEngine] }
    else s
  let s := { s with m_soundEffectsEngine := false }
  { s with m_soundEffectsOff := true }

/-- How the native part of `InitializeSoundEffectsEngine` goes: which call fails, if any.
`noAudioDevice` is `CreateMasteringVoice` returning `HRESULT_FROM_WIN32(ERROR_NOT_FOUND)`,
`masteringFailed` is any other failure of that call. -/
inductive SfxInitOutcome where
  | createFailed
  | registerFailed
  | noAudioDevice
  | masteringFailed
  | startFailed
  | setVolumeFailed
  | ok
deriving DecidableEq, Repr

/-- Source function `AudioEngine::InitializeSoundEffectsEngine`; an exception thrown by
`DX::ThrowIfFailed` is caught by the handlers of the function, which set `m_soundEffectsOff`. -/
def InitializeSoundEffectsEngine (outcome : SfxInitOutcome) (s : AudioEngine) :
    Except Fault AudioEngine :=
  let s := ShutdownSoundEffectsEngine s
  let s := { s with log := s.log ++ [Cmd.XAudio2Create] }
  if outcome = .createFailed then .ok { s with m_soundEffectsOff := true }
  else
    let s := { s with m_soundEffectsEngine := true, log := s.log ++ [Cmd.RegisterForCallbacks] }
    if outcome = .registerFailed then .ok { s with m_soundEffectsOff := true }
    else
      let s := { s with log := s.log ++ [Cmd.CreateMasteringVoice] }
      if outcome = .noAudioDevice then
        let s := { s with m_soundEffectsOff := true }
        let s := { s with log := s.log ++ [Cmd.UnregisterForCallbacks] }
        .ok { s with m_soundEffectsEngine := false }
      else if outcome = .masteringFailed then .ok { s with m_soundEffectsOff := true }
      else
        let s := { s with m_masteringVoice := true, log := s.log ++ [Cmd.StartEngine] }
        if outcome = .startFailed then .ok { s with m_soundEffectsOff := true }
        else
          let s := { s with m_soundEffectsOff := false }
          match SetSoundEffectsVolume s.m_soundEffectsVolume s with
          | .error e => .error e
          | .ok s =>
            if outcome = .setVolumeFailed then .ok { s with m_soundEffectsOff := true }
            else .ok s

/-! ## Pausing, resuming and restarting voices -/

/-- The `Start()` calls of `ResumeSoundEffects` on one pool, from position `slot` on. -/
def resumeCmds (key : String) : Nat → List SourceVoice → List Cmd
  | _, [] => []
  | slot, voice :: rest =>
    (if voice.m_soundEffectStarted then [Cmd.VoiceStart key slot] else [])
      ++ resumeCmds key (slot + 1) rest

/-- The `Stop()` calls of `PauseSoundEffects` on one pool, from position `slot` on. -/
def pauseCmds (key : String) : Nat → List SourceVoice → List Cmd
  | _, [] => []
  | slot, voice :: rest =>
    (if voice.m_soundEffectStarted then [Cmd.VoiceStop key slot 0] else [])
      ++ pauseCmds key (slot + 1) rest

def allPoolsCmds (perPool : String → Nat → List SourceVoice → List Cmd) :
    List (String × SoundEffect) → List Cmd
  | [] => []
  | (key, soundEffect) :: rest =>
    perPool key 0 soundEffect.m_sourceVoices ++ allPoolsCmds perPool rest

/-- Source function `AudioEngine::ResumeSoundEffects`. -/
def ResumeSoundEffects (s : AudioEngine) : AudioEngine :=
  if s.m_soundEffectsOff then s
  else { s with log := s.log ++ allPoolsCmds resumeCmds s.m_soundEffectsMap }

/-- Source function `AudioEngine::PauseSoundEffects`. -/
def PauseSoundEffects (s : AudioEngine) : AudioEngine :=
  if s.m_soundEffectsOff then s
  else { s with log := s.log ++ allPoolsCmds pauseCmds s.m_soundEffectsMap }

/-- The body of the inner loop of `RestartFailedSoundEffects` for the voice `slot` of the
effect `key`; `bufferLoopCount` is `soundEffect->m_audioBuffer.LoopCount`. -/
def restartVoice (engine : Bool) (key : String) (slot : Nat) (sv : SourceVoice)
    (bufferLoopCount : Nat) (log : List Cmd) : Except Fault (SourceVoice × Nat × List Cmd) :=
  if sv.m_criticalError then
    let hr := sv.m_hresult
    let sv := { sv with m_criticalError := false, m_hresult := S_OK }
    if hr = XAUDIO2_E_INVALID_CALL ∨ hr = XAUDIO2_E_DEVICE_INVALIDATED then
      match CreateSourceVoice engine key slot sv log with
      | .error e => .error e
      | .ok (sv, log) => .ok (StartSourceVoice key slot sv sv.m_soundEffectLoopCount log)
    else
      .ok ({ sv with m_soundEffectStarted := false }, bufferLoopCount, log)
  else .ok (sv, bufferLoopCount, log)

/-- The inner loop of `RestartFailedSoundEffects` over the voices of one effect, from position
`slot` on. -/
def restartVoices (engine : Bool) (key : String) :
    Nat → List SourceVoice → Nat → List Cmd → Except Fault (List SourceVoice × Nat × List Cmd)
  | _, [], bufferLoopCount, log => .ok ([], bufferLoopCount, log)
  | slot, sv :: rest, bufferLoopCount, log =>
    match restartVoice engine key slot sv bufferLoopCount log with
    | .error e => .error e
    | .ok (sv', bufferLoopCount', log') =>
      match restartVoices engine key (slot + 1) rest bufferLoopCount' log' with
      | .error e => .error e
      | .ok (rest', bufferLoopCount'', log'') => .ok (sv' :: rest', bufferLoopCount'', log'')

/-- The outer loop of `RestartFailedSoundEffects` over the sound effects map. -/
def restartEffects (engine : Bool) :
    List (String × SoundEffect) → List Cmd → Except Fault (List (String × SoundEffect) × List Cmd)
  | [], log => .ok ([], log)
  | (key, soundEffect) :: rest, log =>
    if soundEffect.m_sourceVoices.countP (fun voice => voice.m_criticalError) ≤ 0 then
      match restartEffects engine rest log with
      | .error e => .error e
      | .ok (rest', log') => .ok ((key, soundEffect) :: rest', log')
    else
      match restartVoices engine key 0 soundEffect.m_sourceVoices
          soundEffect.m_audioBuffer_LoopCount log with
      | .error e => .error e
      | .ok (voices, bufferLoopCount, log') =>
        match restartEffects engine rest log' with
        | .error e => .error e
        | .ok (rest', log'') =>
          .ok ((key, { soundEffect with m_sourceVoices := voices
                                        m_audioBuffer_LoopCount := bufferLoopCount }) :: rest',
               log'')

/-- Source function `AudioEngine::RestartFailedSoundEffects`. -/
def RestartFailedSoundEffects (s : AudioEngine) : Except Fault AudioEngine :=
  if s.m_soundEffectsOff then .ok s
  else
    match restartEffects s.m_soundEffectsEngine s.m_soundEffectsMap s.log with
    | .error e => .error e
    | .ok (map, log) => .ok { s with m_soundEffectsMap := map, log := log }

/-! ## The music backend -/

/-- Source function `MediaEngineNotify::EventNotify`. -/
def MediaEngineNotify.EventNotify (meEvent : MediaEngineEvent) (n : MediaEngineNotify) :
    MediaEngineNotify :=
  match meEvent with
  | .ERROR param1 param2 =>
    if param1 ≠ .NOERROR ∧ param1 ≠ .ABORTED then
      { n with m_errorOccurred := true, m_errorType := param1, m_hresult := param2 }
    else n
  | .ENDED => { n with m_musicIsPlaying := false, m_previousMusicFinished := true }
  | .PLAYING => { n with m_musicIsPlaying := true, m_readyToSeek := true }
  | .OTHER => n

/-- Source function `MediaEngineNotify::InitializeVariables`, applied to a fresh handler. -/
def MediaEngineNotify.InitializeVariables : MediaEngineNotify :=
  { m_errorOccurred := false, m_errorType := .NOERROR, m_hresult := S_OK,
    m_musicIsPlaying := false, m_readyToSeek := false, m_previousMusicFinished := false }

/-- A notification of the music backend reaching the engine's handler, if there is one. -/
def notifyEvent (meEvent : MediaEngineEvent) (s : AudioEngine) : AudioEngine :=
  match s.m_mediaEngineNotify with
  | none => s
  | some n => { s with m_mediaEngineNotify := some (n.EventNotify meEvent) }

/-- Source function `MediaFoundationStartupShutdown::Startup`; `nativeOk` tells whether
`MFStartup` succeeds when it is called. Returns the flag together with the native calls made. -/
def MediaFoundationStartupShutdown.Startup (nativeOk : Bool)
    (m : MediaFoundationStartupShutdown) : Bool × MediaFoundationStartupShutdown × List MusicCmd :=
  if m.m_wasStarted then (m.m_wasStarted, m, [])
  else
    let m := if !nativeOk then { m with m_wasStarted := false } else { m with m_wasStarted := true }
    (m.m_wasStarted, m, [MusicCmd.MFStartup])

/-- Source function `MediaFoundationStartupShutdown::Shutdown`. -/
def MediaFoundationStartupShutdown.Shutdown (m : MediaFoundationStartupShutdown) :
    MediaFoundationStartupShutdown × List MusicCmd :=
  if !m.m_wasStarted then (m, [])
  else ({ m with m_wasStarted := false }, [MusicCmd.MFShutdown])

/-- Source function `AudioEngine::SetMusicVolume`. -/
def SetMusicVolume (volume : ℚ) (s : AudioEngine) : Except Fault AudioEngine :=
  let s := { s with m_musicVolume := volume }
  if s.m_musicDisabledNoMediaFoundation || s.m_musicOff then .ok s
  else if s.m_musicEngine then
    .ok { s with musicLog := s.musicLog ++ [MusicCmd.SetVolume (normalizedVolume volume)] }
  else .error Fault.nullHandle

/-- Source function `AudioEngine::ShutdownMusicEngine`. -/
def ShutdownMusicEngine (s : AudioEngine) : AudioEngine :=
  let s := { s with m_mediaEngineNotify := none }
  let s := if s.m_musicEngine then
      { s with m_musicEngine := false, musicLog := s.musicLog ++ [MusicCmd.Shutdown] }
    else s
  let (mf, cmds) := s.m_mediaFoundationStartupShutdown.Shutdown
  let s := { s with m_mediaFoundationStartupShutdown := mf, musicLog := s.musicLog ++ cmds }
  { s with m_musicOff := true }

/-- How the guarded part of `InitializeMusicEngine` goes: an exception before the media engine
object exists, an exception after it exists (`SetAutoPlay`, `SetLoop`), or success. -/
inductive MusicInitOutcome where
  | failedBeforeEngine
  | failedAfterEngine
  | ok
deriving DecidableEq, Repr

/-- The handlers of `InitializeMusicEngine`: unwind and leave music off. -/
def musicInitCatch (s : AudioEngine) : AudioEngine :=
  let s := { s with m_mediaEngineNotify := none }
  let s := if s.m_musicEngine then
      { s with m_musicEngine := false, musicLog := s.musicLog ++ [MusicCmd.Shutdown] }
    else s
  let (mf, cmds) := s.m_mediaFoundationStartupShutdown.Shutdown
  let s := { s with m_mediaFoundationStartupShutdown := mf, musicLog := s.musicLog ++ cmds }
  { s with m_musicOff := true }

/-- Source function `AudioEngine::InitializeMusicEngine`; `mfStartupOk` is the success of
`MFStartup`. -/
def InitializeMusicEngine (mfStartupOk : Bool) (outcome : MusicInitOutcome) (s : AudioEngine) :
    Except Fault AudioEngine :=
  let s := ShutdownMusicEngine s
  let (started, mf, cmds) := s.m_mediaFoundationStartupShutdown.Startup mfStartupOk
  let s := { s with m_mediaFoundationStartupShutdown := mf, musicLog := s.musicLog ++ cmds }
  let s := { s with m_musicDisabledNoMediaFoundation := !started }
  if !s.m_musicDisabledNoMediaFoundation then
    let s := { s with m_mediaEngineNotify := some MediaEngineNotify.InitializeVariables }
    if outcome = .failedBeforeEngine then .ok (musicInitCatch s)
    else
      let s := { s with m_musicEngine := true, musicLog := s.musicLog ++ [MusicCmd.Create] }
      if outcome = .failedAfterEngine then .ok (musicInitCatch s)
      else
        let s := { s with musicLog := s.musicLog ++ [MusicCmd.SetAutoPlay false, MusicCmd.SetLoop false] }
        let s := { s with m_musicOff := false }
        SetMusicVolume s.m_musicVolume s
  else .ok s

/-! ## The music queue -/

/-- Source function `AudioEngine::AddMusicToQueue(filename, loopCount, autoPlayAfterPreviousMusic)`;
`installedLocation` is the path of the installed package. -/
def AddMusicToQueue (installedLocation filename : String) (loopCount : Int)
    (autoPlayAfterPreviousMusic : Bool) (s : AudioEngine) : AudioEngine :=
  let music := installedLocation ++ "\\" ++ filename
  let music := if filename.isEmpty then "" else music
  let entry : MusicQueueEntry :=
    { Filename := music, LoopCount := toUInt32 loopCount,
      AutoPlayAfterPreviousMusic := autoPlayAfterPreviousMusic }
  { s with m_musicQueue := s.m_musicQueue ++ [entry] }

/-- Source function `AudioEngine::ClearMusicQueue`. -/
def ClearMusicQueue (s : AudioEngine) : AudioEngine :=
  { s with m_musicQueue := [] }

/-- Source function `AudioEngine::PlayMusic`; `isPaused` is the answer of
`IMFMediaEngine::IsPaused` should it be asked. -/
def PlayMusic (isPaused : Bool) (s : AudioEngine) : Except Fault AudioEngine :=
  if s.m_musicDisabledNoMediaFoundation || s.m_musicOff then .ok s
  else
    match s.m_musicQueue with
    | [] => .ok s
    | front :: _ =>
      let filename := front.Filename
      match s.m_mediaEngineNotify, s.m_musicEngine with
      | some n, true =>
        let s :=
          if !filename.isEmpty then
            let s := { s with
              m_mediaEngineNotify := some { n with m_previousMusicFinished := false } }
            { s with musicLog := s.musicLog ++ [MusicCmd.SetSource filename, MusicCmd.Play] }
          else
            let s := { s with musicLog := s.musicLog ++ [MusicCmd.IsPaused] }
            let s := if isPaused = false then { s with musicLog := s.musicLog ++ [MusicCmd.Pause] } else s
            { s with m_mediaEngineNotify := some { n with m_previousMusicFinished := true } }
        let s := { s with m_musicIsPlaying := true }
        .ok { s with m_musicIsPaused := false }
      | _, _ => .error Fault.nullHandle

/-- Source function `AudioEngine::MoveToNextMusicInQueue`. -/
def MoveToNextMusicInQueue (isPaused : Bool) (s : AudioEngine) : Except Fault AudioEngine :=
  let s := match s.m_musicQueue with
    | [] => s
    | _ :: rest => { s with m_musicQueue := rest }
  if s.m_musicDisabledNoMediaFoundation || s.m_musicOff then .ok s
  else
    match s.m_musicQueue with
    | [] =>
      if s.m_musicEngine then .ok { s with musicLog := s.musicLog ++ [MusicCmd.Pause] }
      else .error Fault.nullHandle
    | _ :: _ => PlayMusic isPaused s

/-! ## The per-frame tick -/

/-- The `UpdateErrorCodes` flags. -/
def UpdateErrorCodes.None : Nat := 0
def UpdateErrorCodes.MusicEngine : Nat := 1
def UpdateErrorCodes.SoundEffectsEngine : Nat := 2

/-- What the native side answers during one call of `Update`: the outcome of a
reinitialisation of either backend, should one be attempted, and the answer of `IsPaused` in
the `PlayMusic` of the queue block and in the `PlayMusic` of the error block. -/
structure UpdateEnv where
  sfxInit : SfxInitOutcome
  mfStartupOk : Bool
  musicInit : MusicInitOutcome
  isPausedOnAdvance : Bool
  isPausedOnRecovery : Bool
deriving DecidableEq, Repr

/-- First block of `Update`: a critical error of the sound effects engine. -/
def Update_soundEffectsEngineError (outcome : SfxInitOutcome) (s : AudioEngine) (result : Nat) :
    Except Fault (AudioEngine × Nat) :=
  if s.m_soundEffectsEngineCallbacks_m_error ≠ S_OK then
    let s := { s with m_soundEffectsEngineCallbacks_m_error := S_OK }
    match InitializeSoundEffectsEngine outcome s with
    | .error e => .error e
    | .ok s =>
      let s := ResumeSoundEffects s
      .ok (s, result ||| UpdateErrorCodes.SoundEffectsEngine)
  else .ok (s, result)

/-- Queue block of `Update`: the previous music has finished; loop, move on or stop. -/
def Update_previousMusicFinished (isPaused : Bool) (s : AudioEngine) : Except Fault AudioEngine :=
  match s.m_mediaEngineNotify with
  | none => .error Fault.nullHandle
  | some n =>
    if n.m_previousMusicFinished && s.m_musicIsPlaying && !s.m_musicIsPaused then
      match s.m_musicQueue with
      | [] => .ok s
      | currentMusic :: rest =>
        if currentMusic.LoopCount = 0 then
          let s := { s with m_musicQueue := rest }
          let shouldPlay :=
            match s.m_musicQueue with
            | [] => false
            | next :: _ => next.AutoPlayAfterPreviousMusic
          if shouldPlay then PlayMusic isPaused s else .ok s
        else
          let currentMusic :=
            if currentMusic.LoopCount > 0 then
              { currentMusic with LoopCount := currentMusic.LoopCount - 1 }
            else currentMusic
          let s := { s with m_musicQueue := currentMusic :: rest }
          PlayMusic isPaused s
    else .ok s

/-- Seek block of `Update`: the media engine is ready to seek. -/
def Update_readyToSeek (s : AudioEngine) : Except Fault AudioEngine :=
  match s.m_mediaEngineNotify with
  | none => .error Fault.nullHandle
  | some n =>
    if n.m_readyToSeek && s.m_musicIsPlaying then
      let s := { s with m_mediaEngineNotify := some { n with m_readyToSeek := false } }
      if !s.m_musicIsPaused then
        if s.m_musicPosition ≥ 0 then
          if s.m_musicEngine then
            let s := { s with
              musicLog := s.musicLog ++ [MusicCmd.SetCurrentTime s.m_musicPosition] }
            .ok { s with m_musicPosition := -1 }
          else .error Fault.nullHandle
        else .ok s
      else .ok s
    else .ok s

/-- Error block of `Update`: the media engine has reported an error. -/
def Update_musicError (env : UpdateEnv) (s : AudioEngine) (result : Nat) :
    Except Fault (AudioEngine × Nat) :=
  match s.m_mediaEngineNotify with
  | none => .error Fault.nullHandle
  | some n =>
    if n.m_errorOccurred then
      let s := { s with m_mediaEngineNotify := some { n with m_errorOccurred := false } }
      if n.m_errorType = .DECODE then
        match InitializeMusicEngine env.mfStartupOk env.musicInit s with
        | .error e => .error e
        | .ok s =>
          if s.m_musicIsPlaying && !s.m_musicIsPaused then
            match PlayMusic env.isPausedOnRecovery s with
            | .error e => .error e
            | .ok s => .ok (s, result ||| UpdateErrorCodes.MusicEngine)
          else .ok (s, result ||| UpdateErrorCodes.MusicEngine)
      else .ok (s, result ||| UpdateErrorCodes.MusicEngine)
    else .ok (s, result)

/-- The part of `Update` guarded by `m_mediaEngineNotify != nullptr`. -/
def Update_music (env : UpdateEnv) (s : AudioEngine) (result : Nat) :
    Except Fault (AudioEngine × Nat) :=
  match s.m_mediaEngineNotify with
  | none => .ok (s, result)
  | some _ =>
    match Update_previousMusicFinished env.isPausedOnAdvance s with
    | .error e => .error e
    | .ok s =>
      match Update_readyToSeek s with
      | .error e => .error e
      | .ok s => Update_musicError env s result

/-- The part of `Update` that deals with sound effects: the engine error block followed by
`RestartFailedSoundEffects()`. -/
def Update_soundEffects (outcome : SfxInitOutcome) (s : AudioEngine) :
    Except Fault (AudioEngine × Nat) :=
  match Update_soundEffectsEngineError outcome s UpdateErrorCodes.None with
  | .error e => .error e
  | .ok (s, result) =>
    match RestartFailedSoundEffects s with
    | .error e => .error e
    | .ok s => .ok (s, result)

/-- Source function `AudioEngine::Update`; the second component is the returned
`UpdateErrorCodes`. -/
def Update (env : UpdateEnv) (s : AudioEngine) : Except Fault (AudioEngine × Nat) :=
  match Update_soundEffects env.sfxInit s with
  | .error e => .error e
  | .ok (s, result) => Update_music env s result

/-! ## Stopping, unloading and trimming one sound effect -/

/-- The `Stop(flags)` calls on the started voices of one pool, from position `slot` on. -/
def stopCmds (key : String) (flags : Nat) : Nat → List SourceVoice → List Cmd
  | _, [] => []
  | slot, voice :: rest =>
    (if voice.m_soundEffectStarted then [Cmd.VoiceStop key slot flags] else [])
      ++ stopCmds key flags (slot + 1) rest

/-- Source function `AudioEngine::StopSoundEffect`. -/
def StopSoundEffect (filename : String) (playTails : Bool) (s : AudioEngine) : AudioEngine :=
  match mapFind s.m_soundEffectsMap filename with
  | none => s
  | some soundEffect =>
    let flags := if playTails then XAUDIO2_PLAY_TAILS else 0
    { s with log := s.log ++ stopCmds filename flags 0 soundEffect.m_sourceVoices }

/-- Removal of a key, `m_soundEffectsMap.erase(filename)`. -/
def mapErase {α : Type} : List (String × α) → String → List (String × α)
  | [], _ => []
  | (k, v) :: rest, key =>
    if k = key then mapErase rest key else (k, v) :: mapErase rest key

/-- Source function `AudioEngine::UnloadSoundEffect`: `Stop()` on every started voice, then the
entry is erased, which destroys its voices. -/
def UnloadSoundEffect (filename : String) (s : AudioEngine) : AudioEngine :=
  match mapFind s.m_soundEffectsMap filename with
  | none => s
  | some soundEffect =>
    let s := { s with log := s.log ++ stopCmds filename 0 0 soundEffect.m_sourceVoices }
    { s with m_soundEffectsMap := mapErase s.m_soundEffectsMap filename
             log := s.log ++ destroyCmds filename soundEffect.m_sourceVoices }

/-- The predicate that `ClearUnusedSourceVoices` hands to `std::remove_if`, on one element of
the vector: it reads `voice->m_soundEffectStarted` through the `unique_ptr`. -/
def isUnused : Option SourceVoice → Except Fault Bool
  | none => .error Fault.nullVoice
  | some voice => .ok (voice.m_soundEffectStarted == false)

/-- Library function `std::find_if`, on positions: the position, counted from `i`, of the first
element for which the predicate holds, or the position of the end. -/
def std_find_if : List (Option SourceVoice) → Nat → Except Fault Nat
  | [], i => .ok i
  | element :: rest, i =>
    match isUnused element with
    | .error e => .error e
    | .ok true => .ok i
    | .ok false => std_find_if rest (i + 1)

/-- The loop of `std::remove_if` after its `find_if`: `i` scans the range, and every element
for which the predicate fails is move-assigned to position `next`.  The move assignment of a
`unique_ptr` destroys what the target held (recorded in `destroyed`) and leaves the source
null.  The last argument bounds the number of steps by the length of the range. -/
def std_remove_if_loop (elements : List (Option SourceVoice)) (next : Nat)
    (destroyed : List Nat) :
    Nat → Nat → Except Fault (List (Option SourceVoice) × Nat × List Nat)
  | _, 0 => .ok (elements, next, destroyed)
  | i, steps + 1 =>
    match elements.get? i with
    | none => .ok (elements, next, destroyed)
    | some element =>
      match isUnused element with
      | .error e => .error e
      | .ok true => std_remove_if_loop elements next destroyed (i + 1) steps
      | .ok false =>
        let destroyed :=
          match elements.get? next with
          | some (some _) => destroyed ++ [next]
          | _ => destroyed
        let elements := (elements.set next element).set i none
        std_remove_if_loop elements (next + 1) destroyed (i + 1) steps

/-- Library function `std::remove_if` on a range of `unique_ptr<SourceVoice>`: the range after
the call, the position of the returned iterator, and the positions whose voice was
destroyed. -/
def std_remove_if (elements : List (Option SourceVoice)) :
    Except Fault (List (Option SourceVoice) × Nat × List Nat) :=
  match std_find_if elements 0 with
  | .error e => .error e
  | .ok first =>
    if first = elements.length then .ok (elements, first, [])
    else std_remove_if_loop elements first [] (first + 1) elements.length

/-- Source function `AudioEngine::ClearUnusedSourceVoices`: `std::remove_if` over
`rbegin() .. rend()`, whose result is discarded.  The value is `none` when the file is not
loaded (the call returns at once); otherwise it is the content of `m_sourceVoices` after the
call, a null `unique_ptr` being `none`, with the native `DestroyVoice` calls made.  Nothing
else in the engine changes. -/
def ClearUnusedSourceVoices (filename : String) (s : AudioEngine) :
    Except Fault (Option (List (Option SourceVoice) × List Cmd)) :=
  match mapFind s.m_soundEffectsMap filename with
  | none => .ok none
  | some soundEffect =>
    let elements := (soundEffect.m_sourceVoices.map some).reverse
    match std_remove_if elements with
    | .error e => .error e
    | .ok (elements', _, destroyed) =>
      .ok (some (elements'.reverse,
        destroyed.map (fun j => Cmd.DestroySourceVoice filename (elements.length - 1 - j))))

/-! ## Music position, pause and resume; volume getters -/

/-- Source function `AudioEngine::GetSkipMusicFunction`. -/
def GetSkipMusicFunction (s : AudioEngine) : Bool :=
  s.m_musicOff || s.m_musicDisabledNoMediaFoundation || !s.m_musicIsPlaying

/-- Source function `AudioEngine::GetMusicVolume`. -/
def GetMusicVolume (s : AudioEngine) : ℚ := s.m_musicVolume

/-- Source function `AudioEngine::GetSoundEffectsVolume`. -/
def GetSoundEffectsVolume (s : AudioEngine) : ℚ := s.m_soundEffectsVolume

/-- Source function `AudioEngine::PauseMusic`; `currentTime` is the answer of
`IMFMediaEngine::GetCurrentTime` should it be asked.  The second component is the returned
position. -/
def PauseMusic (currentTime : ℚ) (s : AudioEngine) : Except Fault (AudioEngine × ℚ) :=
  if s.m_musicIsPaused then .ok (s, s.m_musicPosition)
  else
    let s := { s with m_musicIsPaused := true }
    if s.m_musicOff || s.m_musicDisabledNoMediaFoundation then
      let s := { s with m_musicPosition := -1 }
      .ok (s, s.m_musicPosition)
    else if s.m_musicEngine then
      let s := { s with m_musicPosition := currentTime
                        musicLog := s.musicLog ++ [MusicCmd.GetCurrentTime] }
      let s := { s with musicLog := s.musicLog ++ [MusicCmd.Pause] }
      .ok (s, s.m_musicPosition)
    else .error Fault.nullHandle

/-- Source function `AudioEngine::ResumeMusicAtTime`. -/
def ResumeMusicAtTime (isPaused : Bool) (seconds : ℚ) (s : AudioEngine) :
    Except Fault AudioEngine :=
  let s := { s with m_musicIsPaused := false }
  if s.m_musicDisabledNoMediaFoundation || s.m_musicOff then .ok s
  else
    match s.m_mediaEngineNotify with
    | none => .error Fault.nullHandle
    | some n =>
      let s := { s with m_mediaEngineNotify := some { n with m_previousMusicFinished := false } }
      let s := { s with m_musicPosition := seconds }
      PlayMusic isPaused s

/-- Source function `AudioEngine::ResumeMusic`. -/
def ResumeMusic (isPaused : Bool) (s : AudioEngine) : Except Fault AudioEngine :=
  ResumeMusicAtTime isPaused s.m_musicPosition s

/-- Source function `AudioEngine::GetMusicCurrentTime`; `currentTime` is the answer of
`IMFMediaEngine::GetCurrentTime` should it be asked.  The second component is the returned
time. -/
def GetMusicCurrentTime (currentTime : ℚ) (s : AudioEngine) : Except Fault (AudioEngine × ℚ) :=
  if GetSkipMusicFunction s then
    if !s.m_musicOff && !s.m_musicDisabledNoMediaFoundation && s.m_musicEngine then
      .ok ({ s with musicLog := s.musicLog ++ [MusicCmd.GetCurrentTime] }, currentTime)
    else .ok (s, 0)
  else if s.m_musicEngine then
    .ok ({ s with musicLog := s.musicLog ++ [MusicCmd.GetCurrentTime] }, currentTime)
  else .error Fault.nullHandle

/-- Source function `AudioEngine::SetMusicCurrentTime`. -/
def SetMusicCurrentTime (seconds : ℚ) (s : AudioEngine) : AudioEngine :=
  if GetSkipMusicFunction s then s
  else
    let s :=
      if !s.m_musicOff && !s.m_musicDisabledNoMediaFoundation && s.m_musicIsPlaying
          && s.m_musicEngine then
        { s with musicLog := s.musicLog ++ [MusicCmd.SetCurrentTime seconds] }
      else s
    { s with m_musicPosition := seconds }

/-- Source function `AudioEngine::PlayMusicVolumeTestSound`; `installedLocation` is the path of
the installed package. -/
def PlayMusicVolumeTestSound (installedLocation : String) (s : AudioEngine) :
    Except Fault AudioEngine :=
  if s.m_musicDisabledNoMediaFoundation || s.m_musicOff then .ok s
  else
    let backgroundMusic := installedLocation ++ "\\volume_test.wav"
    if s.m_musicEngine then
      .ok { s with musicLog := s.musicLog ++
        [MusicCmd.Pause, MusicCmd.SetSource backgroundMusic, MusicCmd.Play] }
    else .error Fault.nullHandle

/-- Source function `AudioEngine::SetMusicOnOff`; `mfStartupOk` and `outcome` tell how the
initialisation goes should it be attempted, `isPaused` is the answer of
`IMFMediaEngine::IsPaused` should it be asked.  The second component is the returned
`m_musicOff`. -/
def SetMusicOnOff (turnOff : Bool) (mfStartupOk : Bool) (outcome : MusicInitOutcome)
    (isPaused : Bool) (s : AudioEngine) : Except Fault (AudioEngine × Bool) :=
  if turnOff then
    let s := ShutdownMusicEngine s
    .ok (s, s.m_musicOff)
  else if s.m_musicOff && !s.m_musicDisabledNoMediaFoundation then
    match InitializeMusicEngine mfStartupOk outcome s with
    | .error e => .error e
    | .ok s =>
      if !s.m_musicOff then
        if s.m_musicIsPlaying then
          match PlayMusic isPaused s with
          | .error e => .error e
          | .ok s => .ok (s, s.m_musicOff)
        else .ok (s, s.m_musicOff)
      else .ok (s, s.m_musicOff)
  else .ok (s, s.m_musicOff)

/-! ## Loading sound effects, switching them on and off, the engine callback -/

/-- Assignment to a key that may be absent, `m_soundEffectsMap[filename] = ...`.  A new key is
put at the end of the list: the list keeps the entries in the order of their insertion, where
`std::map` iterates in the order of the keys. -/
def mapInsert {α : Type} : List (String × α) → String → α → List (String × α)
  | [], key, v' => [(key, v')]
  | (k, v) :: rest, key, v' =>
    if k = key then (k, v') :: rest else (k, v) :: mapInsert rest key v'

/-- Source function `AudioEngine::LoadSoundEffect(filename, forceReload)`; `bufferLength` and
`sampleRate` are what the `MediaStreamer` delivers for the file.  The new entry starts from
`new SoundEffect()` with a zeroed `XAUDIO2_BUFFER`; an entry that it replaces is destroyed, and
its voices with it. -/
def LoadSoundEffect (filename : String) (forceReload : Bool) (bufferLength sampleRate : Nat)
    (s : AudioEngine) : AudioEngine :=
  if !forceReload && (mapFind s.m_soundEffectsMap filename).isSome then s
  else
    let destroyed :=
      match mapFind s.m_soundEffectsMap filename with
      | some previous => destroyCmds filename previous.m_sourceVoices
      | none => []
    let soundEffect : SoundEffect :=
      { m_audioBuffer_LoopCount := 0, m_sourceVoices := [],
        m_soundEffectBufferLength := bufferLength, m_soundEffectSampleRate := sampleRate }
    { s with m_soundEffectsMap := mapInsert s.m_soundEffectsMap filename soundEffect
             log := s.log ++ destroyed }

/-- Source function `AudioEngine::PlaySoundEffectsVolumeTestSound`: `LoadSoundEffect` and
`PlaySoundEffect` of `volume_test.wav` through their one-argument overloads, which forward
with `forceReload = false` and, after their own test of `m_soundEffectsOff`, with
`loopCount = 0`, `maxInstances = 0`. -/
def PlaySoundEffectsVolumeTestSound (bufferLength sampleRate : Nat) (s : AudioEngine) :
    Except Fault AudioEngine :=
  let s := LoadSoundEffect "volume_test.wav" false bufferLength sampleRate s
  if s.m_soundEffectsOff then .ok s
  else PlaySoundEffect "volume_test.wav" 0 0 s

/-- Source function `AudioEngine::SetSoundEffectsOnOff`; `outcome` tells how the initialisation
goes should it be attempted.  The second component is the returned `m_soundEffectsOff`. -/
def SetSoundEffectsOnOff (turnOff : Bool) (outcome : SfxInitOutcome) (s : AudioEngine) :
    Except Fault (AudioEngine × Bool) :=
  if turnOff then
    let s := ShutdownSoundEffectsEngine s
    .ok (s, s.m_soundEffectsOff)
  else
    match InitializeSoundEffectsEngine outcome s with
    | .error e => .error e
    | .ok s => .ok (s, s.m_soundEffectsOff)

/-- Source function `SoundEffectsEngineCallbacks::OnCriticalError`, on the callback object of
the engine. -/
def OnCriticalError (Error : HRESULT) (s : AudioEngine) : AudioEngine :=
  { s with m_soundEffectsEngineCallbacks_m_error := Error }

/-- Source function `AudioEngine::GetMusicOff`. -/
def GetMusicOff (s : AudioEngine) : Bool := s.m_musicOff

/-- Source function `AudioEngine::GetSoundEffectsOff`. -/
def GetSoundEffectsOff (s : AudioEngine) : Bool := s.m_soundEffectsOff

/-- Source function `AudioEngine::GetNoMediaFoundation`. -/
def GetNoMediaFoundation (s : AudioEngine) : Bool := s.m_musicDisabledNoMediaFoundation

/-! ## Window deactivation (`DirectXBase.cpp`) -/

/-- The members of `DirectXBase` that `SetWindowIsDeactivated` reads and writes.
`activationChanged` is a ghost field: the value of `m_windowIsDeactivated` at each call of the
pure virtual `OnWindowActivationChanged`, in program order. -/
structure DirectXBase where
  m_windowIsDeactivated : Bool
  m_windowIsDeactivatedRefCounter : Nat
  activationChanged : List Bool
deriving DecidableEq, Repr

/-- The members right after `DirectXBase::DirectXBase()`. -/
def DirectXBase.new : DirectXBase :=
  { m_windowIsDeactivated := false, m_windowIsDeactivatedRefCounter := 0,
    activationChanged := [] }

/-- A call of `OnWindowActivationChanged`; the override in `Game` does nothing. -/
def DirectXBase.OnWindowActivationChanged (d : DirectXBase) : DirectXBase :=
  { d with activationChanged := d.activationChanged ++ [d.m_windowIsDeactivated] }

/-- Source function `DirectXBase::GetWindowIsDeactivated`. -/
def DirectXBase.GetWindowIsDeactivated (d : DirectXBase) : Bool := d.m_windowIsDeactivated

/-- Source function `DirectXBase::SetWindowIsDeactivated`; the counter is a `uint32`. -/
def DirectXBase.SetWindowIsDeactivated (isDeactivated : Bool) (d : DirectXBase) : DirectXBase :=
  if isDeactivated then
    let d := { d with
      m_windowIsDeactivatedRefCounter := (d.m_windowIsDeactivatedRefCounter + 1) % UINT32_RANGE }
    let d := { d with m_windowIsDeactivated := true }
    if d.m_windowIsDeactivatedRefCounter = 1 then d.OnWindowActivationChanged else d
  else
    if d.m_windowIsDeactivatedRefCounter > 0 then
      let d := { d with
        m_windowIsDeactivatedRefCounter :=
          (d.m_windowIsDeactivatedRefCounter + UINT32_RANGE - 1) % UINT32_RANGE }
      if d.m_windowIsDeactivatedRefCounter = 0 then
        let d := { d with m_windowIsDeactivated := false }
        d.OnWindowActivationChanged
      else d
    else
      if d.m_windowIsDeactivated then
        let d := { d with m_windowIsDeactivated := false }
        d.OnWindowActivationChanged
      else d

/-! ## The vectors of voices with null slots

`m_sourceVoices` is a `std::vector<std::unique_ptr<SourceVoice>>`.  The sound effect functions
above take a vector all of whose pointers hold a voice, which is what every member function
but one leaves behind.  `ClearUnusedSourceVoices` calls `std::remove_if` without `erase`, and
the moved-from pointers it leaves are null.  The functions of this section are the same
member functions on vectors that can hold null pointers: a slot is `none` when its pointer is
null, and reading a voice through it is the fault `Fault.nullVoice`. -/

/-- `SoundEffect` with `m_sourceVoices` as a vector of `unique_ptr<SourceVoice>`. -/
structure SoundEffectSlots where
  m_audioBuffer_LoopCount : Nat
  m_sourceVoices : List (Option SourceVoice)
  m_soundEffectBufferLength : Nat
  m_soundEffectSampleRate : Nat
deriving DecidableEq, Repr

/-- The engine on which the executions run: `engine` carries every member of the class other
than the sound effects map, and `m_soundEffectsMap` is the map with vectors that can hold
null slots.  The map inside `engine` is not used. -/
structure AudioEngineSlots where
  engine : AudioEngine
  m_soundEffectsMap : List (String × SoundEffectSlots)
deriving DecidableEq, Repr

/-- The engine right after `AudioEngine::AudioEngine()`. -/
def AudioEngineSlots.new : AudioEngineSlots :=
  { engine := AudioEngine.new, m_soundEffectsMap := [] }

/-- A member function that neither reads nor writes the sound effects map, called on the
engine of an execution. -/
def AudioEngineSlots.call (f : AudioEngine → Except Fault AudioEngine)
    (st : AudioEngineSlots) : Except Fault AudioEngineSlots :=
  match f st.engine with
  | .error e => .error e
  | .ok engine => .ok { st with engine := engine }

/-- The native voices destroyed with a vector: one for each slot that holds a voice, from
position `slot` on.  A null `unique_ptr` destroys nothing. -/
def destroyCmdsSlots (key : String) : Nat → List (Option SourceVoice) → List Cmd
  | _, [] => []
  | slot, none :: rest => destroyCmdsSlots key (slot + 1) rest
  | slot, some _ :: rest =>
    Cmd.DestroySourceVoice key slot :: destroyCmdsSlots key (slot + 1) rest

/-- The first loop of `ShutdownSoundEffectsEngine`: `m_sourceVoices.clear()` on every entry,
which reads no voice. -/
def clearAllSlots :
    List (String × SoundEffectSlots) → List (String × SoundEffectSlots) × List Cmd
  | [] => ([], [])
  | (key, soundEffect) :: rest =>
    let (rest', cmds) := clearAllSlots rest
    ((key, { soundEffect with m_sourceVoices := [] }) :: rest',
      destroyCmdsSlots key 0 soundEffect.m_sourceVoices ++ cmds)

/-- Source function `AudioEngine::ShutdownSoundEffectsEngine`, on vectors with null slots. -/
def ShutdownSoundEffectsEngineSlots (st : AudioEngineSlots) : AudioEngineSlots :=
  let (map, cmds) := clearAllSlots st.m_soundEffectsMap
  let s := { st.engine with log := st.engine.log ++ cmds }
  let s := if s.m_masteringVoice then
      { s with m_masteringVoice := false, log := s.log ++ [Cmd.DestroyMasteringVoice] }
    else s
  let s := if s.m_soundEffectsEngine then
      { s with log := s.log ++ [Cmd.UnregisterForCallbacks, Cmd.StopEngine] }
    else s
  let s := { s with m_soundEffectsEngine := false }
  { engine := { s with m_soundEffectsOff := true }, m_soundEffectsMap := map }

/-- Source function `AudioEngine::InitializeSoundEffectsEngine`, on vectors with null slots:
the shutdown it starts with clears the vectors, and what follows does not touch the map. -/
def InitializeSoundEffectsEngineSlots (outcome : SfxInitOutcome) (st : AudioEngineSlots) :
    Except Fault AudioEngineSlots :=
  let st := ShutdownSoundEffectsEngineSlots st
  let s := st.engine
  let s := { s with log := s.log ++ [Cmd.XAudio2Create] }
  if outcome = .createFailed then .ok { st with engine := { s with m_soundEffectsOff := true } }
  else
    let s := { s with m_soundEffectsEngine := true, log := s.log ++ [Cmd.RegisterForCallbacks] }
    if outcome = .registerFailed then
      .ok { st with engine := { s with m_soundEffectsOff := true } }
    else
      let s := { s with log := s.log ++ [Cmd.CreateMasteringVoice] }
      if outcome = .noAudioDevice then
        let s := { s with m_soundEffectsOff := true }
        let s := { s with log := s.log ++ [Cmd.UnregisterForCallbacks] }
        .ok { st with engine := { s with m_soundEffectsEngine := false } }
      else if outcome = .masteringFailed then
        .ok { st with engine := { s with m_soundEffectsOff := true } }
      else
        let s := { s with m_masteringVoice := true, log := s.log ++ [Cmd.StartEngine] }
        if outcome = .startFailed then
          .ok { st with engine := { s with m_soundEffectsOff := true } }
        else
          let s := { s with m_soundEffectsOff := false }
          match SetSoundEffectsVolume s.m_soundEffectsVolume s with
          | .error e => .error e
          | .ok s =>
            if outcome = .setVolumeFailed then
              .ok { st with engine := { s with m_soundEffectsOff := true } }
            else .ok { st with engine := s }

/-- Source function `AudioEngine::SetSoundEffectsOnOff`, on vectors with null slots. -/
def SetSoundEffectsOnOffSlots (turnOff : Bool) (outcome : SfxInitOutcome)
    (st : AudioEngineSlots) : Except Fault (AudioEngineSlots × Bool) :=
  if turnOff then
    let st := ShutdownSoundEffectsEngineSlots st
    .ok (st, st.engine.m_soundEffectsOff)
  else
    match InitializeSoundEffectsEngineSlots outcome st with
    | .error e => .error e
    | .ok st => .ok (st, st.engine.m_soundEffectsOff)

/-- Source function `AudioEngine::LoadSoundEffect(filename, forceReload)`, on vectors with
null slots: the entry it replaces is destroyed without any of its voices being read. -/
def LoadSoundEffectSlots (filename : String) (forceReload : Bool)
    (bufferLength sampleRate : Nat) (st : AudioEngineSlots) : AudioEngineSlots :=
  if !forceReload && (mapFind st.m_soundEffectsMap filename).isSome then st
  else
    let destroyed :=
      match mapFind st.m_soundEffectsMap filename with
      | some previous => destroyCmdsSlots filename 0 previous.m_sourceVoices
      | none => []
    let soundEffect : SoundEffectSlots :=
      { m_audioBuffer_LoopCount := 0, m_sourceVoices := [],
        m_soundEffectBufferLength := bufferLength, m_soundEffectSampleRate := sampleRate }
    { engine := { st.engine with log := st.engine.log ++ destroyed }
      m_soundEffectsMap := mapInsert st.m_soundEffectsMap filename soundEffect }

/-- The loop `for (auto& sv : m_sourceVoices) if (sv->m_soundEffectStarted) sv->...->Stop(flags)`
from position `slot` on: the `Stop` calls, or the fault of reading through a null slot. -/
def stopCmdsSlots (key : String) (flags : Nat) :
    Nat → List (Option SourceVoice) → Except Fault (List Cmd)
  | _, [] => .ok []
  | _, none :: _ => .error Fault.nullVoice
  | slot, some voice :: rest =>
    match stopCmdsSlots key flags (slot + 1) rest with
    | .error e => .error e
    | .ok cmds =>
      .ok ((if voice.m_soundEffectStarted then [Cmd.VoiceStop key slot flags] else []) ++ cmds)

/-- Source function `AudioEngine::StopSoundEffect`, on vectors with null slots. -/
def StopSoundEffectSlots (filename : String) (playTails : Bool) (st : AudioEngineSlots) :
    Except Fault AudioEngineSlots :=
  match mapFind st.m_soundEffectsMap filename with
  | none => .ok st
  | some soundEffect =>
    let flags := if playTails then XAUDIO2_PLAY_TAILS else 0
    match stopCmdsSlots filename flags 0 soundEffect.m_sourceVoices with
    | .error e => .error e
    | .ok cmds => .ok { st with engine := { st.engine with log := st.engine.log ++ cmds } }

/-- Source function `AudioEngine::UnloadSoundEffect`, on vectors with null slots. -/
def UnloadSoundEffectSlots (filename : String) (st : AudioEngineSlots) :
    Except Fault AudioEngineSlots :=
  match mapFind st.m_soundEffectsMap filename with
  | none => .ok st
  | some soundEffect =>
    match stopCmdsSlots filename 0 0 soundEffect.m_sourceVoices with
    | .error e => .error e
    | .ok cmds =>
      .ok { engine := { st.engine with
              log := st.engine.log ++ cmds ++
                destroyCmdsSlots filename 0 soundEffect.m_sourceVoices }
            m_soundEffectsMap := mapErase st.m_soundEffectsMap filename }

/-- The `std::count_if` of `PlaySoundEffect`, which reads `voice->m_soundEffectStarted`
through every slot. -/
def startedCountSlots : List (Option SourceVoice) → Except Fault Nat
  | [] => .ok 0
  | none :: _ => .error Fault.nullVoice
  | some voice :: rest =>
    match startedCountSlots rest with
    | .error e => .error e
    | .ok count => .ok (count + if voice.m_soundEffectStarted == true then 1 else 0)

/-- The `std::find_if` of `PlaySoundEffect`, which reads `voice->m_soundEffectStarted` through
every slot up to the first voice that is not started; `none` stands for `end()`. -/
def findIdleSlots : List (Option SourceVoice) → Except Fault (Option Nat)
  | [] => .ok none
  | none :: _ => .error Fault.nullVoice
  | some voice :: rest =>
    if voice.m_soundEffectStarted == false then .ok (some 0)
    else
      match findIdleSlots rest with
      | .error e => .error e
      | .ok found => .ok (found.map (fun i => i + 1))

/-- The part of `PlaySoundEffect` that follows the cap test, on a vector with null slots:
reuse the first idle voice, or append a new voice, and start it. -/
def startInSlots (engine : Bool) (filename : String) (loopCount : Nat)
    (soundEffect : SoundEffectSlots) (log : List Cmd) :
    Except Fault (SoundEffectSlots × List Cmd) :=
  match findIdleSlots soundEffect.m_sourceVoices with
  | .error e => .error e
  | .ok none =>
    let slot := soundEffect.m_sourceVoices.length
    let soundEffect := { soundEffect with
      m_sourceVoices := soundEffect.m_sourceVoices ++ [some SourceVoice.new] }
    let soundEffect := { soundEffect with m_audioBuffer_LoopCount := loopCount }
    match CreateSourceVoice engine filename slot SourceVoice.new log with
    | .error e => .error e
    | .ok (sv, log) =>
      let (sv, bufferLoopCount, log) := StartSourceVoice filename slot sv loopCount log
      .ok ({ soundEffect with
              m_audioBuffer_LoopCount := bufferLoopCount
              m_sourceVoices := soundEffect.m_sourceVoices.set slot (some sv) }, log)
  | .ok (some slot) =>
    match soundEffect.m_sourceVoices.get? slot with
    | some (some sv) =>
      let (sv, bufferLoopCount, log) := StartSourceVoice filename slot sv loopCount log
      .ok ({ soundEffect with
              m_audioBuffer_LoopCount := bufferLoopCount
              m_sourceVoices := soundEffect.m_sourceVoices.set slot (some sv) }, log)
    | _ => .ok (soundEffect, log)

/-- Source function `AudioEngine::PlaySoundEffect(filename, loopCount, maxInstances)`, on
vectors with null slots. -/
def PlaySoundEffectSlots (filename : String) (loopCount maxInstances : Nat)
    (st : AudioEngineSlots) : Except Fault AudioEngineSlots :=
  if st.engine.m_soundEffectsOff then .ok st
  else
    match mapFind st.m_soundEffectsMap filename with
    | none => .ok st
    | some soundEffect =>
      let capped : Except Fault Bool :=
        if maxInstances > 0 then
          match startedCountSlots soundEffect.m_sourceVoices with
          | .error e => .error e
          | .ok count => .ok (decide (count % UINT32_RANGE ≥ maxInstances))
        else .ok false
      match capped with
      | .error e => .error e
      | .ok true => .ok st
      | .ok false =>
        match startInSlots st.engine.m_soundEffectsEngine filename loopCount soundEffect
            st.engine.log with
        | .error e => .error e
        | .ok (soundEffect, log) =>
          .ok { engine := { st.engine with log := log }
                m_soundEffectsMap := mapAssign st.m_soundEffectsMap filename soundEffect }

/-- Source function `AudioEngine::PlaySoundEffectsVolumeTestSound`, on vectors with null
slots. -/
def PlaySoundEffectsVolumeTestSoundSlots (bufferLength sampleRate : Nat)
    (st : AudioEngineSlots) : Except Fault AudioEngineSlots :=
  let st := LoadSoundEffectSlots "volume_test.wav" false bufferLength sampleRate st
  if st.engine.m_soundEffectsOff then .ok st
  else PlaySoundEffectSlots "volume_test.wav" 0 0 st

/-- Source function `AudioEngine::ClearUnusedSourceVoices` as a transition: `std::remove_if`
over `rbegin() .. rend()`, whose result is discarded, so the vector keeps its length and its
moved-from slots are left null. -/
def ClearUnusedSourceVoicesSlots (filename : String) (st : AudioEngineSlots) :
    Except Fault AudioEngineSlots :=
  match mapFind st.m_soundEffectsMap filename with
  | none => .ok st
  | some soundEffect =>
    let elements := soundEffect.m_sourceVoices.reverse
    match std_remove_if elements with
    | .error e => .error e
    | .ok (elements', _, destroyed) =>
      let cmds := destroyed.map
        (fun j => Cmd.DestroySourceVoice filename (elements.length - 1 - j))
      .ok { engine := { st.engine with log := st.engine.log ++ cmds }
            m_soundEffectsMap := mapAssign st.m_soundEffectsMap filename
              { soundEffect with m_sourceVoices := elements'.reverse } }

/-- The `Start()` calls of `ResumeSoundEffects` on one vector, from position `slot` on, or
the fault of reading through a null slot. -/
def resumeCmdsSlots (key : String) : Nat → List (Option SourceVoice) → Except Fault (List Cmd)
  | _, [] => .ok []
  | _, none :: _ => .error Fault.nullVoice
  | slot, some voice :: rest =>
    match resumeCmdsSlots key (slot + 1) rest with
    | .error e => .error e
    | .ok cmds =>
      .ok ((if voice.m_soundEffectStarted then [Cmd.VoiceStart key slot] else []) ++ cmds)

/-- The outer loop of `PauseSoundEffects` and `ResumeSoundEffects` over the map. -/
def allSlotsCmds (perVector : String → Nat → List (Option SourceVoice) → Except Fault (List Cmd)) :
    List (String × SoundEffectSlots) → Except Fault (List Cmd)
  | [] => .ok []
  | (key, soundEffect) :: rest =>
    match perVector key 0 soundEffect.m_sourceVoices with
    | .error e => .error e
    | .ok cmds =>
      match allSlotsCmds perVector rest with
      | .error e => .error e
      | .ok more => .ok (cmds ++ more)

/-- Source function `AudioEngine::ResumeSoundEffects`, on vectors with null slots. -/
def ResumeSoundEffectsSlots (st : AudioEngineSlots) : Except Fault AudioEngineSlots :=
  if st.engine.m_soundEffectsOff then .ok st
  else
    match allSlotsCmds resumeCmdsSlots st.m_soundEffectsMap with
    | .error e => .error e
    | .ok cmds => .ok { st with engine := { st.engine with log := st.engine.log ++ cmds } }

/-- Source function `AudioEngine::PauseSoundEffects`, on vectors with null slots. -/
def PauseSoundEffectsSlots (st : AudioEngineSlots) : Except Fault AudioEngineSlots :=
  if st.engine.m_soundEffectsOff then .ok st
  else
    match allSlotsCmds (fun key => stopCmdsSlots key 0) st.m_soundEffectsMap with
    | .error e => .error e
    | .ok cmds => .ok { st with engine := { st.engine with log := st.engine.log ++ cmds } }

/-- The `std::count_if` of `RestartFailedSoundEffects`, which reads `voice->m_criticalError`
through every slot. -/
def criticalErrorCountSlots : List (Option SourceVoice) → Except Fault Nat
  | [] => .ok 0
  | none :: _ => .error Fault.nullVoice
  | some voice :: rest =>
    match criticalErrorCountSlots rest with
    | .error e => .error e
    | .ok count => .ok (count + if voice.m_criticalError then 1 else 0)

/-- The inner loop of `RestartFailedSoundEffects` over one vector, from position `slot` on. -/
def restartVoicesSlots (engine : Bool) (key : String) :
    Nat → List (Option SourceVoice) → Nat → List Cmd →
      Except Fault (List (Option SourceVoice) × Nat × List Cmd)
  | _, [], bufferLoopCount, log => .ok ([], bufferLoopCount, log)
  | _, none :: _, _, _ => .error Fault.nullVoice
  | slot, some sv :: rest, bufferLoopCount, log =>
    match restartVoice engine key slot sv bufferLoopCount log with
    | .error e => .error e
    | .ok (sv', bufferLoopCount', log') =>
      match restartVoicesSlots engine key (slot + 1) rest bufferLoopCount' log' with
      | .error e => .error e
      | .ok (rest', bufferLoopCount'', log'') =>
        .ok (some sv' :: rest', bufferLoopCount'', log'')

/-- The outer loop of `RestartFailedSoundEffects` over the map. -/
def restartEffectsSlots (engine : Bool) :
    List (String × SoundEffectSlots) → List Cmd →
      Except Fault (List (String × SoundEffectSlots) × List Cmd)
  | [], log => .ok ([], log)
  | (key, soundEffect) :: rest, log =>
    match criticalErrorCountSlots soundEffect.m_sourceVoices with
    | .error e => .error e
    | .ok count =>
      if count ≤ 0 then
        match restartEffectsSlots engine rest log with
        | .error e => .error e
        | .ok (rest', log') => .ok ((key, soundEffect) :: rest', log')
      else
        match restartVoicesSlots engine key 0 soundEffect.m_sourceVoices
            soundEffect.m_audioBuffer_LoopCount log with
        | .error e => .error e
        | .ok (voices, bufferLoopCount, log') =>
          match restartEffectsSlots engine rest log' with
          | .error e => .error e
          | .ok (rest', log'') =>
            .ok ((key, { soundEffect with m_sourceVoices := voices
                                          m_audioBuffer_LoopCount := bufferLoopCount }) :: rest',
                 log'')

/-- Source function `AudioEngine::RestartFailedSoundEffects`, on vectors with null slots. -/
def RestartFailedSoundEffectsSlots (st : AudioEngineSlots) : Except Fault AudioEngineSlots :=
  if st.engine.m_soundEffectsOff then .ok st
  else
    match restartEffectsSlots st.engine.m_soundEffectsEngine st.m_soundEffectsMap
        st.engine.log with
    | .error e => .error e
    | .ok (map, log) =>
      .ok { engine := { st.engine with log := log }, m_soundEffectsMap := map }

/-- Apply a callback to the voice that the slot `slot` of a vector holds, if it holds one. -/
def modifySlot (f : SourceVoice → SourceVoice) :
    List (Option SourceVoice) → Nat → List (Option SourceVoice)
  | [], _ => []
  | element :: rest, 0 => element.map f :: rest
  | element :: rest, slot + 1 => element :: modifySlot f rest slot

/-- A callback of the mixing backend on the voice in the slot `slot` of the effect
`filename`. -/
def voiceCallbackSlots (f : SourceVoice → SourceVoice) (filename : String) (slot : Nat)
    (st : AudioEngineSlots) : AudioEngineSlots :=
  match mapFind st.m_soundEffectsMap filename with
  | none => st
  | some soundEffect =>
    let soundEffect := { soundEffect with
      m_sourceVoices := modifySlot f soundEffect.m_sourceVoices slot }
    { st with m_soundEffectsMap := mapAssign st.m_soundEffectsMap filename soundEffect }

/-- First block of `Update`, on vectors with null slots. -/
def Update_soundEffectsEngineErrorSlots (outcome : SfxInitOutcome) (st : AudioEngineSlots)
    (result : Nat) : Except Fault (AudioEngineSlots × Nat) :=
  if st.engine.m_soundEffectsEngineCallbacks_m_error ≠ S_OK then
    let st := { st with engine := { st.engine with m_soundEffectsEngineCallbacks_m_error := S_OK } }
    match InitializeSoundEffectsEngineSlots outcome st with
    | .error e => .error e
    | .ok st =>
      match ResumeSoundEffectsSlots st with
      | .error e => .error e
      | .ok st => .ok (st, result ||| UpdateErrorCodes.SoundEffectsEngine)
  else .ok (st, result)

/-- Source function `AudioEngine::Update`, on vectors with null slots: the two sound effect
blocks, then the music part, which does not touch the map. -/
def UpdateSlots (env : UpdateEnv) (st : AudioEngineSlots) : Except Fault (AudioEngineSlots × Nat) :=
  match Update_soundEffectsEngineErrorSlots env.sfxInit st UpdateErrorCodes.None with
  | .error e => .error e
  | .ok (st, result) =>
    match RestartFailedSoundEffectsSlots st with
    | .error e => .error e
    | .ok st =>
      match Update_music env st.engine result with
      | .error e => .error e
      | .ok (engine, result) => .ok ({ st with engine := engine }, result)

/-! ## Scenarios on one sound effect -/

/-- The slot of the voice that `PlaySoundEffect` starts when it is not capped: the first idle
voice, or the slot of the appended voice. -/
def slotToStart (voices : List SourceVoice) : Nat :=
  match findIdle voices with
  | some slot => slot
  | none => voices.length

/-- Sequential use of one effect: each call `PlaySoundEffect(filename, l, 0)` is followed by
the stream-end callback of the voice that this call started, before the next call is made. -/
def playSequentially (filename : String) :
    List Nat → AudioEngine → Except Fault AudioEngine
  | [], s => .ok s
  | loopCount :: rest, s =>
    let slot := slotToStart (poolOf s filename)
    match PlaySoundEffect filename loopCount 0 s with
    | .error e => .error e
    | .ok s' =>
      match rest with
      | [] => .ok s'
      | _ :: _ =>
        playSequentially filename rest (voiceCallback SourceVoice.OnStreamEnd filename slot s')

/-- What can happen to one sound effect in the high-water scenario. -/
inductive PoolEvent where
  | play (loopCount maxInstances : Nat)
  | streamEnd (slot : Nat)
deriving DecidableEq, Repr

def stepEvent (filename : String) : PoolEvent → AudioEngine → Except Fault AudioEngine
  | .play loopCount maxInstances, s => PlaySoundEffect filename loopCount maxInstances s
  | .streamEnd slot, s => .ok (voiceCallback SourceVoice.OnStreamEnd filename slot s)

def runEvents (filename : String) : List PoolEvent → AudioEngine → Except Fault AudioEngine
  | [], s => .ok s
  | e :: rest, s =>
    match stepEvent filename e s with
    | .error err => .error err
    | .ok s' => runEvents filename rest s'

/-- Largest number of simultaneously started voices of the effect over the states that the
run passes through, the initial and the final one included. -/
def highWater (filename : String) : List PoolEvent → AudioEngine → Nat
  | [], s => startedCount (poolOf s filename)
  | e :: rest, s =>
    max (startedCount (poolOf s filename))
      (match stepEvent filename e s with
       | .error _ => 0
       | .ok s' => highWater filename rest s')

/-- The voice that `StartSourceVoice` leaves behind. -/
def startedVoice (loopCount : Nat) : SourceVoice :=
  { m_soundEffectStarted := true, m_soundEffectLoopCount := loopCount,
    m_criticalError := false, m_hresult := S_OK }

/-- The cap test of `PlaySoundEffect`: `maxInstances > 0U` and the `uint32` count of started
voices is at least `maxInstances`. -/
def capped (maxInstances : Nat) (voices : List SourceVoice) : Prop :=
  maxInstances > 0 ∧ startedCount voices % UINT32_RANGE ≥ maxInstances


/-! ## Concrete states used to instantiate the theorems -/

/-- A loaded sound effect with an empty pool. -/
def demoEffect : SoundEffect :=
  { m_audioBuffer_LoopCount := 0, m_sourceVoices := [],
    m_soundEffectBufferLength := 4096, m_soundEffectSampleRate := 44100 }

/-- An engine whose mixing backend is up, with `laser.wav` loaded and no voice yet. -/
def demoEngine : AudioEngine :=
  { AudioEngine.new with
    m_soundEffectsEngine := true
    m_masteringVoice := true
    m_soundEffectsMap := [("laser.wav", demoEffect)] }

/-- The same engine with two started voices in the pool of `laser.wav`. -/
def demoEngineTwoStarted : AudioEngine :=
  { demoEngine with
    m_soundEffectsMap :=
      [("laser.wav", { demoEffect with m_sourceVoices := [startedVoice 0, startedVoice 3] })] }

/-! ## Reading the restart sweep -/

/-- The source voice that a native call of the mixing backend acts on, if any. -/
def Cmd.voice : Cmd → Option (String × Nat)
  | .CreateSourceVoice key slot => some (key, slot)
  | .DestroySourceVoice key slot => some (key, slot)
  | .SubmitSourceBuffer key slot _ => some (key, slot)
  | .VoiceStart key slot => some (key, slot)
  | .VoiceStop key slot _ => some (key, slot)
  | _ => none

/-- The error codes for which `RestartFailedSoundEffects` recreates the voice. -/
def recoverable (hr : HRESULT) : Prop :=
  hr = XAUDIO2_E_INVALID_CALL ∨ hr = XAUDIO2_E_DEVICE_INVALIDATED

instance (hr : HRESULT) : Decidable (recoverable hr) := by
  unfold recoverable; infer_instance

/-- Closed form of what the sweep does to one voice. -/
def sweptVoice (sv : SourceVoice) : SourceVoice :=
  if sv.m_criticalError then
    if recoverable sv.m_hresult then startedVoice sv.m_soundEffectLoopCount
    else { sv with m_criticalError := false, m_hresult := S_OK, m_soundEffectStarted := false }
  else sv

/-- Closed form of the native calls that the sweep makes for one voice. -/
def sweptVoiceCmds (key : String) (slot : Nat) (sv : SourceVoice) : List Cmd :=
  if sv.m_criticalError ∧ recoverable sv.m_hresult then
    [Cmd.CreateSourceVoice key slot,
     Cmd.SubmitSourceBuffer key slot sv.m_soundEffectLoopCount,
     Cmd.VoiceStart key slot]
  else []

/-- Closed form of the native calls that the sweep makes for one pool, from `slot` on. -/
def sweptPoolCmds (key : String) : Nat → List SourceVoice → List Cmd
  | _, [] => []
  | slot, sv :: rest => sweptVoiceCmds key slot sv ++ sweptPoolCmds key (slot + 1) rest

/-- Closed form of the native calls that the sweep makes for the whole map. -/
def sweptMapCmds : List (String × SoundEffect) → List Cmd
  | [] => []
  | (key, soundEffect) :: rest =>
    sweptPoolCmds key 0 soundEffect.m_sourceVoices ++ sweptMapCmds rest

/-- The commands that start a track: `SetSource` and `Play`. -/
def MusicCmd.isStart : MusicCmd → Bool
  | .SetSource _ => true
  | .Play => true
  | _ => false

/-- The `SetSource` / `Play` commands of a log, in order. -/
def startCmds (log : List MusicCmd) : List MusicCmd := log.filter MusicCmd.isStart

/-- The commands that start up or shut down Media Foundation and the media engine. -/
def MusicCmd.isInitialize : MusicCmd → Bool
  | .MFStartup => true
  | .MFShutdown => true
  | .Create => true
  | .Shutdown => true
  | _ => false

/-- The start-up and shut-down commands of a log, in order. -/
def initializeCmds (log : List MusicCmd) : List MusicCmd := log.filter MusicCmd.isInitialize

/-- The fields that the sound effect side of the engine never writes. -/
structure SameMusic (s s' : AudioEngine) : Prop where
  musicEngine : s'.m_musicEngine = s.m_musicEngine
  notify : s'.m_mediaEngineNotify = s.m_mediaEngineNotify
  queue : s'.m_musicQueue = s.m_musicQueue
  mediaFoundation : s'.m_mediaFoundationStartupShutdown = s.m_mediaFoundationStartupShutdown
  disabled : s'.m_musicDisabledNoMediaFoundation = s.m_musicDisabledNoMediaFoundation
  musicOff : s'.m_musicOff = s.m_musicOff
  musicVolume : s'.m_musicVolume = s.m_musicVolume
  playing : s'.m_musicIsPlaying = s.m_musicIsPlaying
  paused : s'.m_musicIsPaused = s.m_musicIsPaused
  position : s'.m_musicPosition = s.m_musicPosition
  musicLog : s'.musicLog = s.musicLog

/-- The mixing backend exists whenever sound effects are on. -/
def SfxBackendPresent (s : AudioEngine) : Prop :=
  s.m_soundEffectsOff = false → s.m_soundEffectsEngine = true

/-- One frame of the looping scenario: the media engine reports `PLAYING` (when
`playingNotified`) and then `ENDED`, and the game calls `Update`. -/
structure FinishedTick where
  playingNotified : Bool
  env : UpdateEnv
deriving DecidableEq, Repr

def FinishedTick.run (t : FinishedTick) (s : AudioEngine) : Except Fault AudioEngine :=
  let s := if t.playingNotified then notifyEvent .PLAYING s else s
  let s := notifyEvent .ENDED s
  match Update t.env s with
  | .error e => .error e
  | .ok (s, _) => .ok s

/-- Consecutive frames, each of which processes a 'track finished' notification. -/
def runFinishedTicks : List FinishedTick → AudioEngine → Except Fault AudioEngine
  | [], s => .ok s
  | t :: rest, s =>
    match t.run s with
    | .error e => .error e
    | .ok s' => runFinishedTicks rest s'

/-- Music is on, available and logically playing, with `n` as the state of the notification
handler. -/
structure MusicLive (s : AudioEngine) (n : MediaEngineNotify) : Prop where
  musicOn : s.m_musicOff = false
  available : s.m_musicDisabledNoMediaFoundation = false
  engine : s.m_musicEngine = true
  handler : s.m_mediaEngineNotify = some n
  playing : s.m_musicIsPlaying = true
  notPaused : s.m_musicIsPaused = false

/-- The `SetSource` / `Play` pair that starts the track `filename`. -/
def startOf (filename : String) : List MusicCmd :=
  [MusicCmd.SetSource filename, MusicCmd.Play]

/-- The `SetSource` / `Play` pairs of `k` consecutive starts of the track `filename`. -/
def startsOf (filename : String) : Nat → List MusicCmd
  | 0 => []
  | k + 1 => startOf filename ++ startsOf filename k

/-- Native answers of an uneventful frame. -/
def demoEnv : UpdateEnv :=
  { sfxInit := .ok, mfStartupOk := true, musicInit := .ok,
    isPausedOnAdvance := false, isPausedOnRecovery := false }

/-- A frame in which the media engine reports `PLAYING` and then `ENDED`. -/
def demoTick : FinishedTick := { playingNotified := true, env := demoEnv }

/-- An engine with both backends up and an empty music queue. -/
def demoMusicEngine : AudioEngine :=
  { demoEngine with
    m_musicEngine := true
    m_mediaEngineNotify := some MediaEngineNotify.InitializeVariables
    m_mediaFoundationStartupShutdown := { m_wasStarted := true } }

/-- The queue entry of `a.wav` with three loops. -/
def demoEntryA : MusicQueueEntry :=
  { Filename := "C:\\game\\a.wav", LoopCount := 3, AutoPlayAfterPreviousMusic := true }

/-- The queue entry of `b.wav`, played once, started automatically. -/
def demoEntryB : MusicQueueEntry :=
  { Filename := "C:\\game\\b.wav", LoopCount := 0, AutoPlayAfterPreviousMusic := true }

/-- The music engine with the queue `[a.wav (3 loops), b.wav]`. -/
def demoMusicEngineAB : AudioEngine :=
  { demoMusicEngine with m_musicQueue := [demoEntryA, demoEntryB] }

/-- The engine with two started voices of `laser.wav` at the moment the mixing backend has
reported the critical error `XAUDIO2_E_DEVICE_INVALIDATED` through `OnCriticalError`. -/
def demoEngineCriticalError : AudioEngine :=
  { demoEngineTwoStarted with
    m_soundEffectsEngineCallbacks_m_error := XAUDIO2_E_DEVICE_INVALIDATED }

/-- The music engine after `AddMusicToQueue("a.wav", 0)` and `AddMusicToQueue("b.wav", -1)`. -/
def demoMusicEngineInfiniteB : AudioEngine :=
  AddMusicToQueue "C:\\game" "b.wav" (-1) true
    (AddMusicToQueue "C:\\game" "a.wav" 0 true demoMusicEngine)

/-- The music engine after `AddMusicToQueue("b.wav", 0)` and
`AddMusicToQueue("c.wav", loopCount, false)`. -/
def demoMusicEngineWaitingC (loopCount : Int) : AudioEngine :=
  AddMusicToQueue "C:\\game" "c.wav" loopCount false
    (AddMusicToQueue "C:\\game" "b.wav" 0 true demoMusicEngine)

/-- The music engine after `AddMusicToQueue("b.wav", -1)` alone. -/
def demoMusicEngineOnlyInfiniteB : AudioEngine :=
  AddMusicToQueue "C:\\game" "b.wav" (-1) true demoMusicEngine

/-- A voice that has played to its end. -/
def idleVoice : SourceVoice := (startedVoice 0).OnStreamEnd

/-- The engine with `laser.wav` loaded and the pool `voices`. -/
def demoEngineWithPool (voices : List SourceVoice) : AudioEngine :=
  { demoEngine with
    m_soundEffectsMap := [("laser.wav", { demoEffect with m_sourceVoices := voices })] }

/-! ## Frames while a track is playing -/

/-- One frame while a track plays: the media engine reports `PLAYING` (when
`playingNotified`), nothing else, and the game calls `Update`. -/
structure PlayingTick where
  playingNotified : Bool
  env : UpdateEnv
deriving DecidableEq, Repr

def PlayingTick.run (t : PlayingTick) (s : AudioEngine) : Except Fault AudioEngine :=
  let s := if t.playingNotified then notifyEvent .PLAYING s else s
  match Update t.env s with
  | .error e => .error e
  | .ok (s, _) => .ok s

/-- Consecutive frames in which the media engine reports nothing but `PLAYING`. -/
def runPlayingTicks : List PlayingTick → AudioEngine → Except Fault AudioEngine
  | [], s => .ok s
  | t :: rest, s =>
    match t.run s with
    | .error e => .error e
    | .ok s' => runPlayingTicks rest s'

/-- The `SetCurrentTime` commands of a log, in order. -/
def seekCmds (log : List MusicCmd) : List MusicCmd :=
  log.filter (fun c => match c with
    | .SetCurrentTime _ => true
    | _ => false)

/-- The music engine in the middle of `a.wav`, with `b.wav` queued behind it. -/
def demoMusicEnginePlayingA : AudioEngine :=
  { demoMusicEngineAB with
    musicLog := [MusicCmd.SetSource "C:\\game\\a.wav", MusicCmd.Play]
    m_musicIsPlaying := true }

/-- The same engine with music paused at 12 seconds and then turned off. -/
def demoMusicEnginePausedThenOff : AudioEngine :=
  { demoMusicEnginePlayingA with
    m_musicEngine := false
    m_mediaEngineNotify := none
    m_mediaFoundationStartupShutdown := { m_wasStarted := false }
    m_musicOff := true
    m_musicIsPaused := true
    m_musicPosition := 12 }

/-! ## Sequences of calls on `MediaFoundationStartupShutdown` -/

/-- A call on a `MediaFoundationStartupShutdown`; `nativeOk` is the success of `MFStartup`
should the call reach it. -/
inductive StartupShutdownCall where
  | Startup (nativeOk : Bool)
  | Shutdown
deriving DecidableEq, Repr

/-- One call: the object after it, and the native calls it has made, each with its success. -/
def StartupShutdownCall.run (c : StartupShutdownCall) (m : MediaFoundationStartupShutdown) :
    MediaFoundationStartupShutdown × List (MusicCmd × Bool) :=
  match c with
  | .Startup nativeOk =>
    let (_, m', cmds) := m.Startup nativeOk
    (m', cmds.map (fun cmd => (cmd, nativeOk)))
  | .Shutdown =>
    let (m', cmds) := m.Shutdown
    (m', cmds.map (fun cmd => (cmd, true)))

/-- A sequence of calls: the object after them, and the native calls made, in order. -/
def runStartupShutdown :
    List StartupShutdownCall → MediaFoundationStartupShutdown →
      MediaFoundationStartupShutdown × List (MusicCmd × Bool)
  | [], m => (m, [])
  | c :: rest, m =>
    let (m', native) := c.run m
    let (m'', native') := runStartupShutdown rest m'
    (m'', native ++ native')

/-- Number of successful `MFStartup` calls in a record of native calls. -/
def startupsSucceeded (native : List (MusicCmd × Bool)) : Nat :=
  native.countP (fun call => decide (call = (MusicCmd.MFStartup, true)))

/-- Number of `MFShutdown` calls in a record of native calls. -/
def shutdownsMade (native : List (MusicCmd × Bool)) : Nat :=
  native.countP (fun call => decide (call.1 = MusicCmd.MFShutdown))

/-! ## Sequences of calls of `SetWindowIsDeactivated` -/

/-- Consecutive calls `SetWindowIsDeactivated(b)`, one for each `b` of the list. -/
def runSetWindowIsDeactivated : List Bool → DirectXBase → DirectXBase
  | [], d => d
  | isDeactivated :: rest, d =>
    runSetWindowIsDeactivated rest (d.SetWindowIsDeactivated isDeactivated)

/-- The reference count as the header comment describes it, on unbounded naturals: `true`
adds one, `false` takes one away unless the count is zero. -/
def countAfter (isDeactivated : Bool) (count : Nat) : Nat :=
  if isDeactivated then count + 1 else count - 1

/-- The count after a sequence of calls. -/
def countAfterAll : List Bool → Nat → Nat
  | [], count => count
  | isDeactivated :: rest, count => countAfterAll rest (countAfter isDeactivated count)

/-- The count stays below `2 ^ 32` throughout a sequence of calls. -/
def countStaysInRange : List Bool → Nat → Prop
  | [], count => count < UINT32_RANGE
  | isDeactivated :: rest, count =>
    count < UINT32_RANGE ∧ countStaysInRange rest (countAfter isDeactivated count)

/-- The notifications expected of a sequence of calls: one, carrying `true`, for each step of
the count from 0 to 1, and one, carrying `false`, for each step from 1 to 0. -/
def edgesOf : List Bool → Nat → List Bool
  | [], _ => []
  | isDeactivated :: rest, count =>
    (if count = 0 ∧ countAfter isDeactivated count = 1 then [true]
     else if count = 1 ∧ countAfter isDeactivated count = 0 then [false]
     else []) ++ edgesOf rest (countAfter isDeactivated count)

/-! ## Executions of the engine -/

/-- The transitions of an execution: every member function in the `public:` section of
`AudioEngine` (`AudioEngine.h`), each with its arguments and with the answers of the native
side it may need, and the native callbacks.  The overloads of `AddMusicToQueue`,
`LoadSoundEffect` and `PlaySoundEffect` with fewer arguments forward to the ones listed; the
constructor starts an execution and the destructor ends it.  The three accessors of the
`internal:` section hand out the native handles and write no member. -/
inductive Op where
  | InitializeMusicEngine (mfStartupOk : Bool) (outcome : MusicInitOutcome)
  | ShutdownMusicEngine
  | InitializeSoundEffectsEngine (outcome : SfxInitOutcome)
  | ShutdownSoundEffectsEngine
  | Update (env : UpdateEnv)
  | AddMusicToQueue (installedLocation filename : String) (loopCount : Int)
      (autoPlayAfterPreviousMusic : Bool)
  | ClearMusicQueue
  | MoveToNextMusicInQueue (isPaused : Bool)
  | PlayMusic (isPaused : Bool)
  | PlayMusicVolumeTestSound (installedLocation : String)
  | PlaySoundEffectsVolumeTestSound (bufferLength sampleRate : Nat)
  | LoadSoundEffect (filename : String) (forceReload : Bool) (bufferLength sampleRate : Nat)
  | UnloadSoundEffect (filename : String)
  | PlaySoundEffect (filename : String) (loopCount maxInstances : Nat)
  | StopSoundEffect (filename : String) (playTails : Bool)
  | ClearUnusedSourceVoices (filename : String)
  | GetNoMediaFoundation
  | GetMusicOff
  | SetMusicOnOff (turnOff mfStartupOk : Bool) (outcome : MusicInitOutcome) (isPaused : Bool)
  | GetSoundEffectsOff
  | SetSoundEffectsOnOff (turnOff : Bool) (outcome : SfxInitOutcome)
  | GetMusicVolume
  | SetMusicVolume (volume : ℚ)
  | GetSoundEffectsVolume
  | SetSoundEffectsVolume (volume : ℚ)
  | PauseMusic (currentTime : ℚ)
  | ResumeMusic (isPaused : Bool)
  | ResumeMusicAtTime (isPaused : Bool) (seconds : ℚ)
  | GetMusicCurrentTime (currentTime : ℚ)
  | SetMusicCurrentTime (seconds : ℚ)
  | PauseSoundEffects
  | ResumeSoundEffects
  | RestartFailedSoundEffects
  | OnStreamEnd (filename : String) (slot : Nat)
  | OnLoopEnd (filename : String) (slot : Nat)
  | OnVoiceError (filename : String) (slot : Nat) (Error : HRESULT)
  | OnCriticalError (Error : HRESULT)
  | EventNotify (meEvent : MediaEngineEvent)
deriving DecidableEq, Repr

/-- The engine after one transition.  The member functions of the music side, the volume
setter and the two callbacks that do not concern a voice leave the sound effects map alone
and run on `engine`; the others are the functions on vectors with null slots.  The getters
return a member and change nothing. -/
def step : Op → AudioEngineSlots → Except Fault AudioEngineSlots
  | .InitializeMusicEngine mfStartupOk outcome, st =>
    st.call (InitializeMusicEngine mfStartupOk outcome)
  | .ShutdownMusicEngine, st => st.call (fun s => .ok (ShutdownMusicEngine s))
  | .InitializeSoundEffectsEngine outcome, st => InitializeSoundEffectsEngineSlots outcome st
  | .ShutdownSoundEffectsEngine, st => .ok (ShutdownSoundEffectsEngineSlots st)
  | .Update env, st => (UpdateSlots env st).map Prod.fst
  | .AddMusicToQueue installedLocation filename loopCount autoPlayAfterPreviousMusic, st =>
    st.call (fun s =>
      .ok (AddMusicToQueue installedLocation filename loopCount autoPlayAfterPreviousMusic s))
  | .ClearMusicQueue, st => st.call (fun s => .ok (ClearMusicQueue s))
  | .MoveToNextMusicInQueue isPaused, st => st.call (MoveToNextMusicInQueue isPaused)
  | .PlayMusic isPaused, st => st.call (PlayMusic isPaused)
  | .PlayMusicVolumeTestSound installedLocation, st =>
    st.call (PlayMusicVolumeTestSound installedLocation)
  | .PlaySoundEffectsVolumeTestSound bufferLength sampleRate, st =>
    PlaySoundEffectsVolumeTestSoundSlots bufferLength sampleRate st
  | .LoadSoundEffect filename forceReload bufferLength sampleRate, st =>
    .ok (LoadSoundEffectSlots filename forceReload bufferLength sampleRate st)
  | .UnloadSoundEffect filename, st => UnloadSoundEffectSlots filename st
  | .PlaySoundEffect filename loopCount maxInstances, st =>
    PlaySoundEffectSlots filename loopCount maxInstances st
  | .StopSoundEffect filename playTails, st => StopSoundEffectSlots filename playTails st
  | .ClearUnusedSourceVoices filename, st => ClearUnusedSourceVoicesSlots filename st
  | .GetNoMediaFoundation, st => .ok st
  | .GetMusicOff, st => .ok st
  | .SetMusicOnOff turnOff mfStartupOk outcome isPaused, st =>
    st.call (fun s => (SetMusicOnOff turnOff mfStartupOk outcome isPaused s).map Prod.fst)
  | .GetSoundEffectsOff, st => .ok st
  | .SetSoundEffectsOnOff turnOff outcome, st =>
    (SetSoundEffectsOnOffSlots turnOff outcome st).map Prod.fst
  | .GetMusicVolume, st => .ok st
  | .SetMusicVolume volume, st => st.call (SetMusicVolume volume)
  | .GetSoundEffectsVolume, st => .ok st
  | .SetSoundEffectsVolume volume, st => st.call (SetSoundEffectsVolume volume)
  | .PauseMusic currentTime, st =>
    st.call (fun s => (PauseMusic currentTime s).map Prod.fst)
  | .ResumeMusic isPaused, st => st.call (ResumeMusic isPaused)
  | .ResumeMusicAtTime isPaused seconds, st => st.call (ResumeMusicAtTime isPaused seconds)
  | .GetMusicCurrentTime currentTime, st =>
    st.call (fun s => (GetMusicCurrentTime currentTime s).map Prod.fst)
  | .SetMusicCurrentTime seconds, st => st.call (fun s => .ok (SetMusicCurrentTime seconds s))
  | .PauseSoundEffects, st => PauseSoundEffectsSlots st
  | .ResumeSoundEffects, st => ResumeSoundEffectsSlots st
  | .RestartFailedSoundEffects, st => RestartFailedSoundEffectsSlots st
  | .OnStreamEnd filename slot, st =>
    .ok (voiceCallbackSlots SourceVoice.OnStreamEnd filename slot st)
  | .OnLoopEnd filename slot, st =>
    .ok (voiceCallbackSlots SourceVoice.OnLoopEnd filename slot st)
  | .OnVoiceError filename slot Error, st =>
    .ok (voiceCallbackSlots (fun sv => sv.OnVoiceError Error) filename slot st)
  | .OnCriticalError Error, st => st.call (fun s => .ok (OnCriticalError Error s))
  | .EventNotify meEvent, st => st.call (fun s => .ok (notifyEvent meEvent s))

/-- The engine after a sequence of transitions. -/
def runOps : List Op → AudioEngineSlots → Except Fault AudioEngineSlots
  | [], st => .ok st
  | op :: rest, st =>
    match step op st with
    | .error e => .error e
    | .ok st' => runOps rest st'

/-- Whether a transition is a call of `ClearUnusedSourceVoices`. -/
def Op.clearsUnusedSourceVoices : Op → Bool
  | .ClearUnusedSourceVoices _ => true
  | _ => false

/-- The fields that the music side of the engine never writes. -/
structure SameSfx (s s' : AudioEngine) : Prop where
  error : s'.m_soundEffectsEngineCallbacks_m_error = s.m_soundEffectsEngineCallbacks_m_error
  engine : s'.m_soundEffectsEngine = s.m_soundEffectsEngine
  masteringVoice : s'.m_masteringVoice = s.m_masteringVoice
  map : s'.m_soundEffectsMap = s.m_soundEffectsMap
  soundEffectsOff : s'.m_soundEffectsOff = s.m_soundEffectsOff
  soundEffectsVolume : s'.m_soundEffectsVolume = s.m_soundEffectsVolume
  log : s'.log = s.log

/-- Every pool is empty if sound effects are off. -/
def PoolsEmptyWhenOff (s : AudioEngine) : Prop :=
  s.m_soundEffectsOff = true → ∀ entry ∈ s.m_soundEffectsMap, entry.2.m_sourceVoices = []

/-- The mixing backend and its mastering voice exist whenever sound effects are on. -/
def SfxPresent (s : AudioEngine) : Prop :=
  s.m_soundEffectsOff = false → s.m_soundEffectsEngine = true ∧ s.m_masteringVoice = true

/-- The media engine and its notification handler exist whenever music is on and available,
and the handler never exists without the media engine. -/
def MusicPresent (s : AudioEngine) : Prop :=
  (s.m_musicOff = false → s.m_musicDisabledNoMediaFoundation = false →
    s.m_musicEngine = true ∧ s.m_mediaEngineNotify.isSome = true) ∧
  (s.m_mediaEngineNotify.isSome = true → s.m_musicEngine = true)

/-- Backend presence, the two halves together. -/
def BackendPresent (s : AudioEngine) : Prop := MusicPresent s ∧ SfxPresent s

/-- What a transition keeps: the playing flag once it is set, and the three invariants. -/
structure Preserved (s s' : AudioEngine) : Prop where
  playing : s.m_musicIsPlaying = true → s'.m_musicIsPlaying = true
  music : MusicPresent s → MusicPresent s'
  pools : PoolsEmptyWhenOff s → PoolsEmptyWhenOff s'
  sfx : SfxPresent s → SfxPresent s'

/-- The media engine handler with its error flag set to `flag`, if there is a handler. -/
def withErrorOccurred (flag : Bool) (s : AudioEngine) : AudioEngine :=
  match s.m_mediaEngineNotify with
  | none => s
  | some n => { s with m_mediaEngineNotify := some { n with m_errorOccurred := flag } }

/-- What the handler of the media engine has recorded of an error. -/
def MediaEngineNotify.errorRecord (n : MediaEngineNotify) : Bool × MF_MEDIA_ENGINE_ERR × HRESULT :=
  (n.m_errorOccurred, n.m_errorType, n.m_hresult)

/-- What the music controls, and the queue and seek blocks of a tick, keep: the sound effect
side, the handles of the music side, the error record of the handler, and the playing flag
once it is set. -/
structure MusicFrame (s s' : AudioEngine) : Prop where
  sfx : SameSfx s s'
  musicEngine : s'.m_musicEngine = s.m_musicEngine
  mediaFoundation : s'.m_mediaFoundationStartupShutdown = s.m_mediaFoundationStartupShutdown
  disabled : s'.m_musicDisabledNoMediaFoundation = s.m_musicDisabledNoMediaFoundation
  musicOff : s'.m_musicOff = s.m_musicOff
  handler : s'.m_mediaEngineNotify.map MediaEngineNotify.errorRecord =
    s.m_mediaEngineNotify.map MediaEngineNotify.errorRecord
  playing : s.m_musicIsPlaying = true → s'.m_musicIsPlaying = true

/-- What the sound effect controls keep: the music side, and the two invariants of the sound
effect side. -/
structure SfxFrame (s s' : AudioEngine) : Prop where
  music : SameMusic s s'
  pools : PoolsEmptyWhenOff s → PoolsEmptyWhenOff s'
  present : SfxPresent s → SfxPresent s'

/-- Every vector of voices is empty if sound effects are off. -/
def SlotsEmptyWhenOff (st : AudioEngineSlots) : Prop :=
  st.engine.m_soundEffectsOff = true →
    ∀ entry ∈ st.m_soundEffectsMap, entry.2.m_sourceVoices = []

/-- No vector of voices holds a null slot. -/
def NoNullSlots (st : AudioEngineSlots) : Prop :=
  ∀ entry ∈ st.m_soundEffectsMap, ∀ element ∈ entry.2.m_sourceVoices, element ≠ none

/-- What a transition of an execution keeps: the playing flag once it is set, and the three
invariants. -/
structure PreservedSlots (st st' : AudioEngineSlots) : Prop where
  playing : st.engine.m_musicIsPlaying = true → st'.engine.m_musicIsPlaying = true
  music : MusicPresent st.engine → MusicPresent st'.engine
  slots : SlotsEmptyWhenOff st → SlotsEmptyWhenOff st'
  sfx : SfxPresent st.engine → SfxPresent st'.engine

/-- What the sound effect transitions keep: the music side, and the two invariants of the
sound effect side. -/
structure SfxFrameSlots (st st' : AudioEngineSlots) : Prop where
  music : SameMusic st.engine st'.engine
  slots : SlotsEmptyWhenOff st → SlotsEmptyWhenOff st'
  present : SfxPresent st.engine → SfxPresent st'.engine

/-- The engine after a sequence of transitions from `st`; `st` itself if one of them
faults. -/
def stateAfter (ops : List Op) (st : AudioEngineSlots) : AudioEngineSlots :=
  match runOps ops st with
  | .ok st' => st'
  | .error _ => st

/-- Both backends are initialised successfully, `laser.wav` is loaded and played twice, its
second voice ends and the first reports an error, unused voices are cleared, and sound
effects are turned off. -/
def demoOpsSoundEffectsOff : List Op :=
  [Op.InitializeMusicEngine true .ok, Op.InitializeSoundEffectsEngine .ok,
   Op.LoadSoundEffect "laser.wav" false 4096 44100, Op.PlaySoundEffect "laser.wav" 0 0,
   Op.PlaySoundEffect "laser.wav" 0 0, Op.OnStreamEnd "laser.wav" 1,
   Op.OnVoiceError "laser.wav" 0 XAUDIO2_E_INVALID_CALL,
   Op.ClearUnusedSourceVoices "laser.wav",
   Op.SetSoundEffectsOnOff true .ok]

/-- The two initialisations that `Game` makes after constructing the engine. -/
def demoOpsInitialize : List Op :=
  [Op.InitializeMusicEngine true .ok, Op.InitializeSoundEffectsEngine .ok]

/-- A track ends and is ticked away, the queue is cleared, music is paused, turned off and
skipped, and unused voices are cleared. -/
def demoOpsAfterPlaying : List Op :=
  [Op.EventNotify .ENDED, Op.Update demoEnv, Op.ClearMusicQueue, Op.PauseMusic 3,
   Op.SetMusicOnOff true true .ok false, Op.MoveToNextMusicInQueue false,
   Op.ClearUnusedSourceVoices "laser.wav"]

/-- The engine of an execution whose members are those of `s` and whose vectors of voices are
those of `s`, none of them with a null slot. -/
def AudioEngineSlots.ofAudioEngine (s : AudioEngine) : AudioEngineSlots :=
  { engine := s
    m_soundEffectsMap := s.m_soundEffectsMap.map (fun entry =>
      (entry.1,
        { m_audioBuffer_LoopCount := entry.2.m_audioBuffer_LoopCount
          m_sourceVoices := entry.2.m_sourceVoices.map some
          m_soundEffectBufferLength := entry.2.m_soundEffectBufferLength
          m_soundEffectSampleRate := entry.2.m_soundEffectSampleRate })) }

/-- The music engine in the middle of `a.wav` with an error of the media engine recorded by
the handler, and a critical error of the mixing backend recorded as well. -/
def demoMusicEngineWithErrors (errorType : MF_MEDIA_ENGINE_ERR) (paused : Bool) : AudioEngine :=
  { demoMusicEnginePlayingA with
    m_soundEffectsEngineCallbacks_m_error := XAUDIO2_E_DEVICE_INVALIDATED
    m_mediaEngineNotify :=
      some { MediaEngineNotify.InitializeVariables with
             m_errorOccurred := true, m_errorType := errorType }
    m_musicIsPaused := paused }

/-- The music engine paused in the middle of `a.wav` and then turned off. -/
def demoMusicEnginePausedOff : AudioEngine :=
  { demoMusicEnginePausedThenOff with musicLog := [] }

/-! ## Lemmas on the map and on pools -/

theorem mapFind_mapAssign_same (m : List (String × SoundEffect)) (key : String)
    (v v' : SoundEffect) (h : mapFind m key = some v) :
    mapFind (mapAssign m key v') key = some v' := by
  induction m with
  | nil => simp [mapFind] at h
  | cons p rest ih =>
    obtain ⟨k, w⟩ := p
    by_cases hk : k = key
    · simp [mapFind, mapAssign, hk]
    · simp [mapFind, hk] at h
      simp [mapFind, mapAssign, hk, ih h]

theorem mapFind_mapAssign_other (m : List (String × SoundEffect)) (key key' : String)
    (v' : SoundEffect) (h : key' ≠ key) :
    mapFind (mapAssign m key v') key' = mapFind m key' := by
  induction m with
  | nil => simp [mapFind, mapAssign]
  | cons p rest ih =>
    obtain ⟨k, w⟩ := p
    by_cases hk : k = key
    · have hk' : ¬ k = key' := fun h' => h (h'.symm.trans hk)
      subst hk
      simp [mapFind, mapAssign, hk']
    · by_cases hk2 : k = key'
      · subst hk2
        simp [mapFind, mapAssign, hk]
      · simp [mapFind, mapAssign, hk, hk2, ih]

theorem mapAssign_self (m : List (String × SoundEffect)) (key : String)
    (v : SoundEffect) (h : mapFind m key = some v) : mapAssign m key v = m := by
  induction m with
  | nil => rfl
  | cons p rest ih =>
    obtain ⟨k, w⟩ := p
    by_cases hk : k = key
    · simp [mapFind, hk] at h
      simp [mapAssign, hk, h]
    · simp [mapFind, hk] at h
      simp [mapAssign, hk, ih h]

theorem startedCount_le_length (voices : List SourceVoice) :
    startedCount voices ≤ voices.length := by
  unfold startedCount; exact List.countP_le_length _

theorem findIdle_none_iff (voices : List SourceVoice) :
    findIdle voices = none ↔ startedCount voices = voices.length := by
  induction voices with
  | nil => simp [findIdle, startedCount]
  | cons v rest ih =>
    have hle := startedCount_le_length rest
    unfold startedCount at ih hle ⊢
    cases hv : v.m_soundEffectStarted
    · simp only [findIdle, hv, List.countP_cons, List.length_cons]
      simp
      have hle2 := List.countP_le_length (fun voice : SourceVoice => voice.m_soundEffectStarted)
        (l := rest)
      omega
    · simp [findIdle, hv, List.countP_cons, ih]

theorem findIdle_some (voices : List SourceVoice) (slot : Nat)
    (h : findIdle voices = some slot) :
    ∃ sv, voices.get? slot = some sv ∧ sv.m_soundEffectStarted = false := by
  induction voices generalizing slot with
  | nil => simp [findIdle] at h
  | cons v rest ih =>
    cases hv : v.m_soundEffectStarted
    · simp [findIdle, hv] at h
      subst h
      exact ⟨v, by simp, hv⟩
    · simp [findIdle, hv] at h
      obtain ⟨i, hi, rfl⟩ := h
      obtain ⟨sv, h1, h2⟩ := ih i hi
      exact ⟨sv, by simpa using h1, h2⟩

theorem exists_idle_of_findIdle_ne_none (voices : List SourceVoice) :
    (∃ sv ∈ voices, sv.m_soundEffectStarted = false) ↔ findIdle voices ≠ none := by
  induction voices with
  | nil => simp [findIdle]
  | cons v rest ih =>
    cases hv : v.m_soundEffectStarted
    · simp [findIdle, hv]
    · simp [findIdle, hv, ← ih]

theorem startInPool_append (f : String) (l : Nat) (se : SoundEffect)
    (log : List Cmd) (hidle : findIdle se.m_sourceVoices = none) :
    startInPool true f l se log =
      .ok ({ se with m_audioBuffer_LoopCount := l
                     m_sourceVoices := se.m_sourceVoices ++ [startedVoice l] },
           log ++ [Cmd.CreateSourceVoice f se.m_sourceVoices.length,
                   Cmd.SubmitSourceBuffer f se.m_sourceVoices.length l,
                   Cmd.VoiceStart f se.m_sourceVoices.length]) := by
  simp only [startInPool, hidle, CreateSourceVoice, StartSourceVoice, if_true]
  simp [startedVoice, SourceVoice.new]

theorem startInPool_reuse (engine : Bool) (f : String) (l slot : Nat) (se : SoundEffect)
    (log : List Cmd) (hidle : findIdle se.m_sourceVoices = some slot) :
    startInPool engine f l se log =
      .ok ({ se with m_audioBuffer_LoopCount := l
                     m_sourceVoices := se.m_sourceVoices.set slot (startedVoice l) },
           log ++ [Cmd.SubmitSourceBuffer f slot l, Cmd.VoiceStart f slot]) := by
  obtain ⟨sv, hsv, -⟩ := findIdle_some _ _ hidle
  simp only [startInPool, hidle, hsv, StartSourceVoice]
  simp [startedVoice]

theorem poolOf_eq (s : AudioEngine) (f : String) (se : SoundEffect)
    (h : mapFind s.m_soundEffectsMap f = some se) : poolOf s f = se.m_sourceVoices := by
  simp [poolOf, h]

/-- The three outcomes of `PlaySoundEffect` on a loaded effect with sound effects on and the
mixing backend present. -/
theorem PlaySoundEffect_cases (s : AudioEngine) (f : String) (l K : Nat) (se : SoundEffect)
    (hoff : s.m_soundEffectsOff = false) (heng : s.m_soundEffectsEngine = true)
    (hfind : mapFind s.m_soundEffectsMap f = some se) :
    ∃ s', PlaySoundEffect f l K s = .ok s' ∧ s'.m_soundEffectsOff = false ∧
      s'.m_soundEffectsEngine = true ∧ (∃ se', mapFind s'.m_soundEffectsMap f = some se') ∧
      ((capped K se.m_sourceVoices ∧ s' = s) ∨
       (¬ capped K se.m_sourceVoices ∧ findIdle se.m_sourceVoices = none ∧
         poolOf s' f = se.m_sourceVoices ++ [startedVoice l] ∧
         s'.log = s.log ++ [Cmd.CreateSourceVoice f se.m_sourceVoices.length,
                   Cmd.SubmitSourceBuffer f se.m_sourceVoices.length l,
                   Cmd.VoiceStart f se.m_sourceVoices.length]) ∨
       (¬ capped K se.m_sourceVoices ∧ ∃ slot, findIdle se.m_sourceVoices = some slot ∧
         poolOf s' f = se.m_sourceVoices.set slot (startedVoice l) ∧
         s'.log = s.log ++ [Cmd.SubmitSourceBuffer f slot l, Cmd.VoiceStart f slot])) := by
  by_cases hc : capped K se.m_sourceVoices
  · refine ⟨s, ?_, hoff, heng, ⟨se, hfind⟩, Or.inl ⟨hc, rfl⟩⟩
    unfold capped at hc
    simp [PlaySoundEffect, hoff, hfind, hc]
  · have hc' := hc
    unfold capped at hc'
    cases hidle : findIdle se.m_sourceVoices with
    | none =>
      have h : PlaySoundEffect f l K s = .ok { s with
          m_soundEffectsMap := mapAssign s.m_soundEffectsMap f
            { se with m_audioBuffer_LoopCount := l
                      m_sourceVoices := se.m_sourceVoices ++ [startedVoice l] }
          log := s.log ++ [Cmd.CreateSourceVoice f se.m_sourceVoices.length,
                   Cmd.SubmitSourceBuffer f se.m_sourceVoices.length l,
                   Cmd.VoiceStart f se.m_sourceVoices.length] } := by
        simp only [PlaySoundEffect, hoff, hfind, heng, hc', startInPool_append _ _ _ _ hidle]
        rfl
      refine ⟨_, h, hoff, heng, ⟨_, mapFind_mapAssign_same _ _ _ _ hfind⟩,
        Or.inr (Or.inl ⟨hc, rfl, ?_, rfl⟩)⟩
      simp [poolOf, mapFind_mapAssign_same _ _ _ _ hfind]
    | some slot =>
      have h : PlaySoundEffect f l K s = .ok { s with
          m_soundEffectsMap := mapAssign s.m_soundEffectsMap f
            { se with m_audioBuffer_LoopCount := l
                      m_sourceVoices := se.m_sourceVoices.set slot (startedVoice l) }
          log := s.log ++ [Cmd.SubmitSourceBuffer f slot l, Cmd.VoiceStart f slot] } := by
        simp only [PlaySoundEffect, hoff, hfind, hc', startInPool_reuse _ _ _ _ _ _ hidle]
        rfl
      refine ⟨_, h, hoff, heng, ⟨_, mapFind_mapAssign_same _ _ _ _ hfind⟩,
        Or.inr (Or.inr ⟨hc, slot, rfl, ?_, rfl⟩)⟩
      simp [poolOf, mapFind_mapAssign_same _ _ _ _ hfind]

theorem poolOf_voiceCallback (g : SourceVoice → SourceVoice) (f : String) (slot : Nat)
    (s : AudioEngine) :
    poolOf (voiceCallback g f slot s) f = modifyVoice g (poolOf s f) slot := by
  unfold voiceCallback
  cases h : mapFind s.m_soundEffectsMap f with
  | none => simp [poolOf, h, modifyVoice]
  | some se => simp [poolOf, h, mapFind_mapAssign_same _ _ _ _ h]

theorem voiceCallback_frame (g : SourceVoice → SourceVoice) (f : String) (slot : Nat)
    (s : AudioEngine) :
    (voiceCallback g f slot s).m_soundEffectsOff = s.m_soundEffectsOff ∧
    (voiceCallback g f slot s).m_soundEffectsEngine = s.m_soundEffectsEngine ∧
    (voiceCallback g f slot s).log = s.log ∧
    ((∃ se, mapFind s.m_soundEffectsMap f = some se) →
      ∃ se, mapFind (voiceCallback g f slot s).m_soundEffectsMap f = some se) := by
  unfold voiceCallback
  cases h : mapFind s.m_soundEffectsMap f with
  | none => simp [h]
  | some se => simp [mapFind_mapAssign_same _ _ _ _ h]

theorem length_modifyVoice (g : SourceVoice → SourceVoice) (voices : List SourceVoice)
    (slot : Nat) : (modifyVoice g voices slot).length = voices.length := by
  induction voices generalizing slot with
  | nil => rfl
  | cons v rest ih => cases slot <;> simp [modifyVoice, ih]

theorem not_capped_zero (voices : List SourceVoice) : ¬ capped 0 voices := by
  unfold capped; omega

theorem playSequentially_single (f : String) :
    ∀ (loops : List Nat) (s : AudioEngine), loops ≠ [] → s.m_soundEffectsOff = false →
      s.m_soundEffectsEngine = true → (∃ se, mapFind s.m_soundEffectsMap f = some se) →
      (poolOf s f = [] ∨ ∃ v, poolOf s f = [v] ∧ v.m_soundEffectStarted = false) →
      ∃ s' l, playSequentially f loops s = .ok s' ∧ poolOf s' f = [startedVoice l] := by
  intro loops
  induction loops with
  | nil => intro s h; exact absurd rfl h
  | cons l rest ih =>
    intro s _ hoff heng hfind hpool
    obtain ⟨se, hse⟩ := hfind
    have hvoices : poolOf s f = se.m_sourceVoices := poolOf_eq _ _ _ hse
    obtain ⟨s1, hplay, hoff1, heng1, hfind1, hcase⟩ :=
      PlaySoundEffect_cases s f l 0 se hoff heng hse
    have hstep : poolOf s1 f = [startedVoice l] ∧ slotToStart (poolOf s f) = 0 := by
      rcases hpool with hnil | ⟨v, hv, hidle⟩
      · rw [hvoices] at hnil
        rcases hcase with ⟨hc, -⟩ | ⟨-, -, hp, -⟩ | ⟨-, slot, hslot, -, -⟩
        · exact absurd hc (not_capped_zero _)
        · rw [hp, hvoices, hnil]; exact ⟨rfl, rfl⟩
        · rw [hnil] at hslot; simp [findIdle] at hslot
      · rw [hvoices] at hv
        have hfi : findIdle se.m_sourceVoices = some 0 := by
          rw [hv]; simp [findIdle, hidle]
        rcases hcase with ⟨hc, -⟩ | ⟨-, hnone, -, -⟩ | ⟨-, slot, hslot, hp, -⟩
        · exact absurd hc (not_capped_zero _)
        · rw [hfi] at hnone; cases hnone
        · rw [hfi] at hslot
          cases hslot
          rw [hp, hvoices, hv]
          refine ⟨rfl, ?_⟩
          simp [slotToStart, findIdle, hidle]
    obtain ⟨hpool1, hslot⟩ := hstep
    cases rest with
    | nil =>
      refine ⟨s1, l, ?_, hpool1⟩
      simp [playSequentially, hplay]
    | cons l2 rest2 =>
      have hframe := voiceCallback_frame SourceVoice.OnStreamEnd f 0 s1
      have hpool2 : poolOf (voiceCallback SourceVoice.OnStreamEnd f 0 s1) f =
          [SourceVoice.OnStreamEnd (startedVoice l)] := by
        rw [poolOf_voiceCallback, hpool1]; rfl
      obtain ⟨s', l', hrun, hres⟩ :=
        ih (voiceCallback SourceVoice.OnStreamEnd f 0 s1) (by simp)
          (hframe.1.trans hoff1) (hframe.2.1.trans heng1) (hframe.2.2.2 hfind1)
          (Or.inr ⟨_, hpool2, rfl⟩)
      refine ⟨s', l', ?_, hres⟩
      simp only [playSequentially, hplay, hslot]
      exact hrun

/-- C2 (voice pool reuse).  From a loaded effect with an empty pool, sound effects on and the
mixing backend present, `N >= 1` calls `PlaySoundEffect(filename, l, 0)`, each made after the
stream-end callback of the voice started by the call before it, succeed and leave a pool of
exactly one voice, which is started. -/
theorem PlaySoundEffect_sequential_reuse (s : AudioEngine) (filename : String)
    (soundEffect : SoundEffect) (loops : List Nat)
    (hN : 1 ≤ loops.length)
    (hoff : s.m_soundEffectsOff = false)
    (heng : s.m_soundEffectsEngine = true)
    (hfind : mapFind s.m_soundEffectsMap filename = some soundEffect)
    (hempty : soundEffect.m_sourceVoices = []) :
    ∃ s' : AudioEngine, playSequentially filename loops s = .ok s' ∧
      (poolOf s' filename).length = 1 ∧
      ∀ voice ∈ poolOf s' filename, voice.m_soundEffectStarted = true := by
  have hne : loops ≠ [] := by
    intro h; rw [h] at hN; simp at hN
  obtain ⟨s', l, hrun, hpool⟩ := playSequentially_single filename loops s hne hoff heng
    ⟨_, hfind⟩ (Or.inl (by rw [poolOf_eq _ _ _ hfind, hempty]))
  refine ⟨s', hrun, by rw [hpool]; rfl, ?_⟩
  intro voice hv
  rw [hpool] at hv
  simp only [List.mem_singleton] at hv
  rw [hv]; rfl

theorem PlaySoundEffect_sequential_reuse_witness :
    ∃ s' : AudioEngine, playSequentially "laser.wav" [0, 2, 0, 1] demoEngine = .ok s' ∧
      (poolOf s' "laser.wav").length = 1 ∧
      ∀ voice ∈ poolOf s' "laser.wav", voice.m_soundEffectStarted = true :=
  PlaySoundEffect_sequential_reuse demoEngine "laser.wav" demoEffect [0, 2, 0, 1]
    (by decide) rfl rfl (by decide) rfl

theorem highWater_ge_current (f : String) (events : List PoolEvent) (s : AudioEngine) :
    startedCount (poolOf s f) ≤ highWater f events s := by
  cases events with
  | nil => exact le_refl _
  | cons e rest => exact le_max_left _ _

theorem startedCount_append_startedVoice (voices : List SourceVoice) (l : Nat)
    (h : startedCount voices = voices.length) :
    startedCount (voices ++ [startedVoice l]) = (voices ++ [startedVoice l]).length := by
  unfold startedCount at h ⊢
  rw [List.countP_append, h]
  simp [startedVoice]

/-- One event keeps the invariants of the scenario and grows the pool only up to the number
of voices that are started right after it. -/
theorem stepEvent_bound (f : String) (e : PoolEvent) (s : AudioEngine)
    (hoff : s.m_soundEffectsOff = false) (heng : s.m_soundEffectsEngine = true)
    (hfind : ∃ se, mapFind s.m_soundEffectsMap f = some se) :
    ∃ s1, stepEvent f e s = .ok s1 ∧ s1.m_soundEffectsOff = false ∧
      s1.m_soundEffectsEngine = true ∧ (∃ se, mapFind s1.m_soundEffectsMap f = some se) ∧
      (poolOf s1 f).length ≤ max (poolOf s f).length (startedCount (poolOf s1 f)) := by
  cases e with
  | play l m =>
    obtain ⟨se, hse⟩ := hfind
    obtain ⟨s1, hplay, hoff1, heng1, hfind1, hcase⟩ :=
      PlaySoundEffect_cases s f l m se hoff heng hse
    refine ⟨s1, hplay, hoff1, heng1, hfind1, ?_⟩
    rw [poolOf_eq _ _ _ hse]
    rcases hcase with ⟨-, rfl⟩ | ⟨-, hnone, hp, -⟩ | ⟨-, slot, -, hp, -⟩
    · rw [poolOf_eq _ _ _ hse]; exact le_max_left _ _
    · rw [hp, startedCount_append_startedVoice _ _ ((findIdle_none_iff _).1 hnone)]
      exact le_max_right _ _
    · rw [hp, List.length_set]; exact le_max_left _ _
  | streamEnd slot =>
    have hframe := voiceCallback_frame SourceVoice.OnStreamEnd f slot s
    refine ⟨_, rfl, hframe.1.trans hoff, hframe.2.1.trans heng, hframe.2.2.2 hfind, ?_⟩
    rw [poolOf_voiceCallback, length_modifyVoice]
    exact le_max_left _ _

theorem runEvents_bound (f : String) :
    ∀ (events : List PoolEvent) (s : AudioEngine), s.m_soundEffectsOff = false →
      s.m_soundEffectsEngine = true → (∃ se, mapFind s.m_soundEffectsMap f = some se) →
      ∃ s', runEvents f events s = .ok s' ∧ s'.m_soundEffectsOff = false ∧
        s'.m_soundEffectsEngine = true ∧ (∃ se, mapFind s'.m_soundEffectsMap f = some se) ∧
        (poolOf s' f).length ≤ max (poolOf s f).length (highWater f events s) := by
  intro events
  induction events with
  | nil =>
    intro s hoff heng hfind
    exact ⟨s, rfl, hoff, heng, hfind, le_max_left _ _⟩
  | cons e rest ih =>
    intro s hoff heng hfind
    obtain ⟨s1, hstep, hoff1, heng1, hfind1, hb1⟩ := stepEvent_bound f e s hoff heng hfind
    obtain ⟨s', hrun, hoff', heng', hfind', hb'⟩ := ih s1 hoff1 heng1 hfind1
    refine ⟨s', ?_, hoff', heng', hfind', ?_⟩
    · simp only [runEvents, hstep]; exact hrun
    · have hcur := highWater_ge_current f rest s1
      simp only [highWater, hstep]
      simp only [le_max_iff] at hb1 hb' ⊢
      omega

/-- C3 (high-water bound).  On a loaded effect with an empty pool, sound effects on and the
mixing backend present, every sequence of `PlaySoundEffect` calls (any loop count, any
`maxInstances`) and stream-end callbacks runs without fault and ends with a pool no larger
than the largest number of simultaneously started voices seen along the run.  A further
`PlaySoundEffect` from the state reached either returns the state unchanged (exactly when the
cap applies), or appends one started voice, which happens only when every voice of the pool
is started, or restarts an idle voice in place without growing the pool. -/
theorem PlaySoundEffect_high_water (s : AudioEngine) (filename : String)
    (soundEffect : SoundEffect) (events : List PoolEvent) (loopCount maxInstances : Nat)
    (hoff : s.m_soundEffectsOff = false)
    (heng : s.m_soundEffectsEngine = true)
    (hfind : mapFind s.m_soundEffectsMap filename = some soundEffect)
    (hempty : soundEffect.m_sourceVoices = []) :
    ∃ s' : AudioEngine, runEvents filename events s = .ok s' ∧
      (poolOf s' filename).length ≤ highWater filename events s ∧
      ∃ s'' : AudioEngine, PlaySoundEffect filename loopCount maxInstances s' = .ok s'' ∧
        ((capped maxInstances (poolOf s' filename) ∧ s'' = s') ∨
         (¬ capped maxInstances (poolOf s' filename) ∧
           (∀ voice ∈ poolOf s' filename, voice.m_soundEffectStarted = true) ∧
           poolOf s'' filename = poolOf s' filename ++ [startedVoice loopCount]) ∨
         (¬ capped maxInstances (poolOf s' filename) ∧
           ∃ slot idle, (poolOf s' filename).get? slot = some idle ∧
             idle.m_soundEffectStarted = false ∧
             poolOf s'' filename = (poolOf s' filename).set slot (startedVoice loopCount) ∧
             (poolOf s'' filename).length = (poolOf s' filename).length)) := by
  obtain ⟨s', hrun, hoff', heng', ⟨se', hse'⟩, hb⟩ :=
    runEvents_bound filename events s hoff heng ⟨_, hfind⟩
  refine ⟨s', hrun, ?_, ?_⟩
  · rw [poolOf_eq _ _ _ hfind, hempty] at hb
    simpa using hb
  · obtain ⟨s'', hplay, -, -, -, hcase⟩ :=
      PlaySoundEffect_cases s' filename loopCount maxInstances se' hoff' heng' hse'
    refine ⟨s'', hplay, ?_⟩
    rw [poolOf_eq _ _ _ hse']
    rcases hcase with ⟨hc, heq⟩ | ⟨hc, hnone, hp, -⟩ | ⟨hc, slot, hslot, hp, -⟩
    · exact Or.inl ⟨hc, heq⟩
    · refine Or.inr (Or.inl ⟨hc, ?_, hp⟩)
      intro voice hv
      by_contra hidle
      have hex : ∃ sv ∈ se'.m_sourceVoices, sv.m_soundEffectStarted = false :=
        ⟨voice, hv, by simpa using hidle⟩
      exact ((exists_idle_of_findIdle_ne_none _).1 hex) hnone
    · obtain ⟨idle, hget, hidle⟩ := findIdle_some _ _ hslot
      exact Or.inr (Or.inr ⟨hc, slot, idle, hget, hidle, hp, by rw [hp, List.length_set]⟩)

theorem PlaySoundEffect_high_water_witness :
    ∃ s' : AudioEngine,
      runEvents "laser.wav"
        [.play 0 0, .play 2 0, .streamEnd 0, .play 1 2, .play 0 0] demoEngine = .ok s' ∧
      (poolOf s' "laser.wav").length ≤
        highWater "laser.wav"
          [.play 0 0, .play 2 0, .streamEnd 0, .play 1 2, .play 0 0] demoEngine ∧
      ∃ s'' : AudioEngine, PlaySoundEffect "laser.wav" 5 0 s' = .ok s'' ∧
        ((capped 0 (poolOf s' "laser.wav") ∧ s'' = s') ∨
         (¬ capped 0 (poolOf s' "laser.wav") ∧
           (∀ voice ∈ poolOf s' "laser.wav", voice.m_soundEffectStarted = true) ∧
           poolOf s'' "laser.wav" = poolOf s' "laser.wav" ++ [startedVoice 5]) ∨
         (¬ capped 0 (poolOf s' "laser.wav") ∧
           ∃ slot idle, (poolOf s' "laser.wav").get? slot = some idle ∧
             idle.m_soundEffectStarted = false ∧
             poolOf s'' "laser.wav" = (poolOf s' "laser.wav").set slot (startedVoice 5) ∧
             (poolOf s'' "laser.wav").length = (poolOf s' "laser.wav").length)) :=
  PlaySoundEffect_high_water demoEngine "laser.wav" demoEffect
    [.play 0 0, .play 2 0, .streamEnd 0, .play 1 2, .play 0 0] 5 0 rfl rfl (by decide) rfl

/-! ## The restart sweep -/

theorem restartVoice_eq (key : String) (slot : Nat) (sv : SourceVoice) (buf : Nat)
    (log : List Cmd) :
    ∃ buf', restartVoice true key slot sv buf log =
      .ok (sweptVoice sv, buf', log ++ sweptVoiceCmds key slot sv) := by
  unfold restartVoice sweptVoice sweptVoiceCmds recoverable
  by_cases hc : sv.m_criticalError = true
  · by_cases hr : sv.m_hresult = XAUDIO2_E_INVALID_CALL ∨
        sv.m_hresult = XAUDIO2_E_DEVICE_INVALIDATED
    · refine ⟨sv.m_soundEffectLoopCount, ?_⟩
      simp [hc, hr, CreateSourceVoice, StartSourceVoice, startedVoice]
    · exact ⟨buf, by simp [hc, hr]⟩
  · exact ⟨buf, by simp [hc]⟩

theorem restartVoices_eq (key : String) :
    ∀ (voices : List SourceVoice) (slot buf : Nat) (log : List Cmd),
      ∃ buf', restartVoices true key slot voices buf log =
        .ok (voices.map sweptVoice, buf', log ++ sweptPoolCmds key slot voices) := by
  intro voices
  induction voices with
  | nil => intro slot buf log; exact ⟨buf, by simp [restartVoices, sweptPoolCmds]⟩
  | cons sv rest ih =>
    intro slot buf log
    obtain ⟨buf1, h1⟩ := restartVoice_eq key slot sv buf log
    obtain ⟨buf2, h2⟩ := ih (slot + 1) buf1 (log ++ sweptVoiceCmds key slot sv)
    refine ⟨buf2, ?_⟩
    simp only [restartVoices, h1, h2, sweptPoolCmds, List.map_cons, List.append_assoc]

theorem sweptVoice_of_not_flagged (sv : SourceVoice) (h : sv.m_criticalError = false) :
    sweptVoice sv = sv := by
  simp [sweptVoice, h]

theorem map_sweptVoice_of_none_flagged (voices : List SourceVoice)
    (h : voices.countP (fun voice => voice.m_criticalError) ≤ 0) :
    voices.map sweptVoice = voices := by
  induction voices with
  | nil => rfl
  | cons sv rest ih =>
    cases hc : sv.m_criticalError
    · simp only [List.countP_cons, hc] at h
      simp only [List.map_cons, sweptVoice_of_not_flagged _ hc]
      rw [ih (by simpa using h)]
    · simp [List.countP_cons, hc] at h

theorem sweptPoolCmds_of_none_flagged (key : String) (voices : List SourceVoice) (slot : Nat)
    (h : voices.countP (fun voice => voice.m_criticalError) ≤ 0) :
    sweptPoolCmds key slot voices = [] := by
  induction voices generalizing slot with
  | nil => rfl
  | cons sv rest ih =>
    cases hc : sv.m_criticalError
    · simp only [List.countP_cons, hc] at h
      simp [sweptPoolCmds, sweptVoiceCmds, hc, ih (slot + 1) (by simpa using h)]
    · simp [List.countP_cons, hc] at h

/-- Closed form of the sweep on the map: every pool is mapped through `sweptVoice`, the keys
and the order of the entries are kept. -/
theorem restartEffects_eq :
    ∀ (map : List (String × SoundEffect)) (log : List Cmd),
      ∃ map', restartEffects true map log = .ok (map', log ++ sweptMapCmds map) ∧
        map'.map Prod.fst = map.map Prod.fst ∧
        ∀ key, (mapFind map' key).map (fun se => se.m_sourceVoices) =
          (mapFind map key).map (fun se => se.m_sourceVoices.map sweptVoice) := by
  intro map
  induction map with
  | nil => intro log; exact ⟨[], by simp [restartEffects, sweptMapCmds], rfl, fun _ => rfl⟩
  | cons p rest ih =>
    obtain ⟨k, se⟩ := p
    intro log
    by_cases hcount : se.m_sourceVoices.countP (fun voice => voice.m_criticalError) ≤ 0
    · obtain ⟨rest', hrest, hkeys, hfind⟩ := ih log
      refine ⟨(k, se) :: rest', ?_, by simp [hkeys], ?_⟩
      · simp only [restartEffects, hcount, if_true, hrest, sweptMapCmds,
          sweptPoolCmds_of_none_flagged k _ 0 hcount, List.nil_append]
      · intro key
        by_cases hk : k = key
        · simp [mapFind, hk, map_sweptVoice_of_none_flagged _ hcount]
        · simp [mapFind, hk, hfind key]
    · obtain ⟨buf', hv⟩ := restartVoices_eq k se.m_sourceVoices 0 se.m_audioBuffer_LoopCount log
      obtain ⟨rest', hrest, hkeys, hfind⟩ := ih (log ++ sweptPoolCmds k 0 se.m_sourceVoices)
      refine ⟨(k, { se with m_sourceVoices := se.m_sourceVoices.map sweptVoice
                            m_audioBuffer_LoopCount := buf' }) :: rest', ?_, by simp [hkeys], ?_⟩
      · simp only [restartEffects, hcount, if_false, hv, hrest, sweptMapCmds,
          List.append_assoc]
      · intro key
        by_cases hk : k = key
        · simp [mapFind, hk]
        · simp [mapFind, hk, hfind key]

theorem SameMusic.refl (s : AudioEngine) : SameMusic s s :=
  ⟨rfl, rfl, rfl, rfl, rfl, rfl, rfl, rfl, rfl, rfl, rfl⟩

theorem SameMusic.trans {a b c : AudioEngine} (h1 : SameMusic a b) (h2 : SameMusic b c) :
    SameMusic a c :=
  ⟨h2.1.trans h1.1, h2.2.trans h1.2, h2.3.trans h1.3, h2.4.trans h1.4, h2.5.trans h1.5,
   h2.6.trans h1.6, h2.7.trans h1.7, h2.8.trans h1.8, h2.9.trans h1.9, h2.10.trans h1.10,
   h2.11.trans h1.11⟩

theorem mapFind_clearAllPools (map : List (String × SoundEffect)) (key : String) :
    (mapFind (clearAllPools map).1 key).map (fun se => se.m_sourceVoices) =
      (mapFind map key).map (fun _ => []) := by
  induction map with
  | nil => rfl
  | cons p rest ih =>
    obtain ⟨k, se⟩ := p
    by_cases hk : k = key
    · simp [clearAllPools, mapFind, hk]
    · simpa [clearAllPools, mapFind, hk] using ih

theorem ShutdownSoundEffectsEngine_frame (s : AudioEngine) :
    SameMusic s (ShutdownSoundEffectsEngine s) ∧
    (ShutdownSoundEffectsEngine s).m_soundEffectsOff = true ∧
    (ShutdownSoundEffectsEngine s).m_soundEffectsEngine = false ∧
    (ShutdownSoundEffectsEngine s).m_masteringVoice = false ∧
    (ShutdownSoundEffectsEngine s).m_soundEffectsMap = (clearAllPools s.m_soundEffectsMap).1 ∧
    (ShutdownSoundEffectsEngine s).m_soundEffectsEngineCallbacks_m_error =
      s.m_soundEffectsEngineCallbacks_m_error := by
  unfold ShutdownSoundEffectsEngine
  cases hm : s.m_masteringVoice <;> cases he : s.m_soundEffectsEngine <;>
    simp [hm, he] <;> constructor <;> rfl

theorem InitializeSoundEffectsEngine_frame (outcome : SfxInitOutcome) (s : AudioEngine) :
    ∃ s', InitializeSoundEffectsEngine outcome s = .ok s' ∧ SameMusic s s' ∧
      SfxBackendPresent s' ∧
      s'.m_soundEffectsMap = (clearAllPools s.m_soundEffectsMap).1 ∧
      s'.m_soundEffectsEngineCallbacks_m_error = s.m_soundEffectsEngineCallbacks_m_error ∧
      (outcome = .ok → s'.m_soundEffectsOff = false) := by
  obtain ⟨hsame, hoff, heng, hmast, hmap, herr⟩ := ShutdownSoundEffectsEngine_frame s
  unfold InitializeSoundEffectsEngine
  generalize ShutdownSoundEffectsEngine s = t at *
  cases outcome <;> simp [SetSoundEffectsVolume, SfxBackendPresent, hmap, herr] <;>
    exact ⟨hsame.1, hsame.2, hsame.3, hsame.4, hsame.5, hsame.6, hsame.7, hsame.8, hsame.9,
      hsame.10, hsame.11⟩

theorem ResumeSoundEffects_frame (s : AudioEngine) :
    SameMusic s (ResumeSoundEffects s) ∧
    (ResumeSoundEffects s).m_soundEffectsOff = s.m_soundEffectsOff ∧
    (ResumeSoundEffects s).m_soundEffectsEngine = s.m_soundEffectsEngine ∧
    (ResumeSoundEffects s).m_soundEffectsMap = s.m_soundEffectsMap ∧
    (ResumeSoundEffects s).m_soundEffectsEngineCallbacks_m_error =
      s.m_soundEffectsEngineCallbacks_m_error := by
  unfold ResumeSoundEffects
  by_cases h : s.m_soundEffectsOff = true
  · rw [if_pos h]
    exact ⟨SameMusic.refl s, rfl, rfl, rfl, rfl⟩
  · rw [if_neg h]
    exact ⟨⟨rfl, rfl, rfl, rfl, rfl, rfl, rfl, rfl, rfl, rfl, rfl⟩, rfl, rfl, rfl, rfl⟩

theorem RestartFailedSoundEffects_frame (s : AudioEngine) (h : SfxBackendPresent s) :
    ∃ s', RestartFailedSoundEffects s = .ok s' ∧ SameMusic s s' ∧
      s'.m_soundEffectsOff = s.m_soundEffectsOff ∧
      s'.m_soundEffectsEngine = s.m_soundEffectsEngine ∧
      s'.m_soundEffectsEngineCallbacks_m_error = s.m_soundEffectsEngineCallbacks_m_error := by
  by_cases hoff : s.m_soundEffectsOff = true
  · exact ⟨s, by simp [RestartFailedSoundEffects, hoff], SameMusic.refl s, rfl, rfl, rfl⟩
  · have hoff' : s.m_soundEffectsOff = false := by simpa using hoff
    have heng := h hoff'
    obtain ⟨map', hmap, -, -⟩ := restartEffects_eq s.m_soundEffectsMap s.log
    refine ⟨{ s with m_soundEffectsMap := map'
                     log := s.log ++ sweptMapCmds s.m_soundEffectsMap }, ?_,
      ⟨rfl, rfl, rfl, rfl, rfl, rfl, rfl, rfl, rfl, rfl, rfl⟩, rfl, rfl, rfl⟩
    simp only [RestartFailedSoundEffects, hoff', heng, hmap]
    rfl

/-- The sound effect side of `Update` never faults when the mixing backend is present
whenever sound effects are on; it leaves the music side untouched and keeps that property. -/
theorem Update_soundEffects_frame (outcome : SfxInitOutcome) (s : AudioEngine)
    (h : SfxBackendPresent s) :
    ∃ s1 r, Update_soundEffects outcome s = .ok (s1, r) ∧ SameMusic s s1 ∧
      SfxBackendPresent s1 := by
  unfold Update_soundEffects Update_soundEffectsEngineError
  by_cases herr : s.m_soundEffectsEngineCallbacks_m_error ≠ S_OK
  · obtain ⟨s1, hinit, hsame1, hpres1, -, -, -⟩ :=
      InitializeSoundEffectsEngine_frame outcome
        { s with m_soundEffectsEngineCallbacks_m_error := S_OK }
    obtain ⟨hsame2, hoff2, heng2, -, -⟩ := ResumeSoundEffects_frame s1
    have hpres2 : SfxBackendPresent (ResumeSoundEffects s1) := by
      unfold SfxBackendPresent at hpres1 ⊢
      rw [hoff2, heng2]; exact hpres1
    obtain ⟨s3, hrestart, hsame3, hoff3, heng3, -⟩ :=
      RestartFailedSoundEffects_frame (ResumeSoundEffects s1) hpres2
    refine ⟨s3, UpdateErrorCodes.None ||| UpdateErrorCodes.SoundEffectsEngine, ?_, ?_, ?_⟩
    · rw [if_pos herr]
      simp only [hinit, hrestart]
    · have h0 : SameMusic s { s with m_soundEffectsEngineCallbacks_m_error := S_OK } :=
        ⟨rfl, rfl, rfl, rfl, rfl, rfl, rfl, rfl, rfl, rfl, rfl⟩
      exact (h0.trans hsame1).trans (hsame2.trans hsame3)
    · unfold SfxBackendPresent at hpres2 ⊢
      rw [hoff3, heng3]; exact hpres2
  · obtain ⟨s3, hrestart, hsame3, hoff3, heng3, -⟩ := RestartFailedSoundEffects_frame s h
    refine ⟨s3, UpdateErrorCodes.None, ?_, hsame3, ?_⟩
    · rw [if_neg herr]
      simp only [hrestart]
    · unfold SfxBackendPresent at h ⊢
      rw [hoff3, heng3]; exact h

/-! ## The music side of a tick -/

theorem PlayMusic_track (isPaused : Bool) (t : AudioEngine) (n : MediaEngineNotify)
    (front : MusicQueueEntry) (rest : List MusicQueueEntry)
    (hoff : t.m_musicOff = false) (hdis : t.m_musicDisabledNoMediaFoundation = false)
    (heng : t.m_musicEngine = true) (hn : t.m_mediaEngineNotify = some n)
    (hq : t.m_musicQueue = front :: rest) (hname : front.Filename.isEmpty = false) :
    PlayMusic isPaused t = .ok { t with
      m_mediaEngineNotify := some { n with m_previousMusicFinished := false }
      musicLog := t.musicLog ++ [MusicCmd.SetSource front.Filename, MusicCmd.Play]
      m_musicIsPlaying := true
      m_musicIsPaused := false } := by
  simp [PlayMusic, hoff, hdis, heng, hn, hq, hname]

theorem PlayMusic_silence (isPaused : Bool) (t : AudioEngine) (n : MediaEngineNotify)
    (front : MusicQueueEntry) (rest : List MusicQueueEntry)
    (hoff : t.m_musicOff = false) (hdis : t.m_musicDisabledNoMediaFoundation = false)
    (heng : t.m_musicEngine = true) (hn : t.m_mediaEngineNotify = some n)
    (hq : t.m_musicQueue = front :: rest) (hname : front.Filename.isEmpty = true) :
    PlayMusic isPaused t = .ok { t with
      m_mediaEngineNotify := some { n with m_previousMusicFinished := true }
      musicLog := t.musicLog ++
        (MusicCmd.IsPaused :: if isPaused = false then [MusicCmd.Pause] else [])
      m_musicIsPlaying := true
      m_musicIsPaused := false } := by
  cases isPaused <;> simp [PlayMusic, hoff, hdis, heng, hn, hq, hname]

theorem Update_readyToSeek_frame (t : AudioEngine) (n : MediaEngineNotify)
    (heng : t.m_musicEngine = true) (hn : t.m_mediaEngineNotify = some n) :
    ∃ t' cmds n', Update_readyToSeek t = .ok t' ∧ t'.musicLog = t.musicLog ++ cmds ∧
      startCmds cmds = [] ∧ t'.m_mediaEngineNotify = some n' ∧
      n'.m_errorOccurred = n.m_errorOccurred ∧ n'.m_errorType = n.m_errorType ∧
      n'.m_previousMusicFinished = n.m_previousMusicFinished ∧
      t'.m_musicQueue = t.m_musicQueue ∧ t'.m_musicIsPlaying = t.m_musicIsPlaying ∧
      t'.m_musicIsPaused = t.m_musicIsPaused ∧ t'.m_musicOff = t.m_musicOff ∧
      t'.m_musicDisabledNoMediaFoundation = t.m_musicDisabledNoMediaFoundation ∧
      t'.m_musicEngine = t.m_musicEngine ∧
      t'.m_soundEffectsOff = t.m_soundEffectsOff ∧
      t'.m_soundEffectsEngine = t.m_soundEffectsEngine := by
  unfold Update_readyToSeek
  simp only [hn]
  by_cases h1 : (n.m_readyToSeek && t.m_musicIsPlaying) = true
  · by_cases h2 : t.m_musicIsPaused = true
    · refine ⟨{ t with m_mediaEngineNotify := some { n with m_readyToSeek := false } }, [],
        { n with m_readyToSeek := false }, ?_, ?_, rfl, rfl, rfl, rfl, rfl, rfl, rfl, rfl,
        rfl, rfl, rfl, rfl, rfl⟩
      · simp only [h1, if_true, h2]; rfl
      · simp
    · by_cases h3 : t.m_musicPosition ≥ 0
      · refine ⟨{ t with
            m_mediaEngineNotify := some { n with m_readyToSeek := false }
            musicLog := t.musicLog ++ [MusicCmd.SetCurrentTime t.m_musicPosition]
            m_musicPosition := -1 },
          [MusicCmd.SetCurrentTime t.m_musicPosition], { n with m_readyToSeek := false },
          ?_, rfl, rfl, rfl, rfl, rfl, rfl, rfl, rfl, rfl, rfl, rfl, rfl, rfl, rfl⟩
        simp only [h1, if_true, h2, h3, heng]; rfl
      · refine ⟨{ t with m_mediaEngineNotify := some { n with m_readyToSeek := false } }, [],
          { n with m_readyToSeek := false }, ?_, ?_, rfl, rfl, rfl, rfl, rfl, rfl, rfl, rfl,
          rfl, rfl, rfl, rfl, rfl⟩
        · simp only [h1, if_true, h2, h3]; rfl
        · simp
  · exact ⟨t, [], n, by simp only [h1]; rfl, by simp, rfl, hn, rfl, rfl, rfl, rfl, rfl, rfl,
      rfl, rfl, rfl, rfl, rfl⟩

theorem Update_musicError_none (env : UpdateEnv) (t : AudioEngine) (n : MediaEngineNotify)
    (r : Nat) (hn : t.m_mediaEngineNotify = some n) (herr : n.m_errorOccurred = false) :
    Update_musicError env t r = .ok (t, r) := by
  simp [Update_musicError, hn, herr]

theorem Update_musicError_ignored (env : UpdateEnv) (t : AudioEngine) (n : MediaEngineNotify)
    (r : Nat) (hn : t.m_mediaEngineNotify = some n) (herr : n.m_errorOccurred = true)
    (htype : n.m_errorType ≠ .DECODE) :
    Update_musicError env t r =
      .ok ({ t with m_mediaEngineNotify := some { n with m_errorOccurred := false } },
           r ||| UpdateErrorCodes.MusicEngine) := by
  simp [Update_musicError, hn, herr, htype]

theorem MusicLive.of_sameMusic {s s1 : AudioEngine} {n : MediaEngineNotify}
    (h : SameMusic s s1) (hl : MusicLive s n) : MusicLive s1 n :=
  ⟨h.musicOff.trans hl.musicOn, h.disabled.trans hl.available, h.musicEngine.trans hl.engine,
   h.notify.trans hl.handler, h.playing.trans hl.playing, h.paused.trans hl.notPaused⟩

theorem startCmds_append (a b : List MusicCmd) :
    startCmds (a ++ b) = startCmds a ++ startCmds b := by
  simp [startCmds]

/-- The music side of `Update` when the finished track still has loops left. -/
theorem Update_music_loop (env : UpdateEnv) (t : AudioEngine) (n : MediaEngineNotify)
    (r : Nat) (e : MusicQueueEntry) (rest : List MusicQueueEntry)
    (hl : MusicLive t n) (hfin : n.m_previousMusicFinished = true)
    (herr : n.m_errorOccurred = false) (hq : t.m_musicQueue = e :: rest)
    (hloop : e.LoopCount ≠ 0) (hname : e.Filename.isEmpty = false) :
    ∃ t' cmds n', Update_music env t r = .ok (t', r) ∧ MusicLive t' n' ∧
      n'.m_errorOccurred = false ∧ n'.m_previousMusicFinished = false ∧
      t'.m_musicQueue = { e with LoopCount := e.LoopCount - 1 } :: rest ∧
      t'.musicLog = t.musicLog ++ cmds ∧ startCmds cmds = startOf e.Filename ∧
      t'.m_soundEffectsOff = t.m_soundEffectsOff ∧
      t'.m_soundEffectsEngine = t.m_soundEffectsEngine := by
  obtain ⟨hoff, hdis, heng, hn, hplay, hpause⟩ := hl
  have hpos : e.LoopCount > 0 := Nat.pos_of_ne_zero hloop
  have hA : Update_previousMusicFinished env.isPausedOnAdvance t = .ok { t with
      m_musicQueue := { e with LoopCount := e.LoopCount - 1 } :: rest
      m_mediaEngineNotify := some { n with m_previousMusicFinished := false }
      musicLog := t.musicLog ++ [MusicCmd.SetSource e.Filename, MusicCmd.Play]
      m_musicIsPlaying := true
      m_musicIsPaused := false } := by
    cases t
    simp only at hoff hdis heng hn hplay hpause hq
    subst_vars
    simp [Update_previousMusicFinished, PlayMusic, hfin, hloop, hpos, hname]
  obtain ⟨t2, cmds, n2, hB, hlog, hstart, hn2, herr2, -, hfin2, hq2, hplay2, hpause2, hoff2,
    hdis2, heng2, hsoff, hseng⟩ := Update_readyToSeek_frame { t with
      m_musicQueue := { e with LoopCount := e.LoopCount - 1 } :: rest
      m_mediaEngineNotify := some { n with m_previousMusicFinished := false }
      musicLog := t.musicLog ++ [MusicCmd.SetSource e.Filename, MusicCmd.Play]
      m_musicIsPlaying := true
      m_musicIsPaused := false } { n with m_previousMusicFinished := false } heng rfl
  refine ⟨t2, [MusicCmd.SetSource e.Filename, MusicCmd.Play] ++ cmds, n2, ?_,
    ⟨hoff2.trans hoff, hdis2.trans hdis, heng2.trans heng, hn2, hplay2, hpause2⟩,
    herr2.trans herr, hfin2, hq2, ?_, ?_, hsoff, hseng⟩
  · simp only [Update_music, hn, hA, hB]
    exact Update_musicError_none env t2 n2 r hn2 (herr2.trans herr)
  · rw [hlog]; simp
  · rw [startCmds_append, hstart]; rfl


/-- The music side of `Update` when the finished track has no loop left and the entry behind
it is set to play automatically. -/
theorem Update_music_pop_auto (env : UpdateEnv) (t : AudioEngine) (n : MediaEngineNotify)
    (r : Nat) (e next : MusicQueueEntry) (rest : List MusicQueueEntry)
    (hl : MusicLive t n) (hfin : n.m_previousMusicFinished = true)
    (herr : n.m_errorOccurred = false) (hq : t.m_musicQueue = e :: next :: rest)
    (hloop : e.LoopCount = 0) (hauto : next.AutoPlayAfterPreviousMusic = true) :
    ∃ t' cmds n', Update_music env t r = .ok (t', r) ∧ MusicLive t' n' ∧
      n'.m_errorOccurred = false ∧
      t'.m_musicQueue = next :: rest ∧
      t'.musicLog = t.musicLog ++ cmds ∧
      startCmds cmds = (if next.Filename.isEmpty then [] else startOf next.Filename) ∧
      t'.m_soundEffectsOff = t.m_soundEffectsOff ∧
      t'.m_soundEffectsEngine = t.m_soundEffectsEngine := by
  obtain ⟨hoff, hdis, heng, hn, hplay, hpause⟩ := hl
  by_cases hname : next.Filename.isEmpty = true
  · have hA : Update_previousMusicFinished env.isPausedOnAdvance t = .ok { t with
        m_musicQueue := next :: rest
        m_mediaEngineNotify := some { n with m_previousMusicFinished := true }
        musicLog := t.musicLog ++
          (MusicCmd.IsPaused :: if env.isPausedOnAdvance = false then [MusicCmd.Pause] else [])
        m_musicIsPlaying := true
        m_musicIsPaused := false } := by
      cases t
      simp only at hoff hdis heng hn hplay hpause hq
      subst_vars
      cases hp : env.isPausedOnAdvance <;>
        simp [Update_previousMusicFinished, PlayMusic, hfin, hloop, hauto, hname, hp]
    obtain ⟨t2, cmds, n2, hB, hlog, hstart, hn2, herr2, -, hfin2, hq2, hplay2, hpause2, hoff2,
      hdis2, heng2, hsoff, hseng⟩ := Update_readyToSeek_frame { t with
        m_musicQueue := next :: rest
        m_mediaEngineNotify := some { n with m_previousMusicFinished := true }
        musicLog := t.musicLog ++
          (MusicCmd.IsPaused :: if env.isPausedOnAdvance = false then [MusicCmd.Pause] else [])
        m_musicIsPlaying := true
        m_musicIsPaused := false } { n with m_previousMusicFinished := true } heng rfl
    refine ⟨t2, (MusicCmd.IsPaused ::
        if env.isPausedOnAdvance = false then [MusicCmd.Pause] else []) ++ cmds, n2, ?_,
      ⟨hoff2.trans hoff, hdis2.trans hdis, heng2.trans heng, hn2, hplay2, hpause2⟩,
      herr2.trans herr, hq2, ?_, ?_, hsoff, hseng⟩
    · simp only [Update_music, hn, hA, hB]
      exact Update_musicError_none env t2 n2 r hn2 (herr2.trans herr)
    · rw [hlog]; simp
    · rw [startCmds_append, hstart, if_pos hname]
      cases env.isPausedOnAdvance <;> rfl
  · have hname' : next.Filename.isEmpty = false := by simpa using hname
    have hA : Update_previousMusicFinished env.isPausedOnAdvance t = .ok { t with
        m_musicQueue := next :: rest
        m_mediaEngineNotify := some { n with m_previousMusicFinished := false }
        musicLog := t.musicLog ++ [MusicCmd.SetSource next.Filename, MusicCmd.Play]
        m_musicIsPlaying := true
        m_musicIsPaused := false } := by
      cases t
      simp only at hoff hdis heng hn hplay hpause hq
      subst_vars
      simp [Update_previousMusicFinished, PlayMusic, hfin, hloop, hauto, hname']
    obtain ⟨t2, cmds, n2, hB, hlog, hstart, hn2, herr2, -, hfin2, hq2, hplay2, hpause2, hoff2,
      hdis2, heng2, hsoff, hseng⟩ := Update_readyToSeek_frame { t with
        m_musicQueue := next :: rest
        m_mediaEngineNotify := some { n with m_previousMusicFinished := false }
        musicLog := t.musicLog ++ [MusicCmd.SetSource next.Filename, MusicCmd.Play]
        m_musicIsPlaying := true
        m_musicIsPaused := false } { n with m_previousMusicFinished := false } heng rfl
    refine ⟨t2, [MusicCmd.SetSource next.Filename, MusicCmd.Play] ++ cmds, n2, ?_,
      ⟨hoff2.trans hoff, hdis2.trans hdis, heng2.trans heng, hn2, hplay2, hpause2⟩,
      herr2.trans herr, hq2, ?_, ?_, hsoff, hseng⟩
    · simp only [Update_music, hn, hA, hB]
      exact Update_musicError_none env t2 n2 r hn2 (herr2.trans herr)
    · rw [hlog]; simp
    · rw [startCmds_append, hstart, if_neg hname]; rfl

/-- The music side of `Update` when the finished track has no loop left and nothing behind
it is set to play automatically (the queue ends there, or the next entry waits for an explicit
play), no decode error being pending. -/
theorem Update_music_pop_stop (env : UpdateEnv) (t : AudioEngine) (n : MediaEngineNotify)
    (r : Nat) (e : MusicQueueEntry) (tail : List MusicQueueEntry)
    (hl : MusicLive t n) (hfin : n.m_previousMusicFinished = true)
    (herr : n.m_errorOccurred = true → n.m_errorType ≠ .DECODE)
    (hq : t.m_musicQueue = e :: tail)
    (hloop : e.LoopCount = 0)
    (hauto : ∀ next rest, tail = next :: rest → next.AutoPlayAfterPreviousMusic = false) :
    ∃ t' r' cmds n', Update_music env t r = .ok (t', r') ∧ MusicLive t' n' ∧
      n'.m_previousMusicFinished = true ∧
      n'.m_errorOccurred = false ∧
      t'.m_musicQueue = tail ∧
      t'.musicLog = t.musicLog ++ cmds ∧ startCmds cmds = [] ∧
      t'.m_soundEffectsOff = t.m_soundEffectsOff ∧
      t'.m_soundEffectsEngine = t.m_soundEffectsEngine := by
  obtain ⟨hoff, hdis, heng, hn, hplay, hpause⟩ := hl
  have hA : Update_previousMusicFinished env.isPausedOnAdvance t =
      .ok { t with m_musicQueue := tail, m_mediaEngineNotify := some n } := by
    cases t
    simp only at hoff hdis heng hn hplay hpause hq
    subst_vars
    cases tail with
    | nil => simp [Update_previousMusicFinished, hfin, hloop]
    | cons next rest =>
      simp [Update_previousMusicFinished, hfin, hloop, hauto next rest rfl]
  obtain ⟨t2, cmds, n2, hB, hlog, hstart, hn2, herr2, htype2, hfin2, hq2, hplay2, hpause2,
    hoff2, hdis2, heng2, hsoff, hseng⟩ :=
    Update_readyToSeek_frame
      { t with m_musicQueue := tail, m_mediaEngineNotify := some n } n heng rfl
  by_cases he : n.m_errorOccurred = true
  · have he2 : n2.m_errorOccurred = true := herr2.trans he
    have ht2 : n2.m_errorType ≠ .DECODE := by rw [htype2]; exact herr he
    refine ⟨{ t2 with m_mediaEngineNotify := some { n2 with m_errorOccurred := false } },
      r ||| UpdateErrorCodes.MusicEngine, cmds, { n2 with m_errorOccurred := false }, ?_,
      ⟨hoff2.trans hoff, hdis2.trans hdis, heng2.trans heng, rfl, hplay2.trans hplay,
        hpause2.trans hpause⟩, hfin2.trans hfin, rfl, hq2, hlog, hstart, hsoff, hseng⟩
    simp only [Update_music, hn, hA, hB]
    exact Update_musicError_ignored env t2 n2 r hn2 he2 ht2
  · have he2 : n2.m_errorOccurred = false := by
      rw [herr2]; simpa using he
    refine ⟨t2, r, cmds, n2, ?_,
      ⟨hoff2.trans hoff, hdis2.trans hdis, heng2.trans heng, hn2, hplay2.trans hplay,
        hpause2.trans hpause⟩, hfin2.trans hfin, he2, hq2, hlog, hstart, hsoff, hseng⟩
    simp only [Update_music, hn, hA, hB]
    exact Update_musicError_none env t2 n2 r hn2 he2

/-- The call `Update` is its music side run on a state that agrees with the initial one on every music
field. -/
theorem Update_eq_music (env : UpdateEnv) (s : AudioEngine) (hsfx : SfxBackendPresent s) :
    ∃ s1 r1, SameMusic s s1 ∧ SfxBackendPresent s1 ∧ Update env s = Update_music env s1 r1 := by
  obtain ⟨s1, r1, h, hsame, hpres⟩ := Update_soundEffects_frame env.sfxInit s hsfx
  exact ⟨s1, r1, hsame, hpres, by simp only [Update, h]⟩

theorem SfxBackendPresent.of_eq {s s' : AudioEngine} (h : SfxBackendPresent s)
    (hoff : s'.m_soundEffectsOff = s.m_soundEffectsOff)
    (heng : s'.m_soundEffectsEngine = s.m_soundEffectsEngine) : SfxBackendPresent s' := by
  unfold SfxBackendPresent at h ⊢
  rw [hoff, heng]; exact h

/-- The notifications of one frame of the looping scenario leave the finished flag set and do
not touch the error flag. -/
theorem finishedTick_events (playing : Bool) (s : AudioEngine) (n : MediaEngineNotify)
    (hl : MusicLive s n) :
    ∃ n', MusicLive (notifyEvent .ENDED (if playing then notifyEvent .PLAYING s else s)) n' ∧
      n'.m_previousMusicFinished = true ∧ n'.m_errorOccurred = n.m_errorOccurred ∧
      (notifyEvent .ENDED (if playing then notifyEvent .PLAYING s else s)).m_musicQueue =
        s.m_musicQueue ∧
      (notifyEvent .ENDED (if playing then notifyEvent .PLAYING s else s)).musicLog =
        s.musicLog ∧
      (notifyEvent .ENDED (if playing then notifyEvent .PLAYING s else s)).m_soundEffectsOff =
        s.m_soundEffectsOff ∧
      (notifyEvent .ENDED (if playing then notifyEvent .PLAYING s else s)).m_soundEffectsEngine =
        s.m_soundEffectsEngine := by
  obtain ⟨hoff, hdis, heng, hn, hplay, hpause⟩ := hl
  cases playing
  · refine ⟨n.EventNotify .ENDED, ⟨?_, ?_, ?_, ?_, ?_, ?_⟩, ?_, ?_, ?_, ?_, ?_, ?_⟩ <;>
      simp [notifyEvent, hn, MediaEngineNotify.EventNotify, hoff, hdis, heng, hplay, hpause]
  · refine ⟨(n.EventNotify .PLAYING).EventNotify .ENDED, ⟨?_, ?_, ?_, ?_, ?_, ?_⟩,
      ?_, ?_, ?_, ?_, ?_, ?_⟩ <;>
      simp [notifyEvent, hn, MediaEngineNotify.EventNotify, hoff, hdis, heng, hplay, hpause]

theorem FinishedTick.run_loop (tk : FinishedTick) (s : AudioEngine) (n : MediaEngineNotify)
    (e : MusicQueueEntry) (rest : List MusicQueueEntry)
    (hsfx : SfxBackendPresent s) (hl : MusicLive s n) (herr : n.m_errorOccurred = false)
    (hq : s.m_musicQueue = e :: rest) (hloop : e.LoopCount ≠ 0)
    (hname : e.Filename.isEmpty = false) :
    ∃ s' cmds n', tk.run s = .ok s' ∧ SfxBackendPresent s' ∧ MusicLive s' n' ∧
      n'.m_errorOccurred = false ∧
      s'.m_musicQueue = { e with LoopCount := e.LoopCount - 1 } :: rest ∧
      s'.musicLog = s.musicLog ++ cmds ∧ startCmds cmds = startOf e.Filename := by
  obtain ⟨n0, hl0, hfin0, herr0, hq0, hlog0, hoff0, heng0⟩ :=
    finishedTick_events tk.playingNotified s n hl
  obtain ⟨s1, r1, hsame, hsfx1, hupd⟩ :=
    Update_eq_music tk.env _ (hsfx.of_eq hoff0 heng0)
  obtain ⟨t', cmds, n', hrun, hl', herr', -, hq', hlog', hstart, hoff', heng'⟩ :=
    Update_music_loop tk.env s1 n0 r1 e rest (hl0.of_sameMusic hsame) hfin0
      (herr0.trans herr) (hsame.queue.trans (hq0.trans hq)) hloop hname
  refine ⟨t', cmds, n', ?_, hsfx1.of_eq hoff' heng', hl', herr', hq', ?_, hstart⟩
  · simp only [FinishedTick.run, hupd, hrun]
  · rw [hlog', hsame.musicLog, hlog0]

theorem FinishedTick.run_pop_auto (tk : FinishedTick) (s : AudioEngine) (n : MediaEngineNotify)
    (e next : MusicQueueEntry) (rest : List MusicQueueEntry)
    (hsfx : SfxBackendPresent s) (hl : MusicLive s n) (herr : n.m_errorOccurred = false)
    (hq : s.m_musicQueue = e :: next :: rest) (hloop : e.LoopCount = 0)
    (hauto : next.AutoPlayAfterPreviousMusic = true) :
    ∃ s' cmds n', tk.run s = .ok s' ∧ SfxBackendPresent s' ∧ MusicLive s' n' ∧
      n'.m_errorOccurred = false ∧
      s'.m_musicQueue = next :: rest ∧
      s'.musicLog = s.musicLog ++ cmds ∧
      startCmds cmds = (if next.Filename.isEmpty then [] else startOf next.Filename) := by
  obtain ⟨n0, hl0, hfin0, herr0, hq0, hlog0, hoff0, heng0⟩ :=
    finishedTick_events tk.playingNotified s n hl
  obtain ⟨s1, r1, hsame, hsfx1, hupd⟩ :=
    Update_eq_music tk.env _ (hsfx.of_eq hoff0 heng0)
  obtain ⟨t', cmds, n', hrun, hl', herr', hq', hlog', hstart, hoff', heng'⟩ :=
    Update_music_pop_auto tk.env s1 n0 r1 e next rest (hl0.of_sameMusic hsame) hfin0
      (herr0.trans herr) (hsame.queue.trans (hq0.trans hq)) hloop hauto
  refine ⟨t', cmds, n', ?_, hsfx1.of_eq hoff' heng', hl', herr', hq', ?_, hstart⟩
  · simp only [FinishedTick.run, hupd, hrun]
  · rw [hlog', hsame.musicLog, hlog0]

theorem runFinishedTicks_append (xs ys : List FinishedTick) (s : AudioEngine) :
    runFinishedTicks (xs ++ ys) s =
      (match runFinishedTicks xs s with
       | .error e => .error e
       | .ok s' => runFinishedTicks ys s') := by
  induction xs generalizing s with
  | nil => simp [runFinishedTicks]
  | cons x rest ih =>
    simp only [List.cons_append, runFinishedTicks]
    cases x.run s with
    | error e => rfl
    | ok s' => exact ih s'

theorem startsOf_succ_right (filename : String) (k : Nat) :
    startsOf filename k ++ startOf filename = startsOf filename (k + 1) := by
  induction k with
  | zero => simp [startsOf]
  | succ k ih =>
    calc startsOf filename (k + 1) ++ startOf filename
        = startOf filename ++ (startsOf filename k ++ startOf filename) := by
          simp [startsOf]
      _ = startOf filename ++ startsOf filename (k + 1) := by rw [ih]
      _ = startsOf filename (k + 1 + 1) := rfl

/-- As long as the front entry has loops left, each frame that processes a 'track finished'
notification replays it and takes one loop off. -/
theorem runFinishedTicks_loop :
    ∀ (ticks : List FinishedTick) (s : AudioEngine) (n : MediaEngineNotify)
      (e : MusicQueueEntry) (rest : List MusicQueueEntry),
      SfxBackendPresent s → MusicLive s n → n.m_errorOccurred = false →
      s.m_musicQueue = e :: rest → e.Filename.isEmpty = false → ticks.length ≤ e.LoopCount →
      ∃ s' cmds n', runFinishedTicks ticks s = .ok s' ∧ SfxBackendPresent s' ∧
        MusicLive s' n' ∧ n'.m_errorOccurred = false ∧
        s'.m_musicQueue = { e with LoopCount := e.LoopCount - ticks.length } :: rest ∧
        s'.musicLog = s.musicLog ++ cmds ∧
        startCmds cmds = startsOf e.Filename ticks.length := by
  intro ticks
  induction ticks with
  | nil =>
    intro s n e rest hsfx hl herr hq _ _
    exact ⟨s, [], n, rfl, hsfx, hl, herr, by simpa using hq, by simp, rfl⟩
  | cons tk more ih =>
    intro s n e rest hsfx hl herr hq hname hlen
    simp only [List.length_cons] at hlen
    obtain ⟨s1, cmds1, n1, hrun1, hsfx1, hl1, herr1, hq1, hlog1, hstart1⟩ :=
      tk.run_loop s n e rest hsfx hl herr hq (by omega) hname
    obtain ⟨s', cmds, n', hrun, hsfx', hl', herr', hq', hlog', hstart⟩ :=
      ih s1 n1 { e with LoopCount := e.LoopCount - 1 } rest hsfx1 hl1 herr1 hq1 hname
        (by simp only; omega)
    refine ⟨s', cmds1 ++ cmds, n', ?_, hsfx', hl', herr', ?_, ?_, ?_⟩
    · simp only [runFinishedTicks, hrun1, hrun]
    · rw [hq']
      simp only [List.length_cons]
      congr 2
      omega
    · rw [hlog', hlog1, List.append_assoc]
    · rw [startCmds_append, hstart1, hstart, List.length_cons]
      rfl


theorem FinishedTick.run_pop_stop (tk : FinishedTick) (s : AudioEngine) (n : MediaEngineNotify)
    (e : MusicQueueEntry) (tail : List MusicQueueEntry)
    (hsfx : SfxBackendPresent s) (hl : MusicLive s n) (herr : n.m_errorOccurred = false)
    (hq : s.m_musicQueue = e :: tail) (hloop : e.LoopCount = 0)
    (hauto : ∀ next rest, tail = next :: rest → next.AutoPlayAfterPreviousMusic = false) :
    ∃ s' cmds n', tk.run s = .ok s' ∧ SfxBackendPresent s' ∧ MusicLive s' n' ∧
      n'.m_errorOccurred = false ∧
      s'.m_musicQueue = tail ∧
      s'.musicLog = s.musicLog ++ cmds ∧ startCmds cmds = [] := by
  obtain ⟨n0, hl0, hfin0, herr0, hq0, hlog0, hoff0, heng0⟩ :=
    finishedTick_events tk.playingNotified s n hl
  obtain ⟨s1, r1, hsame, hsfx1, hupd⟩ :=
    Update_eq_music tk.env _ (hsfx.of_eq hoff0 heng0)
  obtain ⟨t', r', cmds, n', hrun, hl', -, herr', hq', hlog', hstart, hoff', heng'⟩ :=
    Update_music_pop_stop tk.env s1 n0 r1 e tail (hl0.of_sameMusic hsame) hfin0
      (fun h => by rw [herr0, herr] at h; cases h) (hsame.queue.trans (hq0.trans hq)) hloop hauto
  refine ⟨t', cmds, n', ?_, hsfx1.of_eq hoff' heng', hl', herr', hq', ?_, hstart⟩
  · simp only [FinishedTick.run, hupd, hrun]
  · rw [hlog', hsame.musicLog, hlog0]

/-- A call `PlayMusic()` on a front entry with a non-empty file name, followed by `i` frames that each
process a 'track finished' notification, `i` not exceeding the stored loop count: the entry is
still at the front, `i` loops have been taken off, and it has been started `i + 1` times. -/
theorem PlayMusic_then_finishedTicks (s : AudioEngine) (n : MediaEngineNotify)
    (front : MusicQueueEntry) (tail : List MusicQueueEntry) (isPaused : Bool)
    (ticks : List FinishedTick)
    (hsfx : SfxBackendPresent s) (hoff : s.m_musicOff = false)
    (hdis : s.m_musicDisabledNoMediaFoundation = false) (heng : s.m_musicEngine = true)
    (hn : s.m_mediaEngineNotify = some n) (herr : n.m_errorOccurred = false)
    (hq : s.m_musicQueue = front :: tail) (hname : front.Filename.isEmpty = false)
    (hlen : ticks.length ≤ front.LoopCount) :
    ∃ s0 si cmds n', PlayMusic isPaused s = .ok s0 ∧ runFinishedTicks ticks s0 = .ok si ∧
      SfxBackendPresent si ∧ MusicLive si n' ∧ n'.m_errorOccurred = false ∧
      si.m_musicQueue = { front with LoopCount := front.LoopCount - ticks.length } :: tail ∧
      si.musicLog = s.musicLog ++ cmds ∧
      startCmds cmds = startsOf front.Filename (ticks.length + 1) := by
  have key : ∃ s0 n0, PlayMusic isPaused s = .ok s0 ∧ SfxBackendPresent s0 ∧
      MusicLive s0 n0 ∧ n0.m_errorOccurred = false ∧
      s0.m_musicQueue = front :: tail ∧
      s0.musicLog = s.musicLog ++ startOf front.Filename :=
    ⟨_, { n with m_previousMusicFinished := false },
      PlayMusic_track isPaused s n front tail hoff hdis heng hn hq hname, hsfx,
      ⟨hoff, hdis, heng, rfl, rfl, rfl⟩, herr, hq, rfl⟩
  obtain ⟨s0, n0, hplay, hsfx0, hl0, herr0, hq0, hlog0⟩ := key
  obtain ⟨si, cmds, n', hrun, hsfx', hl', herr', hq', hlog', hstart⟩ :=
    runFinishedTicks_loop ticks s0 n0 front tail hsfx0 hl0 herr0 hq0 hname hlen
  refine ⟨s0, si, startOf front.Filename ++ cmds, n', hplay, hrun, hsfx', hl', herr', hq',
    ?_, ?_⟩
  · rw [hlog', hlog0, List.append_assoc]
  · rw [startCmds_append, hstart]; rfl

theorem toUInt32_of_nat (N : Nat) (h : N < 2 ^ 32) : toUInt32 (N : Int) = N := by
  unfold toUInt32
  have h1 : ((N : Int) % (2 ^ 32 : Int)) = (N : Int) := by
    apply Int.emod_eq_of_lt
    · omega
    · have : ((2 : Int) ^ 32) = ((2 ^ 32 : Nat) : Int) := by norm_num
      rw [this]; exact_mod_cast h
  rw [h1]; simp

/-- C4 (loop count).  Music is on and available, no error notification is pending, and the
mixing backend exists whenever sound effects are on.  The front entry of the queue has a
non-empty file name and was queued with `loopCount = N`, `0 <= N < 2^31`; the entry behind it
has `autoPlayAfterPrevious = true`.  After `PlayMusic()`, for every `i <= N` the first `i`
frames that process a 'track finished' notification leave the queue order unchanged with
`N - i` loops stored in the front entry, the front entry having been started `i + 1` times so
far; the frame number `N + 1` pops it and starts the next entry.  The entry is thus started
exactly `N + 1` times. -/
theorem music_entry_played_loopCount_plus_one (s : AudioEngine) (n : MediaEngineNotify)
    (front next : MusicQueueEntry) (rest : List MusicQueueEntry) (N : Nat) (isPaused : Bool)
    (ticks : List FinishedTick)
    (hN : N < 2 ^ 31)
    (hsfx : SfxBackendPresent s)
    (hoff : s.m_musicOff = false)
    (hdis : s.m_musicDisabledNoMediaFoundation = false)
    (heng : s.m_musicEngine = true)
    (hn : s.m_mediaEngineNotify = some n)
    (herr : n.m_errorOccurred = false)
    (hq : s.m_musicQueue = front :: next :: rest)
    (hname : front.Filename.isEmpty = false)
    (hloop : front.LoopCount = toUInt32 (N : Int))
    (hauto : next.AutoPlayAfterPreviousMusic = true)
    (hticks : ticks.length = N + 1) :
    ∃ s0 : AudioEngine, PlayMusic isPaused s = .ok s0 ∧
      (∀ i, i ≤ N → ∃ (si : AudioEngine) (cmds : List MusicCmd),
        runFinishedTicks (ticks.take i) s0 = .ok si ∧
        si.m_musicQueue = { front with LoopCount := N - i } :: next :: rest ∧
        si.musicLog = s.musicLog ++ cmds ∧
        startCmds cmds = startsOf front.Filename (i + 1)) ∧
      ∃ (sEnd : AudioEngine) (cmds : List MusicCmd),
        runFinishedTicks ticks s0 = .ok sEnd ∧
        sEnd.m_musicQueue = next :: rest ∧
        sEnd.musicLog = s.musicLog ++ cmds ∧
        startCmds cmds = startsOf front.Filename (N + 1) ++
          (if next.Filename.isEmpty then [] else startOf next.Filename) := by
  have hcount : front.LoopCount = N := by
    rw [hloop]; exact toUInt32_of_nat N (by omega)
  have key : ∃ s0 n0, PlayMusic isPaused s = .ok s0 ∧ SfxBackendPresent s0 ∧
      MusicLive s0 n0 ∧ n0.m_errorOccurred = false ∧
      s0.m_musicQueue = front :: next :: rest ∧
      s0.musicLog = s.musicLog ++ startOf front.Filename :=
    ⟨_, { n with m_previousMusicFinished := false },
      PlayMusic_track isPaused s n front (next :: rest) hoff hdis heng hn hq hname, hsfx,
      ⟨hoff, hdis, heng, rfl, rfl, rfl⟩, herr, hq, rfl⟩
  obtain ⟨s0, n0, hplay, hsfx0, hl0, herr0, hq0, hlog0⟩ := key
  have hprefix : ∀ i, i ≤ N → ∃ si cmds n', runFinishedTicks (ticks.take i) s0 = .ok si ∧
      SfxBackendPresent si ∧ MusicLive si n' ∧ n'.m_errorOccurred = false ∧
      si.m_musicQueue = { front with LoopCount := N - i } :: next :: rest ∧
      si.musicLog = s.musicLog ++ cmds ∧
      startCmds cmds = startsOf front.Filename (i + 1) := by
    intro i hi
    have hlen : (ticks.take i).length = i := by
      rw [List.length_take, hticks]; omega
    obtain ⟨si, cmds, n', hrun, hsfx', hl', herr', hq', hlog', hstart⟩ :=
      runFinishedTicks_loop (ticks.take i) s0 n0 front (next :: rest) hsfx0 hl0 herr0 hq0 hname
        (by rw [hlen, hcount]; exact hi)
    refine ⟨si, startOf front.Filename ++ cmds, n', hrun, hsfx', hl', herr', ?_, ?_, ?_⟩
    · rw [hq', hlen, hcount]
    · rw [hlog', hlog0, List.append_assoc]
    · rw [startCmds_append, hstart, hlen]; rfl
  refine ⟨s0, hplay, ?_, ?_⟩
  · intro i hi
    obtain ⟨si, cmds, -, hrun, -, -, -, hq', hlog', hstart⟩ := hprefix i hi
    exact ⟨si, cmds, hrun, hq', hlog', hstart⟩
  · obtain ⟨sN, cmdsN, nN, hrunN, hsfxN, hlN, herrN, hqN, hlogN, hstartN⟩ := hprefix N (le_refl N)
    have hdrop : ∃ last, ticks.drop N = [last] := by
      have hl : (ticks.drop N).length = 1 := by simp [hticks]
      match hd : ticks.drop N, hl with
      | [x], _ => exact ⟨x, rfl⟩
    obtain ⟨last, hlast⟩ := hdrop
    obtain ⟨sEnd, cmds, -, hrun, -, -, -, hq', hlog', hstart⟩ :=
      last.run_pop_auto sN nN { front with LoopCount := N - N } next rest hsfxN hlN herrN hqN
        (by simp) hauto
    refine ⟨sEnd, cmdsN ++ cmds, ?_, hq', ?_, ?_⟩
    · have hjoin : runFinishedTicks ticks s0 =
          runFinishedTicks (ticks.take N ++ ticks.drop N) s0 := by
        rw [List.take_append_drop]
      rw [hjoin, runFinishedTicks_append, hrunN, hlast]
      simp only [runFinishedTicks, hrun]
    · rw [hlog', hlogN, List.append_assoc]
    · rw [startCmds_append, hstartN, hstart]

theorem music_entry_played_loopCount_plus_one_witness :
    ∃ s0 : AudioEngine,
      PlayMusic false demoMusicEngineAB = .ok s0 ∧
      (∀ i, i ≤ 3 → ∃ (si : AudioEngine) (cmds : List MusicCmd),
        runFinishedTicks ([demoTick, demoTick, demoTick, demoTick].take i) s0 = .ok si ∧
        si.m_musicQueue = { demoEntryA with LoopCount := 3 - i } :: demoEntryB :: [] ∧
        si.musicLog =
          demoMusicEngineAB.musicLog ++ cmds ∧
        startCmds cmds = startsOf demoEntryA.Filename (i + 1)) ∧
      ∃ (sEnd : AudioEngine) (cmds : List MusicCmd),
        runFinishedTicks [demoTick, demoTick, demoTick, demoTick] s0 = .ok sEnd ∧
        sEnd.m_musicQueue = demoEntryB :: [] ∧
        sEnd.musicLog =
          demoMusicEngineAB.musicLog ++ cmds ∧
        startCmds cmds = startsOf demoEntryA.Filename (3 + 1) ++
          (if demoEntryB.Filename.isEmpty then [] else startOf demoEntryB.Filename) :=
  music_entry_played_loopCount_plus_one
    demoMusicEngineAB
    MediaEngineNotify.InitializeVariables demoEntryA demoEntryB [] 3 false
    [demoTick, demoTick, demoTick, demoTick]
    (by decide) (fun _ => rfl) rfl rfl rfl rfl rfl rfl (by decide) (by decide) rfl rfl

/-- C5 (infinite loop).  `AddMusicToQueue("b.wav", -1)` stores the loop count in a `uint32`,
so the entry carries 4294967295.  Once it is the front entry, the next frame that processes a
'track finished' notification takes one loop off and leaves 4294967294; and when `b.wav` is
queued alone and played, the frame number 4294967296 that processes a 'track finished'
notification pops it, leaving the queue empty. -/
theorem negative_loopCount_is_decremented :
    (∃ s1 s2 s3 : AudioEngine,
      PlayMusic false demoMusicEngineInfiniteB = .ok s1 ∧
      demoTick.run s1 = .ok s2 ∧
      demoTick.run s2 = .ok s3 ∧
      s1.m_musicQueue.map (fun e => (e.Filename, e.LoopCount)) =
        [("C:\\game\\a.wav", 0), ("C:\\game\\b.wav", 4294967295)] ∧
      s2.m_musicQueue.map (fun e => (e.Filename, e.LoopCount)) =
        [("C:\\game\\b.wav", 4294967295)] ∧
      s3.m_musicQueue.map (fun e => (e.Filename, e.LoopCount)) =
        [("C:\\game\\b.wav", 4294967294)]) ∧
    (∃ s1 sEnd : AudioEngine,
      PlayMusic false demoMusicEngineOnlyInfiniteB = .ok s1 ∧
      runFinishedTicks (List.replicate 4294967295 demoTick ++ [demoTick]) s1 = .ok sEnd ∧
      sEnd.m_musicQueue = []) := by
  refine ⟨⟨_, _, _, rfl, rfl, rfl, rfl, rfl, rfl⟩, ?_⟩
  obtain ⟨s0, si, cmds, n', hplay, hrun, hsfx, hl, herr, hq, -, -⟩ :=
    PlayMusic_then_finishedTicks demoMusicEngineOnlyInfiniteB
      MediaEngineNotify.InitializeVariables
      { Filename := "C:\\game\\b.wav", LoopCount := 4294967295,
        AutoPlayAfterPreviousMusic := true } [] false
      (List.replicate 4294967295 demoTick) (fun _ => rfl) rfl rfl rfl rfl rfl rfl rfl
      (by rw [List.length_replicate])
  obtain ⟨sEnd, -, -, hlast, -, -, -, hqEnd, -, -⟩ :=
    demoTick.run_pop_stop si n' _ [] hsfx hl herr hq
      (by rw [List.length_replicate]; exact Nat.sub_self 4294967295)
      (fun next rest h => by cases h)
  refine ⟨s0, sEnd, hplay, ?_, hqEnd⟩
  rw [runFinishedTicks_append, hrun]
  simp only [runFinishedTicks, hlast]

/-- C7 (waiting for an explicit play).  With `b.wav` playing and `c.wav` queued behind it
with `autoPlayAfterPrevious = false`: the frame that processes the end of `b.wav` pops it and
leaves `c.wav` at the front, but the next `Update`, with no notification and no engine call in
between, pops `c.wav` when its loop count is 0 (it is never started), and starts it with one
loop taken off when its loop count is 2. -/
theorem autoPlay_false_entry_does_not_wait :
    (∃ (s1 s2 s3 : AudioEngine) (r2 r3 : Nat),
      PlayMusic false (demoMusicEngineWaitingC 0) = .ok s1 ∧
      Update demoEnv (notifyEvent .ENDED s1) = .ok (s2, r2) ∧
      Update demoEnv s2 = .ok (s3, r3) ∧
      s2.m_musicQueue.map (fun e => (e.Filename, e.LoopCount)) = [("C:\\game\\c.wav", 0)] ∧
      s3.m_musicQueue = [] ∧
      startCmds s3.musicLog = startOf "C:\\game\\b.wav") ∧
    (∃ (s1 s2 s3 : AudioEngine) (r2 r3 : Nat),
      PlayMusic false (demoMusicEngineWaitingC 2) = .ok s1 ∧
      Update demoEnv (notifyEvent .ENDED s1) = .ok (s2, r2) ∧
      Update demoEnv s2 = .ok (s3, r3) ∧
      s2.m_musicQueue.map (fun e => (e.Filename, e.LoopCount)) = [("C:\\game\\c.wav", 2)] ∧
      s3.m_musicQueue.map (fun e => (e.Filename, e.LoopCount)) = [("C:\\game\\c.wav", 1)] ∧
      startCmds s3.musicLog = startOf "C:\\game\\b.wav" ++ startOf "C:\\game\\c.wav") :=
  ⟨⟨_, _, _, _, _, rfl, rfl, rfl, rfl, rfl, rfl⟩, ⟨_, _, _, _, _, rfl, rfl, rfl, rfl, rfl, rfl⟩⟩

/-- C10 (engine-wide critical error recovery).  With two started voices of `laser.wav` and a
critical error of the mixing backend pending, `Update` with a successful reinitialisation
clears the error code and leaves sound effects on, but the pool of `laser.wav` is empty
afterwards: the only native calls on its voices are the two `DestroyVoice`, none is
restarted. -/
theorem Update_criticalError_drops_started_voices :
    startedCount (poolOf demoEngineCriticalError "laser.wav") = 2 ∧
    ∃ s' : AudioEngine,
      Update demoEnv demoEngineCriticalError = .ok (s', UpdateErrorCodes.SoundEffectsEngine) ∧
      s'.m_soundEffectsEngineCallbacks_m_error = S_OK ∧
      s'.m_soundEffectsOff = false ∧
      poolOf s' "laser.wav" = [] ∧
      s'.log.filter (fun c => c.voice.isSome) =
        [Cmd.DestroySourceVoice "laser.wav" 0, Cmd.DestroySourceVoice "laser.wav" 1] :=
  ⟨rfl, _, rfl, rfl, rfl, rfl, rfl⟩

/-! ## Stopping, trimming and unloading -/

theorem StopSoundEffect_map (filename : String) (playTails : Bool) (s : AudioEngine) :
    (StopSoundEffect filename playTails s).m_soundEffectsMap = s.m_soundEffectsMap := by
  unfold StopSoundEffect
  cases mapFind s.m_soundEffectsMap filename <;> rfl

/-- C11 (explicit stop).  `StopSoundEffect` never writes the sound effects map: every voice
keeps its `m_soundEffectStarted`.  On a pool with one started voice the voice receives its
`Stop` command but is still started afterwards; a following `PlaySoundEffect` with
`maxInstances = 1` is dropped by the cap, and one without cap appends a second voice instead
of reusing the stopped one. -/
theorem StopSoundEffect_leaves_voices_started :
    (∀ (filename : String) (playTails : Bool) (s : AudioEngine),
      (StopSoundEffect filename playTails s).m_soundEffectsMap = s.m_soundEffectsMap) ∧
    (StopSoundEffect "laser.wav" false (demoEngineWithPool [startedVoice 0])).log =
      [Cmd.VoiceStop "laser.wav" 0 0] ∧
    poolOf (StopSoundEffect "laser.wav" false (demoEngineWithPool [startedVoice 0])) "laser.wav" =
      [startedVoice 0] ∧
    PlaySoundEffect "laser.wav" 0 1
        (StopSoundEffect "laser.wav" false (demoEngineWithPool [startedVoice 0])) =
      .ok (StopSoundEffect "laser.wav" false (demoEngineWithPool [startedVoice 0])) ∧
    ∃ s2 : AudioEngine,
      PlaySoundEffect "laser.wav" 0 0
        (StopSoundEffect "laser.wav" false (demoEngineWithPool [startedVoice 0])) = .ok s2 ∧
      poolOf s2 "laser.wav" = [startedVoice 0, startedVoice 0] :=
  ⟨StopSoundEffect_map, rfl, rfl, rfl, _, rfl, rfl⟩

theorem length_std_remove_if_loop :
    ∀ (steps i next : Nat) (elements : List (Option SourceVoice)) (destroyed : List Nat)
      (r : List (Option SourceVoice) × Nat × List Nat),
      std_remove_if_loop elements next destroyed i steps = .ok r →
      r.1.length = elements.length := by
  intro steps
  induction steps with
  | zero =>
    intro i next elements destroyed r h
    simp only [std_remove_if_loop, Except.ok.injEq] at h
    rw [← h]
  | succ steps ih =>
    intro i next elements destroyed r h
    unfold std_remove_if_loop at h
    cases hget : elements.get? i with
    | none =>
      simp only [hget, Except.ok.injEq] at h
      rw [← h]
    | some element =>
      simp only [hget] at h
      cases hp : isUnused element with
      | error e => simp [hp] at h
      | ok b =>
        cases b with
        | true =>
          simp only [hp] at h
          exact ih _ _ _ _ _ h
        | false =>
          simp only [hp] at h
          have := ih _ _ _ _ _ h
          simpa using this

theorem length_std_remove_if (elements : List (Option SourceVoice))
    (r : List (Option SourceVoice) × Nat × List Nat) (h : std_remove_if elements = .ok r) :
    r.1.length = elements.length := by
  unfold std_remove_if at h
  cases hf : std_find_if elements 0 with
  | error e => simp [hf] at h
  | ok first =>
    simp only [hf] at h
    split at h
    · simp only [Except.ok.injEq] at h
      rw [← h]
    · exact length_std_remove_if_loop _ _ _ _ _ _ h

theorem std_find_if_total :
    ∀ (elements : List (Option SourceVoice)) (i : Nat),
      (∀ e ∈ elements, e ≠ none) → ∃ k, std_find_if elements i = .ok k := by
  intro elements
  induction elements with
  | nil => intro i _; exact ⟨i, rfl⟩
  | cons e rest ih =>
    intro i hall
    cases e with
    | none => exact absurd rfl (hall none (List.mem_cons_self _ _))
    | some v =>
      cases hb : v.m_soundEffectStarted with
      | true =>
        obtain ⟨k, hk⟩ := ih (i + 1) (fun e he => hall e (List.mem_cons_of_mem _ he))
        exact ⟨k, by simp [std_find_if, isUnused, hb, hk]⟩
      | false => exact ⟨i, by simp [std_find_if, isUnused, hb]⟩

theorem std_remove_if_loop_total :
    ∀ (steps i next : Nat) (elements : List (Option SourceVoice)) (destroyed : List Nat),
      next < i →
      (∀ j, i ≤ j → elements.get? j ≠ some none) →
      ∃ r, std_remove_if_loop elements next destroyed i steps = .ok r := by
  intro steps
  induction steps with
  | zero => intro i next elements destroyed _ _; exact ⟨_, rfl⟩
  | succ steps ih =>
    intro i next elements destroyed hlt hall
    unfold std_remove_if_loop
    cases hget : elements.get? i with
    | none => exact ⟨_, rfl⟩
    | some element =>
      cases element with
      | none => exact absurd hget (hall i (le_refl _))
      | some v =>
        cases hb : v.m_soundEffectStarted with
        | false =>
          have h := ih (i + 1) next elements destroyed (by omega)
            (fun j hj => hall j (by omega))
          simpa [isUnused, hb] using h
        | true =>
          have h := ih (i + 1) (next + 1) ((elements.set next (some v)).set i none)
            (match elements.get? next with
              | some (some _) => destroyed ++ [next]
              | _ => destroyed)
            (by omega)
            (by
              intro j hj
              have h1 : i ≠ j := by omega
              have h2 : next ≠ j := by omega
              simp only [List.get?_eq_getElem?, List.getElem?_set_ne h1,
                List.getElem?_set_ne h2]
              simpa [List.get?_eq_getElem?] using hall j (by omega))
          simpa [isUnused, hb] using h

theorem std_remove_if_total (elements : List (Option SourceVoice))
    (hall : ∀ e ∈ elements, e ≠ none) : ∃ r, std_remove_if elements = .ok r := by
  obtain ⟨first, hf⟩ := std_find_if_total elements 0 hall
  unfold std_remove_if
  simp only [hf]
  split
  · exact ⟨_, rfl⟩
  · apply std_remove_if_loop_total _ _ _ _ _ (by omega)
    intro j _ hj
    exact hall none (List.get?_mem hj) rfl

/-- C12 (pool trim).  `ClearUnusedSourceVoices` always returns, and it never changes the
length of the vector.  On the pool `[started, idle]` it leaves `[null, started]`, having
destroyed the idle voice; on the pools `[idle]` and `[idle, started]` it leaves the idle voice
in place. -/
theorem ClearUnusedSourceVoices_keeps_length :
    (∀ (filename : String) (s : AudioEngine),
      ∃ r, ClearUnusedSourceVoices filename s = .ok r ∧
        r.map (fun result => result.1.length) =
          (mapFind s.m_soundEffectsMap filename).map
            (fun soundEffect => soundEffect.m_sourceVoices.length)) ∧
    ClearUnusedSourceVoices "laser.wav" (demoEngineWithPool [startedVoice 1, idleVoice]) =
      .ok (some ([none, some (startedVoice 1)], [Cmd.DestroySourceVoice "laser.wav" 1])) ∧
    ClearUnusedSourceVoices "laser.wav" (demoEngineWithPool [idleVoice]) =
      .ok (some ([some idleVoice], [])) ∧
    ClearUnusedSourceVoices "laser.wav" (demoEngineWithPool [idleVoice, startedVoice 1]) =
      .ok (some ([some idleVoice, some (startedVoice 1)], [])) := by
  refine ⟨?_, rfl, rfl, rfl⟩
  intro filename s
  unfold ClearUnusedSourceVoices
  cases hfind : mapFind s.m_soundEffectsMap filename with
  | none => exact ⟨none, rfl, rfl⟩
  | some se =>
    obtain ⟨r, hr⟩ := std_remove_if_total (List.map some se.m_sourceVoices).reverse
      (by simp)
    have hlen := length_std_remove_if _ r hr
    simp only [hr]
    refine ⟨_, rfl, ?_⟩
    simpa using hlen

/-- C14 (pause twice).  Whenever the music engine exists in the states in which `PauseMusic`
reaches it (music on, available, not yet paused), `PauseMusic()` returns a state and a position,
and a second `PauseMusic()` right after it returns the same position and exactly the same
state: it appends nothing to the log of queries and commands of the music backend, whatever
the backend would have answered. -/
theorem PauseMusic_idempotent (s : AudioEngine) (currentTime : ℚ)
    (hengine : s.m_musicOff = false → s.m_musicDisabledNoMediaFoundation = false →
      s.m_musicIsPaused = false → s.m_musicEngine = true) :
    ∃ (s1 : AudioEngine) (position : ℚ),
      PauseMusic currentTime s = .ok (s1, position) ∧
      ∀ currentTime' : ℚ, PauseMusic currentTime' s1 = .ok (s1, position) := by
  by_cases hp : s.m_musicIsPaused = true
  · refine ⟨s, s.m_musicPosition, ?_, ?_⟩ <;> simp [PauseMusic, hp]
  · have hp' : s.m_musicIsPaused = false := by simpa using hp
    by_cases hoff : (s.m_musicOff || s.m_musicDisabledNoMediaFoundation) = true
    · refine ⟨{ s with m_musicIsPaused := true, m_musicPosition := -1 }, -1, ?_, ?_⟩
      · simp [PauseMusic, hp', hoff]
      · intro t; simp [PauseMusic]
    · simp only [Bool.or_eq_true, not_or, Bool.not_eq_true] at hoff
      have heng := hengine hoff.1 hoff.2 hp'
      refine ⟨{ s with m_musicIsPaused := true, m_musicPosition := currentTime,
                       musicLog := s.musicLog ++ [MusicCmd.GetCurrentTime] ++ [MusicCmd.Pause] },
        currentTime, ?_, ?_⟩
      · simp [PauseMusic, hp', hoff.1, hoff.2, heng]
      · intro t; simp [PauseMusic]

theorem PauseMusic_idempotent_witness :
    ∃ (s1 : AudioEngine) (position : ℚ),
      PauseMusic 12 demoMusicEnginePlayingA = .ok (s1, position) ∧
      ∀ currentTime' : ℚ, PauseMusic currentTime' s1 = .ok (s1, position) :=
  PauseMusic_idempotent demoMusicEnginePlayingA 12 (fun _ _ _ => rfl)

/-- C16, counterexample.  Play `a.wav`, pause at 12 seconds, turn music off with
`SetMusicOnOff(true)`, call `PauseMusic()` again: music is off, yet the call returns 12, the
position cached by the first pause, and not -1. -/
theorem PauseMusic_off_returns_cached_position :
    ∃ s1 s2 s3 : AudioEngine,
      PlayMusic false demoMusicEngineAB = .ok s1 ∧
      PauseMusic 12 s1 = .ok (s2, 12) ∧
      SetMusicOnOff true true .ok false s2 = .ok (s3, true) ∧
      s3.m_musicOff = true ∧
      PauseMusic 0 s3 = .ok (s3, 12) ∧ (12 : ℚ) ≠ -1 :=
  ⟨_, _, _, rfl, rfl, rfl, rfl, rfl, by decide⟩

/-- C16, amended.  In every state in which music is off or the music backend is unavailable,
`PauseMusic()` returns and issues no query and no command to the music backend.  When music
was not yet paused it marks it paused, sets the cached position to -1 and returns -1; when
music was already paused it changes nothing and returns the cached position. -/
theorem PauseMusic_off_result (s : AudioEngine) (currentTime : ℚ)
    (hoff : s.m_musicOff = true ∨ s.m_musicDisabledNoMediaFoundation = true) :
    ∃ (s1 : AudioEngine) (position : ℚ),
      PauseMusic currentTime s = .ok (s1, position) ∧
      s1.musicLog = s.musicLog ∧
      (s.m_musicIsPaused = false →
        position = -1 ∧ s1 = { s with m_musicIsPaused := true, m_musicPosition := -1 }) ∧
      (s.m_musicIsPaused = true → position = s.m_musicPosition ∧ s1 = s) := by
  have hoff' : (s.m_musicOff || s.m_musicDisabledNoMediaFoundation) = true := by
    simpa using hoff
  by_cases hp : s.m_musicIsPaused = true
  · refine ⟨s, s.m_musicPosition, ?_, rfl, ?_, fun _ => ⟨rfl, rfl⟩⟩
    · simp [PauseMusic, hp]
    · intro h; rw [hp] at h; cases h
  · have hp' : s.m_musicIsPaused = false := by simpa using hp
    refine ⟨{ s with m_musicIsPaused := true, m_musicPosition := -1 }, -1, ?_, rfl,
      fun _ => ⟨rfl, rfl⟩, ?_⟩
    · simp [PauseMusic, hp', hoff']
    · intro h; rw [hp'] at h; cases h

theorem PauseMusic_off_result_witness :
    ∃ (s1 : AudioEngine) (position : ℚ),
      PauseMusic 40 demoMusicEnginePausedThenOff = .ok (s1, position) ∧
      s1.musicLog = demoMusicEnginePausedThenOff.musicLog ∧
      (demoMusicEnginePausedThenOff.m_musicIsPaused = false →
        position = -1 ∧
        s1 = { demoMusicEnginePausedThenOff with m_musicIsPaused := true, m_musicPosition := -1 }) ∧
      (demoMusicEnginePausedThenOff.m_musicIsPaused = true →
        position = demoMusicEnginePausedThenOff.m_musicPosition ∧
        s1 = demoMusicEnginePausedThenOff) :=
  PauseMusic_off_result demoMusicEnginePausedThenOff 40 (Or.inl rfl)

/-! ## Seeking while the music is stopped -/

/-- C17 (seek while stopped).  In a state in which music is not logically playing,
`SetMusicCurrentTime(seconds)` returns the state as it was: nothing is stored.  On the engine
with `a.wav` queued and not yet played, `SetMusicCurrentTime(30)` leaves the pending position
at -1; after the following `PlayMusic()` and the `PLAYING` notification, `Update` consumes the
ready-to-seek signal without any `SetCurrentTime`. -/
theorem SetMusicCurrentTime_while_stopped_stores_nothing :
    (∀ (seconds : ℚ) (s : AudioEngine),
      SetMusicCurrentTime seconds { s with m_musicIsPlaying := false } =
        { s with m_musicIsPlaying := false }) ∧
    demoMusicEngineAB.m_musicOff = false ∧
    demoMusicEngineAB.m_musicDisabledNoMediaFoundation = false ∧
    demoMusicEngineAB.m_musicIsPlaying = false ∧
    SetMusicCurrentTime 30 demoMusicEngineAB = demoMusicEngineAB ∧
    (SetMusicCurrentTime 30 demoMusicEngineAB).m_musicPosition = -1 ∧
    ∃ (s1 s2 : AudioEngine) (r : Nat) (n : MediaEngineNotify),
      PlayMusic false (SetMusicCurrentTime 30 demoMusicEngineAB) = .ok s1 ∧
      (notifyEvent .PLAYING s1).m_mediaEngineNotify =
        some { MediaEngineNotify.InitializeVariables with
                m_musicIsPlaying := true, m_readyToSeek := true } ∧
      Update demoEnv (notifyEvent .PLAYING s1) = .ok (s2, r) ∧
      s2.musicLog = [MusicCmd.SetSource "C:\\game\\a.wav", MusicCmd.Play] ∧
      s2.m_musicPosition = -1 ∧
      s2.m_mediaEngineNotify = some n ∧ n.m_readyToSeek = false := by
  refine ⟨?_, rfl, rfl, rfl, rfl, rfl, _, _, _, _, rfl, rfl, rfl, rfl, rfl, rfl, rfl⟩
  intro seconds s
  simp [SetMusicCurrentTime, GetSkipMusicFunction]

/-! ## Volumes -/

theorem normalizedVolume_range (v : ℚ) : 0 ≤ normalizedVolume v ∧ normalizedVolume v ≤ 1 := by
  unfold normalizedVolume
  refine ⟨le_max_left _ _, max_le (by norm_num) (min_le_left _ _)⟩

/-- C18 (volume clamp).  `SetMusicVolume(v)` makes `GetMusicVolume()` return `v` itself, and
with music on and available its one command to the music backend is `SetVolume` of
`max(0, min(1, v / 100))`; `SetSoundEffectsVolume(v)` makes `GetSoundEffectsVolume()` return
`v`, and with sound effects on its one command is `SetVolume` of the same expression on the
mastering voice.  That value lies in `[0, 1]`; it is 1 for 150 and 0 for -10.  Volumes are
rationals here; the music engine and the mastering voice are taken to exist when the
respective subsystem is on. -/
theorem SetVolume_clamps_applied_value (v : ℚ) (s : AudioEngine)
    (hmusic : s.m_musicOff = false → s.m_musicDisabledNoMediaFoundation = false →
      s.m_musicEngine = true)
    (hsfx : s.m_soundEffectsOff = false → s.m_masteringVoice = true) :
    (∃ s1 : AudioEngine, SetMusicVolume v s = .ok s1 ∧ GetMusicVolume s1 = v ∧
      (s.m_musicOff = false → s.m_musicDisabledNoMediaFoundation = false →
        s1.musicLog = s.musicLog ++ [MusicCmd.SetVolume (max 0 (min 1 (v / 100)))])) ∧
    (∃ s2 : AudioEngine, SetSoundEffectsVolume v s = .ok s2 ∧ GetSoundEffectsVolume s2 = v ∧
      (s.m_soundEffectsOff = false →
        s2.log = s.log ++ [Cmd.MasteringSetVolume (max 0 (min 1 (v / 100)))])) ∧
    0 ≤ normalizedVolume v ∧ normalizedVolume v ≤ 1 ∧
    normalizedVolume v = max 0 (min 1 (v / 100)) ∧
    normalizedVolume 150 = 1 ∧ normalizedVolume (-10) = 0 := by
  refine ⟨?_, ?_, (normalizedVolume_range v).1, (normalizedVolume_range v).2, rfl, ?_, ?_⟩
  · by_cases hoff : (s.m_musicDisabledNoMediaFoundation || s.m_musicOff) = true
    · refine ⟨{ s with m_musicVolume := v }, ?_, rfl, ?_⟩
      · simp [SetMusicVolume, hoff]
      · intro h1 h2
        rw [h1, h2] at hoff
        cases hoff
    · simp only [Bool.or_eq_true, not_or, Bool.not_eq_true] at hoff
      have heng := hmusic hoff.2 hoff.1
      refine ⟨{ s with m_musicVolume := v,
                       musicLog := s.musicLog ++ [MusicCmd.SetVolume (normalizedVolume v)] },
        ?_, rfl, fun _ _ => rfl⟩
      simp [SetMusicVolume, hoff.1, hoff.2, heng]
  · by_cases hoff : s.m_soundEffectsOff = true
    · refine ⟨{ s with m_soundEffectsVolume := v }, ?_, rfl, ?_⟩
      · simp [SetSoundEffectsVolume, hoff]
      · intro h1
        rw [h1] at hoff
        cases hoff
    · have hoff' : s.m_soundEffectsOff = false := by simpa using hoff
      have hvoice := hsfx hoff'
      refine ⟨{ s with m_soundEffectsVolume := v,
                       log := s.log ++ [Cmd.MasteringSetVolume (normalizedVolume v)] },
        ?_, rfl, fun _ => rfl⟩
      simp [SetSoundEffectsVolume, hoff', hvoice]
  · unfold normalizedVolume; norm_num
  · unfold normalizedVolume; norm_num

theorem SetVolume_clamps_applied_value_witness :
    (∃ s1 : AudioEngine, SetMusicVolume 150 demoMusicEngine = .ok s1 ∧ GetMusicVolume s1 = 150 ∧
      (demoMusicEngine.m_musicOff = false →
        demoMusicEngine.m_musicDisabledNoMediaFoundation = false →
        s1.musicLog =
          demoMusicEngine.musicLog ++ [MusicCmd.SetVolume (max 0 (min 1 (150 / 100)))])) ∧
    (∃ s2 : AudioEngine, SetSoundEffectsVolume 150 demoMusicEngine = .ok s2 ∧
      GetSoundEffectsVolume s2 = 150 ∧
      (demoMusicEngine.m_soundEffectsOff = false →
        s2.log = demoMusicEngine.log ++ [Cmd.MasteringSetVolume (max 0 (min 1 (150 / 100)))])) ∧
    0 ≤ normalizedVolume 150 ∧ normalizedVolume 150 ≤ 1 ∧
    normalizedVolume 150 = max 0 (min 1 (150 / 100)) ∧
    normalizedVolume 150 = 1 ∧ normalizedVolume (-10) = 0 :=
  SetVolume_clamps_applied_value 150 demoMusicEngine (fun _ _ => rfl) (fun _ => rfl)

theorem ShutdownMusicEngine_log (s : AudioEngine) :
    (ShutdownMusicEngine s).m_musicVolume = s.m_musicVolume ∧
    (ShutdownMusicEngine s).m_musicEngine = false ∧
    (ShutdownMusicEngine s).m_mediaFoundationStartupShutdown.m_wasStarted = false ∧
    ∃ cmds, (ShutdownMusicEngine s).musicLog = s.musicLog ++ cmds := by
  unfold ShutdownMusicEngine MediaFoundationStartupShutdown.Shutdown
  cases h1 : s.m_musicEngine <;> cases h2 : s.m_mediaFoundationStartupShutdown.m_wasStarted <;>
    simp [h1, h2]

theorem ShutdownSoundEffectsEngine_log (s : AudioEngine) :
    (ShutdownSoundEffectsEngine s).m_soundEffectsVolume = s.m_soundEffectsVolume ∧
    ∃ cmds, (ShutdownSoundEffectsEngine s).log = s.log ++ cmds := by
  unfold ShutdownSoundEffectsEngine
  cases h1 : s.m_masteringVoice <;> cases h2 : s.m_soundEffectsEngine <;>
    simp [h1, h2]

/-- C19 (deferred volume).  With sound effects off, `SetSoundEffectsVolume(v)` only records
`v`; with music off, `SetMusicVolume(v)` only records `v`.  From any state, a successful
`InitializeSoundEffectsEngine` ends by `SetVolume` of `max(0, min(1, v / 100))` on the new
mastering voice, where `v` is the recorded sound effects volume, and leaves sound effects on;
a successful `InitializeMusicEngine` ends by `SetVolume` of the same expression of the
recorded music volume on the new media engine and leaves music on.  Neither changes the
recorded volume. -/
theorem SetVolume_deferred_until_initialize (v : ℚ) (s : AudioEngine)
    (hsfxOff : s.m_soundEffectsOff = true) (hmusicOff : s.m_musicOff = true) :
    SetSoundEffectsVolume v s = .ok { s with m_soundEffectsVolume := v } ∧
    SetMusicVolume v s = .ok { s with m_musicVolume := v } ∧
    (∀ t : AudioEngine, t.m_soundEffectsVolume = v →
      ∃ (t' : AudioEngine) (cmds : List Cmd),
        InitializeSoundEffectsEngine .ok t = .ok t' ∧
        t'.log = t.log ++ cmds ++ [Cmd.MasteringSetVolume (max 0 (min 1 (v / 100)))] ∧
        t'.m_soundEffectsOff = false ∧ t'.m_masteringVoice = true ∧
        t'.m_soundEffectsVolume = v) ∧
    (∀ t : AudioEngine, t.m_musicVolume = v →
      ∃ (t' : AudioEngine) (cmds : List MusicCmd),
        InitializeMusicEngine true .ok t = .ok t' ∧
        t'.musicLog = t.musicLog ++ cmds ++ [MusicCmd.SetVolume (max 0 (min 1 (v / 100)))] ∧
        t'.m_musicOff = false ∧ t'.m_musicEngine = true ∧
        t'.m_musicVolume = v) := by
  refine ⟨?_, ?_, ?_, ?_⟩
  · simp [SetSoundEffectsVolume, hsfxOff]
  · simp [SetMusicVolume, hmusicOff]
  · intro t hv
    obtain ⟨hvol, cmds, hlog⟩ := ShutdownSoundEffectsEngine_log t
    have hinit : InitializeSoundEffectsEngine .ok t = .ok
        { ShutdownSoundEffectsEngine t with
          m_soundEffectsEngine := true
          m_masteringVoice := true
          m_soundEffectsOff := false
          log := (ShutdownSoundEffectsEngine t).log ++
            [Cmd.XAudio2Create, Cmd.RegisterForCallbacks, Cmd.CreateMasteringVoice,
             Cmd.StartEngine,
             Cmd.MasteringSetVolume
               (normalizedVolume (ShutdownSoundEffectsEngine t).m_soundEffectsVolume)] } := by
      simp [InitializeSoundEffectsEngine, SetSoundEffectsVolume]
    refine ⟨_, cmds ++ [Cmd.XAudio2Create, Cmd.RegisterForCallbacks, Cmd.CreateMasteringVoice,
      Cmd.StartEngine], hinit, ?_, rfl, rfl, ?_⟩
    · simp [hlog, hvol, hv, normalizedVolume]
    · simp [hvol, hv]
  · intro t hv
    obtain ⟨hvol, heng, hmf, cmds, hlog⟩ := ShutdownMusicEngine_log t
    have hinit : InitializeMusicEngine true .ok t = .ok
        { ShutdownMusicEngine t with
          m_mediaFoundationStartupShutdown := { m_wasStarted := true }
          m_musicDisabledNoMediaFoundation := false
          m_mediaEngineNotify := some MediaEngineNotify.InitializeVariables
          m_musicEngine := true
          m_musicOff := false
          musicLog := (ShutdownMusicEngine t).musicLog ++
            [MusicCmd.MFStartup, MusicCmd.Create, MusicCmd.SetAutoPlay false,
             MusicCmd.SetLoop false,
             MusicCmd.SetVolume (normalizedVolume (ShutdownMusicEngine t).m_musicVolume)] } := by
      simp [InitializeMusicEngine, SetMusicVolume, MediaFoundationStartupShutdown.Startup, hmf]
    refine ⟨_, cmds ++ [MusicCmd.MFStartup, MusicCmd.Create, MusicCmd.SetAutoPlay false,
      MusicCmd.SetLoop false], hinit, ?_, rfl, rfl, ?_⟩
    · simp [hlog, hvol, hv, normalizedVolume]
    · simp [hvol, hv]

theorem SetVolume_deferred_until_initialize_witness :
    SetSoundEffectsVolume 40 (ShutdownMusicEngine (ShutdownSoundEffectsEngine demoMusicEngine)) =
      .ok { ShutdownMusicEngine (ShutdownSoundEffectsEngine demoMusicEngine) with
            m_soundEffectsVolume := 40 } ∧
    SetMusicVolume 40 (ShutdownMusicEngine (ShutdownSoundEffectsEngine demoMusicEngine)) =
      .ok { ShutdownMusicEngine (ShutdownSoundEffectsEngine demoMusicEngine) with
            m_musicVolume := 40 } ∧
    (∀ t : AudioEngine, t.m_soundEffectsVolume = 40 →
      ∃ (t' : AudioEngine) (cmds : List Cmd),
        InitializeSoundEffectsEngine .ok t = .ok t' ∧
        t'.log = t.log ++ cmds ++ [Cmd.MasteringSetVolume (max 0 (min 1 (40 / 100)))] ∧
        t'.m_soundEffectsOff = false ∧ t'.m_masteringVoice = true ∧
        t'.m_soundEffectsVolume = 40) ∧
    (∀ t : AudioEngine, t.m_musicVolume = 40 →
      ∃ (t' : AudioEngine) (cmds : List MusicCmd),
        InitializeMusicEngine true .ok t = .ok t' ∧
        t'.musicLog = t.musicLog ++ cmds ++ [MusicCmd.SetVolume (max 0 (min 1 (40 / 100)))] ∧
        t'.m_musicOff = false ∧ t'.m_musicEngine = true ∧
        t'.m_musicVolume = 40) :=
  SetVolume_deferred_until_initialize 40
    (ShutdownMusicEngine (ShutdownSoundEffectsEngine demoMusicEngine)) rfl rfl

/-! ## Music switched off -/

/-- C20 (music off).  In every state in which music is off or the music backend is
unavailable, each music control returns, and none appends anything to the log of queries and
commands of the music backend: `PlayMusic`, `SetMusicCurrentTime` and
`PlayMusicVolumeTestSound` change nothing, `MoveToNextMusicInQueue` only drops the front of
the queue, `PauseMusic` only touches the pause flag and the cached position, `ResumeMusic` and
`ResumeMusicAtTime` only clear the pause flag, `GetMusicCurrentTime` returns 0 and
`SetMusicVolume` only records the volume. -/
theorem music_off_controls_issue_nothing (s : AudioEngine) (isPaused : Bool)
    (currentTime seconds volume : ℚ) (installedLocation : String)
    (hoff : s.m_musicOff = true ∨ s.m_musicDisabledNoMediaFoundation = true) :
    PlayMusic isPaused s = .ok s ∧
    MoveToNextMusicInQueue isPaused s = .ok { s with m_musicQueue := s.m_musicQueue.tail } ∧
    (∃ (s1 : AudioEngine) (position : ℚ), PauseMusic currentTime s = .ok (s1, position) ∧
      s1.musicLog = s.musicLog ∧ s1.m_musicEngine = s.m_musicEngine ∧
      s1.m_mediaEngineNotify = s.m_mediaEngineNotify ∧ s1.m_musicQueue = s.m_musicQueue) ∧
    ResumeMusic isPaused s = .ok { s with m_musicIsPaused := false } ∧
    ResumeMusicAtTime isPaused seconds s = .ok { s with m_musicIsPaused := false } ∧
    SetMusicCurrentTime seconds s = s ∧
    GetMusicCurrentTime currentTime s = .ok (s, 0) ∧
    SetMusicVolume volume s = .ok { s with m_musicVolume := volume } ∧
    PlayMusicVolumeTestSound installedLocation s = .ok s := by
  have h1 : (s.m_musicDisabledNoMediaFoundation || s.m_musicOff) = true := by
    rcases hoff with h | h <;> simp [h]
  have h2 : (s.m_musicOff || s.m_musicDisabledNoMediaFoundation) = true := by
    rcases hoff with h | h <;> simp [h]
  have hskip : GetSkipMusicFunction s = true := by
    unfold GetSkipMusicFunction
    rw [h2]; rfl
  have h3 : (!s.m_musicOff && !s.m_musicDisabledNoMediaFoundation) = false := by
    rcases hoff with h | h <;> simp [h]
  refine ⟨?_, ?_, ?_, ?_, ?_, ?_, ?_, ?_, ?_⟩
  · simp [PlayMusic, h1]
  · unfold MoveToNextMusicInQueue
    cases hq : s.m_musicQueue with
    | nil =>
      simp only [h1, if_true]
      cases s
      simp only at hq
      subst hq
      rfl
    | cons e rest => simp [h1]
  · by_cases hp : s.m_musicIsPaused = true
    · exact ⟨s, s.m_musicPosition, by simp [PauseMusic, hp], rfl, rfl, rfl, rfl⟩
    · have hp' : s.m_musicIsPaused = false := by simpa using hp
      exact ⟨{ s with m_musicIsPaused := true, m_musicPosition := -1 }, -1,
        by simp [PauseMusic, hp', h2], rfl, rfl, rfl, rfl⟩
  · simp [ResumeMusic, ResumeMusicAtTime, h1]
  · simp [ResumeMusicAtTime, h1]
  · simp [SetMusicCurrentTime, hskip]
  · simp [GetMusicCurrentTime, hskip, h3]
  · simp [SetMusicVolume, h1]
  · simp [PlayMusicVolumeTestSound, h1]

theorem music_off_controls_issue_nothing_witness :
    PlayMusic false demoMusicEnginePausedThenOff = .ok demoMusicEnginePausedThenOff ∧
    MoveToNextMusicInQueue false demoMusicEnginePausedThenOff =
      .ok { demoMusicEnginePausedThenOff with
            m_musicQueue := demoMusicEnginePausedThenOff.m_musicQueue.tail } ∧
    (∃ (s1 : AudioEngine) (position : ℚ),
      PauseMusic 3 demoMusicEnginePausedThenOff = .ok (s1, position) ∧
      s1.musicLog = demoMusicEnginePausedThenOff.musicLog ∧
      s1.m_musicEngine = demoMusicEnginePausedThenOff.m_musicEngine ∧
      s1.m_mediaEngineNotify = demoMusicEnginePausedThenOff.m_mediaEngineNotify ∧
      s1.m_musicQueue = demoMusicEnginePausedThenOff.m_musicQueue) ∧
    ResumeMusic false demoMusicEnginePausedThenOff =
      .ok { demoMusicEnginePausedThenOff with m_musicIsPaused := false } ∧
    ResumeMusicAtTime false 5 demoMusicEnginePausedThenOff =
      .ok { demoMusicEnginePausedThenOff with m_musicIsPaused := false } ∧
    SetMusicCurrentTime 5 demoMusicEnginePausedThenOff = demoMusicEnginePausedThenOff ∧
    GetMusicCurrentTime 3 demoMusicEnginePausedThenOff = .ok (demoMusicEnginePausedThenOff, 0) ∧
    SetMusicVolume 70 demoMusicEnginePausedThenOff =
      .ok { demoMusicEnginePausedThenOff with m_musicVolume := 70 } ∧
    PlayMusicVolumeTestSound "C:\\game" demoMusicEnginePausedThenOff =
      .ok demoMusicEnginePausedThenOff :=
  music_off_controls_issue_nothing demoMusicEnginePausedThenOff false 3 5 70 "C:\\game"
    (Or.inl rfl)

/-! ## Pause and resume -/

/-- The music side of `Update` when neither a finished track nor an error is pending: only
the seek block can act. -/
theorem Update_music_quiet (env : UpdateEnv) (t : AudioEngine) (n : MediaEngineNotify) (r : Nat)
    (hl : MusicLive t n) (hfin : n.m_previousMusicFinished = false)
    (herr : n.m_errorOccurred = false) :
    Update_music env t r = .ok
      (if n.m_readyToSeek = true then
        if 0 ≤ t.m_musicPosition then
          { t with
            m_mediaEngineNotify := some { n with m_readyToSeek := false }
            musicLog := t.musicLog ++ [MusicCmd.SetCurrentTime t.m_musicPosition]
            m_musicPosition := -1 }
        else { t with m_mediaEngineNotify := some { n with m_readyToSeek := false } }
      else t, r) := by
  obtain ⟨hoff, hdis, heng, hn, hplay, hpause⟩ := hl
  cases t
  simp only at hoff hdis heng hn hplay hpause
  subst_vars
  by_cases hr : n.m_readyToSeek = true
  · by_cases hp : 0 ≤ (‹ℚ› : ℚ)
    · simp [Update_music, Update_previousMusicFinished, Update_readyToSeek, Update_musicError,
        hfin, herr, hr, hp]
    · simp [Update_music, Update_previousMusicFinished, Update_readyToSeek, Update_musicError,
        hfin, herr, hr, hp]
  · simp [Update_music, Update_previousMusicFinished, Update_readyToSeek, Update_musicError,
      hfin, herr, hr]

/-- One frame while a track plays, with neither a finished track nor an error pending: the
frame seeks to the pending position when it sees the ready-to-seek signal and the position is
not negative, and otherwise leaves log and position alone. -/
theorem PlayingTick.run_quiet (t : PlayingTick) (s : AudioEngine) (n : MediaEngineNotify)
    (hsfx : SfxBackendPresent s) (hl : MusicLive s n)
    (hfin : n.m_previousMusicFinished = false) (herr : n.m_errorOccurred = false) :
    ∃ (s' : AudioEngine) (n' : MediaEngineNotify),
      t.run s = .ok s' ∧ SfxBackendPresent s' ∧ MusicLive s' n' ∧
      n'.m_previousMusicFinished = false ∧ n'.m_errorOccurred = false ∧
      n'.m_readyToSeek = false ∧
      ((t.playingNotified = true ∨ n.m_readyToSeek = true) → 0 ≤ s.m_musicPosition →
        s'.musicLog = s.musicLog ++ [MusicCmd.SetCurrentTime s.m_musicPosition] ∧
        s'.m_musicPosition = -1) ∧
      (((t.playingNotified = false ∧ n.m_readyToSeek = false) ∨ s.m_musicPosition < 0) →
        s'.musicLog = s.musicLog ∧ s'.m_musicPosition = s.m_musicPosition) := by
  have hrun : ∀ (s' : AudioEngine) (r : Nat),
      Update t.env (if t.playingNotified = true then notifyEvent .PLAYING s else s) =
        .ok (s', r) → t.run s = .ok s' := by
    intro s' r h
    simp only [PlayingTick.run, h]
  have key : ∃ n0 : MediaEngineNotify,
      SfxBackendPresent (if t.playingNotified = true then notifyEvent .PLAYING s else s) ∧
      MusicLive (if t.playingNotified = true then notifyEvent .PLAYING s else s) n0 ∧
      n0.m_previousMusicFinished = false ∧ n0.m_errorOccurred = false ∧
      (n0.m_readyToSeek = true ↔ (t.playingNotified = true ∨ n.m_readyToSeek = true)) ∧
      (if t.playingNotified = true then notifyEvent .PLAYING s else s).musicLog = s.musicLog ∧
      (if t.playingNotified = true then notifyEvent .PLAYING s else s).m_musicPosition =
        s.m_musicPosition := by
    by_cases hp : t.playingNotified = true
    · simp only [hp, if_true]
      refine ⟨n.EventNotify .PLAYING, ?_, ?_, hfin, herr, ?_, ?_, ?_⟩
      · exact hsfx.of_eq (by simp [notifyEvent, hl.handler]) (by simp [notifyEvent, hl.handler])
      · obtain ⟨h1, h2, h3, h4, h5, h6⟩ := hl
        constructor <;> simp [notifyEvent, h4, h1, h2, h3, h5, h6]
      · simp [MediaEngineNotify.EventNotify]
      · simp [notifyEvent, hl.handler]
      · simp [notifyEvent, hl.handler]
    · have hp' : t.playingNotified = false := by simpa using hp
      simp only [hp', Bool.false_eq_true, if_false, false_or]
      exact ⟨n, hsfx, hl, hfin, herr, by simp⟩
  generalize (if t.playingNotified = true then notifyEvent .PLAYING s else s) = s0 at hrun key
  obtain ⟨n0, hsfx0, hl0, hfin0, herr0, hsig, hlog0, hpos0⟩ := key
  obtain ⟨s1, r1, hsame, hsfx1, hupd⟩ := Update_eq_music t.env s0 hsfx0
  have hl1 : MusicLive s1 n0 := MusicLive.of_sameMusic hsame hl0
  have hq := Update_music_quiet t.env s1 n0 r1 hl1 hfin0 herr0
  have hres := hrun _ _ (hupd.trans hq)
  rw [← hlog0, ← hpos0, ← hsame.musicLog, ← hsame.position]
  by_cases hr : n0.m_readyToSeek = true
  · have hsee := hsig.1 hr
    by_cases hp : 0 ≤ s1.m_musicPosition
    · simp only [hr, hp, if_true] at hres
      refine ⟨_, { n0 with m_readyToSeek := false }, hres, hsfx1.of_eq rfl rfl,
        ⟨hl1.musicOn, hl1.available, hl1.engine, rfl, hl1.playing, hl1.notPaused⟩,
        hfin0, herr0, rfl, fun _ _ => ⟨rfl, rfl⟩, ?_⟩
      rintro (⟨h1, h2⟩ | h)
      · rcases hsee with h | h
        · rw [h1] at h; cases h
        · rw [h2] at h; cases h
      · exact absurd hp (not_le.mpr h)
    · simp only [hr, hp, if_true, if_false] at hres
      refine ⟨_, { n0 with m_readyToSeek := false }, hres, hsfx1.of_eq rfl rfl,
        ⟨hl1.musicOn, hl1.available, hl1.engine, rfl, hl1.playing, hl1.notPaused⟩,
        hfin0, herr0, rfl, fun _ h => absurd h hp, fun _ => ⟨rfl, rfl⟩⟩
  · have hnot : ¬ (t.playingNotified = true ∨ n.m_readyToSeek = true) := fun h => hr (hsig.2 h)
    simp only [hr, if_false] at hres
    exact ⟨_, n0, hres, hsfx1, hl1, hfin0, herr0, by simpa using hr, fun h => absurd h hnot,
      fun _ => ⟨rfl, rfl⟩⟩

/-- Frames that do not see the ready-to-seek signal leave the log of the music backend and
the pending position alone. -/
theorem runPlayingTicks_waiting :
    ∀ (ticks : List PlayingTick) (s : AudioEngine) (n : MediaEngineNotify),
      SfxBackendPresent s → MusicLive s n →
      n.m_previousMusicFinished = false → n.m_errorOccurred = false →
      (∀ t ∈ ticks, t.playingNotified = false ∧ n.m_readyToSeek = false) →
      ∃ (s' : AudioEngine) (n' : MediaEngineNotify),
        runPlayingTicks ticks s = .ok s' ∧ SfxBackendPresent s' ∧ MusicLive s' n' ∧
        n'.m_previousMusicFinished = false ∧ n'.m_errorOccurred = false ∧
        n'.m_readyToSeek = n.m_readyToSeek ∧
        s'.musicLog = s.musicLog ∧ s'.m_musicPosition = s.m_musicPosition := by
  intro ticks
  induction ticks with
  | nil =>
    intro s n hsfx hl hfin herr _
    exact ⟨s, n, rfl, hsfx, hl, hfin, herr, rfl, rfl, rfl⟩
  | cons t rest ih =>
    intro s n hsfx hl hfin herr hall
    obtain ⟨hquiet, hready⟩ := hall t (List.mem_cons_self _ _)
    obtain ⟨s1, n1, hrun, hsfx1, hl1, hfin1, herr1, hready1, -, hsame⟩ :=
      t.run_quiet s n hsfx hl hfin herr
    obtain ⟨hlog1, hpos1⟩ := hsame (Or.inl ⟨hquiet, hready⟩)
    obtain ⟨s', n', hrest, hsfx', hl', hfin', herr', hready', hlog', hpos'⟩ :=
      ih s1 n1 hsfx1 hl1 hfin1 herr1
        (fun u hu => ⟨(hall u (List.mem_cons_of_mem _ hu)).1, hready1⟩)
    refine ⟨s', n', ?_, hsfx', hl', hfin', herr', ?_, hlog'.trans hlog1, hpos'.trans hpos1⟩
    · simp only [runPlayingTicks, hrun, hrest]
    · rw [hready', hready1, hready]

/-- Once the pending position is negative, frames add no seek, whatever they see. -/
theorem runPlayingTicks_no_pending_seek :
    ∀ (ticks : List PlayingTick) (s : AudioEngine) (n : MediaEngineNotify),
      SfxBackendPresent s → MusicLive s n →
      n.m_previousMusicFinished = false → n.m_errorOccurred = false →
      s.m_musicPosition < 0 →
      ∃ s' : AudioEngine,
        runPlayingTicks ticks s = .ok s' ∧
        s'.musicLog = s.musicLog ∧ s'.m_musicPosition = s.m_musicPosition := by
  intro ticks
  induction ticks with
  | nil =>
    intro s n _ _ _ _ _
    exact ⟨s, rfl, rfl, rfl⟩
  | cons t rest ih =>
    intro s n hsfx hl hfin herr hneg
    obtain ⟨s1, n1, hrun, hsfx1, hl1, hfin1, herr1, -, -, hsame⟩ :=
      t.run_quiet s n hsfx hl hfin herr
    obtain ⟨hlog1, hpos1⟩ := hsame (Or.inr hneg)
    obtain ⟨s', hrest, hlog', hpos'⟩ := ih s1 n1 hsfx1 hl1 hfin1 herr1 (by rw [hpos1]; exact hneg)
    refine ⟨s', ?_, hlog'.trans hlog1, hpos'.trans hpos1⟩
    simp only [runPlayingTicks, hrun, hrest]

/-- C15 (pause, then resume).  Music is on and available, the front entry names a file and
is playing, not paused, with no error of the music backend pending.  `PauseMusic()` asks the
backend for its position, which is `position ≥ 0`, pauses it and returns `position`;
`ResumeMusic()` right after it leaves `position` as the pending seek position and restarts the
front entry (`SetSource`, `Play`).  In the frames that follow, in which the backend reports
nothing but `PLAYING`: the frames that do not see the ready-to-seek signal (`waiting`) issue
nothing to the music backend and keep the pending position; the first frame that sees it
(`seekTick`) issues exactly `SetCurrentTime(position)` and sets the pending position to -1;
the frames after it (`later`) issue nothing more, whatever they see.  The mixing backend is
taken to exist when sound effects are on. -/
theorem PauseMusic_ResumeMusic_round_trip (s : AudioEngine) (n : MediaEngineNotify)
    (front : MusicQueueEntry) (rest : List MusicQueueEntry) (position : ℚ) (isPaused : Bool)
    (waiting later : List PlayingTick) (seekTick : PlayingTick)
    (hsfx : SfxBackendPresent s) (hl : MusicLive s n)
    (hq : s.m_musicQueue = front :: rest) (hname : front.Filename.isEmpty = false)
    (herr : n.m_errorOccurred = false) (hpos : 0 ≤ position)
    (hwaiting : ∀ t ∈ waiting, t.playingNotified = false ∧ n.m_readyToSeek = false)
    (hseek : seekTick.playingNotified = true ∨ n.m_readyToSeek = true) :
    ∃ s1 s2 s3 s4 s5 : AudioEngine,
      PauseMusic position s = .ok (s1, position) ∧
      s1.musicLog = s.musicLog ++ [MusicCmd.GetCurrentTime, MusicCmd.Pause] ∧
      ResumeMusic isPaused s1 = .ok s2 ∧
      s2.m_musicPosition = position ∧ s2.m_musicIsPaused = false ∧
      s2.m_musicIsPlaying = true ∧ s2.m_musicQueue = front :: rest ∧
      s2.musicLog = s1.musicLog ++ [MusicCmd.SetSource front.Filename, MusicCmd.Play] ∧
      runPlayingTicks waiting s2 = .ok s3 ∧
      s3.musicLog = s2.musicLog ∧ s3.m_musicPosition = position ∧
      seekTick.run s3 = .ok s4 ∧
      s4.musicLog = s3.musicLog ++ [MusicCmd.SetCurrentTime position] ∧
      s4.m_musicPosition = -1 ∧
      runPlayingTicks later s4 = .ok s5 ∧
      s5.musicLog = s4.musicLog ∧ s5.m_musicPosition = -1 := by
  obtain ⟨hoff, hdis, heng, hn, hplay, hpause⟩ := hl
  -- the pause
  have hpauseRun : PauseMusic position s = .ok
      ({ s with
          m_musicIsPaused := true
          m_musicPosition := position
          musicLog := s.musicLog ++ [MusicCmd.GetCurrentTime, MusicCmd.Pause] }, position) := by
    simp [PauseMusic, hpause, hoff, hdis, heng]
  -- the resume
  have hresume : ∃ s2 : AudioEngine,
      ResumeMusic isPaused
        { s with
          m_musicIsPaused := true
          m_musicPosition := position
          musicLog := s.musicLog ++ [MusicCmd.GetCurrentTime, MusicCmd.Pause] } = .ok s2 ∧
      s2.m_musicPosition = position ∧
      s2.m_musicQueue = front :: rest ∧
      s2.musicLog = s.musicLog ++ [MusicCmd.GetCurrentTime, MusicCmd.Pause] ++
        [MusicCmd.SetSource front.Filename, MusicCmd.Play] ∧
      SfxBackendPresent s2 ∧
      MusicLive s2 { n with m_previousMusicFinished := false } := by
    refine ⟨{ s with
        m_mediaEngineNotify := some { n with m_previousMusicFinished := false }
        m_musicIsPlaying := true
        m_musicIsPaused := false
        m_musicPosition := position
        musicLog := s.musicLog ++ [MusicCmd.GetCurrentTime, MusicCmd.Pause] ++
          [MusicCmd.SetSource front.Filename, MusicCmd.Play] }, ?_, rfl, hq, rfl,
      hsfx.of_eq rfl rfl, ⟨hoff, hdis, heng, rfl, rfl, rfl⟩⟩
    simp [ResumeMusic, ResumeMusicAtTime, PlayMusic, hoff, hdis, heng, hn, hq, hname]
  obtain ⟨s2, hres, hpos2, hq2, hlog2, hsfx2, hl2⟩ := hresume
  -- the frames before the signal
  obtain ⟨s3, n3, hrun3, hsfx3, hl3, hfin3, herr3, hready3, hlog3, hpos3⟩ :=
    runPlayingTicks_waiting waiting s2 _ hsfx2 hl2 rfl herr hwaiting
  -- the frame that sees the signal
  obtain ⟨s4, n4, hrun4, hsfx4, hl4, hfin4, herr4, -, hseen, -⟩ :=
    seekTick.run_quiet s3 n3 hsfx3 hl3 hfin3 herr3
  have hsee3 : seekTick.playingNotified = true ∨ n3.m_readyToSeek = true := by
    rcases hseek with h | h
    · exact Or.inl h
    · exact Or.inr (hready3.trans h)
  obtain ⟨hlog4, hpos4⟩ := hseen hsee3 (by rw [hpos3, hpos2]; exact hpos)
  -- the frames after it
  obtain ⟨s5, hrun5, hlog5, hpos5⟩ :=
    runPlayingTicks_no_pending_seek later s4 n4 hsfx4 hl4 hfin4 herr4
      (by rw [hpos4]; norm_num)
  refine ⟨_, s2, s3, s4, s5, hpauseRun, rfl, hres, hpos2, hl2.notPaused, hl2.playing, hq2,
    hlog2, hrun3, hlog3, hpos3.trans hpos2, hrun4, ?_, hpos4, hrun5, hlog5,
    hpos5.trans hpos4⟩
  rw [hlog4, hpos3, hpos2]

theorem PauseMusic_ResumeMusic_round_trip_witness :
    ∃ s1 s2 s3 s4 s5 : AudioEngine,
      PauseMusic 12 demoMusicEnginePlayingA = .ok (s1, 12) ∧
      s1.musicLog =
        demoMusicEnginePlayingA.musicLog ++ [MusicCmd.GetCurrentTime, MusicCmd.Pause] ∧
      ResumeMusic false s1 = .ok s2 ∧
      s2.m_musicPosition = 12 ∧ s2.m_musicIsPaused = false ∧
      s2.m_musicIsPlaying = true ∧ s2.m_musicQueue = demoEntryA :: [demoEntryB] ∧
      s2.musicLog = s1.musicLog ++ [MusicCmd.SetSource demoEntryA.Filename, MusicCmd.Play] ∧
      runPlayingTicks [{ playingNotified := false, env := demoEnv }] s2 = .ok s3 ∧
      s3.musicLog = s2.musicLog ∧ s3.m_musicPosition = 12 ∧
      PlayingTick.run { playingNotified := true, env := demoEnv } s3 = .ok s4 ∧
      s4.musicLog = s3.musicLog ++ [MusicCmd.SetCurrentTime 12] ∧
      s4.m_musicPosition = -1 ∧
      runPlayingTicks [{ playingNotified := true, env := demoEnv },
        { playingNotified := false, env := demoEnv }] s4 = .ok s5 ∧
      s5.musicLog = s4.musicLog ∧ s5.m_musicPosition = -1 :=
  PauseMusic_ResumeMusic_round_trip demoMusicEnginePlayingA MediaEngineNotify.InitializeVariables
    demoEntryA [demoEntryB] 12 false
    [{ playingNotified := false, env := demoEnv }]
    [{ playingNotified := true, env := demoEnv }, { playingNotified := false, env := demoEnv }]
    { playingNotified := true, env := demoEnv }
    (fun _ => rfl) ⟨rfl, rfl, rfl, rfl, rfl, rfl⟩ rfl (by decide) rfl (by norm_num)
    (by decide) (Or.inl rfl)

/-! ## Balanced start and stop of Media Foundation -/

theorem runStartupShutdown_cons (c : StartupShutdownCall) (rest : List StartupShutdownCall)
    (m : MediaFoundationStartupShutdown) :
    runStartupShutdown (c :: rest) m =
      ((runStartupShutdown rest (c.run m).1).1,
       (c.run m).2 ++ (runStartupShutdown rest (c.run m).1).2) := rfl

theorem StartupShutdownCall.run_cases (nativeOk : Bool) :
    (StartupShutdownCall.Startup nativeOk).run { m_wasStarted := true } =
      ({ m_wasStarted := true }, []) ∧
    (StartupShutdownCall.Startup nativeOk).run { m_wasStarted := false } =
      ({ m_wasStarted := nativeOk }, [(MusicCmd.MFStartup, nativeOk)]) ∧
    StartupShutdownCall.Shutdown.run { m_wasStarted := true } =
      ({ m_wasStarted := false }, [(MusicCmd.MFShutdown, true)]) ∧
    StartupShutdownCall.Shutdown.run { m_wasStarted := false } =
      ({ m_wasStarted := false }, []) := by
  cases nativeOk <;> exact ⟨rfl, rfl, rfl, rfl⟩

theorem runStartupShutdown_balance_from :
    ∀ (calls : List StartupShutdownCall) (m : MediaFoundationStartupShutdown),
      startupsSucceeded (runStartupShutdown calls m).2 + (if m.m_wasStarted then 1 else 0) =
        shutdownsMade (runStartupShutdown calls m).2 +
          (if (runStartupShutdown calls m).1.m_wasStarted then 1 else 0) := by
  intro calls
  induction calls with
  | nil => intro m; simp [runStartupShutdown, startupsSucceeded, shutdownsMade]
  | cons c rest ih =>
    intro m
    obtain ⟨started⟩ := m
    rw [runStartupShutdown_cons]
    cases c with
    | Startup nativeOk =>
      obtain ⟨h1, h2, -, -⟩ := StartupShutdownCall.run_cases nativeOk
      cases started
      · rw [h2]
        have h := ih { m_wasStarted := nativeOk }
        cases nativeOk <;>
          simp [startupsSucceeded, shutdownsMade, List.countP_cons] at h ⊢ <;> omega
      · rw [h1]
        have h := ih { m_wasStarted := true }
        simpa [startupsSucceeded, shutdownsMade] using h
    | Shutdown =>
      obtain ⟨-, -, h3, h4⟩ := StartupShutdownCall.run_cases true
      cases started
      · rw [h4]
        have h := ih { m_wasStarted := false }
        simpa [startupsSucceeded, shutdownsMade] using h
      · rw [h3]
        have h := ih { m_wasStarted := false }
        simp [startupsSucceeded, shutdownsMade, List.countP_cons] at h ⊢
        omega

/-- C25 (balanced start and stop).  From a fresh `MediaFoundationStartupShutdown`, after every
sequence of `Startup()` and `Shutdown()` calls, whatever the native startups answer, the
number of successful `MFStartup` calls equals the number of `MFShutdown` calls plus one if the
object is started and plus zero if it is not.  `Startup()` on a started object makes no native
call and keeps it started; on an object that is not started it calls `MFStartup` once and the
object is started exactly if that call succeeds.  `Shutdown()` on a started object calls
`MFShutdown` once; on an object that is not started it does nothing, so two `Shutdown()` in a
row do what one does. -/
theorem MediaFoundationStartupShutdown_balanced :
    (∀ calls : List StartupShutdownCall,
      startupsSucceeded (runStartupShutdown calls { m_wasStarted := false }).2 =
        shutdownsMade (runStartupShutdown calls { m_wasStarted := false }).2 +
          (if (runStartupShutdown calls { m_wasStarted := false }).1.m_wasStarted then 1
           else 0)) ∧
    (∀ nativeOk : Bool,
      (StartupShutdownCall.Startup nativeOk).run { m_wasStarted := true } =
        ({ m_wasStarted := true }, []) ∧
      (StartupShutdownCall.Startup nativeOk).run { m_wasStarted := false } =
        ({ m_wasStarted := nativeOk }, [(MusicCmd.MFStartup, nativeOk)])) ∧
    StartupShutdownCall.Shutdown.run { m_wasStarted := true } =
      ({ m_wasStarted := false }, [(MusicCmd.MFShutdown, true)]) ∧
    StartupShutdownCall.Shutdown.run { m_wasStarted := false } =
      ({ m_wasStarted := false }, []) ∧
    (∀ m : MediaFoundationStartupShutdown,
      runStartupShutdown [.Shutdown, .Shutdown] m = runStartupShutdown [.Shutdown] m) := by
  refine ⟨?_, fun nativeOk => ⟨(StartupShutdownCall.run_cases nativeOk).1,
    (StartupShutdownCall.run_cases nativeOk).2.1⟩, rfl, rfl, ?_⟩
  · intro calls
    have h := runStartupShutdown_balance_from calls { m_wasStarted := false }
    simpa using h
  · intro m
    obtain ⟨started⟩ := m
    cases started <;> rfl

/-! ## The deactivation count of the window -/

theorem countStaysInRange_head :
    ∀ (calls : List Bool) (count : Nat), countStaysInRange calls count → count < UINT32_RANGE := by
  intro calls count h
  cases calls with
  | nil => exact h
  | cons b rest => exact h.1

/-- One call of `SetWindowIsDeactivated` on a state in which the flag tells whether the count
is positive, when the count does not leave the `uint32` range. -/
theorem SetWindowIsDeactivated_step (isDeactivated : Bool) (d : DirectXBase)
    (hflag : d.m_windowIsDeactivated = decide (d.m_windowIsDeactivatedRefCounter > 0))
    (hcur : d.m_windowIsDeactivatedRefCounter < UINT32_RANGE)
    (hrange : countAfter isDeactivated d.m_windowIsDeactivatedRefCounter < UINT32_RANGE) :
    (d.SetWindowIsDeactivated isDeactivated).m_windowIsDeactivatedRefCounter =
      countAfter isDeactivated d.m_windowIsDeactivatedRefCounter ∧
    (d.SetWindowIsDeactivated isDeactivated).m_windowIsDeactivated =
      decide ((d.SetWindowIsDeactivated isDeactivated).m_windowIsDeactivatedRefCounter > 0) ∧
    (d.SetWindowIsDeactivated isDeactivated).activationChanged =
      d.activationChanged ++
        (if d.m_windowIsDeactivatedRefCounter = 0 ∧
            countAfter isDeactivated d.m_windowIsDeactivatedRefCounter = 1 then [true]
         else if d.m_windowIsDeactivatedRefCounter = 1 ∧
            countAfter isDeactivated d.m_windowIsDeactivatedRefCounter = 0 then [false]
         else []) := by
  obtain ⟨flag, counter, changed⟩ := d
  simp only at hflag hcur hrange ⊢
  rw [hflag]
  have hR : UINT32_RANGE = 4294967296 := by norm_num [UINT32_RANGE]
  rw [hR] at hrange hcur
  cases isDeactivated with
  | true =>
    simp only [countAfter, if_true] at hrange ⊢
    have hmod : (counter + 1) % UINT32_RANGE = counter + 1 := by
      rw [hR]; exact Nat.mod_eq_of_lt hrange
    by_cases h0 : counter = 0
    · subst h0
      simp [DirectXBase.SetWindowIsDeactivated, DirectXBase.OnWindowActivationChanged, hR]
    · have h1 : ¬ counter + 1 = 1 := by omega
      simp [DirectXBase.SetWindowIsDeactivated, DirectXBase.OnWindowActivationChanged, hmod,
        h0, h1]
  | false =>
    simp only [countAfter, Bool.false_eq_true, if_false] at hrange ⊢
    by_cases h0 : counter = 0
    · subst h0
      simp [DirectXBase.SetWindowIsDeactivated, DirectXBase.OnWindowActivationChanged]
    · have hpos : counter > 0 := Nat.pos_of_ne_zero h0
      have hmod : (counter + UINT32_RANGE - 1) % UINT32_RANGE = counter - 1 := by
        rw [hR]; omega
      by_cases h1 : counter = 1
      · subst h1
        simp [DirectXBase.SetWindowIsDeactivated, DirectXBase.OnWindowActivationChanged, hR]
      · have h2 : ¬ counter - 1 = 0 := by omega
        have h3 : 0 < counter - 1 := by omega
        simp [DirectXBase.SetWindowIsDeactivated, DirectXBase.OnWindowActivationChanged, hmod,
          h0, h1, h2, h3, hpos]

theorem runSetWindowIsDeactivated_from :
    ∀ (calls : List Bool) (d : DirectXBase),
      d.m_windowIsDeactivated = decide (d.m_windowIsDeactivatedRefCounter > 0) →
      countStaysInRange calls d.m_windowIsDeactivatedRefCounter →
      (runSetWindowIsDeactivated calls d).m_windowIsDeactivatedRefCounter =
        countAfterAll calls d.m_windowIsDeactivatedRefCounter ∧
      (runSetWindowIsDeactivated calls d).m_windowIsDeactivated =
        decide ((runSetWindowIsDeactivated calls d).m_windowIsDeactivatedRefCounter > 0) ∧
      (runSetWindowIsDeactivated calls d).activationChanged =
        d.activationChanged ++ edgesOf calls d.m_windowIsDeactivatedRefCounter := by
  intro calls
  induction calls with
  | nil =>
    intro d hflag _
    simp [runSetWindowIsDeactivated, countAfterAll, edgesOf, hflag]
  | cons b rest ih =>
    intro d hflag hrange
    have hnext := countStaysInRange_head rest _ hrange.2
    obtain ⟨hc, hf, hl⟩ := SetWindowIsDeactivated_step b d hflag hrange.1 hnext
    have h := ih (d.SetWindowIsDeactivated b) hf (by rw [hc]; exact hrange.2)
    rw [hc, hl] at h
    simp only [runSetWindowIsDeactivated, countAfterAll, edgesOf]
    refine ⟨h.1, h.2.1, ?_⟩
    rw [h.2.2, List.append_assoc]

/-- C26 (reference-counted deactivation).  For every sequence of `SetWindowIsDeactivated`
calls from the state after construction during which the reference count, taken on unbounded
naturals, stays below `2 ^ 32`: the `uint32` counter equals that count,
`GetWindowIsDeactivated()` is true exactly if the counter is positive, and
`OnWindowActivationChanged` has been called exactly once for each step of the count from 0 to
1 (seeing the flag true) and from 1 to 0 (seeing it false), in that order.  A call with
`false` at count 0 in a state whose flag is false changes nothing. -/
theorem SetWindowIsDeactivated_reference_count (calls : List Bool)
    (hrange : countStaysInRange calls 0) :
    (runSetWindowIsDeactivated calls DirectXBase.new).m_windowIsDeactivatedRefCounter =
      countAfterAll calls 0 ∧
    (runSetWindowIsDeactivated calls DirectXBase.new).GetWindowIsDeactivated =
      decide ((runSetWindowIsDeactivated calls DirectXBase.new).m_windowIsDeactivatedRefCounter
        > 0) ∧
    (runSetWindowIsDeactivated calls DirectXBase.new).activationChanged = edgesOf calls 0 ∧
    (∀ changed : List Bool,
      DirectXBase.SetWindowIsDeactivated false
        { m_windowIsDeactivated := false, m_windowIsDeactivatedRefCounter := 0,
          activationChanged := changed } =
        { m_windowIsDeactivated := false, m_windowIsDeactivatedRefCounter := 0,
          activationChanged := changed }) := by
  obtain ⟨h1, h2, h3⟩ := runSetWindowIsDeactivated_from calls DirectXBase.new rfl hrange
  refine ⟨h1, h2, ?_, fun _ => rfl⟩
  rw [h3]
  rfl

theorem SetWindowIsDeactivated_reference_count_witness :
    (runSetWindowIsDeactivated [true, true, false, false, false, true]
      DirectXBase.new).m_windowIsDeactivatedRefCounter =
      countAfterAll [true, true, false, false, false, true] 0 ∧
    (runSetWindowIsDeactivated [true, true, false, false, false, true]
      DirectXBase.new).GetWindowIsDeactivated =
      decide ((runSetWindowIsDeactivated [true, true, false, false, false, true]
        DirectXBase.new).m_windowIsDeactivatedRefCounter > 0) ∧
    (runSetWindowIsDeactivated [true, true, false, false, false, true]
      DirectXBase.new).activationChanged = edgesOf [true, true, false, false, false, true] 0 ∧
    (∀ changed : List Bool,
      DirectXBase.SetWindowIsDeactivated false
        { m_windowIsDeactivated := false, m_windowIsDeactivatedRefCounter := 0,
          activationChanged := changed } =
        { m_windowIsDeactivated := false, m_windowIsDeactivatedRefCounter := 0,
          activationChanged := changed }) :=
  SetWindowIsDeactivated_reference_count [true, true, false, false, false, true]
    (by simp [countStaysInRange, countAfter, UINT32_RANGE])

/-! ## What the music controls keep -/

theorem SameSfx.sameSfx_refl (s : AudioEngine) : SameSfx s s :=
  ⟨rfl, rfl, rfl, rfl, rfl, rfl, rfl⟩

theorem SameSfx.sameSfx_trans {a b c : AudioEngine} (h1 : SameSfx a b) (h2 : SameSfx b c) :
    SameSfx a c :=
  ⟨h2.error.trans h1.error, h2.engine.trans h1.engine,
   h2.masteringVoice.trans h1.masteringVoice, h2.map.trans h1.map,
   h2.soundEffectsOff.trans h1.soundEffectsOff,
   h2.soundEffectsVolume.trans h1.soundEffectsVolume, h2.log.trans h1.log⟩

theorem MusicFrame.musicFrame_refl (s : AudioEngine) : MusicFrame s s :=
  ⟨SameSfx.sameSfx_refl s, rfl, rfl, rfl, rfl, rfl, id⟩

theorem MusicFrame.musicFrame_trans {a b c : AudioEngine} (h1 : MusicFrame a b) (h2 : MusicFrame b c) :
    MusicFrame a c :=
  ⟨h1.sfx.sameSfx_trans h2.sfx, h2.musicEngine.trans h1.musicEngine,
   h2.mediaFoundation.trans h1.mediaFoundation, h2.disabled.trans h1.disabled,
   h2.musicOff.trans h1.musicOff, h2.handler.trans h1.handler,
   fun h => h2.playing (h1.playing h)⟩

theorem MusicFrame.handlerExists {s s' : AudioEngine} (h : MusicFrame s s') :
    s'.m_mediaEngineNotify.isSome = s.m_mediaEngineNotify.isSome := by
  have := congrArg Option.isSome h.handler
  simpa using this

theorem MusicPresent.of_frame {s s' : AudioEngine} (h : MusicFrame s s')
    (hp : MusicPresent s) : MusicPresent s' := by
  unfold MusicPresent at hp ⊢
  rw [h.musicOff, h.disabled, h.musicEngine, h.handlerExists]
  exact hp

/-- The frame of `PlayMusic`: besides what every music control keeps, the queue and the
pending position stay, and the call either changes nothing or leaves music playing and not
paused. -/
theorem PlayMusic_frame (isPaused : Bool) (s s' : AudioEngine)
    (h : PlayMusic isPaused s = .ok s') :
    MusicFrame s s' ∧ s'.m_musicQueue = s.m_musicQueue ∧
    s'.m_musicPosition = s.m_musicPosition ∧ s'.m_musicVolume = s.m_musicVolume ∧
    (s' = s ∨ (s'.m_musicIsPlaying = true ∧ s'.m_musicIsPaused = false)) := by
  unfold PlayMusic at h
  split at h
  · cases h
    exact ⟨MusicFrame.musicFrame_refl s, rfl, rfl, rfl, Or.inl rfl⟩
  · split at h
    · cases h
      exact ⟨MusicFrame.musicFrame_refl s, rfl, rfl, rfl, Or.inl rfl⟩
    · split at h
      · rename_i _ front rest hq _ _ n hn heng
        cases hname : front.Filename.isEmpty <;> cases isPaused <;>
          simp only [hname, Bool.not_true, Bool.not_false, Bool.false_eq_true, if_false,
            if_true, Except.ok.injEq] at h <;>
          subst h <;>
          exact ⟨⟨⟨rfl, rfl, rfl, rfl, rfl, rfl, rfl⟩, rfl, rfl, rfl, rfl,
            by simp [hn, MediaEngineNotify.errorRecord], fun _ => rfl⟩, rfl, rfl, rfl,
            Or.inr ⟨rfl, rfl⟩⟩
      · cases h

theorem MusicPresent.live {s : AudioEngine} (hp : MusicPresent s)
    (hoff : s.m_musicOff = false) (hdis : s.m_musicDisabledNoMediaFoundation = false) :
    s.m_musicEngine = true ∧ ∃ n, s.m_mediaEngineNotify = some n := by
  obtain ⟨heng, hsome⟩ := hp.1 hoff hdis
  exact ⟨heng, Option.isSome_iff_exists.mp hsome⟩

theorem PlayMusic_total (isPaused : Bool) (s : AudioEngine) (hp : MusicPresent s) :
    ∃ s', PlayMusic isPaused s = .ok s' := by
  by_cases hoff : (s.m_musicDisabledNoMediaFoundation || s.m_musicOff) = true
  · exact ⟨s, by simp [PlayMusic, hoff]⟩
  · simp only [Bool.or_eq_true, not_or, Bool.not_eq_true] at hoff
    obtain ⟨heng, n, hn⟩ := hp.live hoff.2 hoff.1
    cases hq : s.m_musicQueue with
    | nil => exact ⟨s, by simp [PlayMusic, hoff.1, hoff.2, hq]⟩
    | cons front rest =>
      cases hname : front.Filename.isEmpty with
      | false => exact ⟨_, PlayMusic_track isPaused s n front rest hoff.2 hoff.1 heng hn hq hname⟩
      | true => exact ⟨_, PlayMusic_silence isPaused s n front rest hoff.2 hoff.1 heng hn hq hname⟩

theorem MusicFrame.of_queue (s : AudioEngine) (queue : List MusicQueueEntry) :
    MusicFrame s { s with m_musicQueue := queue } :=
  ⟨⟨rfl, rfl, rfl, rfl, rfl, rfl, rfl⟩, rfl, rfl, rfl, rfl, rfl, id⟩

theorem MoveToNextMusicInQueue_frame (isPaused : Bool) (s s' : AudioEngine)
    (h : MoveToNextMusicInQueue isPaused s = .ok s') : MusicFrame s s' := by
  by_cases hoff : (s.m_musicDisabledNoMediaFoundation || s.m_musicOff) = true
  · cases hq : s.m_musicQueue with
    | nil =>
      simp [MoveToNextMusicInQueue, hq, hoff] at h
      subst h; exact MusicFrame.musicFrame_refl s
    | cons e rest =>
      simp [MoveToNextMusicInQueue, hq, hoff] at h
      subst h; exact MusicFrame.of_queue s rest
  · cases hq : s.m_musicQueue with
    | nil =>
      by_cases heng : s.m_musicEngine = true
      · simp [MoveToNextMusicInQueue, hq, hoff, heng] at h
        subst h
        refine ⟨⟨?_, ?_, ?_, ?_, ?_, ?_, ?_⟩, ?_, ?_, ?_, ?_, ?_, ?_⟩ <;>
          first
            | rfl
            | exact id
            | simp_all [MediaEngineNotify.errorRecord]
      · simp [MoveToNextMusicInQueue, hq, hoff, heng] at h
    | cons e rest =>
      cases rest with
      | nil =>
        by_cases heng : s.m_musicEngine = true
        · simp [MoveToNextMusicInQueue, hq, hoff, heng] at h
          subst h
          refine ⟨⟨?_, ?_, ?_, ?_, ?_, ?_, ?_⟩, ?_, ?_, ?_, ?_, ?_, ?_⟩ <;>
          first
            | rfl
            | exact id
            | simp_all [MediaEngineNotify.errorRecord]
        · simp [MoveToNextMusicInQueue, hq, hoff, heng] at h
      | cons e2 rest2 =>
        have h2 : PlayMusic isPaused { s with m_musicQueue := e2 :: rest2 } = .ok s' := by
          simpa [MoveToNextMusicInQueue, hq, hoff] using h
        exact (MusicFrame.of_queue s _).musicFrame_trans (PlayMusic_frame isPaused _ s' h2).1

theorem MoveToNextMusicInQueue_total (isPaused : Bool) (s : AudioEngine) (hp : MusicPresent s) :
    ∃ s', MoveToNextMusicInQueue isPaused s = .ok s' := by
  cases hres : MoveToNextMusicInQueue isPaused s with
  | ok s' => exact ⟨s', rfl⟩
  | error fault =>
    exfalso
    by_cases hoff : (s.m_musicDisabledNoMediaFoundation || s.m_musicOff) = true
    · cases hq : s.m_musicQueue with
      | nil => simp [MoveToNextMusicInQueue, hq, hoff] at hres
      | cons e rest => simp [MoveToNextMusicInQueue, hq, hoff] at hres
    · have hoff' := hoff
      simp only [Bool.or_eq_true, not_or, Bool.not_eq_true] at hoff'
      obtain ⟨heng, n, hn⟩ := hp.live hoff'.2 hoff'.1
      cases hq : s.m_musicQueue with
      | nil => simp [MoveToNextMusicInQueue, hq, hoff, heng] at hres
      | cons e rest =>
        cases rest with
        | nil => simp [MoveToNextMusicInQueue, hq, hoff, heng] at hres
        | cons e2 rest2 =>
          obtain ⟨s', hs'⟩ := PlayMusic_total isPaused { s with m_musicQueue := e2 :: rest2 }
            (hp.of_frame (MusicFrame.of_queue s _))
          simp [MoveToNextMusicInQueue, hq, hoff, hs'] at hres

theorem AddMusicToQueue_frame (installedLocation filename : String) (loopCount : Int)
    (autoPlay : Bool) (s : AudioEngine) :
    MusicFrame s (AddMusicToQueue installedLocation filename loopCount autoPlay s) :=
  MusicFrame.of_queue s _

theorem ClearMusicQueue_frame (s : AudioEngine) : MusicFrame s (ClearMusicQueue s) :=
  MusicFrame.of_queue s _

theorem PlayMusicVolumeTestSound_frame (installedLocation : String) (s s' : AudioEngine)
    (h : PlayMusicVolumeTestSound installedLocation s = .ok s') : MusicFrame s s' := by
  unfold PlayMusicVolumeTestSound at h
  split at h
  · cases h; exact MusicFrame.musicFrame_refl s
  · simp only at h
    split at h
    · cases h
      exact ⟨⟨rfl, rfl, rfl, rfl, rfl, rfl, rfl⟩, rfl, rfl, rfl, rfl, rfl, id⟩
    · cases h

theorem PlayMusicVolumeTestSound_total (installedLocation : String) (s : AudioEngine)
    (hp : MusicPresent s) : ∃ s', PlayMusicVolumeTestSound installedLocation s = .ok s' := by
  cases hres : PlayMusicVolumeTestSound installedLocation s with
  | ok s' => exact ⟨s', rfl⟩
  | error fault =>
    exfalso
    by_cases hoff : (s.m_musicDisabledNoMediaFoundation || s.m_musicOff) = true
    · simp [PlayMusicVolumeTestSound, hoff] at hres
    · have hoff' := hoff
      simp only [Bool.or_eq_true, not_or, Bool.not_eq_true] at hoff'
      obtain ⟨heng, -⟩ := hp.live hoff'.2 hoff'.1
      simp [PlayMusicVolumeTestSound, hoff, heng] at hres

theorem SetMusicVolume_frame (volume : ℚ) (s s' : AudioEngine)
    (h : SetMusicVolume volume s = .ok s') : MusicFrame s s' := by
  unfold SetMusicVolume at h
  simp only at h
  split at h
  · cases h
    exact ⟨⟨rfl, rfl, rfl, rfl, rfl, rfl, rfl⟩, rfl, rfl, rfl, rfl, rfl, id⟩
  · split at h
    · cases h
      exact ⟨⟨rfl, rfl, rfl, rfl, rfl, rfl, rfl⟩, rfl, rfl, rfl, rfl, rfl, id⟩
    · cases h

theorem SetMusicVolume_total (volume : ℚ) (s : AudioEngine) (hp : MusicPresent s) :
    ∃ s', SetMusicVolume volume s = .ok s' := by
  cases hres : SetMusicVolume volume s with
  | ok s' => exact ⟨s', rfl⟩
  | error fault =>
    exfalso
    by_cases hoff : (s.m_musicDisabledNoMediaFoundation || s.m_musicOff) = true
    · simp [SetMusicVolume, hoff] at hres
    · have hoff' := hoff
      simp only [Bool.or_eq_true, not_or, Bool.not_eq_true] at hoff'
      obtain ⟨heng, -⟩ := hp.live hoff'.2 hoff'.1
      simp [SetMusicVolume, hoff, heng] at hres

theorem PauseMusic_frame (currentTime : ℚ) (s s' : AudioEngine) (position : ℚ)
    (h : PauseMusic currentTime s = .ok (s', position)) : MusicFrame s s' := by
  unfold PauseMusic at h
  split at h
  · cases h; exact MusicFrame.musicFrame_refl s
  · simp only at h
    split at h
    · cases h
      exact ⟨⟨rfl, rfl, rfl, rfl, rfl, rfl, rfl⟩, rfl, rfl, rfl, rfl, rfl, id⟩
    · split at h
      · cases h
        exact ⟨⟨rfl, rfl, rfl, rfl, rfl, rfl, rfl⟩, rfl, rfl, rfl, rfl, rfl, id⟩
      · cases h

theorem PauseMusic_total (currentTime : ℚ) (s : AudioEngine) (hp : MusicPresent s) :
    ∃ result, PauseMusic currentTime s = .ok result := by
  cases hres : PauseMusic currentTime s with
  | ok result => exact ⟨result, rfl⟩
  | error fault =>
    exfalso
    by_cases hpause : s.m_musicIsPaused = true
    · simp [PauseMusic, hpause] at hres
    · by_cases hoff : (s.m_musicOff || s.m_musicDisabledNoMediaFoundation) = true
      · simp [PauseMusic, hpause, hoff] at hres
      · have hoff' := hoff
        simp only [Bool.or_eq_true, not_or, Bool.not_eq_true] at hoff'
        obtain ⟨heng, -⟩ := hp.live hoff'.1 hoff'.2
        simp [PauseMusic, hpause, hoff, heng] at hres

theorem ResumeMusicAtTime_frame (isPaused : Bool) (seconds : ℚ) (s s' : AudioEngine)
    (h : ResumeMusicAtTime isPaused seconds s = .ok s') : MusicFrame s s' := by
  unfold ResumeMusicAtTime at h
  simp only at h
  split at h
  · cases h
    exact ⟨⟨rfl, rfl, rfl, rfl, rfl, rfl, rfl⟩, rfl, rfl, rfl, rfl, rfl, id⟩
  · split at h
    · cases h
    · rename_i n hn
      have hplay := (PlayMusic_frame isPaused _ s' h).1
      refine MusicFrame.musicFrame_trans ?_ hplay
      exact ⟨⟨rfl, rfl, rfl, rfl, rfl, rfl, rfl⟩, rfl, rfl, rfl, rfl,
        by simp [hn, MediaEngineNotify.errorRecord], id⟩

theorem ResumeMusicAtTime_total (isPaused : Bool) (seconds : ℚ) (s : AudioEngine)
    (hp : MusicPresent s) : ∃ s', ResumeMusicAtTime isPaused seconds s = .ok s' := by
  cases hres : ResumeMusicAtTime isPaused seconds s with
  | ok s' => exact ⟨s', rfl⟩
  | error fault =>
    exfalso
    by_cases hoff : (s.m_musicDisabledNoMediaFoundation || s.m_musicOff) = true
    · simp [ResumeMusicAtTime, hoff] at hres
    · have hoff' := hoff
      simp only [Bool.or_eq_true, not_or, Bool.not_eq_true] at hoff'
      obtain ⟨heng, n, hn⟩ := hp.live hoff'.2 hoff'.1
      have hpt : MusicPresent { s with
          m_musicIsPaused := false
          m_mediaEngineNotify := some { n with m_previousMusicFinished := false }
          m_musicPosition := seconds } := by
        unfold MusicPresent
        simp [heng]
      obtain ⟨s', hs'⟩ := PlayMusic_total isPaused _ hpt
      unfold ResumeMusicAtTime at hres
      simp only [hoff, if_false, hn] at hres
      rw [hs'] at hres
      cases hres

theorem GetMusicCurrentTime_frame (currentTime : ℚ) (s s' : AudioEngine) (time : ℚ)
    (h : GetMusicCurrentTime currentTime s = .ok (s', time)) : MusicFrame s s' := by
  unfold GetMusicCurrentTime at h
  split at h
  · split at h
    · cases h
      exact ⟨⟨rfl, rfl, rfl, rfl, rfl, rfl, rfl⟩, rfl, rfl, rfl, rfl, rfl, id⟩
    · cases h; exact MusicFrame.musicFrame_refl s
  · split at h
    · cases h
      exact ⟨⟨rfl, rfl, rfl, rfl, rfl, rfl, rfl⟩, rfl, rfl, rfl, rfl, rfl, id⟩
    · cases h

theorem GetMusicCurrentTime_total (currentTime : ℚ) (s : AudioEngine) (hp : MusicPresent s) :
    ∃ result, GetMusicCurrentTime currentTime s = .ok result := by
  cases hres : GetMusicCurrentTime currentTime s with
  | ok result => exact ⟨result, rfl⟩
  | error fault =>
    exfalso
    unfold GetMusicCurrentTime at hres
    split at hres
    · split at hres <;> cases hres
    · rename_i hskip
      have hskip' : GetSkipMusicFunction s = false := by simpa using hskip
      simp only [GetSkipMusicFunction, Bool.or_eq_false_iff] at hskip'
      obtain ⟨heng, -⟩ := hp.live hskip'.1.1 hskip'.1.2
      simp [heng] at hres

theorem SetMusicCurrentTime_frame (seconds : ℚ) (s : AudioEngine) :
    MusicFrame s (SetMusicCurrentTime seconds s) := by
  unfold SetMusicCurrentTime
  split
  · exact MusicFrame.musicFrame_refl s
  · simp only
    split
    · exact ⟨⟨rfl, rfl, rfl, rfl, rfl, rfl, rfl⟩, rfl, rfl, rfl, rfl, rfl, id⟩
    · exact ⟨⟨rfl, rfl, rfl, rfl, rfl, rfl, rfl⟩, rfl, rfl, rfl, rfl, rfl, id⟩

/-! ## What every transition keeps -/

theorem Preserved.preserved_refl (s : AudioEngine) : Preserved s s := ⟨id, id, id, id⟩

theorem Preserved.preserved_trans {a b c : AudioEngine} (h1 : Preserved a b) (h2 : Preserved b c) :
    Preserved a c :=
  ⟨fun h => h2.playing (h1.playing h), fun h => h2.music (h1.music h),
   fun h => h2.pools (h1.pools h), fun h => h2.sfx (h1.sfx h)⟩

theorem PoolsEmptyWhenOff.pools_of_sameSfx {s s' : AudioEngine} (h : SameSfx s s')
    (hp : PoolsEmptyWhenOff s) : PoolsEmptyWhenOff s' := by
  unfold PoolsEmptyWhenOff at hp ⊢
  rw [h.soundEffectsOff, h.map]
  exact hp

theorem SfxPresent.present_of_sameSfx {s s' : AudioEngine} (h : SameSfx s s')
    (hp : SfxPresent s) : SfxPresent s' := by
  unfold SfxPresent at hp ⊢
  rw [h.soundEffectsOff, h.engine, h.masteringVoice]
  exact hp

theorem MusicPresent.present_of_sameMusic {s s' : AudioEngine} (h : SameMusic s s')
    (hp : MusicPresent s) : MusicPresent s' := by
  unfold MusicPresent at hp ⊢
  rw [h.musicOff, h.disabled, h.musicEngine, h.notify]
  exact hp

theorem MusicFrame.musicFrame_preserved {s s' : AudioEngine} (h : MusicFrame s s') : Preserved s s' :=
  ⟨h.playing, fun hp => hp.of_frame h, fun hp => hp.pools_of_sameSfx h.sfx,
   fun hp => hp.present_of_sameSfx h.sfx⟩

theorem SfxFrame.sfxFrame_preserved {s s' : AudioEngine} (h : SfxFrame s s') : Preserved s s' :=
  ⟨fun hp => h.music.playing.trans hp, fun hp => hp.present_of_sameMusic h.music, h.pools, h.present⟩

theorem SfxFrame.sfxFrame_refl (s : AudioEngine) : SfxFrame s s := ⟨SameMusic.refl s, id, id⟩

theorem SfxFrame.sfxFrame_trans {a b c : AudioEngine} (h1 : SfxFrame a b) (h2 : SfxFrame b c) :
    SfxFrame a c :=
  ⟨h1.music.trans h2.music, fun h => h2.pools (h1.pools h), fun h => h2.present (h1.present h)⟩

theorem SfxPresent.backend {s : AudioEngine} (h : SfxPresent s) : SfxBackendPresent s :=
  fun hoff => (h hoff).1

/-- A backend notification keeps the handles and the playing flag of the engine. -/
theorem notifyEvent_preserved (meEvent : MediaEngineEvent) (s : AudioEngine) :
    Preserved s (notifyEvent meEvent s) ∧ SameSfx s (notifyEvent meEvent s) ∧
    (notifyEvent meEvent s).m_musicIsPlaying = s.m_musicIsPlaying := by
  unfold notifyEvent
  cases hn : s.m_mediaEngineNotify with
  | none => exact ⟨Preserved.preserved_refl s, SameSfx.sameSfx_refl s, rfl⟩
  | some n =>
    refine ⟨⟨id, ?_, fun hp => hp.pools_of_sameSfx ⟨rfl, rfl, rfl, rfl, rfl, rfl, rfl⟩,
      fun hp => hp.present_of_sameSfx ⟨rfl, rfl, rfl, rfl, rfl, rfl, rfl⟩⟩,
      ⟨rfl, rfl, rfl, rfl, rfl, rfl, rfl⟩, rfl⟩
    intro hp
    unfold MusicPresent at hp ⊢
    simpa [hn] using hp

theorem ShutdownMusicEngine_state (s : AudioEngine) :
    SameSfx s (ShutdownMusicEngine s) ∧
    (ShutdownMusicEngine s).m_musicOff = true ∧
    (ShutdownMusicEngine s).m_musicEngine = false ∧
    (ShutdownMusicEngine s).m_mediaEngineNotify = none ∧
    (ShutdownMusicEngine s).m_musicIsPlaying = s.m_musicIsPlaying ∧
    (ShutdownMusicEngine s).m_musicIsPaused = s.m_musicIsPaused ∧
    (ShutdownMusicEngine s).m_musicQueue = s.m_musicQueue ∧
    (ShutdownMusicEngine s).m_musicPosition = s.m_musicPosition ∧
    (ShutdownMusicEngine s).m_musicDisabledNoMediaFoundation =
      s.m_musicDisabledNoMediaFoundation := by
  unfold ShutdownMusicEngine MediaFoundationStartupShutdown.Shutdown
  cases h1 : s.m_musicEngine <;> cases h2 : s.m_mediaFoundationStartupShutdown.m_wasStarted <;>
    simp [h1, h2] <;> exact ⟨rfl, rfl, rfl, rfl, rfl, rfl, rfl⟩

theorem ShutdownMusicEngine_preserved (s : AudioEngine) :
    Preserved s (ShutdownMusicEngine s) ∧ MusicPresent (ShutdownMusicEngine s) := by
  obtain ⟨hsfx, hoff, heng, hn, hplay, -, -, -, -⟩ := ShutdownMusicEngine_state s
  have hp : MusicPresent (ShutdownMusicEngine s) := by
    unfold MusicPresent
    rw [hoff, hn]
    simp
  exact ⟨⟨fun h => hplay.trans h, fun _ => hp, fun h => h.pools_of_sameSfx hsfx,
    fun h => h.present_of_sameSfx hsfx⟩, hp⟩

/-- Source function `InitializeMusicEngine` always returns; it writes nothing of the sound
effect side, the playing and paused flags, the queue or the pending position, and it leaves
the media engine and a fresh handler behind whenever it leaves music on and available. -/
theorem InitializeMusicEngine_state (mfStartupOk : Bool) (outcome : MusicInitOutcome)
    (s : AudioEngine) :
    ∃ s', InitializeMusicEngine mfStartupOk outcome s = .ok s' ∧ SameSfx s s' ∧
      MusicPresent s' ∧
      s'.m_musicIsPlaying = s.m_musicIsPlaying ∧ s'.m_musicIsPaused = s.m_musicIsPaused ∧
      s'.m_musicQueue = s.m_musicQueue ∧ s'.m_musicPosition = s.m_musicPosition ∧
      (s'.m_mediaEngineNotify = none ∨
        s'.m_mediaEngineNotify = some MediaEngineNotify.InitializeVariables) ∧
      (s'.m_musicOff = false ↔ (mfStartupOk = true ∧ outcome = .ok)) ∧
      (s'.m_musicOff = false → s'.m_musicDisabledNoMediaFoundation = false ∧
        s'.m_musicEngine = true ∧
        s'.m_mediaEngineNotify = some MediaEngineNotify.InitializeVariables ∧
        startCmds s'.musicLog = startCmds s.musicLog) := by
  obtain ⟨hsfx, hoff, heng, hn, hplay, hpause, hq, hpos, hdis⟩ := ShutdownMusicEngine_state s
  obtain ⟨-, -, hmf, cmds, hlog⟩ := ShutdownMusicEngine_log s
  have hcmds : startCmds cmds = [] := by
    have h1 : startCmds (ShutdownMusicEngine s).musicLog = startCmds s.musicLog := by
      unfold ShutdownMusicEngine MediaFoundationStartupShutdown.Shutdown
      cases h1 : s.m_musicEngine <;>
        cases h2 : s.m_mediaFoundationStartupShutdown.m_wasStarted <;>
        simp [h1, h2, startCmds, List.filter_append, MusicCmd.isStart]
    rw [hlog, startCmds_append] at h1
    simpa using h1
  unfold InitializeMusicEngine
  generalize ShutdownMusicEngine s = t at *
  obtain ⟨e1, e2, e3, e4, e5, e6, e7⟩ := hsfx
  cases mfStartupOk <;> cases outcome <;>
    simp [MediaFoundationStartupShutdown.Startup, MediaFoundationStartupShutdown.Shutdown,
      musicInitCatch, SetMusicVolume, hmf, heng, hn, hoff, MusicPresent, hplay, hpause, hq,
      hpos, hlog, startCmds_append, hcmds] <;>
    first
      | exact ⟨e1, e2, e3, e4, e5, e6, e7⟩
      | (refine ⟨⟨e1, e2, e3, e4, e5, e6, e7⟩, ?_⟩; simp [startCmds, MusicCmd.isStart])

theorem InitializeMusicEngine_preserved (mfStartupOk : Bool) (outcome : MusicInitOutcome)
    (s s' : AudioEngine) (h : InitializeMusicEngine mfStartupOk outcome s = .ok s') :
    Preserved s s' ∧ MusicPresent s' := by
  obtain ⟨t, ht, hsfx, hp, hplay, -⟩ := InitializeMusicEngine_state mfStartupOk outcome s
  rw [ht] at h
  cases h
  exact ⟨⟨fun h => hplay.trans h, fun _ => hp, fun h => h.pools_of_sameSfx hsfx,
    fun h => h.present_of_sameSfx hsfx⟩, hp⟩

/-- Source function `SetMusicOnOff` always returns. -/
theorem SetMusicOnOff_state (turnOff mfStartupOk : Bool) (outcome : MusicInitOutcome)
    (isPaused : Bool) (s : AudioEngine) :
    ∃ s' off, SetMusicOnOff turnOff mfStartupOk outcome isPaused s = .ok (s', off) ∧
      Preserved s s' ∧ off = s'.m_musicOff := by
  unfold SetMusicOnOff
  cases turnOff with
  | true =>
    exact ⟨_, _, rfl, (ShutdownMusicEngine_preserved s).1, rfl⟩
  | false =>
    simp only [Bool.false_eq_true, if_false]
    split
    · obtain ⟨s1, hs1, hsfx, hp, hplay, -⟩ := InitializeMusicEngine_state mfStartupOk outcome s
      have hpres := (InitializeMusicEngine_preserved mfStartupOk outcome s s1 hs1).1
      simp only [hs1]
      split
      · split
        · obtain ⟨s2, hs2⟩ := PlayMusic_total isPaused s1 hp
          simp only [hs2]
          exact ⟨_, _, rfl, hpres.preserved_trans (PlayMusic_frame isPaused s1 s2 hs2).1.musicFrame_preserved, rfl⟩
        · exact ⟨_, _, rfl, hpres, rfl⟩
      · exact ⟨_, _, rfl, hpres, rfl⟩
    · exact ⟨_, _, rfl, Preserved.preserved_refl s, rfl⟩

/-- The queue block of a tick keeps what the music controls keep, and the playing and paused
flags and the pending position as well. -/
theorem Update_previousMusicFinished_frame (isPaused : Bool) (s s' : AudioEngine)
    (h : Update_previousMusicFinished isPaused s = .ok s') :
    MusicFrame s s' ∧ s'.m_musicIsPlaying = s.m_musicIsPlaying ∧
    s'.m_musicIsPaused = s.m_musicIsPaused ∧ s'.m_musicPosition = s.m_musicPosition := by
  have hplayed : ∀ (t : AudioEngine), MusicFrame s t →
      t.m_musicIsPlaying = s.m_musicIsPlaying → t.m_musicIsPaused = s.m_musicIsPaused →
      t.m_musicPosition = s.m_musicPosition →
      s.m_musicIsPlaying = true → s.m_musicIsPaused = false →
      PlayMusic isPaused t = .ok s' →
      MusicFrame s s' ∧ s'.m_musicIsPlaying = s.m_musicIsPlaying ∧
        s'.m_musicIsPaused = s.m_musicIsPaused ∧ s'.m_musicPosition = s.m_musicPosition := by
    intro t hf h1 h2 h3 hplay hpause h
    obtain ⟨hf2, -, hpos, -, hor⟩ := PlayMusic_frame isPaused t s' h
    refine ⟨hf.musicFrame_trans hf2, ?_, ?_, hpos.trans h3⟩
    · rcases hor with rfl | ⟨h4, -⟩
      · exact h1
      · rw [h4, hplay]
    · rcases hor with rfl | ⟨-, h5⟩
      · exact h2
      · rw [h5, hpause]
  unfold Update_previousMusicFinished at h
  split at h
  · cases h
  · rename_i n hn
    split at h
    · rename_i hcond
      simp only [Bool.and_eq_true, Bool.not_eq_true'] at hcond
      obtain ⟨⟨-, hplay⟩, hpause⟩ := hcond
      split at h
      · cases h; exact ⟨MusicFrame.musicFrame_refl s, rfl, rfl, rfl⟩
      · rename_i currentMusic rest hq
        split at h
        · simp only at h
          split at h
          · exact hplayed _ (MusicFrame.of_queue s rest) rfl rfl rfl hplay hpause h
          · cases h
            exact ⟨MusicFrame.of_queue s rest, rfl, rfl, rfl⟩
        · simp only at h
          refine hplayed _ ?_ ?_ ?_ ?_ hplay hpause h
          · exact MusicFrame.of_queue s _
          · rfl
          · rfl
          · rfl
    · cases h; exact ⟨MusicFrame.musicFrame_refl s, rfl, rfl, rfl⟩

theorem Update_previousMusicFinished_total (isPaused : Bool) (s : AudioEngine)
    (hp : MusicPresent s) (hn : s.m_mediaEngineNotify.isSome = true) :
    ∃ s', Update_previousMusicFinished isPaused s = .ok s' := by
  cases hres : Update_previousMusicFinished isPaused s with
  | ok s' => exact ⟨s', rfl⟩
  | error fault =>
    exfalso
    have hplayed : ∀ (t : AudioEngine), MusicFrame s t → PlayMusic isPaused t ≠ .error fault := by
      intro t hf h
      obtain ⟨t', ht'⟩ := PlayMusic_total isPaused t (hp.of_frame hf)
      rw [ht'] at h
      cases h
    unfold Update_previousMusicFinished at hres
    split at hres
    · rename_i hnone
      rw [hnone] at hn
      cases hn
    · split at hres
      · split at hres
        · cases hres
        · rename_i currentMusic rest hq
          split at hres
          · simp only at hres
            split at hres
            · exact hplayed _ (MusicFrame.of_queue s rest) hres
            · cases hres
          · simp only at hres
            refine hplayed _ ?_ hres
            exact MusicFrame.of_queue s _
      · cases hres

/-! ## What the sound effect controls keep -/

theorem SfxFrame.of_pools {s s' : AudioEngine} (hm : SameMusic s s')
    (hoff : s'.m_soundEffectsOff = s.m_soundEffectsOff)
    (heng : s'.m_soundEffectsEngine = s.m_soundEffectsEngine)
    (hmast : s'.m_masteringVoice = s.m_masteringVoice)
    (hpools : s.m_soundEffectsOff = true →
      (∀ entry ∈ s.m_soundEffectsMap, entry.2.m_sourceVoices = []) →
      ∀ entry ∈ s'.m_soundEffectsMap, entry.2.m_sourceVoices = []) : SfxFrame s s' := by
  refine ⟨hm, ?_, ?_⟩
  · intro hp hoff'
    rw [hoff] at hoff'
    exact hpools hoff' (hp hoff')
  · intro hp
    unfold SfxPresent at hp ⊢
    rw [hoff, heng, hmast]
    exact hp

theorem SfxFrame.of_map {s s' : AudioEngine} (hm : SameMusic s s')
    (hoff : s'.m_soundEffectsOff = s.m_soundEffectsOff)
    (heng : s'.m_soundEffectsEngine = s.m_soundEffectsEngine)
    (hmast : s'.m_masteringVoice = s.m_masteringVoice)
    (hmap : s'.m_soundEffectsMap = s.m_soundEffectsMap) : SfxFrame s s' :=
  SfxFrame.of_pools hm hoff heng hmast (fun _ h => by rw [hmap]; exact h)

theorem clearAllPools_empty (map : List (String × SoundEffect)) :
    ∀ entry ∈ (clearAllPools map).1, entry.2.m_sourceVoices = [] := by
  induction map with
  | nil => intro entry h; simp [clearAllPools] at h
  | cons p rest ih =>
    obtain ⟨k, se⟩ := p
    intro entry h
    simp only [clearAllPools, List.mem_cons] at h
    rcases h with rfl | h
    · rfl
    · exact ih entry h

theorem mem_mapInsert {α : Type} (map : List (String × α)) (key : String) (v : α)
    (entry : String × α) (h : entry ∈ mapInsert map key v) :
    entry ∈ map ∨ entry = (key, v) := by
  induction map with
  | nil =>
    simp only [mapInsert, List.mem_singleton] at h
    exact Or.inr h
  | cons p rest ih =>
    obtain ⟨k, w⟩ := p
    unfold mapInsert at h
    split at h
    · rename_i hk
      simp only [List.mem_cons] at h
      rcases h with h | h
      · right; rw [h, hk]
      · left; exact List.mem_cons_of_mem _ h
    · simp only [List.mem_cons] at h
      rcases h with h | h
      · left; rw [h]; exact List.mem_cons_self _ _
      · rcases ih h with h' | h'
        · left; exact List.mem_cons_of_mem _ h'
        · right; exact h'

theorem mem_mapErase {α : Type} (map : List (String × α)) (key : String)
    (entry : String × α) (h : entry ∈ mapErase map key) : entry ∈ map := by
  induction map with
  | nil => simp [mapErase] at h
  | cons p rest ih =>
    obtain ⟨k, w⟩ := p
    unfold mapErase at h
    split at h
    · exact List.mem_cons_of_mem _ (ih h)
    · simp only [List.mem_cons] at h
      rcases h with h | h
      · rw [h]; exact List.mem_cons_self _ _
      · exact List.mem_cons_of_mem _ (ih h)

theorem mem_mapAssign {α : Type} (map : List (String × α)) (key : String) (v : α)
    (entry : String × α) (h : entry ∈ mapAssign map key v) :
    entry ∈ map ∨ entry.2 = v := by
  induction map with
  | nil => simp [mapAssign] at h
  | cons p rest ih =>
    obtain ⟨k, w⟩ := p
    unfold mapAssign at h
    split at h
    · simp only [List.mem_cons] at h
      rcases h with h | h
      · right; rw [h]
      · left; exact List.mem_cons_of_mem _ h
    · simp only [List.mem_cons] at h
      rcases h with h | h
      · left; rw [h]; exact List.mem_cons_self _ _
      · rcases ih h with h' | h'
        · left; exact List.mem_cons_of_mem _ h'
        · right; exact h'

theorem mem_of_mapFind {α : Type} (map : List (String × α)) (key : String) (v : α)
    (h : mapFind map key = some v) : ∃ k, (k, v) ∈ map := by
  induction map with
  | nil => simp [mapFind] at h
  | cons p rest ih =>
    obtain ⟨k, w⟩ := p
    unfold mapFind at h
    split at h
    · simp only [Option.some.injEq] at h
      exact ⟨k, by rw [h]; exact List.mem_cons_self _ _⟩
    · obtain ⟨k', hk'⟩ := ih h
      exact ⟨k', List.mem_cons_of_mem _ hk'⟩

theorem ShutdownSoundEffectsEngine_sfxFrame (s : AudioEngine) :
    SfxFrame s (ShutdownSoundEffectsEngine s) ∧
    SfxPresent (ShutdownSoundEffectsEngine s) ∧
    PoolsEmptyWhenOff (ShutdownSoundEffectsEngine s) := by
  obtain ⟨hsame, hoff, -, -, hmap, -⟩ := ShutdownSoundEffectsEngine_frame s
  have hpools : ∀ entry ∈ (ShutdownSoundEffectsEngine s).m_soundEffectsMap,
      entry.2.m_sourceVoices = [] := by
    rw [hmap]; exact clearAllPools_empty _
  have hpres : SfxPresent (ShutdownSoundEffectsEngine s) := by
    intro h; rw [hoff] at h; cases h
  exact ⟨⟨hsame, fun _ _ => hpools, fun _ => hpres⟩, hpres, fun _ => hpools⟩

/-- Source function `InitializeSoundEffectsEngine` always returns, with every pool empty, and
with the mixing backend and its mastering voice in place if it leaves sound effects on. -/
theorem InitializeSoundEffectsEngine_sfxFrame (outcome : SfxInitOutcome) (s : AudioEngine) :
    ∃ s', InitializeSoundEffectsEngine outcome s = .ok s' ∧ SfxFrame s s' ∧ SfxPresent s' ∧
      PoolsEmptyWhenOff s' ∧
      s'.m_soundEffectsEngineCallbacks_m_error = s.m_soundEffectsEngineCallbacks_m_error := by
  obtain ⟨s', hs', hsame, -, hmap, herr, -⟩ := InitializeSoundEffectsEngine_frame outcome s
  have hpools : ∀ entry ∈ s'.m_soundEffectsMap, entry.2.m_sourceVoices = [] := by
    rw [hmap]; exact clearAllPools_empty _
  have hpres : SfxPresent s' := by
    unfold InitializeSoundEffectsEngine at hs'
    generalize ShutdownSoundEffectsEngine s = t at hs'
    unfold SfxPresent
    cases outcome <;> simp [SetSoundEffectsVolume] at hs' <;> subst hs' <;> simp
  exact ⟨s', hs', ⟨hsame, fun _ _ => hpools, fun _ => hpres⟩, hpres, fun _ => hpools, herr⟩

theorem SetSoundEffectsOnOff_state (turnOff : Bool) (outcome : SfxInitOutcome)
    (s : AudioEngine) :
    ∃ s' off, SetSoundEffectsOnOff turnOff outcome s = .ok (s', off) ∧ SfxFrame s s' ∧
      off = s'.m_soundEffectsOff := by
  unfold SetSoundEffectsOnOff
  cases turnOff with
  | true => exact ⟨_, _, rfl, (ShutdownSoundEffectsEngine_sfxFrame s).1, rfl⟩
  | false =>
    obtain ⟨s', hs', hf, -⟩ := InitializeSoundEffectsEngine_sfxFrame outcome s
    simp only [Bool.false_eq_true, if_false, hs']
    exact ⟨_, _, rfl, hf, rfl⟩

theorem LoadSoundEffect_sfxFrame (filename : String) (forceReload : Bool)
    (bufferLength sampleRate : Nat) (s : AudioEngine) :
    SfxFrame s (LoadSoundEffect filename forceReload bufferLength sampleRate s) := by
  unfold LoadSoundEffect
  split
  · exact SfxFrame.sfxFrame_refl s
  · refine SfxFrame.of_pools ⟨rfl, rfl, rfl, rfl, rfl, rfl, rfl, rfl, rfl, rfl, rfl⟩ rfl rfl rfl ?_
    intro _ hp entry hmem
    rcases mem_mapInsert _ _ _ _ hmem with h | h
    · exact hp entry h
    · rw [h]

theorem UnloadSoundEffect_sfxFrame (filename : String) (s : AudioEngine) :
    SfxFrame s (UnloadSoundEffect filename s) := by
  unfold UnloadSoundEffect
  split
  · exact SfxFrame.sfxFrame_refl s
  · refine SfxFrame.of_pools ⟨rfl, rfl, rfl, rfl, rfl, rfl, rfl, rfl, rfl, rfl, rfl⟩ rfl rfl rfl ?_
    intro _ hp entry hmem
    exact hp entry (mem_mapErase _ _ _ hmem)

theorem PlaySoundEffect_sfxFrame (filename : String) (loopCount maxInstances : Nat)
    (s s' : AudioEngine) (h : PlaySoundEffect filename loopCount maxInstances s = .ok s') :
    SfxFrame s s' := by
  unfold PlaySoundEffect at h
  split at h
  · cases h; exact SfxFrame.sfxFrame_refl s
  · rename_i hoff
    split at h
    · cases h; exact SfxFrame.sfxFrame_refl s
    · split at h
      · cases h; exact SfxFrame.sfxFrame_refl s
      · split at h
        · cases h
        · cases h
          refine SfxFrame.of_pools ⟨rfl, rfl, rfl, rfl, rfl, rfl, rfl, rfl, rfl, rfl, rfl⟩
            rfl rfl rfl ?_
          intro hoff'
          exact absurd hoff' hoff

theorem PlaySoundEffect_total (filename : String) (loopCount maxInstances : Nat)
    (s : AudioEngine) (hp : SfxPresent s) :
    ∃ s', PlaySoundEffect filename loopCount maxInstances s = .ok s' := by
  cases hres : PlaySoundEffect filename loopCount maxInstances s with
  | ok s' => exact ⟨s', rfl⟩
  | error fault =>
    exfalso
    unfold PlaySoundEffect at hres
    split at hres
    · cases hres
    · rename_i hoff
      have heng := (hp (by simpa using hoff)).1
      split at hres
      · cases hres
      · split at hres
        · cases hres
        · split at hres
          · rename_i soundEffect _ _ hstart
            unfold startInPool at hstart
            split at hstart
            · simp [CreateSourceVoice, heng, StartSourceVoice] at hstart
            · split at hstart <;> cases hstart
          · cases hres

theorem StopSoundEffect_sfxFrame (filename : String) (playTails : Bool) (s : AudioEngine) :
    SfxFrame s (StopSoundEffect filename playTails s) := by
  unfold StopSoundEffect
  split
  · exact SfxFrame.sfxFrame_refl s
  · exact SfxFrame.of_map ⟨rfl, rfl, rfl, rfl, rfl, rfl, rfl, rfl, rfl, rfl, rfl⟩ rfl rfl rfl rfl

theorem SetSoundEffectsVolume_sfxFrame (volume : ℚ) (s s' : AudioEngine)
    (h : SetSoundEffectsVolume volume s = .ok s') : SfxFrame s s' := by
  unfold SetSoundEffectsVolume at h
  simp only at h
  split at h
  · cases h
    exact SfxFrame.of_map ⟨rfl, rfl, rfl, rfl, rfl, rfl, rfl, rfl, rfl, rfl, rfl⟩ rfl rfl rfl rfl
  · split at h
    · cases h
      exact SfxFrame.of_map ⟨rfl, rfl, rfl, rfl, rfl, rfl, rfl, rfl, rfl, rfl, rfl⟩ rfl rfl rfl
        rfl
    · cases h

theorem SetSoundEffectsVolume_total (volume : ℚ) (s : AudioEngine) (hp : SfxPresent s) :
    ∃ s', SetSoundEffectsVolume volume s = .ok s' := by
  cases hres : SetSoundEffectsVolume volume s with
  | ok s' => exact ⟨s', rfl⟩
  | error fault =>
    exfalso
    by_cases hoff : s.m_soundEffectsOff = true
    · simp [SetSoundEffectsVolume, hoff] at hres
    · have hmast := (hp (by simpa using hoff)).2
      simp [SetSoundEffectsVolume, hoff, hmast] at hres

theorem PauseSoundEffects_sfxFrame (s : AudioEngine) : SfxFrame s (PauseSoundEffects s) := by
  unfold PauseSoundEffects
  split
  · exact SfxFrame.sfxFrame_refl s
  · exact SfxFrame.of_map ⟨rfl, rfl, rfl, rfl, rfl, rfl, rfl, rfl, rfl, rfl, rfl⟩ rfl rfl rfl rfl

theorem ResumeSoundEffects_sfxFrame (s : AudioEngine) : SfxFrame s (ResumeSoundEffects s) := by
  unfold ResumeSoundEffects
  split
  · exact SfxFrame.sfxFrame_refl s
  · exact SfxFrame.of_map ⟨rfl, rfl, rfl, rfl, rfl, rfl, rfl, rfl, rfl, rfl, rfl⟩ rfl rfl rfl rfl

theorem RestartFailedSoundEffects_sfxFrame (s s' : AudioEngine)
    (h : RestartFailedSoundEffects s = .ok s') : SfxFrame s s' := by
  unfold RestartFailedSoundEffects at h
  split at h
  · cases h; exact SfxFrame.sfxFrame_refl s
  · rename_i hoff
    split at h
    · cases h
    · cases h
      refine SfxFrame.of_pools ⟨rfl, rfl, rfl, rfl, rfl, rfl, rfl, rfl, rfl, rfl, rfl⟩
        rfl rfl rfl ?_
      intro hoff'
      exact absurd hoff' hoff

theorem voiceCallback_sfxFrame (f : SourceVoice → SourceVoice) (filename : String) (slot : Nat)
    (s : AudioEngine) : SfxFrame s (voiceCallback f filename slot s) := by
  unfold voiceCallback
  cases hfind : mapFind s.m_soundEffectsMap filename with
  | none => exact SfxFrame.sfxFrame_refl s
  | some soundEffect =>
    refine SfxFrame.of_pools ⟨rfl, rfl, rfl, rfl, rfl, rfl, rfl, rfl, rfl, rfl, rfl⟩ rfl rfl rfl ?_
    intro _ hp entry hmem
    obtain ⟨k, hk⟩ := mem_of_mapFind _ _ _ hfind
    have hempty : soundEffect.m_sourceVoices = [] := hp _ hk
    rcases mem_mapAssign _ _ _ _ hmem with h | h
    · exact hp entry h
    · rw [h]
      simp [hempty, modifyVoice]

theorem OnCriticalError_sfxFrame (Error : HRESULT) (s : AudioEngine) :
    SfxFrame s (OnCriticalError Error s) :=
  SfxFrame.of_map ⟨rfl, rfl, rfl, rfl, rfl, rfl, rfl, rfl, rfl, rfl, rfl⟩ rfl rfl rfl rfl

theorem PlaySoundEffectsVolumeTestSound_sfxFrame (bufferLength sampleRate : Nat)
    (s s' : AudioEngine) (h : PlaySoundEffectsVolumeTestSound bufferLength sampleRate s = .ok s') :
    SfxFrame s s' := by
  unfold PlaySoundEffectsVolumeTestSound at h
  simp only at h
  have hload := LoadSoundEffect_sfxFrame "volume_test.wav" false bufferLength sampleRate s
  split at h
  · cases h; exact hload
  · exact hload.sfxFrame_trans (PlaySoundEffect_sfxFrame _ _ _ _ _ h)

theorem PlaySoundEffectsVolumeTestSound_total (bufferLength sampleRate : Nat)
    (s : AudioEngine) (hp : SfxPresent s) :
    ∃ s', PlaySoundEffectsVolumeTestSound bufferLength sampleRate s = .ok s' := by
  unfold PlaySoundEffectsVolumeTestSound
  simp only
  have hload := LoadSoundEffect_sfxFrame "volume_test.wav" false bufferLength sampleRate s
  split
  · exact ⟨_, rfl⟩
  · exact PlaySoundEffect_total _ _ _ _ (hload.present hp)

/-! ## What a tick keeps -/

/-- The seek block of a tick keeps what the music controls keep, and the playing and paused
flags and the queue as well. -/
theorem Update_readyToSeek_musicFrame (s s' : AudioEngine)
    (h : Update_readyToSeek s = .ok s') :
    MusicFrame s s' ∧ s'.m_musicIsPlaying = s.m_musicIsPlaying ∧
    s'.m_musicIsPaused = s.m_musicIsPaused ∧ s'.m_musicQueue = s.m_musicQueue := by
  unfold Update_readyToSeek at h
  split at h
  · cases h
  · rename_i n hn
    split at h
    · simp only at h
      split at h
      · split at h
        · split at h
          · cases h
            exact ⟨⟨⟨rfl, rfl, rfl, rfl, rfl, rfl, rfl⟩, rfl, rfl, rfl, rfl,
              by simp [hn, MediaEngineNotify.errorRecord], id⟩, rfl, rfl, rfl⟩
          · cases h
        · cases h
          exact ⟨⟨⟨rfl, rfl, rfl, rfl, rfl, rfl, rfl⟩, rfl, rfl, rfl, rfl,
            by simp [hn, MediaEngineNotify.errorRecord], id⟩, rfl, rfl, rfl⟩
      · cases h
        exact ⟨⟨⟨rfl, rfl, rfl, rfl, rfl, rfl, rfl⟩, rfl, rfl, rfl, rfl,
          by simp [hn, MediaEngineNotify.errorRecord], id⟩, rfl, rfl, rfl⟩
    · cases h
      exact ⟨MusicFrame.musicFrame_refl s, rfl, rfl, rfl⟩

theorem Update_readyToSeek_total (s : AudioEngine) (hp : MusicPresent s)
    (hn : s.m_mediaEngineNotify.isSome = true) : ∃ s', Update_readyToSeek s = .ok s' := by
  obtain ⟨n, hn'⟩ := Option.isSome_iff_exists.mp hn
  obtain ⟨t', cmds, n', h, -⟩ := Update_readyToSeek_frame s n (hp.2 hn) hn'
  exact ⟨t', h⟩

theorem withErrorOccurred_eq (flag : Bool) (s : AudioEngine) (n : MediaEngineNotify)
    (hn : s.m_mediaEngineNotify = some n) :
    withErrorOccurred flag s =
      { s with m_mediaEngineNotify := some { n with m_errorOccurred := flag } } := by
  simp [withErrorOccurred, hn]

theorem withErrorOccurred_preserved (flag : Bool) (s : AudioEngine) :
    Preserved s (withErrorOccurred flag s) ∧ SameSfx s (withErrorOccurred flag s) ∧
    (withErrorOccurred flag s).m_musicIsPlaying = s.m_musicIsPlaying ∧
    (withErrorOccurred flag s).m_musicIsPaused = s.m_musicIsPaused ∧
    (withErrorOccurred flag s).m_musicQueue = s.m_musicQueue ∧
    (withErrorOccurred flag s).musicLog = s.musicLog ∧
    (withErrorOccurred flag s).m_musicPosition = s.m_musicPosition := by
  unfold withErrorOccurred
  cases hn : s.m_mediaEngineNotify with
  | none => exact ⟨Preserved.preserved_refl s, SameSfx.sameSfx_refl s, rfl, rfl, rfl, rfl, rfl⟩
  | some n =>
    refine ⟨⟨id, ?_, fun hp => hp.pools_of_sameSfx ⟨rfl, rfl, rfl, rfl, rfl, rfl, rfl⟩,
      fun hp => hp.present_of_sameSfx ⟨rfl, rfl, rfl, rfl, rfl, rfl, rfl⟩⟩,
      ⟨rfl, rfl, rfl, rfl, rfl, rfl, rfl⟩, rfl, rfl, rfl, rfl, rfl⟩
    intro hp
    unfold MusicPresent at hp ⊢
    simpa [hn] using hp

/-- The error block of a tick, case by case: no error recorded; an error that is not a decode
error; a decode error. -/
theorem Update_musicError_cases (env : UpdateEnv) (s : AudioEngine) (n : MediaEngineNotify)
    (r : Nat) (hn : s.m_mediaEngineNotify = some n) :
    (n.m_errorOccurred = false → Update_musicError env s r = .ok (s, r)) ∧
    (n.m_errorOccurred = true → n.m_errorType ≠ .DECODE →
      Update_musicError env s r =
        .ok (withErrorOccurred false s, r ||| UpdateErrorCodes.MusicEngine)) ∧
    (n.m_errorOccurred = true → n.m_errorType = .DECODE →
      ∃ s1, InitializeMusicEngine env.mfStartupOk env.musicInit (withErrorOccurred false s) =
          .ok s1 ∧
        ((s.m_musicIsPlaying = true ∧ s.m_musicIsPaused = false) →
          ∃ s2, PlayMusic env.isPausedOnRecovery s1 = .ok s2 ∧
            Update_musicError env s r = .ok (s2, r ||| UpdateErrorCodes.MusicEngine)) ∧
        (¬ (s.m_musicIsPlaying = true ∧ s.m_musicIsPaused = false) →
          Update_musicError env s r = .ok (s1, r ||| UpdateErrorCodes.MusicEngine))) := by
  refine ⟨fun herr => Update_musicError_none env s n r hn herr, ?_, ?_⟩
  · intro herr htype
    rw [withErrorOccurred_eq false s n hn]
    exact Update_musicError_ignored env s n r hn herr htype
  · intro herr htype
    obtain ⟨s1, hs1, -, hp1, hplay, hpause, -⟩ :=
      InitializeMusicEngine_state env.mfStartupOk env.musicInit (withErrorOccurred false s)
    obtain ⟨-, -, hplay0, hpause0, -⟩ := withErrorOccurred_preserved false s
    rw [withErrorOccurred_eq false s n hn] at hs1 hplay hpause hplay0 hpause0
    refine ⟨s1, by rw [withErrorOccurred_eq false s n hn]; exact hs1, ?_, ?_⟩
    · rintro ⟨h1, h2⟩
      obtain ⟨s2, hs2⟩ := PlayMusic_total env.isPausedOnRecovery s1 hp1
      refine ⟨s2, hs2, ?_⟩
      have hc : (s1.m_musicIsPlaying && !s1.m_musicIsPaused) = true := by
        rw [hplay, hpause]; simp [h1, h2]
      simp only [Update_musicError, hn, herr, if_true]
      rw [if_pos htype, hs1]
      simp only [hc, if_true, hs2]
    · intro hnot
      have hc : (s1.m_musicIsPlaying && !s1.m_musicIsPaused) = false := by
        rw [hplay, hpause]
        cases h1 : s.m_musicIsPlaying <;> cases h2 : s.m_musicIsPaused <;> simp_all
      simp only [Update_musicError, hn, herr, if_true]
      rw [if_pos htype, hs1]
      simp only [hc, Bool.false_eq_true, if_false]

/-- The error block of a tick always returns; it reports the music engine exactly if an error
was recorded, and keeps the playing flag and the three invariants. -/
theorem Update_musicError_preserved (env : UpdateEnv) (s : AudioEngine) (r : Nat)
    (n : MediaEngineNotify) (hn : s.m_mediaEngineNotify = some n) :
    ∃ s', Update_musicError env s r =
        .ok (s', r ||| (if n.m_errorOccurred then UpdateErrorCodes.MusicEngine
                        else UpdateErrorCodes.None)) ∧
      Preserved s s' := by
  obtain ⟨h1, h2, h3⟩ := Update_musicError_cases env s n r hn
  cases herr : n.m_errorOccurred with
  | false =>
    exact ⟨s, by simpa [UpdateErrorCodes.None] using h1 herr, Preserved.preserved_refl s⟩
  | true =>
    simp only [if_true]
    obtain ⟨hpres0, -⟩ := withErrorOccurred_preserved false s
    by_cases htype : n.m_errorType = .DECODE
    · obtain ⟨s1, hs1, hplaying, hnot⟩ := h3 herr htype
      have hpres1 := (InitializeMusicEngine_preserved _ _ _ _ hs1).1
      by_cases hc : s.m_musicIsPlaying = true ∧ s.m_musicIsPaused = false
      · obtain ⟨s2, hs2, hupd⟩ := hplaying hc
        exact ⟨_, hupd, (hpres0.preserved_trans hpres1).preserved_trans (PlayMusic_frame _ _ _ hs2).1.musicFrame_preserved⟩
      · exact ⟨_, hnot hc, hpres0.preserved_trans hpres1⟩
    · exact ⟨_, h2 herr htype, hpres0⟩

/-- The music side of a tick, from a state in which the handler exists and the media engine
with it: it returns, and what it does before the error block keeps the error record, the
playing and paused flags and the handles. -/
theorem Update_music_reaches_musicError (env : UpdateEnv) (s : AudioEngine) (r : Nat)
    (n : MediaEngineNotify) (hp : MusicPresent s) (hn : s.m_mediaEngineNotify = some n) :
    ∃ (t : AudioEngine) (n1 : MediaEngineNotify),
      Update_music env s r = Update_musicError env t r ∧
      MusicFrame s t ∧ t.m_mediaEngineNotify = some n1 ∧
      n1.errorRecord = n.errorRecord ∧
      t.m_musicIsPlaying = s.m_musicIsPlaying ∧ t.m_musicIsPaused = s.m_musicIsPaused ∧
      ∃ s1, Update_previousMusicFinished env.isPausedOnAdvance s = .ok s1 ∧
        Update_readyToSeek s1 = .ok t := by
  have hsome : s.m_mediaEngineNotify.isSome = true := by rw [hn]; rfl
  obtain ⟨s1, hs1⟩ := Update_previousMusicFinished_total env.isPausedOnAdvance s hp hsome
  obtain ⟨hf1, hplay1, hpause1, -⟩ := Update_previousMusicFinished_frame _ _ _ hs1
  have hp1 : MusicPresent s1 := hp.of_frame hf1
  have hsome1 : s1.m_mediaEngineNotify.isSome = true := by rw [hf1.handlerExists]; exact hsome
  obtain ⟨s2, hs2⟩ := Update_readyToSeek_total s1 hp1 hsome1
  obtain ⟨hf2, hplay2, hpause2, -⟩ := Update_readyToSeek_musicFrame _ _ hs2
  have hf := hf1.musicFrame_trans hf2
  have hsome2 : s2.m_mediaEngineNotify.isSome = true := by rw [hf.handlerExists]; exact hsome
  obtain ⟨n1, hn1⟩ := Option.isSome_iff_exists.mp hsome2
  refine ⟨s2, n1, ?_, hf, hn1, ?_, hplay2.trans hplay1, hpause2.trans hpause1, s1, hs1, hs2⟩
  · simp only [Update_music, hn, hs1, hs2]
  · have h := hf.handler
    rw [hn1, hn] at h
    simpa using h

/-- The sound effect side of a tick: it returns when the mixing backend is in place, reports
the sound effects engine exactly if a critical error was recorded, and keeps the music side and
the invariants of the sound effect side. -/
theorem Update_soundEffects_state (outcome : SfxInitOutcome) (s : AudioEngine)
    (hp : SfxPresent s) :
    ∃ s1, Update_soundEffects outcome s =
        .ok (s1, if s.m_soundEffectsEngineCallbacks_m_error ≠ S_OK then
                   UpdateErrorCodes.SoundEffectsEngine else UpdateErrorCodes.None) ∧
      SfxFrame s s1 ∧ SfxPresent s1 := by
  unfold Update_soundEffects Update_soundEffectsEngineError
  by_cases herr : s.m_soundEffectsEngineCallbacks_m_error ≠ S_OK
  · obtain ⟨s1, hinit, hf1, hp1, -⟩ :=
      InitializeSoundEffectsEngine_sfxFrame outcome
        { s with m_soundEffectsEngineCallbacks_m_error := S_OK }
    have hf0 : SfxFrame s { s with m_soundEffectsEngineCallbacks_m_error := S_OK } :=
      SfxFrame.of_map ⟨rfl, rfl, rfl, rfl, rfl, rfl, rfl, rfl, rfl, rfl, rfl⟩ rfl rfl rfl rfl
    have hf2 := ResumeSoundEffects_sfxFrame s1
    have hp2 := hf2.present hp1
    obtain ⟨s3, hrestart, -⟩ := RestartFailedSoundEffects_frame (ResumeSoundEffects s1) hp2.backend
    have hf3 := RestartFailedSoundEffects_sfxFrame _ _ hrestart
    refine ⟨s3, ?_, (hf0.sfxFrame_trans hf1).sfxFrame_trans (hf2.sfxFrame_trans hf3), hf3.present hp2⟩
    rw [if_pos herr, if_pos herr]
    simp only [hinit, hrestart]
    rfl
  · obtain ⟨s3, hrestart, -⟩ := RestartFailedSoundEffects_frame s hp.backend
    have hf3 := RestartFailedSoundEffects_sfxFrame _ _ hrestart
    refine ⟨s3, ?_, hf3, hf3.present hp⟩
    rw [if_neg herr, if_neg herr]
    simp only [hrestart]

/-- The sound effect side of a tick, whenever it returns. -/
theorem Update_soundEffects_sfxFrame (outcome : SfxInitOutcome) (s s1 : AudioEngine) (r : Nat)
    (h : Update_soundEffects outcome s = .ok (s1, r)) : SfxFrame s s1 := by
  unfold Update_soundEffects Update_soundEffectsEngineError at h
  by_cases herr : s.m_soundEffectsEngineCallbacks_m_error ≠ S_OK
  · obtain ⟨t1, hinit, hf1, -⟩ :=
      InitializeSoundEffectsEngine_sfxFrame outcome
        { s with m_soundEffectsEngineCallbacks_m_error := S_OK }
    have hf0 : SfxFrame s { s with m_soundEffectsEngineCallbacks_m_error := S_OK } :=
      SfxFrame.of_map ⟨rfl, rfl, rfl, rfl, rfl, rfl, rfl, rfl, rfl, rfl, rfl⟩ rfl rfl rfl rfl
    have hf2 := ResumeSoundEffects_sfxFrame t1
    rw [if_pos herr] at h
    simp only [hinit] at h
    cases hrestart : RestartFailedSoundEffects (ResumeSoundEffects t1) with
    | error e => simp [hrestart] at h
    | ok t3 =>
      simp only [hrestart, Except.ok.injEq, Prod.mk.injEq] at h
      obtain ⟨rfl, -⟩ := h
      exact (hf0.sfxFrame_trans hf1).sfxFrame_trans (hf2.sfxFrame_trans (RestartFailedSoundEffects_sfxFrame _ _ hrestart))
  · rw [if_neg herr] at h
    simp only at h
    cases hrestart : RestartFailedSoundEffects s with
    | error e => simp [hrestart] at h
    | ok t3 =>
      simp only [hrestart, Except.ok.injEq, Prod.mk.injEq] at h
      obtain ⟨rfl, -⟩ := h
      exact RestartFailedSoundEffects_sfxFrame _ _ hrestart

/-- The music side of a tick, whenever it returns. -/
theorem Update_music_preserved (env : UpdateEnv) (s s' : AudioEngine) (r r' : Nat)
    (h : Update_music env s r = .ok (s', r')) : Preserved s s' := by
  unfold Update_music at h
  split at h
  · cases h; exact Preserved.preserved_refl s
  · rename_i n hn
    cases h1 : Update_previousMusicFinished env.isPausedOnAdvance s with
    | error e => simp [h1] at h
    | ok s1 =>
      simp only [h1] at h
      cases h2 : Update_readyToSeek s1 with
      | error e => simp [h2] at h
      | ok s2 =>
        simp only [h2] at h
        obtain ⟨hf1, -⟩ := Update_previousMusicFinished_frame _ _ _ h1
        obtain ⟨hf2, -⟩ := Update_readyToSeek_musicFrame _ _ h2
        have hf := hf1.musicFrame_trans hf2
        have hsome : s2.m_mediaEngineNotify.isSome = true := by
          rw [hf.handlerExists, hn]; rfl
        obtain ⟨n2, hn2⟩ := Option.isSome_iff_exists.mp hsome
        obtain ⟨t, ht, hpres⟩ := Update_musicError_preserved env s2 r n2 hn2
        rw [ht] at h
        cases h
        exact hf.musicFrame_preserved.preserved_trans hpres

/-- Source function `Update`, whenever it returns. -/
theorem Update_preserved (env : UpdateEnv) (s s' : AudioEngine) (r : Nat)
    (h : Update env s = .ok (s', r)) : Preserved s s' := by
  unfold Update at h
  cases h1 : Update_soundEffects env.sfxInit s with
  | error e => simp [h1] at h
  | ok result =>
    obtain ⟨s1, r1⟩ := result
    simp only [h1] at h
    exact (Update_soundEffects_sfxFrame _ _ _ _ h1).sfxFrame_preserved.preserved_trans
      (Update_music_preserved env s1 s' r1 r h)

/-- Source function `Update` returns when the backends are in place, and its value has the
bit of the sound effects engine exactly if a critical error of the mixing backend was recorded
and the bit of the music engine exactly if the handler exists and has recorded an error. -/
theorem Update_total (env : UpdateEnv) (s : AudioEngine) (hp : BackendPresent s) :
    ∃ s', Update env s =
      .ok (s', (if s.m_soundEffectsEngineCallbacks_m_error ≠ S_OK then
                  UpdateErrorCodes.SoundEffectsEngine else UpdateErrorCodes.None) |||
               (match s.m_mediaEngineNotify with
                | some n => if n.m_errorOccurred then UpdateErrorCodes.MusicEngine
                            else UpdateErrorCodes.None
                | none => UpdateErrorCodes.None)) := by
  obtain ⟨s1, hs1, hf1, -⟩ := Update_soundEffects_state env.sfxInit s hp.2
  have hp1 : MusicPresent s1 := hp.1.present_of_sameMusic hf1.music
  unfold Update
  simp only [hs1]
  cases hn : s.m_mediaEngineNotify with
  | none =>
    have hn1 : s1.m_mediaEngineNotify = none := by rw [hf1.music.notify, hn]
    refine ⟨s1, ?_⟩
    simp only [Update_music, hn1]
    simp [UpdateErrorCodes.None]
  | some n =>
    have hn1 : s1.m_mediaEngineNotify = some n := by rw [hf1.music.notify, hn]
    obtain ⟨t, n1, hreach, -, hnt, hrec, -⟩ :=
      Update_music_reaches_musicError env s1 _ n hp1 hn1
    obtain ⟨s', hs', -⟩ := Update_musicError_preserved env t _ n1 hnt
    have herr : n1.m_errorOccurred = n.m_errorOccurred := by
      have := congrArg Prod.fst hrec
      simpa [MediaEngineNotify.errorRecord] using this
    rw [herr] at hs'
    exact ⟨s', by rw [hreach, hs']⟩

/-! ## Executions -/

theorem Except.map_fst_ok {α β : Type} (x : Except Fault (α × β)) (a : α)
    (h : x.map Prod.fst = .ok a) : ∃ b, x = .ok (a, b) := by
  cases x with
  | error e => cases h
  | ok p =>
    obtain ⟨a', b⟩ := p
    simp only [Except.map, Except.ok.injEq] at h
    exact ⟨b, by rw [h]⟩

/-! ## What every transition of an execution keeps -/

theorem PreservedSlots.preservedSlots_refl (st : AudioEngineSlots) : PreservedSlots st st :=
  ⟨id, id, id, id⟩

theorem PreservedSlots.preservedSlots_trans {a b c : AudioEngineSlots}
    (h1 : PreservedSlots a b) (h2 : PreservedSlots b c) : PreservedSlots a c :=
  ⟨fun h => h2.playing (h1.playing h), fun h => h2.music (h1.music h),
   fun h => h2.slots (h1.slots h), fun h => h2.sfx (h1.sfx h)⟩

theorem SfxFrameSlots.sfxFrameSlots_refl (st : AudioEngineSlots) : SfxFrameSlots st st :=
  ⟨SameMusic.refl st.engine, id, id⟩

theorem SfxFrameSlots.sfxFrameSlots_trans {a b c : AudioEngineSlots}
    (h1 : SfxFrameSlots a b) (h2 : SfxFrameSlots b c) : SfxFrameSlots a c :=
  ⟨h1.music.trans h2.music, fun h => h2.slots (h1.slots h), fun h => h2.present (h1.present h)⟩

theorem SfxFrameSlots.sfxFrameSlots_preserved {st st' : AudioEngineSlots}
    (h : SfxFrameSlots st st') : PreservedSlots st st' :=
  ⟨fun hp => h.music.playing.trans hp, fun hp => hp.present_of_sameMusic h.music, h.slots,
    h.present⟩

/-- A member function of the music side, run on the engine of an execution. -/
theorem PreservedSlots.of_engine {st : AudioEngineSlots} {engine : AudioEngine}
    (hpres : Preserved st.engine engine)
    (hoff : engine.m_soundEffectsOff = st.engine.m_soundEffectsOff) :
    PreservedSlots st { st with engine := engine } :=
  ⟨hpres.playing, hpres.music, fun h hoff' => h (hoff ▸ hoff'), hpres.sfx⟩

theorem AudioEngineSlots.call_ok {f : AudioEngine → Except Fault AudioEngine}
    {st st' : AudioEngineSlots} (h : st.call f = .ok st') :
    ∃ engine, f st.engine = .ok engine ∧ st' = { st with engine := engine } := by
  unfold AudioEngineSlots.call at h
  cases hf : f st.engine with
  | error e => simp [hf] at h
  | ok engine =>
    simp only [hf, Except.ok.injEq] at h
    exact ⟨engine, rfl, h.symm⟩

theorem AudioEngineSlots.call_eq {f : AudioEngine → Except Fault AudioEngine}
    {st : AudioEngineSlots} {engine : AudioEngine} (h : f st.engine = .ok engine) :
    st.call f = .ok { st with engine := engine } := by
  unfold AudioEngineSlots.call
  rw [h]

theorem clearAllSlots_empty (map : List (String × SoundEffectSlots)) :
    ∀ entry ∈ (clearAllSlots map).1, entry.2.m_sourceVoices = [] := by
  induction map with
  | nil => intro entry h; simp [clearAllSlots] at h
  | cons p rest ih =>
    obtain ⟨k, se⟩ := p
    intro entry h
    simp only [clearAllSlots, List.mem_cons] at h
    rcases h with rfl | h
    · rfl
    · exact ih entry h

theorem SfxFrameSlots.of_slots {st st' : AudioEngineSlots}
    (hm : SameMusic st.engine st'.engine)
    (hoff : st'.engine.m_soundEffectsOff = st.engine.m_soundEffectsOff)
    (heng : st'.engine.m_soundEffectsEngine = st.engine.m_soundEffectsEngine)
    (hmast : st'.engine.m_masteringVoice = st.engine.m_masteringVoice)
    (hslots : st.engine.m_soundEffectsOff = true →
      (∀ entry ∈ st.m_soundEffectsMap, entry.2.m_sourceVoices = []) →
      ∀ entry ∈ st'.m_soundEffectsMap, entry.2.m_sourceVoices = []) :
    SfxFrameSlots st st' := by
  refine ⟨hm, ?_, ?_⟩
  · intro h hoff'
    rw [hoff] at hoff'
    exact hslots hoff' (h hoff')
  · intro h hoff'
    rw [hoff] at hoff'
    rw [heng, hmast]
    exact h hoff'

theorem SfxFrameSlots.of_sameMap {st st' : AudioEngineSlots}
    (hm : SameMusic st.engine st'.engine)
    (hoff : st'.engine.m_soundEffectsOff = st.engine.m_soundEffectsOff)
    (heng : st'.engine.m_soundEffectsEngine = st.engine.m_soundEffectsEngine)
    (hmast : st'.engine.m_masteringVoice = st.engine.m_masteringVoice)
    (hmap : st'.m_soundEffectsMap = st.m_soundEffectsMap) : SfxFrameSlots st st' :=
  SfxFrameSlots.of_slots hm hoff heng hmast (fun _ h => by rw [hmap]; exact h)

theorem ShutdownSoundEffectsEngineSlots_frame (st : AudioEngineSlots) :
    SfxFrameSlots st (ShutdownSoundEffectsEngineSlots st) ∧
    (ShutdownSoundEffectsEngineSlots st).engine.m_soundEffectsOff = true ∧
    (ShutdownSoundEffectsEngineSlots st).engine.m_soundEffectsEngine = false ∧
    (ShutdownSoundEffectsEngineSlots st).engine.m_masteringVoice = false ∧
    (ShutdownSoundEffectsEngineSlots st).engine.m_soundEffectsEngineCallbacks_m_error =
      st.engine.m_soundEffectsEngineCallbacks_m_error ∧
    (ShutdownSoundEffectsEngineSlots st).engine.m_soundEffectsVolume =
      st.engine.m_soundEffectsVolume ∧
    ∀ entry ∈ (ShutdownSoundEffectsEngineSlots st).m_soundEffectsMap,
      entry.2.m_sourceVoices = [] := by
  have hempty := clearAllSlots_empty st.m_soundEffectsMap
  have hmap : (ShutdownSoundEffectsEngineSlots st).m_soundEffectsMap =
      (clearAllSlots st.m_soundEffectsMap).1 := by
    unfold ShutdownSoundEffectsEngineSlots
    cases clearAllSlots st.m_soundEffectsMap
    rfl
  have hfield : ∀ {α : Type} (f : AudioEngine → α),
      (∀ (s : AudioEngine) (log : List Cmd) (a b c : Bool),
        f { s with log := log, m_masteringVoice := a, m_soundEffectsEngine := b,
                   m_soundEffectsOff := c } = f s) →
      f (ShutdownSoundEffectsEngineSlots st).engine = f st.engine := by
    intro α f hf
    unfold ShutdownSoundEffectsEngineSlots
    cases clearAllSlots st.m_soundEffectsMap with
    | mk map cmds =>
      simp only
      split <;> split <;> exact hf st.engine _ _ _ _
  have hoff : (ShutdownSoundEffectsEngineSlots st).engine.m_soundEffectsOff = true := by
    unfold ShutdownSoundEffectsEngineSlots
    cases clearAllSlots st.m_soundEffectsMap
    rfl
  have heng : (ShutdownSoundEffectsEngineSlots st).engine.m_soundEffectsEngine = false := by
    unfold ShutdownSoundEffectsEngineSlots
    cases clearAllSlots st.m_soundEffectsMap
    rfl
  have hmast : (ShutdownSoundEffectsEngineSlots st).engine.m_masteringVoice = false := by
    unfold ShutdownSoundEffectsEngineSlots
    cases clearAllSlots st.m_soundEffectsMap with
    | mk map cmds =>
      simp only
      cases hm : st.engine.m_masteringVoice <;> cases he : st.engine.m_soundEffectsEngine <;>
        simp [hm, he]
  have hempty' : ∀ entry ∈ (ShutdownSoundEffectsEngineSlots st).m_soundEffectsMap,
      entry.2.m_sourceVoices = [] := by rw [hmap]; exact hempty
  refine ⟨⟨⟨hfield _ (fun _ _ _ _ _ => rfl), hfield _ (fun _ _ _ _ _ => rfl),
      hfield _ (fun _ _ _ _ _ => rfl), hfield _ (fun _ _ _ _ _ => rfl),
      hfield _ (fun _ _ _ _ _ => rfl), hfield _ (fun _ _ _ _ _ => rfl),
      hfield _ (fun _ _ _ _ _ => rfl), hfield _ (fun _ _ _ _ _ => rfl),
      hfield _ (fun _ _ _ _ _ => rfl), hfield _ (fun _ _ _ _ _ => rfl),
      hfield _ (fun _ _ _ _ _ => rfl)⟩, fun _ _ => hempty', fun _ h => ?_⟩,
    hoff, heng, hmast, hfield _ (fun _ _ _ _ _ => rfl), hfield _ (fun _ _ _ _ _ => rfl),
    hempty'⟩
  rw [hoff] at h; cases h

theorem InitializeSoundEffectsEngineSlots_frame (outcome : SfxInitOutcome)
    (st : AudioEngineSlots) :
    ∃ st', InitializeSoundEffectsEngineSlots outcome st = .ok st' ∧ SfxFrameSlots st st' ∧
      SfxPresent st'.engine ∧
      (∀ entry ∈ st'.m_soundEffectsMap, entry.2.m_sourceVoices = []) ∧
      st'.engine.m_soundEffectsEngineCallbacks_m_error =
        st.engine.m_soundEffectsEngineCallbacks_m_error := by
  obtain ⟨hf, hoff, heng, hmast, herr, hvol, hempty⟩ := ShutdownSoundEffectsEngineSlots_frame st
  have hm := hf.music
  have hshape : ∃ (log : List Cmd) (engine mast off : Bool),
      (off = false → engine = true ∧ mast = true) ∧
      InitializeSoundEffectsEngineSlots outcome st =
        .ok { ShutdownSoundEffectsEngineSlots st with
              engine := { (ShutdownSoundEffectsEngineSlots st).engine with
                log := log, m_soundEffectsEngine := engine, m_masteringVoice := mast,
                m_soundEffectsOff := off } } := by
    unfold InitializeSoundEffectsEngineSlots
    generalize ShutdownSoundEffectsEngineSlots st = t at *
    cases outcome <;>
      simp only [SetSoundEffectsVolume, reduceCtorEq, if_false, if_true, Bool.false_eq_true] <;>
      refine ⟨_, _, _, _, ?_, rfl⟩ <;>
      first
        | (intro h; cases h; done)
        | exact fun _ => ⟨rfl, rfl⟩
  obtain ⟨log, engine, mast, off, himp, heq⟩ := hshape
  refine ⟨_, heq, ⟨⟨hm.1, hm.2, hm.3, hm.4, hm.5, hm.6, hm.7, hm.8, hm.9, hm.10, hm.11⟩,
    fun _ _ => hempty, fun _ => himp⟩, himp, hempty, herr⟩

/-! ## The music side leaves the sound effect side alone -/

theorem InitializeMusicEngine_sameSfx (mfStartupOk : Bool) (outcome : MusicInitOutcome)
    (s s' : AudioEngine) (h : InitializeMusicEngine mfStartupOk outcome s = .ok s') :
    SameSfx s s' := by
  obtain ⟨t, ht, hsfx, -⟩ := InitializeMusicEngine_state mfStartupOk outcome s
  rw [ht] at h
  cases h
  exact hsfx

theorem SetMusicOnOff_sameSfx (turnOff mfStartupOk : Bool) (outcome : MusicInitOutcome)
    (isPaused : Bool) (s s' : AudioEngine) (off : Bool)
    (h : SetMusicOnOff turnOff mfStartupOk outcome isPaused s = .ok (s', off)) :
    SameSfx s s' := by
  unfold SetMusicOnOff at h
  cases turnOff with
  | true =>
    simp only [if_true] at h
    cases h
    exact (ShutdownMusicEngine_state s).1
  | false =>
    simp only [Bool.false_eq_true, if_false] at h
    split at h
    · cases h1 : InitializeMusicEngine mfStartupOk outcome s with
      | error e => simp [h1] at h
      | ok s1 =>
        simp only [h1] at h
        have hs1 := InitializeMusicEngine_sameSfx _ _ _ _ h1
        split at h
        · split at h
          · cases h2 : PlayMusic isPaused s1 with
            | error e => simp [h2] at h
            | ok s2 =>
              simp only [h2, Except.ok.injEq, Prod.mk.injEq] at h
              obtain ⟨h, -⟩ := h
              subst h
              exact hs1.sameSfx_trans (PlayMusic_frame _ _ _ h2).1.sfx
          · cases h; exact hs1
        · cases h; exact hs1
    · cases h; exact SameSfx.sameSfx_refl s

theorem Update_musicError_sameSfx (env : UpdateEnv) (s s' : AudioEngine) (r r' : Nat)
    (h : Update_musicError env s r = .ok (s', r')) : SameSfx s s' := by
  cases hn : s.m_mediaEngineNotify with
  | none => simp [Update_musicError, hn] at h
  | some n =>
    obtain ⟨h1, h2, h3⟩ := Update_musicError_cases env s n r hn
    obtain ⟨-, hsfx0, -⟩ := withErrorOccurred_preserved false s
    cases herr : n.m_errorOccurred with
    | false =>
      rw [h1 herr] at h
      cases h
      exact SameSfx.sameSfx_refl s
    | true =>
      by_cases htype : n.m_errorType = .DECODE
      · obtain ⟨s1, hs1, hplaying, hnot⟩ := h3 herr htype
        have hsfx1 := InitializeMusicEngine_sameSfx _ _ _ _ hs1
        by_cases hc : s.m_musicIsPlaying = true ∧ s.m_musicIsPaused = false
        · obtain ⟨s2, hs2, hupd⟩ := hplaying hc
          rw [hupd] at h
          cases h
          exact (hsfx0.sameSfx_trans hsfx1).sameSfx_trans (PlayMusic_frame _ _ _ hs2).1.sfx
        · rw [hnot hc] at h
          cases h
          exact hsfx0.sameSfx_trans hsfx1
      · rw [h2 herr htype] at h
        cases h
        exact hsfx0

theorem Update_music_sameSfx (env : UpdateEnv) (s s' : AudioEngine) (r r' : Nat)
    (h : Update_music env s r = .ok (s', r')) : SameSfx s s' := by
  unfold Update_music at h
  split at h
  · cases h; exact SameSfx.sameSfx_refl s
  · cases h1 : Update_previousMusicFinished env.isPausedOnAdvance s with
    | error e => simp [h1] at h
    | ok s1 =>
      simp only [h1] at h
      cases h2 : Update_readyToSeek s1 with
      | error e => simp [h2] at h
      | ok s2 =>
        simp only [h2] at h
        obtain ⟨hf1, -⟩ := Update_previousMusicFinished_frame _ _ _ h1
        obtain ⟨hf2, -⟩ := Update_readyToSeek_musicFrame _ _ h2
        exact (hf1.sfx.sameSfx_trans hf2.sfx).sameSfx_trans
          (Update_musicError_sameSfx env s2 s' r r' h)

/-- A member function of the music side that leaves the sound effect side alone, run on the
engine of an execution. -/
theorem PreservedSlots.of_sameSfx {st : AudioEngineSlots} {engine : AudioEngine}
    (hpres : Preserved st.engine engine) (hsfx : SameSfx st.engine engine) :
    PreservedSlots st { st with engine := engine } :=
  PreservedSlots.of_engine hpres hsfx.soundEffectsOff

theorem PreservedSlots.of_musicFrame {st : AudioEngineSlots} {engine : AudioEngine}
    (hf : MusicFrame st.engine engine) : PreservedSlots st { st with engine := engine } :=
  PreservedSlots.of_engine hf.musicFrame_preserved hf.sfx.soundEffectsOff

/-! ## The sound effect functions on vectors with null slots -/

/-- What a sound effect function keeps when it writes nothing but the log and the map, and
leaves every vector empty if sound effects are off and every vector was empty. -/
theorem SfxFrameSlots.of_write {st : AudioEngineSlots} (log : List Cmd)
    (map : List (String × SoundEffectSlots))
    (hmap : st.engine.m_soundEffectsOff = true →
      (∀ entry ∈ st.m_soundEffectsMap, entry.2.m_sourceVoices = []) →
      ∀ entry ∈ map, entry.2.m_sourceVoices = []) :
    SfxFrameSlots st { engine := { st.engine with log := log }, m_soundEffectsMap := map } :=
  SfxFrameSlots.of_slots ⟨rfl, rfl, rfl, rfl, rfl, rfl, rfl, rfl, rfl, rfl, rfl⟩ rfl rfl rfl hmap

theorem LoadSoundEffectSlots_frame (filename : String) (forceReload : Bool)
    (bufferLength sampleRate : Nat) (st : AudioEngineSlots) :
    SfxFrameSlots st (LoadSoundEffectSlots filename forceReload bufferLength sampleRate st) := by
  unfold LoadSoundEffectSlots
  by_cases hc : (!forceReload && (mapFind st.m_soundEffectsMap filename).isSome) = true
  · rw [if_pos hc]
    exact SfxFrameSlots.sfxFrameSlots_refl st
  · rw [if_neg hc]
    refine SfxFrameSlots.of_write _ _ (fun _ hempty entry hmem => ?_)
    rcases mem_mapInsert _ _ _ _ hmem with h | h
    · exact hempty entry h
    · rw [h]

theorem StopSoundEffectSlots_frame (filename : String) (playTails : Bool)
    (st st' : AudioEngineSlots) (h : StopSoundEffectSlots filename playTails st = .ok st') :
    SfxFrameSlots st st' := by
  unfold StopSoundEffectSlots at h
  split at h
  · cases h; exact SfxFrameSlots.sfxFrameSlots_refl st
  · simp only at h
    split at h
    · cases h
    · cases h
      exact SfxFrameSlots.of_write _ _ (fun _ h => h)

theorem UnloadSoundEffectSlots_frame (filename : String)
    (st st' : AudioEngineSlots) (h : UnloadSoundEffectSlots filename st = .ok st') :
    SfxFrameSlots st st' := by
  unfold UnloadSoundEffectSlots at h
  split at h
  · cases h; exact SfxFrameSlots.sfxFrameSlots_refl st
  · split at h
    · cases h
    · cases h
      exact SfxFrameSlots.of_write _ _
        (fun _ hempty entry hmem => hempty entry (mem_mapErase _ _ _ hmem))

theorem PlaySoundEffectSlots_frame (filename : String) (loopCount maxInstances : Nat)
    (st st' : AudioEngineSlots)
    (h : PlaySoundEffectSlots filename loopCount maxInstances st = .ok st') :
    SfxFrameSlots st st' := by
  by_cases hoff : st.engine.m_soundEffectsOff = true
  · simp only [PlaySoundEffectSlots, hoff, if_true] at h
    cases h
    exact SfxFrameSlots.sfxFrameSlots_refl st
  · unfold PlaySoundEffectSlots at h
    rw [if_neg hoff] at h
    simp only at h
    repeat' split at h
    all_goals first
      | (cases h; done)
      | (cases h; exact SfxFrameSlots.sfxFrameSlots_refl st)
      | (cases h; exact SfxFrameSlots.of_write _ _ (fun ho => absurd ho hoff))

theorem PlaySoundEffectsVolumeTestSoundSlots_frame (bufferLength sampleRate : Nat)
    (st st' : AudioEngineSlots)
    (h : PlaySoundEffectsVolumeTestSoundSlots bufferLength sampleRate st = .ok st') :
    SfxFrameSlots st st' := by
  unfold PlaySoundEffectsVolumeTestSoundSlots at h
  simp only at h
  have hload := LoadSoundEffectSlots_frame "volume_test.wav" false bufferLength sampleRate st
  split at h
  · cases h; exact hload
  · exact hload.sfxFrameSlots_trans (PlaySoundEffectSlots_frame _ _ _ _ _ h)

theorem ClearUnusedSourceVoicesSlots_frame (filename : String)
    (st st' : AudioEngineSlots) (h : ClearUnusedSourceVoicesSlots filename st = .ok st') :
    SfxFrameSlots st st' := by
  unfold ClearUnusedSourceVoicesSlots at h
  split at h
  · cases h; exact SfxFrameSlots.sfxFrameSlots_refl st
  · rename_i soundEffect hfind
    simp only at h
    split at h
    · cases h
    · rename_i elements next destroyed hrem
      cases h
      refine SfxFrameSlots.of_write _ _ (fun _ hempty entry hmem => ?_)
      rcases mem_mapAssign _ _ _ _ hmem with h | h
      · exact hempty entry h
      · obtain ⟨k, hk⟩ := mem_of_mapFind _ _ _ hfind
        have hse : soundEffect.m_sourceVoices = [] := hempty _ hk
        have hlen := length_std_remove_if _ _ hrem
        rw [hse] at hlen
        simp only [List.reverse_nil, List.length_nil, List.length_eq_zero] at hlen
        rw [h]
        simp only [hlen, List.reverse_nil]

theorem ResumeSoundEffectsSlots_frame (st st' : AudioEngineSlots)
    (h : ResumeSoundEffectsSlots st = .ok st') : SfxFrameSlots st st' := by
  unfold ResumeSoundEffectsSlots at h
  split at h
  · cases h; exact SfxFrameSlots.sfxFrameSlots_refl st
  · split at h
    · cases h
    · cases h
      exact SfxFrameSlots.of_write _ _ (fun _ h => h)

theorem PauseSoundEffectsSlots_frame (st st' : AudioEngineSlots)
    (h : PauseSoundEffectsSlots st = .ok st') : SfxFrameSlots st st' := by
  unfold PauseSoundEffectsSlots at h
  split at h
  · cases h; exact SfxFrameSlots.sfxFrameSlots_refl st
  · split at h
    · cases h
    · cases h
      exact SfxFrameSlots.of_write _ _ (fun _ h => h)

theorem RestartFailedSoundEffectsSlots_frame (st st' : AudioEngineSlots)
    (h : RestartFailedSoundEffectsSlots st = .ok st') : SfxFrameSlots st st' := by
  by_cases hoff : st.engine.m_soundEffectsOff = true
  · simp only [RestartFailedSoundEffectsSlots, hoff, if_true] at h
    cases h
    exact SfxFrameSlots.sfxFrameSlots_refl st
  · unfold RestartFailedSoundEffectsSlots at h
    rw [if_neg hoff] at h
    split at h
    · cases h
    · cases h
      exact SfxFrameSlots.of_write _ _ (fun ho => absurd ho hoff)

theorem modifySlot_nil (f : SourceVoice → SourceVoice) (slot : Nat) :
    modifySlot f [] slot = [] := by
  cases slot <;> rfl

theorem voiceCallbackSlots_frame (f : SourceVoice → SourceVoice) (filename : String)
    (slot : Nat) (st : AudioEngineSlots) :
    SfxFrameSlots st (voiceCallbackSlots f filename slot st) := by
  unfold voiceCallbackSlots
  split
  · exact SfxFrameSlots.sfxFrameSlots_refl st
  · rename_i soundEffect hfind
    refine SfxFrameSlots.of_slots ⟨rfl, rfl, rfl, rfl, rfl, rfl, rfl, rfl, rfl, rfl, rfl⟩
      rfl rfl rfl (fun _ hempty entry hmem => ?_)
    rcases mem_mapAssign _ _ _ _ hmem with h | h
    · exact hempty entry h
    · obtain ⟨k, hk⟩ := mem_of_mapFind _ _ _ hfind
      have hse : soundEffect.m_sourceVoices = [] := hempty _ hk
      rw [h]
      simp only [hse, modifySlot_nil]

theorem SetSoundEffectsOnOffSlots_frame (turnOff : Bool) (outcome : SfxInitOutcome)
    (st : AudioEngineSlots) :
    ∃ st' off, SetSoundEffectsOnOffSlots turnOff outcome st = .ok (st', off) ∧
      SfxFrameSlots st st' ∧ off = st'.engine.m_soundEffectsOff := by
  unfold SetSoundEffectsOnOffSlots
  cases turnOff with
  | true => exact ⟨_, _, rfl, (ShutdownSoundEffectsEngineSlots_frame st).1, rfl⟩
  | false =>
    obtain ⟨t, ht, hf, -⟩ := InitializeSoundEffectsEngineSlots_frame outcome st
    simp only [Bool.false_eq_true, if_false, ht]
    exact ⟨_, _, rfl, hf, rfl⟩

theorem Update_soundEffectsEngineErrorSlots_frame (outcome : SfxInitOutcome)
    (st st' : AudioEngineSlots) (r r' : Nat)
    (h : Update_soundEffectsEngineErrorSlots outcome st r = .ok (st', r')) :
    SfxFrameSlots st st' := by
  unfold Update_soundEffectsEngineErrorSlots at h
  split at h
  · simp only at h
    have h0 : SfxFrameSlots st
        { st with engine := { st.engine with m_soundEffectsEngineCallbacks_m_error := S_OK } } :=
      SfxFrameSlots.of_sameMap ⟨rfl, rfl, rfl, rfl, rfl, rfl, rfl, rfl, rfl, rfl, rfl⟩
        rfl rfl rfl rfl
    obtain ⟨t, ht, hf, -⟩ := InitializeSoundEffectsEngineSlots_frame outcome
      { st with engine := { st.engine with m_soundEffectsEngineCallbacks_m_error := S_OK } }
    rw [ht] at h
    simp only at h
    cases h2 : ResumeSoundEffectsSlots t with
    | error e => simp [h2] at h
    | ok t2 =>
      simp only [h2, Except.ok.injEq, Prod.mk.injEq] at h
      obtain ⟨h, -⟩ := h
      subst h
      exact (h0.sfxFrameSlots_trans hf).sfxFrameSlots_trans (ResumeSoundEffectsSlots_frame _ _ h2)
  · cases h
    exact SfxFrameSlots.sfxFrameSlots_refl st

theorem UpdateSlots_preserved (env : UpdateEnv) (st st' : AudioEngineSlots) (r : Nat)
    (h : UpdateSlots env st = .ok (st', r)) : PreservedSlots st st' := by
  unfold UpdateSlots at h
  cases h1 : Update_soundEffectsEngineErrorSlots env.sfxInit st UpdateErrorCodes.None with
  | error e => simp [h1] at h
  | ok result =>
    obtain ⟨st1, r1⟩ := result
    simp only [h1] at h
    cases h2 : RestartFailedSoundEffectsSlots st1 with
    | error e => simp [h2] at h
    | ok st2 =>
      simp only [h2] at h
      cases h3 : Update_music env st2.engine r1 with
      | error e => simp [h3] at h
      | ok result3 =>
        obtain ⟨engine, r3⟩ := result3
        simp only [h3, Except.ok.injEq, Prod.mk.injEq] at h
        obtain ⟨h, -⟩ := h
        subst h
        have hf1 := Update_soundEffectsEngineErrorSlots_frame _ _ _ _ _ h1
        have hf2 := RestartFailedSoundEffectsSlots_frame _ _ h2
        exact ((hf1.sfxFrameSlots_trans hf2).sfxFrameSlots_preserved).preservedSlots_trans
          (PreservedSlots.of_sameSfx (Update_music_preserved env _ _ _ _ h3)
            (Update_music_sameSfx env _ _ _ _ h3))

/-! ## Every transition keeps the invariants -/

theorem SetSoundEffectsVolume_soundEffectsOff (volume : ℚ) (s s' : AudioEngine)
    (h : SetSoundEffectsVolume volume s = .ok s') :
    s'.m_soundEffectsOff = s.m_soundEffectsOff := by
  unfold SetSoundEffectsVolume at h
  simp only at h
  split at h
  · cases h; rfl
  · split at h
    · cases h; rfl
    · cases h

/-- Every transition keeps the playing flag once it is set, and the three invariants. -/
theorem step_preserved (op : Op) (st st' : AudioEngineSlots) (h : step op st = .ok st') :
    PreservedSlots st st' := by
  cases op with
  | InitializeMusicEngine mfStartupOk outcome =>
    simp only [step] at h
    obtain ⟨engine, he, rfl⟩ := AudioEngineSlots.call_ok h
    exact PreservedSlots.of_sameSfx (InitializeMusicEngine_preserved _ _ _ _ he).1
      (InitializeMusicEngine_sameSfx _ _ _ _ he)
  | ShutdownMusicEngine =>
    simp only [step] at h
    obtain ⟨engine, he, rfl⟩ := AudioEngineSlots.call_ok h
    cases he
    exact PreservedSlots.of_sameSfx (ShutdownMusicEngine_preserved st.engine).1
      (ShutdownMusicEngine_state st.engine).1
  | InitializeSoundEffectsEngine outcome =>
    obtain ⟨t, ht, hf, -⟩ := InitializeSoundEffectsEngineSlots_frame outcome st
    simp only [step, ht, Except.ok.injEq] at h
    subst h; exact hf.sfxFrameSlots_preserved
  | ShutdownSoundEffectsEngine =>
    cases h; exact (ShutdownSoundEffectsEngineSlots_frame st).1.sfxFrameSlots_preserved
  | Update env =>
    obtain ⟨r, hr⟩ := Except.map_fst_ok _ _ h
    exact UpdateSlots_preserved env st st' r hr
  | AddMusicToQueue installedLocation filename loopCount autoPlay =>
    simp only [step] at h
    obtain ⟨engine, he, rfl⟩ := AudioEngineSlots.call_ok h
    cases he
    exact PreservedSlots.of_musicFrame (AddMusicToQueue_frame _ _ _ _ st.engine)
  | ClearMusicQueue =>
    simp only [step] at h
    obtain ⟨engine, he, rfl⟩ := AudioEngineSlots.call_ok h
    cases he
    exact PreservedSlots.of_musicFrame (ClearMusicQueue_frame st.engine)
  | MoveToNextMusicInQueue isPaused =>
    simp only [step] at h
    obtain ⟨engine, he, rfl⟩ := AudioEngineSlots.call_ok h
    exact PreservedSlots.of_musicFrame (MoveToNextMusicInQueue_frame _ _ _ he)
  | PlayMusic isPaused =>
    simp only [step] at h
    obtain ⟨engine, he, rfl⟩ := AudioEngineSlots.call_ok h
    exact PreservedSlots.of_musicFrame (PlayMusic_frame _ _ _ he).1
  | PlayMusicVolumeTestSound installedLocation =>
    simp only [step] at h
    obtain ⟨engine, he, rfl⟩ := AudioEngineSlots.call_ok h
    exact PreservedSlots.of_musicFrame (PlayMusicVolumeTestSound_frame _ _ _ he)
  | PlaySoundEffectsVolumeTestSound bufferLength sampleRate =>
    exact (PlaySoundEffectsVolumeTestSoundSlots_frame _ _ _ _ h).sfxFrameSlots_preserved
  | LoadSoundEffect filename forceReload bufferLength sampleRate =>
    cases h; exact (LoadSoundEffectSlots_frame _ _ _ _ st).sfxFrameSlots_preserved
  | UnloadSoundEffect filename =>
    exact (UnloadSoundEffectSlots_frame _ _ _ h).sfxFrameSlots_preserved
  | PlaySoundEffect filename loopCount maxInstances =>
    exact (PlaySoundEffectSlots_frame _ _ _ _ _ h).sfxFrameSlots_preserved
  | StopSoundEffect filename playTails =>
    exact (StopSoundEffectSlots_frame _ _ _ _ h).sfxFrameSlots_preserved
  | ClearUnusedSourceVoices filename =>
    exact (ClearUnusedSourceVoicesSlots_frame _ _ _ h).sfxFrameSlots_preserved
  | GetNoMediaFoundation => cases h; exact PreservedSlots.preservedSlots_refl st
  | GetMusicOff => cases h; exact PreservedSlots.preservedSlots_refl st
  | GetSoundEffectsOff => cases h; exact PreservedSlots.preservedSlots_refl st
  | GetMusicVolume => cases h; exact PreservedSlots.preservedSlots_refl st
  | GetSoundEffectsVolume => cases h; exact PreservedSlots.preservedSlots_refl st
  | SetMusicOnOff turnOff mfStartupOk outcome isPaused =>
    simp only [step] at h
    obtain ⟨engine, he, rfl⟩ := AudioEngineSlots.call_ok h
    obtain ⟨off, hoff⟩ := Except.map_fst_ok _ _ he
    obtain ⟨t, off', ht, hpres, -⟩ :=
      SetMusicOnOff_state turnOff mfStartupOk outcome isPaused st.engine
    have hsfx := SetMusicOnOff_sameSfx _ _ _ _ _ _ _ hoff
    rw [ht] at hoff
    cases hoff
    exact PreservedSlots.of_sameSfx hpres hsfx
  | SetSoundEffectsOnOff turnOff outcome =>
    obtain ⟨t, off, ht, hf, -⟩ := SetSoundEffectsOnOffSlots_frame turnOff outcome st
    simp only [step, ht, Except.map, Except.ok.injEq] at h
    subst h; exact hf.sfxFrameSlots_preserved
  | SetMusicVolume volume =>
    simp only [step] at h
    obtain ⟨engine, he, rfl⟩ := AudioEngineSlots.call_ok h
    exact PreservedSlots.of_musicFrame (SetMusicVolume_frame _ _ _ he)
  | SetSoundEffectsVolume volume =>
    simp only [step] at h
    obtain ⟨engine, he, rfl⟩ := AudioEngineSlots.call_ok h
    exact PreservedSlots.of_engine (SetSoundEffectsVolume_sfxFrame _ _ _ he).sfxFrame_preserved
      (SetSoundEffectsVolume_soundEffectsOff _ _ _ he)
  | PauseMusic currentTime =>
    simp only [step] at h
    obtain ⟨engine, he, rfl⟩ := AudioEngineSlots.call_ok h
    obtain ⟨position, hp⟩ := Except.map_fst_ok _ _ he
    exact PreservedSlots.of_musicFrame (PauseMusic_frame _ _ _ _ hp)
  | ResumeMusic isPaused =>
    simp only [step] at h
    obtain ⟨engine, he, rfl⟩ := AudioEngineSlots.call_ok h
    exact PreservedSlots.of_musicFrame (ResumeMusicAtTime_frame _ _ _ _ he)
  | ResumeMusicAtTime isPaused seconds =>
    simp only [step] at h
    obtain ⟨engine, he, rfl⟩ := AudioEngineSlots.call_ok h
    exact PreservedSlots.of_musicFrame (ResumeMusicAtTime_frame _ _ _ _ he)
  | GetMusicCurrentTime currentTime =>
    simp only [step] at h
    obtain ⟨engine, he, rfl⟩ := AudioEngineSlots.call_ok h
    obtain ⟨time, ht⟩ := Except.map_fst_ok _ _ he
    exact PreservedSlots.of_musicFrame (GetMusicCurrentTime_frame _ _ _ _ ht)
  | SetMusicCurrentTime seconds =>
    simp only [step] at h
    obtain ⟨engine, he, rfl⟩ := AudioEngineSlots.call_ok h
    cases he
    exact PreservedSlots.of_musicFrame (SetMusicCurrentTime_frame _ st.engine)
  | PauseSoundEffects =>
    exact (PauseSoundEffectsSlots_frame _ _ h).sfxFrameSlots_preserved
  | ResumeSoundEffects =>
    exact (ResumeSoundEffectsSlots_frame _ _ h).sfxFrameSlots_preserved
  | RestartFailedSoundEffects =>
    exact (RestartFailedSoundEffectsSlots_frame _ _ h).sfxFrameSlots_preserved
  | OnStreamEnd filename slot =>
    cases h; exact (voiceCallbackSlots_frame _ _ _ st).sfxFrameSlots_preserved
  | OnLoopEnd filename slot =>
    cases h; exact (voiceCallbackSlots_frame _ _ _ st).sfxFrameSlots_preserved
  | OnVoiceError filename slot Error =>
    cases h; exact (voiceCallbackSlots_frame _ _ _ st).sfxFrameSlots_preserved
  | OnCriticalError Error =>
    simp only [step] at h
    obtain ⟨engine, he, rfl⟩ := AudioEngineSlots.call_ok h
    cases he
    exact PreservedSlots.of_engine (OnCriticalError_sfxFrame _ st.engine).sfxFrame_preserved rfl
  | EventNotify meEvent =>
    simp only [step] at h
    obtain ⟨engine, he, rfl⟩ := AudioEngineSlots.call_ok h
    cases he
    exact PreservedSlots.of_sameSfx (notifyEvent_preserved meEvent st.engine).1
      (notifyEvent_preserved meEvent st.engine).2.1

theorem runOps_preserved :
    ∀ (ops : List Op) (st st' : AudioEngineSlots), runOps ops st = .ok st' →
      PreservedSlots st st' := by
  intro ops
  induction ops with
  | nil =>
    intro st st' h
    cases h; exact PreservedSlots.preservedSlots_refl st
  | cons op rest ih =>
    intro st st' h
    unfold runOps at h
    cases hstep : step op st with
    | error e => simp [hstep] at h
    | ok st1 =>
      simp only [hstep] at h
      exact (step_preserved op st st1 hstep).preservedSlots_trans (ih st1 st' h)

/-! ## A transition that does not return has read a null slot

With the backends in place no transition calls through a null handle: the only fault left is
the read of a voice through a null slot of a vector. -/

theorem AudioEngineSlots.call_error {f : AudioEngine → Except Fault AudioEngine}
    {st : AudioEngineSlots} {e : Fault} (h : st.call f = .error e) :
    f st.engine = .error e := by
  unfold AudioEngineSlots.call at h
  cases hf : f st.engine with
  | error e' =>
    simp only [hf, Except.error.injEq] at h
    rw [h]
  | ok engine => simp [hf] at h

theorem stopCmdsSlots_fault (key : String) (flags : Nat) :
    ∀ (elements : List (Option SourceVoice)) (slot : Nat) (e : Fault),
      stopCmdsSlots key flags slot elements = .error e → e = Fault.nullVoice := by
  intro elements
  induction elements with
  | nil => intro slot e h; cases h
  | cons element rest ih =>
    intro slot e h
    cases element with
    | none =>
      simp only [stopCmdsSlots, Except.error.injEq] at h
      exact h.symm
    | some voice =>
      simp only [stopCmdsSlots] at h
      cases hr : stopCmdsSlots key flags (slot + 1) rest with
      | error e' =>
        simp only [hr, Except.error.injEq] at h
        subst h
        exact ih _ _ hr
      | ok cmds => simp [hr] at h

theorem resumeCmdsSlots_fault (key : String) :
    ∀ (elements : List (Option SourceVoice)) (slot : Nat) (e : Fault),
      resumeCmdsSlots key slot elements = .error e → e = Fault.nullVoice := by
  intro elements
  induction elements with
  | nil => intro slot e h; cases h
  | cons element rest ih =>
    intro slot e h
    cases element with
    | none =>
      simp only [resumeCmdsSlots, Except.error.injEq] at h
      exact h.symm
    | some voice =>
      simp only [resumeCmdsSlots] at h
      cases hr : resumeCmdsSlots key (slot + 1) rest with
      | error e' =>
        simp only [hr, Except.error.injEq] at h
        subst h
        exact ih _ _ hr
      | ok cmds => simp [hr] at h

theorem allSlotsCmds_fault
    (perVector : String → Nat → List (Option SourceVoice) → Except Fault (List Cmd))
    (hper : ∀ key slot elements e, perVector key slot elements = .error e →
      e = Fault.nullVoice) :
    ∀ (map : List (String × SoundEffectSlots)) (e : Fault),
      allSlotsCmds perVector map = .error e → e = Fault.nullVoice := by
  intro map
  induction map with
  | nil => intro e h; cases h
  | cons p rest ih =>
    obtain ⟨key, soundEffect⟩ := p
    intro e h
    simp only [allSlotsCmds] at h
    cases h1 : perVector key 0 soundEffect.m_sourceVoices with
    | error e1 =>
      simp only [h1, Except.error.injEq] at h
      subst h
      exact hper _ _ _ _ h1
    | ok cmds =>
      simp only [h1] at h
      cases h2 : allSlotsCmds perVector rest with
      | error e2 =>
        simp only [h2, Except.error.injEq] at h
        subst h
        exact ih _ h2
      | ok more => simp [h2] at h

theorem startedCountSlots_fault :
    ∀ (elements : List (Option SourceVoice)) (e : Fault),
      startedCountSlots elements = .error e → e = Fault.nullVoice := by
  intro elements
  induction elements with
  | nil => intro e h; cases h
  | cons element rest ih =>
    intro e h
    cases element with
    | none =>
      simp only [startedCountSlots, Except.error.injEq] at h
      exact h.symm
    | some voice =>
      simp only [startedCountSlots] at h
      cases hr : startedCountSlots rest with
      | error e' =>
        simp only [hr, Except.error.injEq] at h
        subst h
        exact ih _ hr
      | ok count => simp [hr] at h

theorem criticalErrorCountSlots_fault :
    ∀ (elements : List (Option SourceVoice)) (e : Fault),
      criticalErrorCountSlots elements = .error e → e = Fault.nullVoice := by
  intro elements
  induction elements with
  | nil => intro e h; cases h
  | cons element rest ih =>
    intro e h
    cases element with
    | none =>
      simp only [criticalErrorCountSlots, Except.error.injEq] at h
      exact h.symm
    | some voice =>
      simp only [criticalErrorCountSlots] at h
      cases hr : criticalErrorCountSlots rest with
      | error e' =>
        simp only [hr, Except.error.injEq] at h
        subst h
        exact ih _ hr
      | ok count => simp [hr] at h

theorem findIdleSlots_fault :
    ∀ (elements : List (Option SourceVoice)) (e : Fault),
      findIdleSlots elements = .error e → e = Fault.nullVoice := by
  intro elements
  induction elements with
  | nil => intro e h; cases h
  | cons element rest ih =>
    intro e h
    cases element with
    | none =>
      simp only [findIdleSlots, Except.error.injEq] at h
      exact h.symm
    | some voice =>
      simp only [findIdleSlots] at h
      split at h
      · cases h
      · cases hr : findIdleSlots rest with
        | error e' =>
          simp only [hr, Except.error.injEq] at h
          subst h
          exact ih _ hr
        | ok found => simp [hr] at h

theorem isUnused_fault (element : Option SourceVoice) (e : Fault)
    (h : isUnused element = .error e) : e = Fault.nullVoice := by
  cases element with
  | none =>
    simp only [isUnused, Except.error.injEq] at h
    exact h.symm
  | some voice => cases h

theorem std_find_if_fault :
    ∀ (elements : List (Option SourceVoice)) (i : Nat) (e : Fault),
      std_find_if elements i = .error e → e = Fault.nullVoice := by
  intro elements
  induction elements with
  | nil => intro i e h; cases h
  | cons element rest ih =>
    intro i e h
    simp only [std_find_if] at h
    cases hu : isUnused element with
    | error e' =>
      simp only [hu, Except.error.injEq] at h
      subst h
      exact isUnused_fault _ _ hu
    | ok b =>
      cases b with
      | true => simp [hu] at h
      | false =>
        simp only [hu] at h
        exact ih _ _ h

theorem std_remove_if_loop_fault :
    ∀ (steps i next : Nat) (elements : List (Option SourceVoice)) (destroyed : List Nat)
      (e : Fault),
      std_remove_if_loop elements next destroyed i steps = .error e → e = Fault.nullVoice := by
  intro steps
  induction steps with
  | zero => intro i next elements destroyed e h; cases h
  | succ steps ih =>
    intro i next elements destroyed e h
    unfold std_remove_if_loop at h
    split at h
    · cases h
    · split at h
      · rename_i e' hu
        cases h
        exact isUnused_fault _ _ hu
      · exact ih _ _ _ _ _ h
      · exact ih _ _ _ _ _ h

theorem std_remove_if_fault (elements : List (Option SourceVoice)) (e : Fault)
    (h : std_remove_if elements = .error e) : e = Fault.nullVoice := by
  unfold std_remove_if at h
  cases hf : std_find_if elements 0 with
  | error e' =>
    simp only [hf, Except.error.injEq] at h
    subst h
    exact std_find_if_fault _ _ _ hf
  | ok first =>
    simp only [hf] at h
    split at h
    · cases h
    · exact std_remove_if_loop_fault _ _ _ _ _ _ h

theorem restartVoicesSlots_fault (key : String) :
    ∀ (elements : List (Option SourceVoice)) (slot buf : Nat) (log : List Cmd) (e : Fault),
      restartVoicesSlots true key slot elements buf log = .error e → e = Fault.nullVoice := by
  intro elements
  induction elements with
  | nil => intro slot buf log e h; cases h
  | cons element rest ih =>
    intro slot buf log e h
    cases element with
    | none =>
      simp only [restartVoicesSlots, Except.error.injEq] at h
      exact h.symm
    | some sv =>
      obtain ⟨buf', hv⟩ := restartVoice_eq key slot sv buf log
      simp only [restartVoicesSlots, hv] at h
      cases hr : restartVoicesSlots true key (slot + 1) rest buf'
          (log ++ sweptVoiceCmds key slot sv) with
      | error e' =>
        simp only [hr, Except.error.injEq] at h
        subst h
        exact ih _ _ _ _ hr
      | ok r => simp [hr] at h

theorem restartEffectsSlots_fault :
    ∀ (map : List (String × SoundEffectSlots)) (log : List Cmd) (e : Fault),
      restartEffectsSlots true map log = .error e → e = Fault.nullVoice := by
  intro map
  induction map with
  | nil => intro log e h; cases h
  | cons p rest ih =>
    obtain ⟨key, soundEffect⟩ := p
    intro log e h
    simp only [restartEffectsSlots] at h
    cases hc : criticalErrorCountSlots soundEffect.m_sourceVoices with
    | error e' =>
      simp only [hc, Except.error.injEq] at h
      subst h
      exact criticalErrorCountSlots_fault _ _ hc
    | ok count =>
      simp only [hc] at h
      split at h
      · cases hr : restartEffectsSlots true rest log with
        | error e' =>
          simp only [hr, Except.error.injEq] at h
          subst h
          exact ih _ _ hr
        | ok r => simp [hr] at h
      · cases hv : restartVoicesSlots true key 0 soundEffect.m_sourceVoices
            soundEffect.m_audioBuffer_LoopCount log with
        | error e' =>
          simp only [hv, Except.error.injEq] at h
          subst h
          exact restartVoicesSlots_fault _ _ _ _ _ _ hv
        | ok r =>
          obtain ⟨voices, buf, log'⟩ := r
          simp only [hv] at h
          cases hr : restartEffectsSlots true rest log' with
          | error e' =>
            simp only [hr, Except.error.injEq] at h
            subst h
            exact ih _ _ hr
          | ok r => simp [hr] at h

theorem startInSlots_fault (filename : String) (loopCount : Nat)
    (soundEffect : SoundEffectSlots) (log : List Cmd) (e : Fault)
    (h : startInSlots true filename loopCount soundEffect log = .error e) :
    e = Fault.nullVoice := by
  unfold startInSlots at h
  cases hf : findIdleSlots soundEffect.m_sourceVoices with
  | error e' =>
    simp only [hf, Except.error.injEq] at h
    subst h
    exact findIdleSlots_fault _ _ hf
  | ok found =>
    cases found with
    | none => simp [hf, CreateSourceVoice] at h
    | some slot =>
      simp only [hf] at h
      split at h <;> cases h

theorem StopSoundEffectSlots_fault (filename : String) (playTails : Bool)
    (st : AudioEngineSlots) (e : Fault)
    (h : StopSoundEffectSlots filename playTails st = .error e) : e = Fault.nullVoice := by
  unfold StopSoundEffectSlots at h
  split at h
  · cases h
  · simp only at h
    split at h
    · rename_i e' he
      cases h
      exact stopCmdsSlots_fault _ _ _ _ _ he
    · cases h

theorem UnloadSoundEffectSlots_fault (filename : String)
    (st : AudioEngineSlots) (e : Fault)
    (h : UnloadSoundEffectSlots filename st = .error e) : e = Fault.nullVoice := by
  unfold UnloadSoundEffectSlots at h
  split at h
  · cases h
  · split at h
    · rename_i e' he
      cases h
      exact stopCmdsSlots_fault _ _ _ _ _ he
    · cases h

theorem ClearUnusedSourceVoicesSlots_fault (filename : String)
    (st : AudioEngineSlots) (e : Fault)
    (h : ClearUnusedSourceVoicesSlots filename st = .error e) : e = Fault.nullVoice := by
  unfold ClearUnusedSourceVoicesSlots at h
  split at h
  · cases h
  · simp only at h
    split at h
    · rename_i e' he
      cases h
      exact std_remove_if_fault _ _ he
    · cases h

theorem PauseSoundEffectsSlots_fault (st : AudioEngineSlots) (e : Fault)
    (h : PauseSoundEffectsSlots st = .error e) : e = Fault.nullVoice := by
  unfold PauseSoundEffectsSlots at h
  split at h
  · cases h
  · split at h
    · rename_i e' he
      cases h
      exact allSlotsCmds_fault _
        (fun key slot elements => stopCmdsSlots_fault key 0 elements slot) _ _ he
    · cases h

theorem ResumeSoundEffectsSlots_fault (st : AudioEngineSlots) (e : Fault)
    (h : ResumeSoundEffectsSlots st = .error e) : e = Fault.nullVoice := by
  unfold ResumeSoundEffectsSlots at h
  split at h
  · cases h
  · split at h
    · rename_i e' he
      cases h
      exact allSlotsCmds_fault _ (fun key slot elements => resumeCmdsSlots_fault key elements slot)
        _ _ he
    · cases h

theorem PlaySoundEffectSlots_fault (filename : String) (loopCount maxInstances : Nat)
    (st : AudioEngineSlots) (hp : SfxPresent st.engine) (e : Fault)
    (h : PlaySoundEffectSlots filename loopCount maxInstances st = .error e) :
    e = Fault.nullVoice := by
  by_cases hoff : st.engine.m_soundEffectsOff = true
  · simp [PlaySoundEffectSlots, hoff] at h
  · have heng : st.engine.m_soundEffectsEngine = true := (hp (by simpa using hoff)).1
    unfold PlaySoundEffectSlots at h
    rw [if_neg hoff, heng] at h
    cases hfind : mapFind st.m_soundEffectsMap filename with
    | none => simp [hfind] at h
    | some soundEffect =>
      simp only [hfind] at h
      by_cases hmax : maxInstances > 0
      · simp only [hmax, if_true] at h
        cases hc : startedCountSlots soundEffect.m_sourceVoices with
        | error e' =>
          simp only [hc, Except.error.injEq] at h
          subst h
          exact startedCountSlots_fault _ _ hc
        | ok count =>
          simp only [hc] at h
          split at h
          · rename_i heq; cases heq
          · cases h
          · cases hs : startInSlots true filename loopCount soundEffect st.engine.log with
            | error e' =>
              simp only [hs, Except.error.injEq] at h
              subst h
              exact startInSlots_fault _ _ _ _ _ hs
            | ok r => simp [hs] at h
      · simp only [hmax, if_false] at h
        cases hs : startInSlots true filename loopCount soundEffect st.engine.log with
        | error e' =>
          simp only [hs, Except.error.injEq] at h
          subst h
          exact startInSlots_fault _ _ _ _ _ hs
        | ok r => simp [hs] at h

theorem PlaySoundEffectsVolumeTestSoundSlots_fault (bufferLength sampleRate : Nat)
    (st : AudioEngineSlots) (hp : SfxPresent st.engine) (e : Fault)
    (h : PlaySoundEffectsVolumeTestSoundSlots bufferLength sampleRate st = .error e) :
    e = Fault.nullVoice := by
  unfold PlaySoundEffectsVolumeTestSoundSlots at h
  simp only at h
  have hload := LoadSoundEffectSlots_frame "volume_test.wav" false bufferLength sampleRate st
  split at h
  · cases h
  · exact PlaySoundEffectSlots_fault _ _ _ _ (hload.present hp) _ h

theorem RestartFailedSoundEffectsSlots_fault (st : AudioEngineSlots)
    (hp : SfxPresent st.engine) (e : Fault)
    (h : RestartFailedSoundEffectsSlots st = .error e) : e = Fault.nullVoice := by
  by_cases hoff : st.engine.m_soundEffectsOff = true
  · simp [RestartFailedSoundEffectsSlots, hoff] at h
  · have heng : st.engine.m_soundEffectsEngine = true := (hp (by simpa using hoff)).1
    unfold RestartFailedSoundEffectsSlots at h
    rw [if_neg hoff, heng] at h
    split at h
    · rename_i e' he
      cases h
      exact restartEffectsSlots_fault _ _ _ he
    · cases h

theorem Update_soundEffectsEngineErrorSlots_fault (outcome : SfxInitOutcome)
    (st : AudioEngineSlots) (r : Nat) (e : Fault)
    (h : Update_soundEffectsEngineErrorSlots outcome st r = .error e) :
    e = Fault.nullVoice := by
  unfold Update_soundEffectsEngineErrorSlots at h
  split at h
  · simp only at h
    obtain ⟨t, ht, -⟩ := InitializeSoundEffectsEngineSlots_frame outcome
      { st with engine := { st.engine with m_soundEffectsEngineCallbacks_m_error := S_OK } }
    rw [ht] at h
    simp only at h
    cases h2 : ResumeSoundEffectsSlots t with
    | error e' =>
      simp only [h2, Except.error.injEq] at h
      subst h
      exact ResumeSoundEffectsSlots_fault _ _ h2
    | ok t2 => simp [h2] at h
  · cases h

theorem Update_music_total (env : UpdateEnv) (s : AudioEngine) (r : Nat)
    (hp : MusicPresent s) : ∃ result, Update_music env s r = .ok result := by
  cases hn : s.m_mediaEngineNotify with
  | none => exact ⟨(s, r), by simp only [Update_music, hn]⟩
  | some n =>
    obtain ⟨t, n1, hreach, -, hn1, -⟩ := Update_music_reaches_musicError env s r n hp hn
    obtain ⟨s', hs', -⟩ := Update_musicError_preserved env t r n1 hn1
    exact ⟨_, by rw [hreach, hs']⟩

theorem UpdateSlots_fault (env : UpdateEnv) (st : AudioEngineSlots)
    (hp : BackendPresent st.engine) (e : Fault)
    (h : UpdateSlots env st = .error e) : e = Fault.nullVoice := by
  unfold UpdateSlots at h
  cases h1 : Update_soundEffectsEngineErrorSlots env.sfxInit st UpdateErrorCodes.None with
  | error e1 =>
    simp only [h1, Except.error.injEq] at h
    subst h
    exact Update_soundEffectsEngineErrorSlots_fault _ _ _ _ h1
  | ok result =>
    obtain ⟨st1, r1⟩ := result
    simp only [h1] at h
    have hf1 := Update_soundEffectsEngineErrorSlots_frame _ _ _ _ _ h1
    cases h2 : RestartFailedSoundEffectsSlots st1 with
    | error e2 =>
      simp only [h2, Except.error.injEq] at h
      subst h
      exact RestartFailedSoundEffectsSlots_fault _ (hf1.present hp.2) _ h2
    | ok st2 =>
      simp only [h2] at h
      have hf2 := RestartFailedSoundEffectsSlots_frame _ _ h2
      have hm : MusicPresent st2.engine :=
        hp.1.present_of_sameMusic (hf1.music.trans hf2.music)
      obtain ⟨result, hres⟩ := Update_music_total env st2.engine r1 hm
      simp [hres] at h

/-- With the backends in place, a transition that does not return has read a voice through a
null slot. -/
theorem step_fault (op : Op) (st : AudioEngineSlots) (hp : BackendPresent st.engine)
    (e : Fault) (h : step op st = .error e) : e = Fault.nullVoice := by
  cases op with
  | InitializeMusicEngine mfStartupOk outcome =>
    simp only [step] at h
    obtain ⟨t, ht, -⟩ := InitializeMusicEngine_state mfStartupOk outcome st.engine
    have he := AudioEngineSlots.call_error h
    rw [ht] at he
    cases he
  | InitializeSoundEffectsEngine outcome =>
    obtain ⟨t, ht, -⟩ := InitializeSoundEffectsEngineSlots_frame outcome st
    simp [step, ht] at h
  | Update env =>
    simp only [step] at h
    cases hu : UpdateSlots env st with
    | error e' =>
      simp only [hu, Except.map, Except.error.injEq] at h
      subst h
      exact UpdateSlots_fault env st hp _ hu
    | ok r => simp [hu, Except.map] at h
  | MoveToNextMusicInQueue isPaused =>
    simp only [step] at h
    obtain ⟨t, ht⟩ := MoveToNextMusicInQueue_total isPaused st.engine hp.1
    have he := AudioEngineSlots.call_error h
    rw [ht] at he
    cases he
  | PlayMusic isPaused =>
    simp only [step] at h
    obtain ⟨t, ht⟩ := PlayMusic_total isPaused st.engine hp.1
    have he := AudioEngineSlots.call_error h
    rw [ht] at he
    cases he
  | PlayMusicVolumeTestSound installedLocation =>
    simp only [step] at h
    obtain ⟨t, ht⟩ := PlayMusicVolumeTestSound_total installedLocation st.engine hp.1
    have he := AudioEngineSlots.call_error h
    rw [ht] at he
    cases he
  | PlaySoundEffectsVolumeTestSound bufferLength sampleRate =>
    exact PlaySoundEffectsVolumeTestSoundSlots_fault _ _ st hp.2 _ h
  | UnloadSoundEffect filename => exact UnloadSoundEffectSlots_fault _ st _ h
  | PlaySoundEffect filename loopCount maxInstances =>
    exact PlaySoundEffectSlots_fault _ _ _ st hp.2 _ h
  | StopSoundEffect filename playTails => exact StopSoundEffectSlots_fault _ _ st _ h
  | ClearUnusedSourceVoices filename => exact ClearUnusedSourceVoicesSlots_fault _ st _ h
  | SetMusicOnOff turnOff mfStartupOk outcome isPaused =>
    simp only [step] at h
    obtain ⟨t, off, ht, -⟩ := SetMusicOnOff_state turnOff mfStartupOk outcome isPaused st.engine
    have he := AudioEngineSlots.call_error h
    simp [ht, Except.map] at he
  | SetSoundEffectsOnOff turnOff outcome =>
    obtain ⟨t, off, ht, -⟩ := SetSoundEffectsOnOffSlots_frame turnOff outcome st
    simp [step, ht, Except.map] at h
  | SetMusicVolume volume =>
    simp only [step] at h
    obtain ⟨t, ht⟩ := SetMusicVolume_total volume st.engine hp.1
    have he := AudioEngineSlots.call_error h
    rw [ht] at he
    cases he
  | SetSoundEffectsVolume volume =>
    simp only [step] at h
    obtain ⟨t, ht⟩ := SetSoundEffectsVolume_total volume st.engine hp.2
    have he := AudioEngineSlots.call_error h
    rw [ht] at he
    cases he
  | PauseMusic currentTime =>
    simp only [step] at h
    obtain ⟨t, ht⟩ := PauseMusic_total currentTime st.engine hp.1
    have he := AudioEngineSlots.call_error h
    simp [ht, Except.map] at he
  | ResumeMusic isPaused =>
    simp only [step] at h
    obtain ⟨t, ht⟩ := ResumeMusicAtTime_total isPaused st.engine.m_musicPosition st.engine hp.1
    have he := AudioEngineSlots.call_error h
    unfold ResumeMusic at he
    rw [ht] at he
    cases he
  | ResumeMusicAtTime isPaused seconds =>
    simp only [step] at h
    obtain ⟨t, ht⟩ := ResumeMusicAtTime_total isPaused seconds st.engine hp.1
    have he := AudioEngineSlots.call_error h
    rw [ht] at he
    cases he
  | GetMusicCurrentTime currentTime =>
    simp only [step] at h
    obtain ⟨t, ht⟩ := GetMusicCurrentTime_total currentTime st.engine hp.1
    have he := AudioEngineSlots.call_error h
    simp [ht, Except.map] at he
  | PauseSoundEffects => exact PauseSoundEffectsSlots_fault st _ h
  | ResumeSoundEffects => exact ResumeSoundEffectsSlots_fault st _ h
  | RestartFailedSoundEffects => exact RestartFailedSoundEffectsSlots_fault st hp.2 _ h
  | _ => simp [step, AudioEngineSlots.call] at h

theorem stopCmdsSlots_total (key : String) (flags : Nat) :
    ∀ (elements : List (Option SourceVoice)) (slot : Nat),
      (∀ element ∈ elements, element ≠ none) →
      ∃ cmds, stopCmdsSlots key flags slot elements = .ok cmds := by
  intro elements
  induction elements with
  | nil => intro slot _; exact ⟨[], rfl⟩
  | cons element rest ih =>
    intro slot hall
    cases element with
    | none => exact absurd rfl (hall none (List.mem_cons_self _ _))
    | some voice =>
      obtain ⟨cmds, hc⟩ := ih (slot + 1) (fun e he => hall e (List.mem_cons_of_mem _ he))
      exact ⟨_, by simp only [stopCmdsSlots, hc]; rfl⟩

theorem resumeCmdsSlots_total (key : String) :
    ∀ (elements : List (Option SourceVoice)) (slot : Nat),
      (∀ element ∈ elements, element ≠ none) →
      ∃ cmds, resumeCmdsSlots key slot elements = .ok cmds := by
  intro elements
  induction elements with
  | nil => intro slot _; exact ⟨[], rfl⟩
  | cons element rest ih =>
    intro slot hall
    cases element with
    | none => exact absurd rfl (hall none (List.mem_cons_self _ _))
    | some voice =>
      obtain ⟨cmds, hc⟩ := ih (slot + 1) (fun e he => hall e (List.mem_cons_of_mem _ he))
      exact ⟨_, by simp only [resumeCmdsSlots, hc]; rfl⟩

theorem allSlotsCmds_total
    (perVector : String → Nat → List (Option SourceVoice) → Except Fault (List Cmd))
    (hper : ∀ key slot elements, (∀ element ∈ elements, element ≠ none) →
      ∃ cmds, perVector key slot elements = .ok cmds) :
    ∀ (map : List (String × SoundEffectSlots)),
      (∀ entry ∈ map, ∀ element ∈ entry.2.m_sourceVoices, element ≠ none) →
      ∃ cmds, allSlotsCmds perVector map = .ok cmds := by
  intro map
  induction map with
  | nil => intro _; exact ⟨[], rfl⟩
  | cons p rest ih =>
    obtain ⟨key, soundEffect⟩ := p
    intro hall
    obtain ⟨cmds, hc⟩ := hper key 0 soundEffect.m_sourceVoices
      (hall (key, soundEffect) (List.mem_cons_self _ _))
    obtain ⟨more, hm⟩ := ih (fun entry he => hall entry (List.mem_cons_of_mem _ he))
    exact ⟨_, by simp only [allSlotsCmds, hc, hm]; rfl⟩

theorem startedCountSlots_total :
    ∀ (elements : List (Option SourceVoice)),
      (∀ element ∈ elements, element ≠ none) →
      ∃ count, startedCountSlots elements = .ok count := by
  intro elements
  induction elements with
  | nil => intro _; exact ⟨0, rfl⟩
  | cons element rest ih =>
    intro hall
    cases element with
    | none => exact absurd rfl (hall none (List.mem_cons_self _ _))
    | some voice =>
      obtain ⟨count, hc⟩ := ih (fun e he => hall e (List.mem_cons_of_mem _ he))
      exact ⟨_, by simp only [startedCountSlots, hc]; rfl⟩

theorem criticalErrorCountSlots_total :
    ∀ (elements : List (Option SourceVoice)),
      (∀ element ∈ elements, element ≠ none) →
      ∃ count, criticalErrorCountSlots elements = .ok count := by
  intro elements
  induction elements with
  | nil => intro _; exact ⟨0, rfl⟩
  | cons element rest ih =>
    intro hall
    cases element with
    | none => exact absurd rfl (hall none (List.mem_cons_self _ _))
    | some voice =>
      obtain ⟨count, hc⟩ := ih (fun e he => hall e (List.mem_cons_of_mem _ he))
      exact ⟨_, by simp only [criticalErrorCountSlots, hc]; rfl⟩

theorem findIdleSlots_total :
    ∀ (elements : List (Option SourceVoice)),
      (∀ element ∈ elements, element ≠ none) →
      ∃ found, findIdleSlots elements = .ok found := by
  intro elements
  induction elements with
  | nil => intro _; exact ⟨none, rfl⟩
  | cons element rest ih =>
    intro hall
    cases element with
    | none => exact absurd rfl (hall none (List.mem_cons_self _ _))
    | some voice =>
      obtain ⟨found, hc⟩ := ih (fun e he => hall e (List.mem_cons_of_mem _ he))
      by_cases hs : (voice.m_soundEffectStarted == false) = true
      · exact ⟨_, by simp only [findIdleSlots, hs, if_true]; rfl⟩
      · exact ⟨_, by simp only [findIdleSlots, hs, if_false, hc, Bool.false_eq_true]; rfl⟩

theorem mem_set_some (elements : List (Option SourceVoice)) (slot : Nat) (sv : SourceVoice)
    (hall : ∀ element ∈ elements, element ≠ none) :
    ∀ element ∈ elements.set slot (some sv), element ≠ none := by
  intro element hmem
  rcases List.mem_or_eq_of_mem_set hmem with h | h
  · exact hall element h
  · rw [h]; exact Option.some_ne_none sv

/-- The part of `PlaySoundEffect` that follows the cap test returns on a vector without null
slots when the mixing backend exists, and leaves the vector without null slots. -/
theorem startInSlots_total (filename : String) (loopCount : Nat)
    (soundEffect : SoundEffectSlots) (log : List Cmd)
    (hall : ∀ element ∈ soundEffect.m_sourceVoices, element ≠ none) :
    ∃ soundEffect' log', startInSlots true filename loopCount soundEffect log =
        .ok (soundEffect', log') ∧
      ∀ element ∈ soundEffect'.m_sourceVoices, element ≠ none := by
  obtain ⟨found, hf⟩ := findIdleSlots_total soundEffect.m_sourceVoices hall
  unfold startInSlots
  cases found with
  | none =>
    simp only [hf, CreateSourceVoice, if_true]
    refine ⟨_, _, rfl, ?_⟩
    apply mem_set_some
    intro element hmem
    rcases List.mem_append.mp hmem with h | h
    · exact hall element h
    · simp only [List.mem_singleton] at h
      rw [h]; exact Option.some_ne_none _
  | some slot =>
    simp only [hf]
    split
    · exact ⟨_, _, rfl, mem_set_some _ _ _ hall⟩
    · exact ⟨_, _, rfl, hall⟩

theorem restartVoicesSlots_total (key : String) :
    ∀ (elements : List (Option SourceVoice)) (slot buf : Nat) (log : List Cmd),
      (∀ element ∈ elements, element ≠ none) →
      ∃ r, restartVoicesSlots true key slot elements buf log = .ok r ∧
        ∀ element ∈ r.1, element ≠ none := by
  intro elements
  induction elements with
  | nil => intro slot buf log _; exact ⟨_, rfl, fun _ h => by cases h⟩
  | cons element rest ih =>
    intro slot buf log hall
    cases element with
    | none => exact absurd rfl (hall none (List.mem_cons_self _ _))
    | some sv =>
      obtain ⟨buf', hv⟩ := restartVoice_eq key slot sv buf log
      obtain ⟨r, hr, hsome⟩ := ih (slot + 1) buf' (log ++ sweptVoiceCmds key slot sv)
        (fun e he => hall e (List.mem_cons_of_mem _ he))
      obtain ⟨rest', buf'', log''⟩ := r
      refine ⟨_, by simp only [restartVoicesSlots, hv, hr]; rfl, ?_⟩
      intro element hmem
      simp only [List.mem_cons] at hmem
      rcases hmem with h | h
      · rw [h]; exact Option.some_ne_none _
      · exact hsome element h

theorem restartEffectsSlots_total :
    ∀ (map : List (String × SoundEffectSlots)) (log : List Cmd),
      (∀ entry ∈ map, ∀ element ∈ entry.2.m_sourceVoices, element ≠ none) →
      ∃ r, restartEffectsSlots true map log = .ok r ∧
        ∀ entry ∈ r.1, ∀ element ∈ entry.2.m_sourceVoices, element ≠ none := by
  intro map
  induction map with
  | nil => intro log _; exact ⟨_, rfl, fun _ h => by cases h⟩
  | cons p rest ih =>
    obtain ⟨key, soundEffect⟩ := p
    intro log hall
    have hhead := hall (key, soundEffect) (List.mem_cons_self _ _)
    have htail : ∀ entry ∈ rest, ∀ element ∈ entry.2.m_sourceVoices, element ≠ none :=
      fun entry he => hall entry (List.mem_cons_of_mem _ he)
    obtain ⟨count, hc⟩ := criticalErrorCountSlots_total soundEffect.m_sourceVoices hhead
    by_cases hle : count ≤ 0
    · obtain ⟨r, hr, hsome⟩ := ih log htail
      obtain ⟨rest', log'⟩ := r
      refine ⟨_, by simp only [restartEffectsSlots, hc, hle, if_true, hr]; rfl, ?_⟩
      intro entry hmem
      simp only [List.mem_cons] at hmem
      rcases hmem with h | h
      · rw [h]; exact hhead
      · exact hsome entry h
    · obtain ⟨rv, hrv, hsomev⟩ := restartVoicesSlots_total key soundEffect.m_sourceVoices 0
        soundEffect.m_audioBuffer_LoopCount log hhead
      obtain ⟨voices, buf, log'⟩ := rv
      obtain ⟨r, hr, hsome⟩ := ih log' htail
      obtain ⟨rest', log''⟩ := r
      refine ⟨_, by simp only [restartEffectsSlots, hc, hle, if_false, hrv, hr]; rfl, ?_⟩
      intro entry hmem
      simp only [List.mem_cons] at hmem
      rcases hmem with h | h
      · rw [h]; exact hsomev
      · exact hsome entry h

theorem modifySlot_some (f : SourceVoice → SourceVoice) :
    ∀ (elements : List (Option SourceVoice)) (slot : Nat),
      (∀ element ∈ elements, element ≠ none) →
      ∀ element ∈ modifySlot f elements slot, element ≠ none := by
  intro elements
  induction elements with
  | nil => intro slot _ element h; cases slot <;> cases h
  | cons e rest ih =>
    intro slot hall element hmem
    cases slot with
    | zero =>
      simp only [modifySlot, List.mem_cons] at hmem
      rcases hmem with h | h
      · cases e with
        | none => exact absurd rfl (hall none (List.mem_cons_self _ _))
        | some sv => rw [h]; exact Option.some_ne_none _
      · exact hall element (List.mem_cons_of_mem _ h)
    | succ slot =>
      simp only [modifySlot, List.mem_cons] at hmem
      rcases hmem with h | h
      · rw [h]; exact hall e (List.mem_cons_self _ _)
      · exact ih slot (fun x hx => hall x (List.mem_cons_of_mem _ hx)) element h

theorem NoNullSlots.of_empty {st : AudioEngineSlots}
    (h : ∀ entry ∈ st.m_soundEffectsMap, entry.2.m_sourceVoices = []) : NoNullSlots st := by
  intro entry hmem element he
  rw [h entry hmem] at he
  cases he

theorem NoNullSlots.noNull_of_sameMap {st st' : AudioEngineSlots}
    (hmap : st'.m_soundEffectsMap = st.m_soundEffectsMap) (h : NoNullSlots st) :
    NoNullSlots st' := by
  unfold NoNullSlots
  rw [hmap]
  exact h

theorem NoNullSlots.of_mapFind {st : AudioEngineSlots} (h : NoNullSlots st)
    {filename : String} {soundEffect : SoundEffectSlots}
    (hfind : mapFind st.m_soundEffectsMap filename = some soundEffect) :
    ∀ element ∈ soundEffect.m_sourceVoices, element ≠ none := by
  obtain ⟨k, hk⟩ := mem_of_mapFind _ _ _ hfind
  exact h _ hk

theorem NoNullSlots.of_mapAssign {st : AudioEngineSlots} (h : NoNullSlots st)
    (filename : String) (soundEffect : SoundEffectSlots) (engine : AudioEngine)
    (hnew : ∀ element ∈ soundEffect.m_sourceVoices, element ≠ none) :
    NoNullSlots { engine := engine,
                  m_soundEffectsMap := mapAssign st.m_soundEffectsMap filename soundEffect } := by
  intro entry hmem
  rcases mem_mapAssign _ _ _ _ hmem with h1 | h1
  · exact h entry h1
  · rw [h1]; exact hnew

theorem LoadSoundEffectSlots_noNull (filename : String) (forceReload : Bool)
    (bufferLength sampleRate : Nat) (st : AudioEngineSlots) (h : NoNullSlots st) :
    NoNullSlots (LoadSoundEffectSlots filename forceReload bufferLength sampleRate st) := by
  unfold LoadSoundEffectSlots
  by_cases hc : (!forceReload && (mapFind st.m_soundEffectsMap filename).isSome) = true
  · rw [if_pos hc]; exact h
  · rw [if_neg hc]
    intro entry hmem
    rcases mem_mapInsert _ _ _ _ hmem with h1 | h1
    · exact h entry h1
    · rw [h1]; intro element he; cases he

theorem StopSoundEffectSlots_total (filename : String) (playTails : Bool)
    (st : AudioEngineSlots) (h : NoNullSlots st) :
    ∃ st', StopSoundEffectSlots filename playTails st = .ok st' ∧ NoNullSlots st' := by
  unfold StopSoundEffectSlots
  cases hfind : mapFind st.m_soundEffectsMap filename with
  | none => exact ⟨st, rfl, h⟩
  | some soundEffect =>
    obtain ⟨cmds, hc⟩ := stopCmdsSlots_total filename (if playTails then XAUDIO2_PLAY_TAILS else 0)
      soundEffect.m_sourceVoices 0 (h.of_mapFind hfind)
    simp only [hc]
    exact ⟨_, rfl, h.noNull_of_sameMap rfl⟩

theorem UnloadSoundEffectSlots_total (filename : String)
    (st : AudioEngineSlots) (h : NoNullSlots st) :
    ∃ st', UnloadSoundEffectSlots filename st = .ok st' ∧ NoNullSlots st' := by
  unfold UnloadSoundEffectSlots
  cases hfind : mapFind st.m_soundEffectsMap filename with
  | none => exact ⟨st, rfl, h⟩
  | some soundEffect =>
    obtain ⟨cmds, hc⟩ := stopCmdsSlots_total filename 0 soundEffect.m_sourceVoices 0
      (h.of_mapFind hfind)
    simp only [hc]
    exact ⟨_, rfl, fun entry hmem => h entry (mem_mapErase _ _ _ hmem)⟩

theorem PlaySoundEffectSlots_total (filename : String) (loopCount maxInstances : Nat)
    (st : AudioEngineSlots) (hp : SfxPresent st.engine) (h : NoNullSlots st) :
    ∃ st', PlaySoundEffectSlots filename loopCount maxInstances st = .ok st' ∧
      NoNullSlots st' := by
  by_cases hoff : st.engine.m_soundEffectsOff = true
  · exact ⟨st, by simp [PlaySoundEffectSlots, hoff], h⟩
  · have heng : st.engine.m_soundEffectsEngine = true := (hp (by simpa using hoff)).1
    unfold PlaySoundEffectSlots
    rw [if_neg hoff, heng]
    cases hfind : mapFind st.m_soundEffectsMap filename with
    | none => exact ⟨st, rfl, h⟩
    | some soundEffect =>
      have hall := h.of_mapFind hfind
      obtain ⟨count, hc⟩ := startedCountSlots_total soundEffect.m_sourceVoices hall
      obtain ⟨soundEffect', log', hs, hsome⟩ :=
        startInSlots_total filename loopCount soundEffect st.engine.log hall
      simp only [hc, hs]
      by_cases hmax : maxInstances > 0
      · simp only [hmax, if_true]
        by_cases hcap : count % UINT32_RANGE ≥ maxInstances
        · simp only [hcap, decide_True]
          exact ⟨st, rfl, h⟩
        · simp only [hcap, decide_False]
          exact ⟨_, rfl, h.of_mapAssign _ _ _ hsome⟩
      · simp only [hmax, if_false]
        exact ⟨_, rfl, h.of_mapAssign _ _ _ hsome⟩

theorem PlaySoundEffectsVolumeTestSoundSlots_total (bufferLength sampleRate : Nat)
    (st : AudioEngineSlots) (hp : SfxPresent st.engine) (h : NoNullSlots st) :
    ∃ st', PlaySoundEffectsVolumeTestSoundSlots bufferLength sampleRate st = .ok st' ∧
      NoNullSlots st' := by
  unfold PlaySoundEffectsVolumeTestSoundSlots
  simp only
  have hload := LoadSoundEffectSlots_frame "volume_test.wav" false bufferLength sampleRate st
  have hnn := LoadSoundEffectSlots_noNull "volume_test.wav" false bufferLength sampleRate st h
  split
  · exact ⟨_, rfl, hnn⟩
  · exact PlaySoundEffectSlots_total _ _ _ _ (hload.present hp) hnn

theorem PauseSoundEffectsSlots_total (st : AudioEngineSlots) (h : NoNullSlots st) :
    ∃ st', PauseSoundEffectsSlots st = .ok st' ∧ NoNullSlots st' := by
  unfold PauseSoundEffectsSlots
  split
  · exact ⟨st, rfl, h⟩
  · obtain ⟨cmds, hc⟩ := allSlotsCmds_total (fun key => stopCmdsSlots key 0)
      (fun key slot elements hall => stopCmdsSlots_total key 0 elements slot hall)
      st.m_soundEffectsMap h
    simp only [hc]
    exact ⟨_, rfl, h.noNull_of_sameMap rfl⟩

theorem ResumeSoundEffectsSlots_total (st : AudioEngineSlots) (h : NoNullSlots st) :
    ∃ st', ResumeSoundEffectsSlots st = .ok st' ∧ NoNullSlots st' := by
  unfold ResumeSoundEffectsSlots
  split
  · exact ⟨st, rfl, h⟩
  · obtain ⟨cmds, hc⟩ := allSlotsCmds_total resumeCmdsSlots
      (fun key slot elements hall => resumeCmdsSlots_total key elements slot hall)
      st.m_soundEffectsMap h
    simp only [hc]
    exact ⟨_, rfl, h.noNull_of_sameMap rfl⟩

theorem RestartFailedSoundEffectsSlots_total (st : AudioEngineSlots)
    (hp : SfxPresent st.engine) (h : NoNullSlots st) :
    ∃ st', RestartFailedSoundEffectsSlots st = .ok st' ∧ NoNullSlots st' := by
  by_cases hoff : st.engine.m_soundEffectsOff = true
  · exact ⟨st, by simp [RestartFailedSoundEffectsSlots, hoff], h⟩
  · have heng : st.engine.m_soundEffectsEngine = true := (hp (by simpa using hoff)).1
    obtain ⟨r, hr, hsome⟩ := restartEffectsSlots_total st.m_soundEffectsMap st.engine.log h
    obtain ⟨map, log⟩ := r
    unfold RestartFailedSoundEffectsSlots
    rw [if_neg hoff, heng]
    simp only [hr]
    exact ⟨_, rfl, hsome⟩

theorem voiceCallbackSlots_noNull (f : SourceVoice → SourceVoice) (filename : String)
    (slot : Nat) (st : AudioEngineSlots) (h : NoNullSlots st) :
    NoNullSlots (voiceCallbackSlots f filename slot st) := by
  unfold voiceCallbackSlots
  cases hfind : mapFind st.m_soundEffectsMap filename with
  | none => exact h
  | some soundEffect =>
    exact h.of_mapAssign _ _ _ (modifySlot_some f _ slot (h.of_mapFind hfind))

theorem UpdateSlots_total (env : UpdateEnv) (st : AudioEngineSlots)
    (hp : BackendPresent st.engine) (h : NoNullSlots st) :
    ∃ st' r, UpdateSlots env st = .ok (st', r) ∧ NoNullSlots st' := by
  have h1 : ∃ st1 r1, Update_soundEffectsEngineErrorSlots env.sfxInit st UpdateErrorCodes.None =
      .ok (st1, r1) ∧ NoNullSlots st1 := by
    unfold Update_soundEffectsEngineErrorSlots
    split
    · simp only
      obtain ⟨t, ht, -, -, hempty, -⟩ := InitializeSoundEffectsEngineSlots_frame env.sfxInit
        { st with engine := { st.engine with m_soundEffectsEngineCallbacks_m_error := S_OK } }
      obtain ⟨t2, ht2, hnn2⟩ := ResumeSoundEffectsSlots_total t (NoNullSlots.of_empty hempty)
      rw [ht]
      simp only [ht2]
      exact ⟨_, _, rfl, hnn2⟩
    · exact ⟨_, _, rfl, h⟩
  obtain ⟨st1, r1, hs1, hnn1⟩ := h1
  have hf1 := Update_soundEffectsEngineErrorSlots_frame _ _ _ _ _ hs1
  obtain ⟨st2, hs2, hnn2⟩ := RestartFailedSoundEffectsSlots_total st1 (hf1.present hp.2) hnn1
  have hf2 := RestartFailedSoundEffectsSlots_frame _ _ hs2
  have hm : MusicPresent st2.engine := hp.1.present_of_sameMusic (hf1.music.trans hf2.music)
  obtain ⟨result, hres⟩ := Update_music_total env st2.engine r1 hm
  obtain ⟨engine, r⟩ := result
  unfold UpdateSlots
  simp only [hs1, hs2, hres]
  exact ⟨_, _, rfl, hnn2.noNull_of_sameMap rfl⟩

/-- Every transition other than `ClearUnusedSourceVoices` leaves the vectors without null
slots. -/
theorem step_noNullSlots (op : Op) (st st' : AudioEngineSlots)
    (hop : op.clearsUnusedSourceVoices = false) (hnn : NoNullSlots st)
    (hp : BackendPresent st.engine) (h : step op st = .ok st') : NoNullSlots st' := by
  cases op with
  | InitializeSoundEffectsEngine outcome =>
    obtain ⟨t, ht, -, -, hempty, -⟩ := InitializeSoundEffectsEngineSlots_frame outcome st
    simp only [step, ht, Except.ok.injEq] at h
    subst h; exact NoNullSlots.of_empty hempty
  | ShutdownSoundEffectsEngine =>
    cases h
    exact NoNullSlots.of_empty (ShutdownSoundEffectsEngineSlots_frame st).2.2.2.2.2.2
  | Update env =>
    obtain ⟨r, hr⟩ := Except.map_fst_ok _ _ h
    obtain ⟨t, r', ht, hnn'⟩ := UpdateSlots_total env st hp hnn
    rw [ht] at hr
    cases hr
    exact hnn'
  | PlaySoundEffectsVolumeTestSound bufferLength sampleRate =>
    obtain ⟨t, ht, hnn'⟩ := PlaySoundEffectsVolumeTestSoundSlots_total bufferLength sampleRate
      st hp.2 hnn
    simp only [step, ht, Except.ok.injEq] at h
    subst h; exact hnn'
  | LoadSoundEffect filename forceReload bufferLength sampleRate =>
    cases h; exact LoadSoundEffectSlots_noNull _ _ _ _ st hnn
  | UnloadSoundEffect filename =>
    obtain ⟨t, ht, hnn'⟩ := UnloadSoundEffectSlots_total filename st hnn
    simp only [step, ht, Except.ok.injEq] at h
    subst h; exact hnn'
  | PlaySoundEffect filename loopCount maxInstances =>
    obtain ⟨t, ht, hnn'⟩ := PlaySoundEffectSlots_total filename loopCount maxInstances st hp.2 hnn
    simp only [step, ht, Except.ok.injEq] at h
    subst h; exact hnn'
  | StopSoundEffect filename playTails =>
    obtain ⟨t, ht, hnn'⟩ := StopSoundEffectSlots_total filename playTails st hnn
    simp only [step, ht, Except.ok.injEq] at h
    subst h; exact hnn'
  | ClearUnusedSourceVoices filename => cases hop
  | SetSoundEffectsOnOff turnOff outcome =>
    simp only [step, SetSoundEffectsOnOffSlots] at h
    cases turnOff with
    | true =>
      simp only [if_true, Except.map, Except.ok.injEq] at h
      subst h
      exact NoNullSlots.of_empty (ShutdownSoundEffectsEngineSlots_frame st).2.2.2.2.2.2
    | false =>
      obtain ⟨t, ht, -, -, hempty, -⟩ := InitializeSoundEffectsEngineSlots_frame outcome st
      simp only [Bool.false_eq_true, if_false, ht, Except.map, Except.ok.injEq] at h
      subst h; exact NoNullSlots.of_empty hempty
  | PauseSoundEffects =>
    obtain ⟨t, ht, hnn'⟩ := PauseSoundEffectsSlots_total st hnn
    simp only [step, ht, Except.ok.injEq] at h
    subst h; exact hnn'
  | ResumeSoundEffects =>
    obtain ⟨t, ht, hnn'⟩ := ResumeSoundEffectsSlots_total st hnn
    simp only [step, ht, Except.ok.injEq] at h
    subst h; exact hnn'
  | RestartFailedSoundEffects =>
    obtain ⟨t, ht, hnn'⟩ := RestartFailedSoundEffectsSlots_total st hp.2 hnn
    simp only [step, ht, Except.ok.injEq] at h
    subst h; exact hnn'
  | OnStreamEnd filename slot => cases h; exact voiceCallbackSlots_noNull _ _ _ st hnn
  | OnLoopEnd filename slot => cases h; exact voiceCallbackSlots_noNull _ _ _ st hnn
  | OnVoiceError filename slot Error => cases h; exact voiceCallbackSlots_noNull _ _ _ st hnn
  | GetNoMediaFoundation => cases h; exact hnn
  | GetMusicOff => cases h; exact hnn
  | GetSoundEffectsOff => cases h; exact hnn
  | GetMusicVolume => cases h; exact hnn
  | GetSoundEffectsVolume => cases h; exact hnn
  | _ =>
    simp only [step] at h
    obtain ⟨engine, -, rfl⟩ := AudioEngineSlots.call_ok h
    exact hnn.noNull_of_sameMap rfl

/-- With the backends in place and no null slot in any vector, every transition returns. -/
theorem step_total (op : Op) (st : AudioEngineSlots) (hp : BackendPresent st.engine)
    (hnn : NoNullSlots st) (hop : op.clearsUnusedSourceVoices = false) :
    ∃ st', step op st = .ok st' := by
  cases hres : step op st with
  | ok st' => exact ⟨st', rfl⟩
  | error e =>
    exfalso
    have he := step_fault op st hp e hres
    subst he
    cases op with
    | Update env =>
      obtain ⟨t, r, ht, -⟩ := UpdateSlots_total env st hp hnn
      simp [step, ht, Except.map] at hres
    | PlaySoundEffectsVolumeTestSound bufferLength sampleRate =>
      obtain ⟨t, ht, -⟩ := PlaySoundEffectsVolumeTestSoundSlots_total bufferLength sampleRate
        st hp.2 hnn
      simp [step, ht] at hres
    | UnloadSoundEffect filename =>
      obtain ⟨t, ht, -⟩ := UnloadSoundEffectSlots_total filename st hnn
      simp [step, ht] at hres
    | PlaySoundEffect filename loopCount maxInstances =>
      obtain ⟨t, ht, -⟩ := PlaySoundEffectSlots_total filename loopCount maxInstances st hp.2 hnn
      simp [step, ht] at hres
    | StopSoundEffect filename playTails =>
      obtain ⟨t, ht, -⟩ := StopSoundEffectSlots_total filename playTails st hnn
      simp [step, ht] at hres
    | ClearUnusedSourceVoices filename => cases hop
    | PauseSoundEffects =>
      obtain ⟨t, ht, -⟩ := PauseSoundEffectsSlots_total st hnn
      simp [step, ht] at hres
    | ResumeSoundEffects =>
      obtain ⟨t, ht, -⟩ := ResumeSoundEffectsSlots_total st hnn
      simp [step, ht] at hres
    | RestartFailedSoundEffects =>
      obtain ⟨t, ht, -⟩ := RestartFailedSoundEffectsSlots_total st hp.2 hnn
      simp [step, ht] at hres
    | InitializeSoundEffectsEngine outcome =>
      obtain ⟨t, ht, -⟩ := InitializeSoundEffectsEngineSlots_frame outcome st
      simp [step, ht] at hres
    | SetSoundEffectsOnOff turnOff outcome =>
      obtain ⟨t, off, ht, -⟩ := SetSoundEffectsOnOffSlots_frame turnOff outcome st
      simp [step, ht, Except.map] at hres
    | InitializeMusicEngine mfStartupOk outcome =>
      obtain ⟨t, ht, -⟩ := InitializeMusicEngine_state mfStartupOk outcome st.engine
      simp [step, AudioEngineSlots.call, ht] at hres
    | MoveToNextMusicInQueue isPaused =>
      obtain ⟨t, ht⟩ := MoveToNextMusicInQueue_total isPaused st.engine hp.1
      simp [step, AudioEngineSlots.call, ht] at hres
    | PlayMusic isPaused =>
      obtain ⟨t, ht⟩ := PlayMusic_total isPaused st.engine hp.1
      simp [step, AudioEngineSlots.call, ht] at hres
    | PlayMusicVolumeTestSound installedLocation =>
      obtain ⟨t, ht⟩ := PlayMusicVolumeTestSound_total installedLocation st.engine hp.1
      simp [step, AudioEngineSlots.call, ht] at hres
    | SetMusicOnOff turnOff mfStartupOk outcome isPaused =>
      obtain ⟨t, off, ht, -⟩ :=
        SetMusicOnOff_state turnOff mfStartupOk outcome isPaused st.engine
      simp [step, AudioEngineSlots.call, ht, Except.map] at hres
    | SetMusicVolume volume =>
      obtain ⟨t, ht⟩ := SetMusicVolume_total volume st.engine hp.1
      simp [step, AudioEngineSlots.call, ht] at hres
    | SetSoundEffectsVolume volume =>
      obtain ⟨t, ht⟩ := SetSoundEffectsVolume_total volume st.engine hp.2
      simp [step, AudioEngineSlots.call, ht] at hres
    | PauseMusic currentTime =>
      obtain ⟨t, ht⟩ := PauseMusic_total currentTime st.engine hp.1
      simp [step, AudioEngineSlots.call, ht, Except.map] at hres
    | ResumeMusic isPaused =>
      obtain ⟨t, ht⟩ :=
        ResumeMusicAtTime_total isPaused st.engine.m_musicPosition st.engine hp.1
      simp [step, AudioEngineSlots.call, ResumeMusic, ht] at hres
    | ResumeMusicAtTime isPaused seconds =>
      obtain ⟨t, ht⟩ := ResumeMusicAtTime_total isPaused seconds st.engine hp.1
      simp [step, AudioEngineSlots.call, ht] at hres
    | GetMusicCurrentTime currentTime =>
      obtain ⟨t, ht⟩ := GetMusicCurrentTime_total currentTime st.engine hp.1
      simp [step, AudioEngineSlots.call, ht, Except.map] at hres
    | _ => simp [step, AudioEngineSlots.call] at hres

theorem runOps_total :
    ∀ (ops : List Op) (st : AudioEngineSlots), BackendPresent st.engine → NoNullSlots st →
      (∀ op ∈ ops, op.clearsUnusedSourceVoices = false) →
      ∃ st', runOps ops st = .ok st' ∧ BackendPresent st'.engine ∧ NoNullSlots st' := by
  intro ops
  induction ops with
  | nil => intro st hp hnn _; exact ⟨st, rfl, hp, hnn⟩
  | cons op rest ih =>
    intro st hp hnn hops
    have hop := hops op (List.mem_cons_self _ _)
    obtain ⟨st1, hs1⟩ := step_total op st hp hnn hop
    have hpres := step_preserved op st st1 hs1
    obtain ⟨st', hs', hp', hnn'⟩ := ih st1 ⟨hpres.music hp.1, hpres.sfx hp.2⟩
      (step_noNullSlots op st st1 hop hnn hp hs1)
      (fun o ho => hops o (List.mem_cons_of_mem _ ho))
    exact ⟨st', by simp only [runOps, hs1, hs'], hp', hnn'⟩

/-! ## Starting and skipping a track -/

/-- C21 (what `PlayMusic` leaves).  Music is on and available, the media engine and its
handler exist.  On an empty queue `PlayMusic()` returns the state as it was.  On a front entry
that names a file it issues `SetSource` of that file and `Play`, clears the finished flag of
the handler and sets playing, not paused.  On a front entry with an empty name it asks the
media engine whether it is paused and pauses it if not, issues no `SetSource` and no `Play`,
sets the finished flag and sets playing, not paused.  In every case the call returns and the
queue is what it was. -/
theorem PlayMusic_postcondition (s : AudioEngine) (n : MediaEngineNotify) (isPaused : Bool)
    (hoff : s.m_musicOff = false) (hdis : s.m_musicDisabledNoMediaFoundation = false)
    (heng : s.m_musicEngine = true) (hn : s.m_mediaEngineNotify = some n) :
    (s.m_musicQueue = [] → PlayMusic isPaused s = .ok s) ∧
    (∀ front rest, s.m_musicQueue = front :: rest → front.Filename.isEmpty = false →
      PlayMusic isPaused s = .ok { s with
        m_mediaEngineNotify := some { n with m_previousMusicFinished := false }
        musicLog := s.musicLog ++ [MusicCmd.SetSource front.Filename, MusicCmd.Play]
        m_musicIsPlaying := true
        m_musicIsPaused := false }) ∧
    (∀ front rest, s.m_musicQueue = front :: rest → front.Filename.isEmpty = true →
      PlayMusic isPaused s = .ok { s with
        m_mediaEngineNotify := some { n with m_previousMusicFinished := true }
        musicLog := s.musicLog ++
          (MusicCmd.IsPaused :: if isPaused = false then [MusicCmd.Pause] else [])
        m_musicIsPlaying := true
        m_musicIsPaused := false }) ∧
    ∃ s' : AudioEngine, PlayMusic isPaused s = .ok s' ∧ s'.m_musicQueue = s.m_musicQueue := by
  have hempty : s.m_musicQueue = [] → PlayMusic isPaused s = .ok s := by
    intro hq
    simp [PlayMusic, hoff, hdis, hq]
  refine ⟨hempty, fun front rest hq hname =>
      PlayMusic_track isPaused s n front rest hoff hdis heng hn hq hname,
    fun front rest hq hname =>
      PlayMusic_silence isPaused s n front rest hoff hdis heng hn hq hname, ?_⟩
  cases hq : s.m_musicQueue with
  | nil => exact ⟨s, hempty hq, hq⟩
  | cons front rest =>
    cases hname : front.Filename.isEmpty with
    | false =>
      exact ⟨_, PlayMusic_track isPaused s n front rest hoff hdis heng hn hq hname, hq⟩
    | true =>
      exact ⟨_, PlayMusic_silence isPaused s n front rest hoff hdis heng hn hq hname, hq⟩

theorem PlayMusic_postcondition_witness :
    (demoMusicEngineAB.m_musicQueue = [] → PlayMusic false demoMusicEngineAB = .ok demoMusicEngineAB) ∧
    (∀ front rest, demoMusicEngineAB.m_musicQueue = front :: rest →
      front.Filename.isEmpty = false →
      PlayMusic false demoMusicEngineAB = .ok { demoMusicEngineAB with
        m_mediaEngineNotify :=
          some { MediaEngineNotify.InitializeVariables with m_previousMusicFinished := false }
        musicLog := demoMusicEngineAB.musicLog ++
          [MusicCmd.SetSource front.Filename, MusicCmd.Play]
        m_musicIsPlaying := true
        m_musicIsPaused := false }) ∧
    (∀ front rest, demoMusicEngineAB.m_musicQueue = front :: rest →
      front.Filename.isEmpty = true →
      PlayMusic false demoMusicEngineAB = .ok { demoMusicEngineAB with
        m_mediaEngineNotify :=
          some { MediaEngineNotify.InitializeVariables with m_previousMusicFinished := true }
        musicLog := demoMusicEngineAB.musicLog ++
          (MusicCmd.IsPaused :: if false = false then [MusicCmd.Pause] else [])
        m_musicIsPlaying := true
        m_musicIsPaused := false }) ∧
    ∃ s' : AudioEngine, PlayMusic false demoMusicEngineAB = .ok s' ∧
      s'.m_musicQueue = demoMusicEngineAB.m_musicQueue :=
  PlayMusic_postcondition demoMusicEngineAB MediaEngineNotify.InitializeVariables false
    rfl rfl rfl rfl

/-- C22 (manual skip).  On a queue `front :: rest`, whatever the loop count of `front`,
`MoveToNextMusicInQueue()` returns and leaves the queue `rest`.  With music off or unavailable
it does nothing else.  With music on and available it then pauses the media engine if `rest`
is empty, and otherwise does what `PlayMusic()` does on the state with the queue `rest`.  The
media engine and its handler are taken to exist when music is on and available. -/
theorem MoveToNextMusicInQueue_skips_front (s : AudioEngine) (n : MediaEngineNotify)
    (front : MusicQueueEntry) (rest : List MusicQueueEntry) (isPaused : Bool)
    (hq : s.m_musicQueue = front :: rest)
    (heng : s.m_musicEngine = true) (hn : s.m_mediaEngineNotify = some n) :
    (∃ s' : AudioEngine, MoveToNextMusicInQueue isPaused s = .ok s' ∧ s'.m_musicQueue = rest) ∧
    ((s.m_musicOff = true ∨ s.m_musicDisabledNoMediaFoundation = true) →
      MoveToNextMusicInQueue isPaused s = .ok { s with m_musicQueue := rest }) ∧
    (s.m_musicOff = false → s.m_musicDisabledNoMediaFoundation = false → rest = [] →
      MoveToNextMusicInQueue isPaused s =
        .ok { s with m_musicQueue := [], musicLog := s.musicLog ++ [MusicCmd.Pause] }) ∧
    (s.m_musicOff = false → s.m_musicDisabledNoMediaFoundation = false → rest ≠ [] →
      MoveToNextMusicInQueue isPaused s = PlayMusic isPaused { s with m_musicQueue := rest }) := by
  have hoffcase : (s.m_musicOff = true ∨ s.m_musicDisabledNoMediaFoundation = true) →
      MoveToNextMusicInQueue isPaused s = .ok { s with m_musicQueue := rest } := by
    intro h
    have h' : (s.m_musicDisabledNoMediaFoundation || s.m_musicOff) = true := by
      rcases h with h | h <;> simp [h]
    simp [MoveToNextMusicInQueue, hq, h']
  have hemptycase : s.m_musicOff = false → s.m_musicDisabledNoMediaFoundation = false →
      rest = [] → MoveToNextMusicInQueue isPaused s =
        .ok { s with m_musicQueue := [], musicLog := s.musicLog ++ [MusicCmd.Pause] } := by
    intro hoff hdis hrest
    subst hrest
    simp [MoveToNextMusicInQueue, hq, hoff, hdis, heng]
  have hplaycase : s.m_musicOff = false → s.m_musicDisabledNoMediaFoundation = false →
      rest ≠ [] → MoveToNextMusicInQueue isPaused s =
        PlayMusic isPaused { s with m_musicQueue := rest } := by
    intro hoff hdis hrest
    cases rest with
    | nil => exact absurd rfl hrest
    | cons e rest' => simp [MoveToNextMusicInQueue, hq, hoff, hdis]
  refine ⟨?_, hoffcase, hemptycase, hplaycase⟩
  by_cases hoff : s.m_musicOff = true
  · exact ⟨_, hoffcase (Or.inl hoff), rfl⟩
  · by_cases hdis : s.m_musicDisabledNoMediaFoundation = true
    · exact ⟨_, hoffcase (Or.inr hdis), rfl⟩
    · have hoff' : s.m_musicOff = false := by simpa using hoff
      have hdis' : s.m_musicDisabledNoMediaFoundation = false := by simpa using hdis
      by_cases hrest : rest = []
      · refine ⟨_, hemptycase hoff' hdis' hrest, ?_⟩
        rw [hrest]
      · rw [hplaycase hoff' hdis' hrest]
        have hp : MusicPresent { s with m_musicQueue := rest } := by
          unfold MusicPresent
          simp [heng, hn]
        obtain ⟨s', hplay⟩ := PlayMusic_total isPaused _ hp
        exact ⟨s', hplay, (PlayMusic_frame isPaused _ s' hplay).2.1⟩

theorem MoveToNextMusicInQueue_skips_front_witness :
    (∃ s' : AudioEngine, MoveToNextMusicInQueue false demoMusicEngineOnlyInfiniteB = .ok s' ∧
      s'.m_musicQueue = []) ∧
    ((demoMusicEngineOnlyInfiniteB.m_musicOff = true ∨
        demoMusicEngineOnlyInfiniteB.m_musicDisabledNoMediaFoundation = true) →
      MoveToNextMusicInQueue false demoMusicEngineOnlyInfiniteB =
        .ok { demoMusicEngineOnlyInfiniteB with m_musicQueue := [] }) ∧
    (demoMusicEngineOnlyInfiniteB.m_musicOff = false →
      demoMusicEngineOnlyInfiniteB.m_musicDisabledNoMediaFoundation = false → ([] : List MusicQueueEntry) = [] →
      MoveToNextMusicInQueue false demoMusicEngineOnlyInfiniteB =
        .ok { demoMusicEngineOnlyInfiniteB with
              m_musicQueue := []
              musicLog := demoMusicEngineOnlyInfiniteB.musicLog ++ [MusicCmd.Pause] }) ∧
    (demoMusicEngineOnlyInfiniteB.m_musicOff = false →
      demoMusicEngineOnlyInfiniteB.m_musicDisabledNoMediaFoundation = false →
      ([] : List MusicQueueEntry) ≠ [] →
      MoveToNextMusicInQueue false demoMusicEngineOnlyInfiniteB =
        PlayMusic false { demoMusicEngineOnlyInfiniteB with m_musicQueue := [] }) :=
  MoveToNextMusicInQueue_skips_front demoMusicEngineOnlyInfiniteB
    MediaEngineNotify.InitializeVariables
    { Filename := "C:\\game\\b.wav", LoopCount := 4294967295, AutoPlayAfterPreviousMusic := true }
    [] false rfl rfl rfl

/-! ## Invariants of the executions -/

theorem PlayMusic_sets_playing (isPaused : Bool) (s s' : AudioEngine)
    (h : PlayMusic isPaused s = .ok s') (hoff : s.m_musicOff = false)
    (hdis : s.m_musicDisabledNoMediaFoundation = false) (hq : s.m_musicQueue ≠ []) :
    s'.m_musicIsPlaying = true := by
  obtain ⟨-, -, -, -, hor⟩ := PlayMusic_frame isPaused s s' h
  rcases hor with rfl | ⟨hplay, -⟩
  · unfold PlayMusic at h
    simp only [hoff, hdis, Bool.or_self, Bool.false_eq_true, if_false] at h
    cases hqueue : s'.m_musicQueue with
    | nil => exact absurd hqueue hq
    | cons front rest =>
      simp only [hqueue] at h
      split at h
      · simp only [Except.ok.injEq] at h
        have := congrArg AudioEngine.m_musicIsPlaying h
        simpa using this.symm
      · cases h
  · exact hplay

/-- C27 (vectors of voices while sound effects are off).  In every state that an execution
reaches from the constructed engine (every public member function, `ClearUnusedSourceVoices`
among them, ticks and native callbacks, in any order and with any answers of the native side)
in which sound effects are off, every entry of the sound effects map has an empty vector of
voices: the vector of every loaded file is empty, so no slot holds a voice that is started or
flagged with an error, and no slot is null. -/
theorem soundEffectsOff_pools_empty (ops : List Op) (st : AudioEngineSlots)
    (hrun : runOps ops AudioEngineSlots.new = .ok st)
    (hoff : st.engine.m_soundEffectsOff = true) :
    (∀ entry ∈ st.m_soundEffectsMap, entry.2.m_sourceVoices = []) ∧
    (∀ filename soundEffect, mapFind st.m_soundEffectsMap filename = some soundEffect →
      soundEffect.m_sourceVoices = []) ∧
    (∀ entry ∈ st.m_soundEffectsMap, ∀ voice, some voice ∈ entry.2.m_sourceVoices →
      voice.m_soundEffectStarted = false ∧ voice.m_criticalError = false) ∧
    NoNullSlots st := by
  have hinit : SlotsEmptyWhenOff AudioEngineSlots.new := fun _ _ h => by cases h
  have hslots := (runOps_preserved ops _ _ hrun).slots hinit hoff
  refine ⟨hslots, ?_, ?_, NoNullSlots.of_empty hslots⟩
  · intro filename soundEffect hfind
    obtain ⟨k, hk⟩ := mem_of_mapFind _ _ _ hfind
    exact hslots _ hk
  · intro entry hmem voice hvoice
    rw [hslots entry hmem] at hvoice
    cases hvoice

theorem soundEffectsOff_pools_empty_witness :
    runOps demoOpsSoundEffectsOff AudioEngineSlots.new =
      .ok (stateAfter demoOpsSoundEffectsOff AudioEngineSlots.new) ∧
    (stateAfter demoOpsSoundEffectsOff AudioEngineSlots.new).engine.m_soundEffectsOff = true ∧
    (stateAfter demoOpsSoundEffectsOff AudioEngineSlots.new).m_soundEffectsMap.map Prod.fst =
      ["laser.wav"] ∧
    ((∀ entry ∈ (stateAfter demoOpsSoundEffectsOff AudioEngineSlots.new).m_soundEffectsMap,
      entry.2.m_sourceVoices = []) ∧
    (∀ filename soundEffect,
      mapFind (stateAfter demoOpsSoundEffectsOff AudioEngineSlots.new).m_soundEffectsMap
        filename = some soundEffect → soundEffect.m_sourceVoices = []) ∧
    (∀ entry ∈ (stateAfter demoOpsSoundEffectsOff AudioEngineSlots.new).m_soundEffectsMap,
      ∀ voice, some voice ∈ entry.2.m_sourceVoices →
        voice.m_soundEffectStarted = false ∧ voice.m_criticalError = false) ∧
    NoNullSlots (stateAfter demoOpsSoundEffectsOff AudioEngineSlots.new)) :=
  ⟨rfl, rfl, rfl,
    soundEffectsOff_pools_empty demoOpsSoundEffectsOff
      (stateAfter demoOpsSoundEffectsOff AudioEngineSlots.new) rfl rfl⟩

/-- C29 (the playing flag only rises).  `m_musicIsPlaying` is false in the constructed engine;
a `PlayMusic()` that returns with music on and available and the queue not empty leaves it
true, and returns whenever the media engine and its handler are in place; and once it is true,
it is true in every state that an execution reaches (every public member function, ticks and
native callbacks, in any order and with any answers of the native side).  An execution from a
state with the backends in place and no null slot returns if it has no
`ClearUnusedSourceVoices`. -/
theorem musicIsPlaying_never_reset (ops : List Op) (st : AudioEngineSlots)
    (hplaying : st.engine.m_musicIsPlaying = true) :
    (∀ st', runOps ops st = .ok st' → st'.engine.m_musicIsPlaying = true) ∧
    (BackendPresent st.engine → NoNullSlots st →
      (∀ op ∈ ops, op.clearsUnusedSourceVoices = false) →
      ∃ st', runOps ops st = .ok st' ∧ st'.engine.m_musicIsPlaying = true) ∧
    AudioEngineSlots.new.engine.m_musicIsPlaying = false ∧
    (∀ (isPaused : Bool) (t t' : AudioEngineSlots), step (Op.PlayMusic isPaused) t = .ok t' →
      t.engine.m_musicOff = false → t.engine.m_musicDisabledNoMediaFoundation = false →
      t.engine.m_musicQueue ≠ [] → t'.engine.m_musicIsPlaying = true) ∧
    (∀ (isPaused : Bool) (t : AudioEngineSlots), MusicPresent t.engine →
      ∃ t', step (Op.PlayMusic isPaused) t = .ok t') := by
  refine ⟨fun st' hrun => (runOps_preserved ops st st' hrun).playing hplaying, ?_, rfl, ?_, ?_⟩
  · intro hp hnn hops
    obtain ⟨st', hrun, -⟩ := runOps_total ops st hp hnn hops
    exact ⟨st', hrun, (runOps_preserved ops st st' hrun).playing hplaying⟩
  · intro isPaused t t' h hoff hdis hq
    simp only [step] at h
    obtain ⟨engine, he, rfl⟩ := AudioEngineSlots.call_ok h
    exact PlayMusic_sets_playing isPaused t.engine engine he hoff hdis hq
  · intro isPaused t hp
    obtain ⟨engine, he⟩ := PlayMusic_total isPaused t.engine hp
    exact ⟨_, AudioEngineSlots.call_eq he⟩

theorem musicIsPlaying_never_reset_witness :
    (AudioEngineSlots.ofAudioEngine demoMusicEnginePlayingA).engine.m_musicIsPlaying = true ∧
    runOps demoOpsAfterPlaying (AudioEngineSlots.ofAudioEngine demoMusicEnginePlayingA) =
      .ok (stateAfter demoOpsAfterPlaying
        (AudioEngineSlots.ofAudioEngine demoMusicEnginePlayingA)) ∧
    (stateAfter demoOpsAfterPlaying
      (AudioEngineSlots.ofAudioEngine demoMusicEnginePlayingA)).engine.m_musicQueue = [] ∧
    (stateAfter demoOpsAfterPlaying
      (AudioEngineSlots.ofAudioEngine demoMusicEnginePlayingA)).engine.m_musicOff = true ∧
    (stateAfter demoOpsAfterPlaying
      (AudioEngineSlots.ofAudioEngine demoMusicEnginePlayingA)).engine.m_musicIsPlaying = true :=
  ⟨rfl, rfl, rfl, rfl,
    (musicIsPlaying_never_reset demoOpsAfterPlaying
      (AudioEngineSlots.ofAudioEngine demoMusicEnginePlayingA) rfl).1 _ rfl⟩

/-! ## The value of a tick and the errors of the media engine -/

/-- C24 (value of `Update`).  With the backends in place, `Update()` returns, and its value
has the bit `SoundEffectsEngine` exactly if the critical-error code of the mixing backend was
not `S_OK` on entry, the bit `MusicEngine` exactly if the handler of the media engine exists
and had recorded an error on entry, and is `None` exactly if neither is the case. -/
theorem Update_return_value (env : UpdateEnv) (s : AudioEngine) (hp : BackendPresent s) :
    ∃ (s' : AudioEngine) (r : Nat), Update env s = .ok (s', r) ∧
      (r &&& UpdateErrorCodes.SoundEffectsEngine ≠ 0 ↔
        s.m_soundEffectsEngineCallbacks_m_error ≠ S_OK) ∧
      (r &&& UpdateErrorCodes.MusicEngine ≠ 0 ↔
        ∃ n, s.m_mediaEngineNotify = some n ∧ n.m_errorOccurred = true) ∧
      (r = UpdateErrorCodes.None ↔
        (s.m_soundEffectsEngineCallbacks_m_error = S_OK ∧
          ¬ ∃ n, s.m_mediaEngineNotify = some n ∧ n.m_errorOccurred = true)) := by
  obtain ⟨s', hs'⟩ := Update_total env s hp
  refine ⟨s', _, hs', ?_⟩
  by_cases herr : s.m_soundEffectsEngineCallbacks_m_error = S_OK
  · cases hn : s.m_mediaEngineNotify with
    | none =>
      simp [herr, UpdateErrorCodes.None, UpdateErrorCodes.SoundEffectsEngine,
        UpdateErrorCodes.MusicEngine]
    | some n =>
      cases hflag : n.m_errorOccurred <;>
        simp [herr, hflag, UpdateErrorCodes.None, UpdateErrorCodes.SoundEffectsEngine,
          UpdateErrorCodes.MusicEngine]
  · cases hn : s.m_mediaEngineNotify with
    | none =>
      simp [herr, UpdateErrorCodes.None, UpdateErrorCodes.SoundEffectsEngine,
        UpdateErrorCodes.MusicEngine]
    | some n =>
      cases hflag : n.m_errorOccurred <;>
        simp [herr, hflag, UpdateErrorCodes.None, UpdateErrorCodes.SoundEffectsEngine,
          UpdateErrorCodes.MusicEngine]

theorem demoMusicEngineWithErrors_present (errorType : MF_MEDIA_ENGINE_ERR) (paused : Bool) :
    BackendPresent (demoMusicEngineWithErrors errorType paused) :=
  ⟨⟨fun _ _ => ⟨rfl, rfl⟩, fun _ => rfl⟩, fun _ => ⟨rfl, rfl⟩⟩

theorem Update_return_value_witness :
    ∃ (s' : AudioEngine) (r : Nat),
      Update demoEnv (demoMusicEngineWithErrors .NETWORK false) = .ok (s', r) ∧
      (r &&& UpdateErrorCodes.SoundEffectsEngine ≠ 0 ↔
        (demoMusicEngineWithErrors .NETWORK false).m_soundEffectsEngineCallbacks_m_error ≠
          S_OK) ∧
      (r &&& UpdateErrorCodes.MusicEngine ≠ 0 ↔
        ∃ n, (demoMusicEngineWithErrors .NETWORK false).m_mediaEngineNotify = some n ∧
          n.m_errorOccurred = true) ∧
      (r = UpdateErrorCodes.None ↔
        ((demoMusicEngineWithErrors .NETWORK false).m_soundEffectsEngineCallbacks_m_error =
            S_OK ∧
          ¬ ∃ n, (demoMusicEngineWithErrors .NETWORK false).m_mediaEngineNotify = some n ∧
            n.m_errorOccurred = true)) :=
  Update_return_value demoEnv (demoMusicEngineWithErrors .NETWORK false)
    (demoMusicEngineWithErrors_present .NETWORK false)

/-- Source function `Update`, up to its error block: from a state with the backends in place
and a handler, the tick is the error block run on a state `t` that has the error record, the
playing and paused flags and the handles of the state on entry. -/
theorem Update_reaches_musicError (env : UpdateEnv) (s : AudioEngine) (n : MediaEngineNotify)
    (hp : BackendPresent s) (hn : s.m_mediaEngineNotify = some n) :
    ∃ (t : AudioEngine) (n1 : MediaEngineNotify) (r0 : Nat),
      Update env s = Update_musicError env t r0 ∧
      t.m_mediaEngineNotify = some n1 ∧ n1.errorRecord = n.errorRecord ∧
      t.m_musicIsPlaying = s.m_musicIsPlaying ∧ t.m_musicIsPaused = s.m_musicIsPaused ∧
      t.m_musicEngine = s.m_musicEngine ∧
      t.m_mediaFoundationStartupShutdown = s.m_mediaFoundationStartupShutdown ∧
      t.m_musicOff = s.m_musicOff ∧
      (s.m_musicIsPaused = true ∨ n.m_previousMusicFinished = false →
        t.m_musicQueue = s.m_musicQueue ∧ startCmds t.musicLog = startCmds s.musicLog) := by
  obtain ⟨s1, hs1, hf1, -⟩ := Update_soundEffects_state env.sfxInit s hp.2
  have hp1 : MusicPresent s1 := hp.1.present_of_sameMusic hf1.music
  have hn1 : s1.m_mediaEngineNotify = some n := by rw [hf1.music.notify, hn]
  obtain ⟨t, n1, hreach, hf, hnt, hrec, hplay, hpause, s2, hs2, hseek2⟩ :=
    Update_music_reaches_musicError env s1
      (if s.m_soundEffectsEngineCallbacks_m_error ≠ S_OK then
        UpdateErrorCodes.SoundEffectsEngine else UpdateErrorCodes.None) n hp1 hn1
  refine ⟨t, n1,
    (if s.m_soundEffectsEngineCallbacks_m_error ≠ S_OK then
      UpdateErrorCodes.SoundEffectsEngine else UpdateErrorCodes.None), ?_, hnt, hrec, hplay.trans hf1.music.playing,
    hpause.trans hf1.music.paused, hf.musicEngine.trans hf1.music.musicEngine,
    hf.mediaFoundation.trans hf1.music.mediaFoundation,
    hf.musicOff.trans hf1.music.musicOff, ?_⟩
  · simp only [Update, hs1]
    exact hreach
  · intro hquiet
    have hinert : Update_previousMusicFinished env.isPausedOnAdvance s1 = .ok s1 := by
      have hc : (n.m_previousMusicFinished && s1.m_musicIsPlaying && !s1.m_musicIsPaused) =
          false := by
        rcases hquiet with h | h
        · rw [hf1.music.paused, h]; simp
        · rw [h]; simp
      simp only [Update_previousMusicFinished, hn1, hc, Bool.false_eq_true, if_false]
    rw [hinert] at hs2
    cases hs2
    obtain ⟨t', cmds, n', hseek, hlog, hcmds, -, -, -, -, hqueue, -⟩ :=
      Update_readyToSeek_frame s1 n (hp1.2 (by rw [hn1]; rfl)) hn1
    rw [hseek2] at hseek
    cases hseek
    refine ⟨hqueue.trans hf1.music.queue, ?_⟩
    rw [hlog, startCmds_append, hcmds, List.append_nil, hf1.music.musicLog]

theorem InitializeMusicEngine_startCmds (mfStartupOk : Bool) (outcome : MusicInitOutcome)
    (s s' : AudioEngine) (h : InitializeMusicEngine mfStartupOk outcome s = .ok s') :
    startCmds s'.musicLog = startCmds s.musicLog := by
  obtain ⟨-, heng, hmf, cmds, hlog⟩ := ShutdownMusicEngine_log s
  have hcmds : startCmds (ShutdownMusicEngine s).musicLog = startCmds s.musicLog := by
    unfold ShutdownMusicEngine MediaFoundationStartupShutdown.Shutdown
    cases h1 : s.m_musicEngine <;>
      cases h2 : s.m_mediaFoundationStartupShutdown.m_wasStarted <;>
      simp [h1, h2, startCmds, List.filter_append, MusicCmd.isStart]
  unfold InitializeMusicEngine at h
  generalize ShutdownMusicEngine s = t at *
  rw [← hcmds]
  cases mfStartupOk <;> cases outcome <;>
    simp [MediaFoundationStartupShutdown.Startup, MediaFoundationStartupShutdown.Shutdown,
      musicInitCatch, SetMusicVolume, hmf, heng] at h <;>
    subst h <;>
    simp [startCmds, List.filter_append, MusicCmd.isStart]

theorem errorRecord_flag {n1 n : MediaEngineNotify} (h : n1.errorRecord = n.errorRecord) :
    n1.m_errorOccurred = n.m_errorOccurred ∧ n1.m_errorType = n.m_errorType := by
  simp only [MediaEngineNotify.errorRecord, Prod.mk.injEq] at h
  exact ⟨h.1, h.2.1⟩

theorem Update_previousMusicFinished_withErrorOccurred (isPaused flag : Bool) (s : AudioEngine) :
    Update_previousMusicFinished isPaused (withErrorOccurred flag s) =
      (Update_previousMusicFinished isPaused s).map (withErrorOccurred flag) := by
  cases hn : s.m_mediaEngineNotify with
  | none =>
    have h0 : withErrorOccurred flag s = s := by unfold withErrorOccurred; rw [hn]
    rw [h0]
    unfold Update_previousMusicFinished
    simp only [hn]; rfl
  | some n =>
    rw [withErrorOccurred_eq flag s n hn]
    unfold Update_previousMusicFinished PlayMusic
    simp only [hn]
    repeat' split
    all_goals first
      | rfl
      | (simp only [Except.map, withErrorOccurred, hn]; done)
      | (simp only [Except.map, withErrorOccurred, hn]; rfl)
      | (simp_all [Except.map, withErrorOccurred]; done)
      | (simp_all [Except.map, withErrorOccurred]; subst_vars; simp)

theorem Update_readyToSeek_withErrorOccurred (flag : Bool) (s : AudioEngine) :
    Update_readyToSeek (withErrorOccurred flag s) =
      (Update_readyToSeek s).map (withErrorOccurred flag) := by
  cases hn : s.m_mediaEngineNotify with
  | none =>
    have h0 : withErrorOccurred flag s = s := by unfold withErrorOccurred; rw [hn]
    rw [h0]
    unfold Update_readyToSeek
    simp only [hn]; rfl
  | some n =>
    rw [withErrorOccurred_eq flag s n hn]
    unfold Update_readyToSeek
    simp only [hn]
    repeat' split
    all_goals first
      | rfl
      | (simp only [Except.map, withErrorOccurred, hn]; done)
      | (simp only [Except.map, withErrorOccurred, hn]; rfl)
      | (simp_all [Except.map, withErrorOccurred]; done)
      | (simp_all [Except.map, withErrorOccurred]; subst_vars; simp)



theorem ShutdownSoundEffectsEngine_setNotify (s : AudioEngine) (H : Option MediaEngineNotify) :
    ShutdownSoundEffectsEngine { s with m_mediaEngineNotify := H } =
      { ShutdownSoundEffectsEngine s with m_mediaEngineNotify := H } := by
  unfold ShutdownSoundEffectsEngine
  simp only
  cases s.m_masteringVoice <;> cases s.m_soundEffectsEngine <;> rfl

theorem InitializeSoundEffectsEngine_setNotify (outcome : SfxInitOutcome) (s : AudioEngine)
    (H : Option MediaEngineNotify) :
    InitializeSoundEffectsEngine outcome { s with m_mediaEngineNotify := H } =
      (InitializeSoundEffectsEngine outcome s).map
        (fun t => { t with m_mediaEngineNotify := H }) := by
  unfold InitializeSoundEffectsEngine
  rw [ShutdownSoundEffectsEngine_setNotify]
  generalize ShutdownSoundEffectsEngine s = t
  cases outcome <;> simp [SetSoundEffectsVolume, Except.map]

theorem RestartFailedSoundEffects_setNotify (s : AudioEngine) (H : Option MediaEngineNotify) :
    RestartFailedSoundEffects { s with m_mediaEngineNotify := H } =
      (RestartFailedSoundEffects s).map (fun t => { t with m_mediaEngineNotify := H }) := by
  unfold RestartFailedSoundEffects
  simp only
  split
  · rfl
  · cases restartEffects s.m_soundEffectsEngine s.m_soundEffectsMap s.log with
    | error e => rfl
    | ok p => rfl

theorem Update_soundEffects_setNotify (outcome : SfxInitOutcome) (s : AudioEngine)
    (H : Option MediaEngineNotify) :
    Update_soundEffects outcome { s with m_mediaEngineNotify := H } =
      (Update_soundEffects outcome s).map
        (fun p => ({ p.1 with m_mediaEngineNotify := H }, p.2)) := by
  have hr : ∀ t : AudioEngine, ResumeSoundEffects { t with m_mediaEngineNotify := H } =
      { ResumeSoundEffects t with m_mediaEngineNotify := H } := by
    intro t
    unfold ResumeSoundEffects
    simp only
    split <;> rfl
  unfold Update_soundEffects Update_soundEffectsEngineError
  simp only
  by_cases herr : s.m_soundEffectsEngineCallbacks_m_error ≠ S_OK
  · rw [if_pos herr, if_pos herr]
    have h := InitializeSoundEffectsEngine_setNotify outcome
      { s with m_soundEffectsEngineCallbacks_m_error := S_OK } H
    simp only at h
    rw [h]
    cases InitializeSoundEffectsEngine outcome
        { s with m_soundEffectsEngineCallbacks_m_error := S_OK } with
    | error e => rfl
    | ok t =>
      simp only [Except.map]
      rw [hr, RestartFailedSoundEffects_setNotify]
      cases RestartFailedSoundEffects (ResumeSoundEffects t) with
      | error e => rfl
      | ok u => rfl
  · rw [if_neg herr, if_neg herr]
    simp only
    rw [RestartFailedSoundEffects_setNotify]
    cases RestartFailedSoundEffects s with
    | error e => rfl
    | ok u => rfl


theorem initializeCmds_append (a b : List MusicCmd) :
    initializeCmds (a ++ b) = initializeCmds a ++ initializeCmds b := by
  simp [initializeCmds]

theorem PlayMusic_initializeCmds (isPaused : Bool) (s s' : AudioEngine)
    (h : PlayMusic isPaused s = .ok s') :
    initializeCmds s'.musicLog = initializeCmds s.musicLog := by
  unfold PlayMusic at h
  repeat' split at h
  all_goals first
    | (cases h; done)
    | (cases h; rfl)
    | (cases h; simp [initializeCmds, MusicCmd.isInitialize]; done)
    | (cases h; split <;> simp [initializeCmds, MusicCmd.isInitialize])

theorem Update_previousMusicFinished_initializeCmds (isPaused : Bool) (s s' : AudioEngine)
    (h : Update_previousMusicFinished isPaused s = .ok s') :
    initializeCmds s'.musicLog = initializeCmds s.musicLog := by
  unfold Update_previousMusicFinished at h
  simp only at h
  repeat' split at h
  all_goals first
    | (cases h; done)
    | (cases h; rfl)
    | (have h2 := PlayMusic_initializeCmds _ _ _ h; exact h2)

theorem Update_readyToSeek_initializeCmds (s s' : AudioEngine)
    (h : Update_readyToSeek s = .ok s') :
    initializeCmds s'.musicLog = initializeCmds s.musicLog := by
  unfold Update_readyToSeek at h
  simp only at h
  repeat' split at h
  all_goals first
    | (cases h; done)
    | (cases h; rfl)
    | (cases h; simp [initializeCmds, MusicCmd.isInitialize])

theorem InitializeMusicEngine_log (mfStartupOk : Bool) (outcome : MusicInitOutcome)
    (s s' : AudioEngine) (h : InitializeMusicEngine mfStartupOk outcome s = .ok s') :
    ∃ cmds, s'.musicLog = s.musicLog ++ cmds ∧ MusicCmd.MFStartup ∈ cmds ∧
      startCmds cmds = [] := by
  unfold InitializeMusicEngine ShutdownMusicEngine at h
  cases heng : s.m_musicEngine <;>
    cases hmf : s.m_mediaFoundationStartupShutdown.m_wasStarted <;>
    cases mfStartupOk <;> cases outcome <;>
    simp [MediaFoundationStartupShutdown.Startup, MediaFoundationStartupShutdown.Shutdown,
      musicInitCatch, SetMusicVolume, heng, hmf] at h <;>
    subst h <;>
    exact ⟨_, by simp only [List.append_assoc]; rfl, by simp,
      by simp [startCmds, MusicCmd.isStart]⟩



/-- The tick up to its error block, and the same tick on the state whose handler has no error
recorded: the earlier blocks do not read the error flag, so the second tick ends in the state
that the first tick hands to its error block, with the flag cleared. -/
theorem Update_reaches_musicError_cleared (env : UpdateEnv) (s : AudioEngine)
    (n : MediaEngineNotify) (hp : BackendPresent s) (hn : s.m_mediaEngineNotify = some n) :
    ∃ (t : AudioEngine) (n1 : MediaEngineNotify) (r0 : Nat),
      Update env s = Update_musicError env t r0 ∧
      Update env (withErrorOccurred false s) = .ok (withErrorOccurred false t, r0) ∧
      r0 = (if s.m_soundEffectsEngineCallbacks_m_error ≠ S_OK then
        UpdateErrorCodes.SoundEffectsEngine else UpdateErrorCodes.None) ∧
      t.m_mediaEngineNotify = some n1 ∧ n1.errorRecord = n.errorRecord ∧
      t.m_musicIsPlaying = s.m_musicIsPlaying ∧ t.m_musicIsPaused = s.m_musicIsPaused ∧
      initializeCmds t.musicLog = initializeCmds s.musicLog ∧
      (s.m_musicIsPaused = true ∨ n.m_previousMusicFinished = false →
        t.m_musicQueue = s.m_musicQueue ∧ startCmds t.musicLog = startCmds s.musicLog) := by
  obtain ⟨s1, hs1, hf1, -⟩ := Update_soundEffects_state env.sfxInit s hp.2
  have hp1 : MusicPresent s1 := hp.1.present_of_sameMusic hf1.music
  have hn1 : s1.m_mediaEngineNotify = some n := by rw [hf1.music.notify, hn]
  obtain ⟨t, n1, hreach, hf, hnt, hrec, hplay, hpause, s2, hs2, hseek2⟩ :=
    Update_music_reaches_musicError env s1
      (if s.m_soundEffectsEngineCallbacks_m_error ≠ S_OK then
        UpdateErrorCodes.SoundEffectsEngine else UpdateErrorCodes.None) n hp1 hn1
  refine ⟨t, n1, _, ?_, ?_, rfl, hnt, hrec, hplay.trans hf1.music.playing,
    hpause.trans hf1.music.paused, ?_, ?_⟩
  · simp only [Update, hs1]
    exact hreach
  · have hX : Update_soundEffects env.sfxInit (withErrorOccurred false s) =
        .ok (withErrorOccurred false s1,
          if s.m_soundEffectsEngineCallbacks_m_error ≠ S_OK then
            UpdateErrorCodes.SoundEffectsEngine else UpdateErrorCodes.None) := by
      rw [withErrorOccurred_eq false s n hn, Update_soundEffects_setNotify, hs1,
        withErrorOccurred_eq false s1 n hn1]
      rfl
    have hn1X : (withErrorOccurred false s1).m_mediaEngineNotify =
        some { n with m_errorOccurred := false } := by
      rw [withErrorOccurred_eq false s1 n hn1]
    have hntX : (withErrorOccurred false t).m_mediaEngineNotify =
        some { n1 with m_errorOccurred := false } := by
      rw [withErrorOccurred_eq false t n1 hnt]
    simp only [Update, hX, Update_music, hn1X, Update_previousMusicFinished_withErrorOccurred,
      hs2, Except.map, Update_readyToSeek_withErrorOccurred, hseek2]
    exact (Update_musicError_cases env _ _ _ hntX).1 rfl
  · rw [Update_readyToSeek_initializeCmds _ _ hseek2,
      Update_previousMusicFinished_initializeCmds _ _ _ hs2, hf1.music.musicLog]
  · intro hquiet
    have hinert : Update_previousMusicFinished env.isPausedOnAdvance s1 = .ok s1 := by
      have hc : (n.m_previousMusicFinished && s1.m_musicIsPlaying && !s1.m_musicIsPaused) =
          false := by
        rcases hquiet with h | h
        · rw [hf1.music.paused, h]; simp
        · rw [h]; simp
      simp only [Update_previousMusicFinished, hn1, hc, Bool.false_eq_true, if_false]
    rw [hinert] at hs2
    cases hs2
    obtain ⟨t', cmds, n', hseek, hlog, hcmds, -, -, -, -, hqueue, -⟩ :=
      Update_readyToSeek_frame s1 n (hp1.2 (by rw [hn1]; rfl)) hn1
    rw [hseek2] at hseek
    cases hseek
    refine ⟨hqueue.trans hf1.music.queue, ?_⟩
    rw [hlog, startCmds_append, hcmds, List.append_nil, hf1.music.musicLog]

/-- C23 (errors of the media engine).  The backends are in place and the handler has
recorded an error.  Let `t` be the state in which the same tick ends when it starts from the
entry state with the error flag not set: its log holds no start-up or shut-down command that
the entry state did not hold and, if music is paused or no track has finished, no start
command and the queue of the entry state.  If the error is not a decode error, the tick ends
in exactly `t`: the error adds no reinitialisation and no command, only the `MusicEngine` bit
of the returned value.  If it is a decode error, the tick runs `InitializeMusicEngine` on `t`,
which sends `MFStartup` and no start command, and then calls `PlayMusic` exactly if music was
playing and not paused on entry.  In both cases the tick returns, and a handler that exists
after it has its error flag cleared. -/
theorem Update_music_error_dispatch (env : UpdateEnv) (s : AudioEngine) (n : MediaEngineNotify)
    (hp : BackendPresent s) (hn : s.m_mediaEngineNotify = some n)
    (herr : n.m_errorOccurred = true) :
    ∃ (t : AudioEngine) (r0 : Nat),
      Update env (withErrorOccurred false s) = .ok (t, r0) ∧
      initializeCmds t.musicLog = initializeCmds s.musicLog ∧
      (s.m_musicIsPaused = true ∨ n.m_previousMusicFinished = false →
        t.m_musicQueue = s.m_musicQueue ∧ startCmds t.musicLog = startCmds s.musicLog) ∧
      (n.m_errorType ≠ .DECODE →
        Update env s = .ok (t, r0 ||| UpdateErrorCodes.MusicEngine)) ∧
      (n.m_errorType = .DECODE →
        ∃ (s1 : AudioEngine) (cmds : List MusicCmd),
          InitializeMusicEngine env.mfStartupOk env.musicInit t = .ok s1 ∧
          s1.musicLog = t.musicLog ++ cmds ∧ MusicCmd.MFStartup ∈ cmds ∧ startCmds cmds = [] ∧
          ((s.m_musicIsPlaying = true ∧ s.m_musicIsPaused = false) →
            ∃ s2, PlayMusic env.isPausedOnRecovery s1 = .ok s2 ∧
              Update env s = .ok (s2, r0 ||| UpdateErrorCodes.MusicEngine)) ∧
          (¬ (s.m_musicIsPlaying = true ∧ s.m_musicIsPaused = false) →
            Update env s = .ok (s1, r0 ||| UpdateErrorCodes.MusicEngine))) ∧
      ∃ (s' : AudioEngine) (r : Nat), Update env s = .ok (s', r) ∧
        ∀ n', s'.m_mediaEngineNotify = some n' → n'.m_errorOccurred = false := by
  obtain ⟨t, n1, r0, hreach, hclear, -, hnt, hrec, hplay, hpause, hinit, hquiet⟩ :=
    Update_reaches_musicError_cleared env s n hp hn
  obtain ⟨hflag, htype⟩ := errorRecord_flag hrec
  have herr1 : n1.m_errorOccurred = true := hflag.trans herr
  obtain ⟨-, h2, h3⟩ := Update_musicError_cases env t n1 r0 hnt
  have hfacts := withErrorOccurred_preserved false t
  have hcleared : ∀ n', (withErrorOccurred false t).m_mediaEngineNotify = some n' →
      n'.m_errorOccurred = false := by
    intro n' hn'
    rw [withErrorOccurred_eq false t n1 hnt] at hn'
    simp only [Option.some.injEq] at hn'
    rw [← hn']
  have hother : n.m_errorType ≠ .DECODE →
      Update env s =
        .ok (withErrorOccurred false t, r0 ||| UpdateErrorCodes.MusicEngine) := by
    intro hne
    rw [hreach]
    exact h2 herr1 (by rw [htype]; exact hne)
  have hdecode : n.m_errorType = .DECODE →
      ∃ (s1 : AudioEngine) (cmds : List MusicCmd),
        InitializeMusicEngine env.mfStartupOk env.musicInit (withErrorOccurred false t) =
          .ok s1 ∧
        s1.musicLog = (withErrorOccurred false t).musicLog ++ cmds ∧
        MusicCmd.MFStartup ∈ cmds ∧ startCmds cmds = [] ∧
        ((s.m_musicIsPlaying = true ∧ s.m_musicIsPaused = false) →
          ∃ s2, PlayMusic env.isPausedOnRecovery s1 = .ok s2 ∧
            Update env s = .ok (s2, r0 ||| UpdateErrorCodes.MusicEngine)) ∧
        (¬ (s.m_musicIsPlaying = true ∧ s.m_musicIsPaused = false) →
          Update env s = .ok (s1, r0 ||| UpdateErrorCodes.MusicEngine)) := by
    intro heq
    obtain ⟨s1, hs1, hyes, hno⟩ := h3 herr1 (htype.trans heq)
    obtain ⟨cmds, hlog, hmem, hstart⟩ := InitializeMusicEngine_log _ _ _ _ hs1
    rw [hplay, hpause] at hyes hno
    refine ⟨s1, cmds, hs1, hlog, hmem, hstart, ?_, ?_⟩
    · intro hc
      obtain ⟨s2, hs2, hupd⟩ := hyes hc
      exact ⟨s2, hs2, by rw [hreach]; exact hupd⟩
    · intro hc
      rw [hreach]; exact hno hc
  refine ⟨withErrorOccurred false t, r0, hclear, ?_, ?_, hother, hdecode, ?_⟩
  · rw [hfacts.2.2.2.2.2.1]; exact hinit
  · intro hq
    rw [hfacts.2.2.2.2.1, hfacts.2.2.2.2.2.1]
    exact hquiet hq
  by_cases heq : n.m_errorType = .DECODE
  · obtain ⟨s1, cmds, hs1, -, -, -, hyes, hno⟩ := hdecode heq
    obtain ⟨t1, ht1, -, -, -, -, -, -, hhandler, -⟩ :=
      InitializeMusicEngine_state env.mfStartupOk env.musicInit (withErrorOccurred false t)
    rw [hs1] at ht1
    cases ht1
    have hfresh : ∀ n', s1.m_mediaEngineNotify = some n' → n'.m_errorOccurred = false := by
      intro n' hn'
      rcases hhandler with h | h
      · rw [h] at hn'; cases hn'
      · rw [h] at hn'
        simp only [Option.some.injEq] at hn'
        rw [← hn']; rfl
    by_cases hc : s.m_musicIsPlaying = true ∧ s.m_musicIsPaused = false
    · obtain ⟨s2, hs2, hupd⟩ := hyes hc
      refine ⟨s2, _, hupd, ?_⟩
      intro n' hn'
      have hf := (PlayMusic_frame _ _ _ hs2).1.handler
      rw [hn'] at hf
      cases h1 : s1.m_mediaEngineNotify with
      | none => rw [h1] at hf; cases hf
      | some m =>
        rw [h1] at hf
        simp only [Option.map_some', Option.some.injEq] at hf
        rw [(errorRecord_flag hf).1]
        exact hfresh m h1
    · exact ⟨s1, _, hno hc, hfresh⟩
  · exact ⟨_, _, hother heq, hcleared⟩

theorem Update_music_error_dispatch_witness :
    (∃ (t : AudioEngine) (r0 : Nat),
      Update demoEnv (withErrorOccurred false (demoMusicEngineWithErrors .DECODE false)) =
        .ok (t, r0) ∧
      initializeCmds t.musicLog =
        initializeCmds (demoMusicEngineWithErrors .DECODE false).musicLog ∧
      ((demoMusicEngineWithErrors .DECODE false).m_musicIsPaused = true ∨
          ({ MediaEngineNotify.InitializeVariables with
            m_errorOccurred := true, m_errorType := .DECODE } :
              MediaEngineNotify).m_previousMusicFinished = false →
        t.m_musicQueue = (demoMusicEngineWithErrors .DECODE false).m_musicQueue ∧
        startCmds t.musicLog = startCmds (demoMusicEngineWithErrors .DECODE false).musicLog) ∧
      (MF_MEDIA_ENGINE_ERR.DECODE ≠ .DECODE →
        Update demoEnv (demoMusicEngineWithErrors .DECODE false) =
          .ok (t, r0 ||| UpdateErrorCodes.MusicEngine)) ∧
      (MF_MEDIA_ENGINE_ERR.DECODE = .DECODE →
        ∃ (s1 : AudioEngine) (cmds : List MusicCmd),
          InitializeMusicEngine demoEnv.mfStartupOk demoEnv.musicInit t = .ok s1 ∧
          s1.musicLog = t.musicLog ++ cmds ∧ MusicCmd.MFStartup ∈ cmds ∧ startCmds cmds = [] ∧
          (((demoMusicEngineWithErrors .DECODE false).m_musicIsPlaying = true ∧
              (demoMusicEngineWithErrors .DECODE false).m_musicIsPaused = false) →
            ∃ s2, PlayMusic demoEnv.isPausedOnRecovery s1 = .ok s2 ∧
              Update demoEnv (demoMusicEngineWithErrors .DECODE false) =
                .ok (s2, r0 ||| UpdateErrorCodes.MusicEngine)) ∧
          (¬ ((demoMusicEngineWithErrors .DECODE false).m_musicIsPlaying = true ∧
              (demoMusicEngineWithErrors .DECODE false).m_musicIsPaused = false) →
            Update demoEnv (demoMusicEngineWithErrors .DECODE false) =
              .ok (s1, r0 ||| UpdateErrorCodes.MusicEngine))) ∧
      ∃ (s' : AudioEngine) (r : Nat),
        Update demoEnv (demoMusicEngineWithErrors .DECODE false) = .ok (s', r) ∧
        ∀ n', s'.m_mediaEngineNotify = some n' → n'.m_errorOccurred = false) ∧
    (∃ (t : AudioEngine) (r0 : Nat),
      Update demoEnv (withErrorOccurred false (demoMusicEngineWithErrors .NETWORK false)) =
        .ok (t, r0) ∧
      initializeCmds t.musicLog =
        initializeCmds (demoMusicEngineWithErrors .NETWORK false).musicLog ∧
      ((demoMusicEngineWithErrors .NETWORK false).m_musicIsPaused = true ∨
          ({ MediaEngineNotify.InitializeVariables with
            m_errorOccurred := true, m_errorType := .NETWORK } :
              MediaEngineNotify).m_previousMusicFinished = false →
        t.m_musicQueue = (demoMusicEngineWithErrors .NETWORK false).m_musicQueue ∧
        startCmds t.musicLog = startCmds (demoMusicEngineWithErrors .NETWORK false).musicLog) ∧
      (MF_MEDIA_ENGINE_ERR.NETWORK ≠ .DECODE →
        Update demoEnv (demoMusicEngineWithErrors .NETWORK false) =
          .ok (t, r0 ||| UpdateErrorCodes.MusicEngine)) ∧
      (MF_MEDIA_ENGINE_ERR.NETWORK = .DECODE →
        ∃ (s1 : AudioEngine) (cmds : List MusicCmd),
          InitializeMusicEngine demoEnv.mfStartupOk demoEnv.musicInit t = .ok s1 ∧
          s1.musicLog = t.musicLog ++ cmds ∧ MusicCmd.MFStartup ∈ cmds ∧ startCmds cmds = [] ∧
          (((demoMusicEngineWithErrors .NETWORK false).m_musicIsPlaying = true ∧
              (demoMusicEngineWithErrors .NETWORK false).m_musicIsPaused = false) →
            ∃ s2, PlayMusic demoEnv.isPausedOnRecovery s1 = .ok s2 ∧
              Update demoEnv (demoMusicEngineWithErrors .NETWORK false) =
                .ok (s2, r0 ||| UpdateErrorCodes.MusicEngine)) ∧
          (¬ ((demoMusicEngineWithErrors .NETWORK false).m_musicIsPlaying = true ∧
              (demoMusicEngineWithErrors .NETWORK false).m_musicIsPaused = false) →
            Update demoEnv (demoMusicEngineWithErrors .NETWORK false) =
              .ok (s1, r0 ||| UpdateErrorCodes.MusicEngine))) ∧
      ∃ (s' : AudioEngine) (r : Nat),
        Update demoEnv (demoMusicEngineWithErrors .NETWORK false) = .ok (s', r) ∧
        ∀ n', s'.m_mediaEngineNotify = some n' → n'.m_errorOccurred = false) :=
  ⟨Update_music_error_dispatch demoEnv (demoMusicEngineWithErrors .DECODE false)
      { MediaEngineNotify.InitializeVariables with
        m_errorOccurred := true, m_errorType := .DECODE }
      ⟨⟨fun _ _ => ⟨rfl, rfl⟩, fun _ => rfl⟩, fun _ => ⟨rfl, rfl⟩⟩ rfl rfl,
    Update_music_error_dispatch demoEnv (demoMusicEngineWithErrors .NETWORK false)
      { MediaEngineNotify.InitializeVariables with
        m_errorOccurred := true, m_errorType := .NETWORK }
      ⟨⟨fun _ _ => ⟨rfl, rfl⟩, fun _ => rfl⟩, fun _ => ⟨rfl, rfl⟩⟩ rfl rfl⟩

/-- C30 (re-enabling music against decode recovery).  First part: music is off, not
disabled, logically playing, and the queue is not empty; `SetMusicOnOff(false)` with a
successful initialisation runs `InitializeMusicEngine`, which keeps the paused flag, and then
`PlayMusic` on the result whatever the paused flag was; it reports music on, leaves the
paused flag false and the playing flag true, and for a front entry with a name it issues the
commands that start that entry.  Second part: a tick of `Update` that finds a decode error
while music is paused returns with the paused flag still true and no new start command.
Third part: the same tick while music is playing and not paused, with a successful
reinitialisation, starts the front entry and leaves the paused flag false. -/
theorem SetMusicOnOff_restart_ignores_paused (s : AudioEngine) (front : MusicQueueEntry)
    (rest : List MusicQueueEntry) (isPaused : Bool)
    (hoff : s.m_musicOff = true) (hdis : s.m_musicDisabledNoMediaFoundation = false)
    (hplaying : s.m_musicIsPlaying = true) (hq : s.m_musicQueue = front :: rest) :
    (∃ (s1 s' : AudioEngine), InitializeMusicEngine true .ok s = .ok s1 ∧
      s1.m_musicIsPaused = s.m_musicIsPaused ∧
      PlayMusic isPaused s1 = .ok s' ∧
      SetMusicOnOff false true .ok isPaused s = .ok (s', false) ∧
      s'.m_musicIsPaused = false ∧ s'.m_musicIsPlaying = true ∧
      s'.m_musicQueue = front :: rest ∧
      (front.Filename.isEmpty = false →
        s'.musicLog = s1.musicLog ++ [MusicCmd.SetSource front.Filename, MusicCmd.Play])) ∧
    (∀ (env : UpdateEnv) (t : AudioEngine) (n : MediaEngineNotify),
      BackendPresent t → t.m_mediaEngineNotify = some n → n.m_errorOccurred = true →
      n.m_errorType = .DECODE → t.m_musicIsPaused = true →
      ∃ (t' : AudioEngine) (r : Nat), Update env t = .ok (t', r) ∧
        t'.m_musicIsPaused = true ∧ startCmds t'.musicLog = startCmds t.musicLog) ∧
    (∀ (env : UpdateEnv) (t : AudioEngine) (n : MediaEngineNotify),
      BackendPresent t → t.m_mediaEngineNotify = some n → n.m_errorOccurred = true →
      n.m_errorType = .DECODE → n.m_previousMusicFinished = false →
      t.m_musicIsPaused = false → t.m_musicIsPlaying = true →
      t.m_musicQueue = front :: rest → front.Filename.isEmpty = false →
      env.mfStartupOk = true → env.musicInit = .ok →
      ∃ (t' : AudioEngine) (r : Nat), Update env t = .ok (t', r) ∧
        t'.m_musicIsPaused = false ∧
        startCmds t'.musicLog =
          startCmds t.musicLog ++ [MusicCmd.SetSource front.Filename, MusicCmd.Play]) := by
  refine ⟨?_, ?_, ?_⟩
  · obtain ⟨s1, hs1, -, -, hplay1, hpause1, hq1, -, -, hiff, hon⟩ :=
      InitializeMusicEngine_state true .ok s
    have hoff1 : s1.m_musicOff = false := hiff.2 ⟨rfl, rfl⟩
    obtain ⟨hdis1, heng1, hn1, -⟩ := hon hoff1
    have hq1' : s1.m_musicQueue = front :: rest := hq1.trans hq
    have hplay1' : s1.m_musicIsPlaying = true := hplay1.trans hplaying
    have hset : ∀ s', PlayMusic isPaused s1 = .ok s' → s'.m_musicOff = false →
        SetMusicOnOff false true .ok isPaused s = .ok (s', false) := by
      intro s' hs' hoff'
      unfold SetMusicOnOff
      simp only [hoff, hdis, hs1, hoff1, hplay1', hs', hoff', Bool.not_false, Bool.and_self,
        if_true, Bool.false_eq_true, if_false, Bool.not_true]
    cases hname : front.Filename.isEmpty with
    | false =>
      have htrack := PlayMusic_track isPaused s1 _ front rest hoff1 hdis1 heng1 hn1 hq1' hname
      exact ⟨s1, _, hs1, hpause1, htrack, hset _ htrack hoff1, rfl, rfl, hq1', fun _ => rfl⟩
    | true =>
      have hsil := PlayMusic_silence isPaused s1 _ front rest hoff1 hdis1 heng1 hn1 hq1' hname
      cases isPaused <;>
        exact ⟨s1, _, hs1, hpause1, hsil, hset _ hsil hoff1, rfl, rfl, hq1',
          fun h => by cases h⟩
  · intro env t n hp hn herr htype hpaused
    obtain ⟨t0, n1, r0, hreach, hnt, hrec, hplay, hpause, -, -, -, hquiet⟩ :=
      Update_reaches_musicError env t n hp hn
    obtain ⟨hflag, hty⟩ := errorRecord_flag hrec
    obtain ⟨-, -, h3⟩ := Update_musicError_cases env t0 n1 r0 hnt
    obtain ⟨s1, hs1, -, hno⟩ := h3 (hflag.trans herr) (hty.trans htype)
    have hc : ¬ (t0.m_musicIsPlaying = true ∧ t0.m_musicIsPaused = false) := by
      intro h
      rw [hpause, hpaused] at h
      exact absurd h.2 (by decide)
    obtain ⟨t1, ht1, -, -, -, hpause1, -⟩ :=
      InitializeMusicEngine_state env.mfStartupOk env.musicInit (withErrorOccurred false t0)
    rw [hs1] at ht1
    cases ht1
    refine ⟨s1, _, by rw [hreach]; exact hno hc, ?_, ?_⟩
    · rw [hpause1, (withErrorOccurred_preserved false t0).2.2.2.1, hpause, hpaused]
    · rw [InitializeMusicEngine_startCmds _ _ _ _ hs1]
      have : (withErrorOccurred false t0).musicLog = t0.musicLog := by
        unfold withErrorOccurred; cases t0.m_mediaEngineNotify <;> rfl
      rw [this]
      exact (hquiet (Or.inl hpaused)).2
  · intro env t n hp hn herr htype hfin hpaused hplaying' hq' hname hmf hinit
    obtain ⟨t0, n1, r0, hreach, hnt, hrec, hplay, hpause, -, -, -, hquiet⟩ :=
      Update_reaches_musicError env t n hp hn
    obtain ⟨hflag, hty⟩ := errorRecord_flag hrec
    obtain ⟨-, -, h3⟩ := Update_musicError_cases env t0 n1 r0 hnt
    obtain ⟨s1, hs1, hyes, -⟩ := h3 (hflag.trans herr) (hty.trans htype)
    obtain ⟨s2, hs2, hupd⟩ := hyes ⟨hplay.trans hplaying', hpause.trans hpaused⟩
    have hlog0 : (withErrorOccurred false t0).musicLog = t0.musicLog := by
      unfold withErrorOccurred; cases t0.m_mediaEngineNotify <;> rfl
    have hq0 : (withErrorOccurred false t0).m_musicQueue = t0.m_musicQueue := by
      unfold withErrorOccurred; cases t0.m_mediaEngineNotify <;> rfl
    obtain ⟨t1, ht1, -, -, -, -, hq1, -, -, hiff, hon⟩ :=
      InitializeMusicEngine_state env.mfStartupOk env.musicInit (withErrorOccurred false t0)
    rw [hs1] at ht1
    cases ht1
    have hoff1 : s1.m_musicOff = false := hiff.2 ⟨hmf, hinit⟩
    obtain ⟨hdis1, heng1, hn1, hcmds1⟩ := hon hoff1
    have hq1' : s1.m_musicQueue = front :: rest := by
      rw [hq1, hq0, (hquiet (Or.inr hfin)).1, hq']
    have htrack := PlayMusic_track env.isPausedOnRecovery s1 _ front rest hoff1 hdis1 heng1 hn1
      hq1' hname
    rw [htrack] at hs2
    cases hs2
    refine ⟨_, _, by rw [hreach]; exact hupd, rfl, ?_⟩
    have happ : ∀ a b : List MusicCmd, startCmds (a ++ b) = startCmds a ++ startCmds b :=
      fun a b => List.filter_append a b
    show startCmds (s1.musicLog ++ [MusicCmd.SetSource front.Filename, MusicCmd.Play]) = _
    rw [happ, hcmds1, hlog0, (hquiet (Or.inr hfin)).2]
    rfl

theorem SetMusicOnOff_restart_ignores_paused_witness :
    demoMusicEnginePausedOff.m_musicIsPaused = true ∧
    (SetMusicOnOff false true .ok true demoMusicEnginePausedOff).toOption.map
      (fun p => (p.1.m_musicIsPaused, p.1.m_musicIsPlaying, p.2)) = some (false, true, false) ∧
    (Update demoEnv (demoMusicEngineWithErrors .DECODE true)).toOption.map
      (fun p => (p.1.m_musicIsPaused, startCmds p.1.musicLog)) =
        some (true, startCmds (demoMusicEngineWithErrors .DECODE true).musicLog) ∧
    (Update demoEnv (demoMusicEngineWithErrors .DECODE false)).toOption.map
      (fun p => (p.1.m_musicIsPaused, startCmds p.1.musicLog)) =
        some (false, startCmds (demoMusicEngineWithErrors .DECODE false).musicLog ++
          [MusicCmd.SetSource demoEntryA.Filename, MusicCmd.Play]) ∧
    ((∃ (s1 s' : AudioEngine), InitializeMusicEngine true .ok demoMusicEnginePausedOff = .ok s1 ∧
      s1.m_musicIsPaused = demoMusicEnginePausedOff.m_musicIsPaused ∧
      PlayMusic true s1 = .ok s' ∧
      SetMusicOnOff false true .ok true demoMusicEnginePausedOff = .ok (s', false) ∧
      s'.m_musicIsPaused = false ∧ s'.m_musicIsPlaying = true ∧
      s'.m_musicQueue = demoEntryA :: [demoEntryB] ∧
      (demoEntryA.Filename.isEmpty = false →
        s'.musicLog = s1.musicLog ++ [MusicCmd.SetSource demoEntryA.Filename, MusicCmd.Play])) ∧
    (∀ (env : UpdateEnv) (t : AudioEngine) (n : MediaEngineNotify),
      BackendPresent t → t.m_mediaEngineNotify = some n → n.m_errorOccurred = true →
      n.m_errorType = .DECODE → t.m_musicIsPaused = true →
      ∃ (t' : AudioEngine) (r : Nat), Update env t = .ok (t', r) ∧
        t'.m_musicIsPaused = true ∧ startCmds t'.musicLog = startCmds t.musicLog) ∧
    (∀ (env : UpdateEnv) (t : AudioEngine) (n : MediaEngineNotify),
      BackendPresent t → t.m_mediaEngineNotify = some n → n.m_errorOccurred = true →
      n.m_errorType = .DECODE → n.m_previousMusicFinished = false →
      t.m_musicIsPaused = false → t.m_musicIsPlaying = true →
      t.m_musicQueue = demoEntryA :: [demoEntryB] → demoEntryA.Filename.isEmpty = false →
      env.mfStartupOk = true → env.musicInit = .ok →
      ∃ (t' : AudioEngine) (r : Nat), Update env t = .ok (t', r) ∧
        t'.m_musicIsPaused = false ∧
        startCmds t'.musicLog =
          startCmds t.musicLog ++ [MusicCmd.SetSource demoEntryA.Filename, MusicCmd.Play])) :=
  ⟨rfl, by decide, by decide, by decide,
    SetMusicOnOff_restart_ignores_paused demoMusicEnginePausedOff demoEntryA [demoEntryB] true
      rfl rfl rfl rfl⟩

end WindowsStoreDirectXGame
